import Mathlib

/-!
# DLEP radio side: destination sub-state-machine and peer initialisation

Shallow embedding of `src-plugins/generic/dlep/ext_base_proto/proto_radio.c`
and of the parts of `src-plugins/generic/dlep/dlep_session.h` it uses.

Conventions.
* A C pointer into the destination table is a copy of the entry that is
  written back under its key after the mutation (`dlep_local_neighbor_store`).
* An `avl_tree` is the list of its elements in iteration order.
* `uint64_t` values are natural numbers; the products the code computes are
  reduced modulo `2 ^ 64`.
* A handler that dereferences a pointer which may be `NULL` returns `none`
  where the pointer is `NULL`.
* Helpers whose source is not part of the development are modelled from the
  specification and marked so.
-/

namespace Dlep

/-! ## Addresses -/

/-- Address families used by `struct netaddr`. -/
inductive netaddr_family
  | AF_UNSPEC
  | AF_INET
  | AF_INET6
  | AF_MAC48
  | AF_EUI64
deriving DecidableEq, Repr

/-- Modelled from the spec: `struct netaddr` of `common/netaddr.h` (not among
the sources): an address family, the address bytes read as one number, and a
prefix length. A zeroed structure is the unspecified address. -/
structure netaddr where
  _type : netaddr_family
  _addr : Nat
  _prefix_len : Nat
deriving DecidableEq, Repr

/-- The all-zero `struct netaddr`. -/
def netaddr.zero : netaddr := ⟨.AF_UNSPEC, 0, 0⟩

/-- Modelled from the spec: `netaddr_is_unspec` of `common/netaddr.h`: the
address family is `AF_UNSPEC`. -/
def netaddr_is_unspec (a : netaddr) : Bool :=
  decide (a._type = .AF_UNSPEC)

/-- Modelled from the spec: `netaddr_cmp` of `common/netaddr.h`, a bytewise
comparison of the two structures; only whether the result is `0` is used. -/
def netaddr_cmp (a b : netaddr) : Int :=
  if a = b then 0 else 1

/-! ## Signals, status codes, timers -/

/-- Signal ids of `enum dlep_signals` (`dlep_iana.h`), by name. -/
inductive dlep_signals
  | DLEP_ALL_SIGNALS
  | DLEP_PEER_DISCOVERY
  | DLEP_PEER_OFFER
  | DLEP_PEER_INITIALIZATION
  | DLEP_PEER_INITIALIZATION_ACK
  | DLEP_PEER_UPDATE
  | DLEP_PEER_UPDATE_ACK
  | DLEP_PEER_TERMINATION
  | DLEP_PEER_TERMINATION_ACK
  | DLEP_DESTINATION_UP
  | DLEP_DESTINATION_UP_ACK
  | DLEP_DESTINATION_DOWN
  | DLEP_DESTINATION_DOWN_ACK
  | DLEP_DESTINATION_UPDATE
  | DLEP_HEARTBEAT
  | DLEP_LINK_CHARACTERISTICS_REQUEST
  | DLEP_LINK_CHARACTERISTICS_ACK
deriving DecidableEq, Repr

/-- Status codes of `enum dlep_status` (`dlep_iana.h`), by name: the two the
sources use, and any other code by its number. -/
inductive dlep_status
  | DLEP_STATUS_OKAY
  | DLEP_STATUS_REQUEST_DENIED
  | DLEP_STATUS_OTHER (code : Nat)
deriving DecidableEq, Repr

/-- Modelled from the spec: `struct oonf_timer_instance` of
`subsystems/oonf_timer.h` (not among the sources), the timer abstraction
`set(duration)`, `stop()`: a timer is stopped, or armed with a duration in
milliseconds. -/
inductive oonf_timer_instance
  | stopped
  | armed (rel_time : Nat)
deriving DecidableEq, Repr

/-- Modelled from the spec: `oonf_timer_set(timer, rel_time)` arms the timer
with the given duration. -/
def oonf_timer_set (_timer : oonf_timer_instance) (rel_time : Nat) : oonf_timer_instance :=
  .armed rel_time

/-- Modelled from the spec: `oonf_timer_stop(timer)` cancels the timer. -/
def oonf_timer_stop (_timer : oonf_timer_instance) : oonf_timer_instance :=
  .stopped

/-- A timer is armed. -/
def oonf_timer_instance.is_armed : oonf_timer_instance → Bool
  | .stopped => false
  | .armed _ => true

/-- Width of `uint64_t`. -/
def UINT64_MOD : Nat := 2 ^ 64

/-! ## Session data (`dlep_session.h`) -/

/-- Status of a DLEP neighbor (`enum dlep_neighbor_state`). -/
inductive dlep_neighbor_state
  | DLEP_NEIGHBOR_IDLE
  | DLEP_NEIGHBOR_UP_SENT
  | DLEP_NEIGHBOR_UP_ACKED
  | DLEP_NEIGHBOR_DOWN_SENT
  | DLEP_NEIGHBOR_DOWN_ACKED
deriving DecidableEq, Repr

/-- Neighbor that has been used in a DLEP session (`struct
dlep_local_neighbor`); the back-pointer to the session and the tree hook are
structural and left out. -/
structure dlep_local_neighbor where
  addr : netaddr
  state : dlep_neighbor_state
  changed : Bool
  neigh_addr : netaddr
  _ack_timeout : oonf_timer_instance
deriving DecidableEq, Repr

/-- Configuration of a dlep session (`struct dlep_session_config`). -/
structure dlep_session_config where
  peer_type : Option String
  discovery_interval : Nat
  heartbeat_interval : Nat
  send_neighbors : Bool
  send_proxied : Bool
deriving DecidableEq, Repr

/-- One call of `dlep_session_generate_signal` on a session: the signal, the
neighbor it refers to, and whether the signal could be written to the output
buffer. -/
structure dlep_generated where
  signal : dlep_signals
  neighbor : Option netaddr
  written : Bool
deriving DecidableEq, Repr

/-- The status TLV of a signal generated with
`dlep_session_generate_signal_status`: the position of the signal in the
trace of the session, the status and the status text. -/
structure dlep_generated_status where
  position : Nat
  status : dlep_status
  text : String
deriving DecidableEq, Repr

/-- Modelled from the spec: `union netaddr_socket` of `common/netaddr.h` (not
among the sources): address, port and interface index. The port is `none`
where the socket was initialised from a variable that holds no value yet. -/
structure netaddr_socket where
  addr : netaddr
  port : Option Nat
  if_index : Nat
deriving DecidableEq, Repr

/-- Definition of a TLV that has been parsed by DLEP (`struct
dlep_parser_tlv`); the tree hook is structural and left out. -/
structure dlep_parser_tlv where
  id : Nat
  tlv_first : Int
  tlv_last : Int
  length_min : Nat
  length_max : Nat
  remove : Bool
deriving DecidableEq, Repr

/-- Header for the binary data gathered for a TLV of a certain type
(`struct dlep_parser_value`). -/
structure dlep_parser_value where
  tlv_next : Int
  index : Nat
  length : Nat
deriving DecidableEq, Repr

/-- Session for the DLEP tlv parser (`struct dlep_session_parser`): the tree
of allowed TLVs as a list, the array of TLV values, and `tlv_ptr` as the
bytes from the start of the TLVs of the signal that has been parsed. The
array of active extensions is the field `extensions` of the session. -/
structure dlep_session_parser_data where
  allowed_tlvs : List dlep_parser_tlv := []
  values : List dlep_parser_value := []
  tlv_ptr : List Nat := []
deriving DecidableEq, Repr

/-- Generic DLEP session (`struct dlep_session`), with the fields the radio
handlers read or write. `extensions` stands for the active extensions held
by the session parser, `l2_listener_name` for `l2_listener.name`, and
`generated` is the trace of the signals generated on the session, oldest
first. The router handlers also use `l2_origin`, `remote_socket` and the
interface index `l2_listener.data->index`; `generated_status` holds the
status TLVs of the signals of the trace that were generated with a status,
and `sent` the address families `cb_send_buffer` was called with, oldest
first; `parser` is the parser of the session. -/
structure dlep_session where
  cfg : dlep_session_config
  restrict_signal : dlep_signals
  next_restrict_signal : dlep_signals
  extensions : List Nat
  local_neighbor_tree : List dlep_local_neighbor
  l2_listener_name : String
  local_event_timer : oonf_timer_instance
  remote_heartbeat_timeout : oonf_timer_instance
  remote_heartbeat_interval : Nat
  generated : List dlep_generated
  l2_origin : Nat := 0
  l2_listener_index : Nat := 0
  remote_socket : netaddr_socket := ⟨netaddr.zero, none, 0⟩
  generated_status : List dlep_generated_status := []
  sent : List netaddr_family := []
  parser : dlep_session_parser_data := {}
deriving DecidableEq, Repr

/-- Modelled from the spec: what the readers of `dlep_reader.c` and
`ext_base_proto/proto.c` (not among the sources) return for the signal the
session parser currently holds. `heartbeat_tlv` and `mac_tlv` are `none`
when `dlep_reader_heartbeat_tlv` / `dlep_reader_mac_tlv` fail;
`status` is the result of `dlep_base_proto_print_status`;
`extensions_supported` is the value of the extensions-supported TLV, if
the signal has one. -/
structure dlep_signal_values where
  heartbeat_tlv : Option Nat
  mac_tlv : Option netaddr
  status : dlep_status
  extensions_supported : Option (List Nat)
deriving DecidableEq, Repr

/-- Modelled from the spec: the decisions taken outside the radio handlers.
`write_ok` tells whether `dlep_session_generate_signal` can write a signal,
given the trace of the session so far; `alloc_ok` whether
`dlep_session_add_local_neighbor` can create an entry for an address in a
destination table; `update_extensions` gives the extensions active after
`dlep_session_update_extensions`, or `none` when the update fails. -/
structure dlep_env where
  write_ok : List dlep_generated → dlep_signals → Option netaddr → Bool
  alloc_ok : List dlep_local_neighbor → netaddr → Bool
  update_extensions : List Nat → Nat → Option (List Nat)

/-! ## Layer-2 database and radio interfaces -/

/-- Modelled from the spec: one data field of a layer-2 object (`struct
oonf_layer2_data` of `subsystems/oonf_layer2.h`, not among the sources):
whether it holds a value, the value and the origin that set it. -/
structure oonf_layer2_data where
  _has_value : Bool
  _value : Int
  _origin : Nat
deriving DecidableEq, Repr

/-- Modelled from the spec: a layer-2 neighbor (`struct oonf_layer2_neigh`
of `subsystems/oonf_layer2.h`, not among the sources): its address, the name
of its network (`network->name`) and the addresses of its proxied
destinations (`l2dest->destination` for each element of `destinations`).
`data` is the array of its data fields. -/
structure oonf_layer2_neigh where
  addr : netaddr
  network_name : String
  destinations : List netaddr
  data : List oonf_layer2_data := []
deriving DecidableEq, Repr

/-- Modelled from the spec: a proxied layer-2 destination (`struct
oonf_layer2_destination`): its address and the neighbor it belongs to. -/
structure oonf_layer2_destination where
  destination : netaddr
  neighbor : oonf_layer2_neigh
deriving DecidableEq, Repr

/-- Modelled from the spec: a layer-2 network (`struct oonf_layer2_net`):
its name and its neighbors. -/
structure oonf_layer2_net where
  name : String
  neighbors : List oonf_layer2_neigh
deriving DecidableEq, Repr

/-- A radio session (`struct dlep_radio_session`): a TCP session of a radio
interface. -/
structure dlep_radio_session where
  session : dlep_session
deriving DecidableEq, Repr

/-- Generic DLEP interface (`struct dlep_if`): the interface name, the
interface's own (UDP) session and the tree of its TCP sessions. -/
structure dlep_if where
  l2_ifname : String
  session : dlep_session
  session_tree : List dlep_radio_session
deriving DecidableEq, Repr

/-- A radio interface (`struct dlep_radio_if`). -/
structure dlep_radio_if where
  interf : dlep_if
deriving DecidableEq, Repr

/-! ## Destination table (`dlep_session.h`) -/

/-- Get a DLEP neighbor (`dlep_session_get_local_neighbor`): the element of
the session's neighbor tree with the given key, `none` (NULL) if not found. -/
def dlep_session_get_local_neighbor (session : dlep_session) (neigh : netaddr) :
    Option dlep_local_neighbor :=
  session.local_neighbor_tree.find? (fun l => decide (l.addr = neigh))

/-- Write through a pointer to a local neighbor: the entry stored under the
key of `loc` becomes `loc`. -/
def dlep_local_neighbor_store (session : dlep_session) (loc : dlep_local_neighbor) :
    dlep_session :=
  { session with
    local_neighbor_tree :=
      session.local_neighbor_tree.map (fun l => if l.addr = loc.addr then loc else l) }

/-- Modelled from the spec: `dlep_session_add_local_neighbor` of
`dlep_session.c` (not among the sources). A local neighbor is created at
first need: the existing entry is returned if there is one; otherwise a new
entry (state IDLE, zeroed fields, timer stopped) is inserted, unless it
cannot be created, in which case NULL is returned. -/
def dlep_session_add_local_neighbor (env : dlep_env) (session : dlep_session)
    (neigh : netaddr) : dlep_session × Option dlep_local_neighbor :=
  match dlep_session_get_local_neighbor session neigh with
  | some loc => (session, some loc)
  | none =>
    if env.alloc_ok session.local_neighbor_tree neigh then
      let loc : dlep_local_neighbor :=
        ⟨neigh, .DLEP_NEIGHBOR_IDLE, false, netaddr.zero, .stopped⟩
      ({ session with local_neighbor_tree := session.local_neighbor_tree ++ [loc] },
        some loc)
    else
      (session, none)

/-- Modelled from the spec: `dlep_session_remove_local_neighbor` of
`dlep_session.c` (not among the sources): the entry leaves the destination
table (and its timer with it). -/
def dlep_session_remove_local_neighbor (session : dlep_session)
    (loc : dlep_local_neighbor) : dlep_session :=
  { session with
    local_neighbor_tree :=
      session.local_neighbor_tree.filter (fun l => decide (l.addr ≠ loc.addr)) }

/-- Modelled from the spec: `dlep_session_generate_signal` of
`dlep_session.c` (not among the sources). The signal is generated on the
session; the call returns 0 when the signal was written and -1 when it had
to be abandoned. The call is appended to the trace of the session. -/
def dlep_session_generate_signal (env : dlep_env) (session : dlep_session)
    (signal : dlep_signals) (neighbor : Option netaddr) : dlep_session × Int :=
  let ok := env.write_ok session.generated signal neighbor
  ({ session with generated := session.generated ++ [⟨signal, neighbor, ok⟩] },
    if ok then 0 else -1)

/-- Modelled from the spec: `dlep_session_update_extensions` of
`dlep_session.c` (not among the sources): on success the set of active
extensions is replaced and 0 is returned, on failure -1. -/
def dlep_session_update_extensions (env : dlep_env) (session : dlep_session)
    (extvalues : List Nat) (extcount : Nat) : dlep_session × Int :=
  match env.update_extensions extvalues extcount with
  | none => (session, -1)
  | some active => ({ session with extensions := active }, 0)

/-- Modelled from the spec: `dlep_base_proto_start_local_heartbeat` of
`ext_base_proto/proto.c` (not among the sources): the local heartbeat is
emitted with the configured heartbeat interval as period. -/
def dlep_base_proto_start_local_heartbeat (session : dlep_session) : dlep_session :=
  { session with
    local_event_timer :=
      oonf_timer_set session.local_event_timer session.cfg.heartbeat_interval }

/-- Modelled from the spec: `dlep_base_proto_start_remote_heartbeat` of
`ext_base_proto/proto.c` (not among the sources): the remote heartbeat
watchdog runs for twice the remote heartbeat interval. -/
def dlep_base_proto_start_remote_heartbeat (session : dlep_session) : dlep_session :=
  { session with
    remote_heartbeat_timeout :=
      oonf_timer_set session.remote_heartbeat_timeout
        (session.remote_heartbeat_interval * 2 % UINT64_MOD) }

/-- Modelled from the spec: `oonf_layer2_net_get` of
`subsystems/oonf_layer2.c` (not among the sources): the layer-2 network of
that name, `none` (NULL) if there is none. -/
def oonf_layer2_net_get (l2db : List oonf_layer2_net) (ifname : String) :
    Option oonf_layer2_net :=
  l2db.find? (fun n => decide (n.name = ifname))

/-- Modelled from the spec: `dlep_radio_get_by_layer2_if` of
`radio/dlep_radio_interface.c` (not among the sources): the radio interface
bound to the layer-2 interface of that name, `none` (NULL) if there is
none. -/
def dlep_radio_get_by_layer2_if (radio_ifs : List dlep_radio_if) (l2_ifname : String) :
    Option dlep_radio_if :=
  radio_ifs.find? (fun r => decide (r.interf.l2_ifname = l2_ifname))

/-- Write through a pointer to a radio interface: the interface stored under
the name of `radio_if` becomes `radio_if`. -/
def dlep_radio_if_store (radio_ifs : List dlep_radio_if) (radio_if : dlep_radio_if) :
    List dlep_radio_if :=
  radio_ifs.map
    (fun r => if r.interf.l2_ifname = radio_if.interf.l2_ifname then radio_if else r)

/-! ## Values of the parsed TLVs (`dlep_session.h`) -/

/-- The record a pointer into `session->parser.values` points to. A pointer
`&session->parser.values[i]` is modelled by the index `i`; there is no
record where the index lies outside the array. -/
def dlep_parser_value_at (session : dlep_session) (ptr : Int) : Option dlep_parser_value :=
  if 0 ≤ ptr then session.parser.values[ptr.toNat]? else none

/-- Get value of first appearance of a TLV
(`dlep_session_get_tlv_first_value`): NULL (`none`) if `tlv_first` is -1,
else the pointer `&session->parser.values[tlv->tlv_first]`. -/
def dlep_session_get_tlv_first_value (_session : dlep_session) (tlv : dlep_parser_tlv) :
    Option Int :=
  if tlv.tlv_first = -1 then
    none
  else
    some tlv.tlv_first

/-- Get the next value of a TLV (`dlep_session_get_next_tlv_value`): NULL
(`none`) if `tlv_next` is -1, else the pointer
`&session->parser.values[value->tlv_next]`. -/
def dlep_session_get_next_tlv_value (_session : dlep_session) (value : dlep_parser_value) :
    Option Int :=
  if value.tlv_next = -1 then
    none
  else
    some value.tlv_next

/-- Get the binary data of a tlv (`dlep_session_get_tlv_binary`): the
pointer `&session->parser.tlv_ptr[value->index]`, as the bytes from there
on. -/
def dlep_session_get_tlv_binary (session : dlep_session) (value : dlep_parser_value) :
    List Nat :=
  session.parser.tlv_ptr.drop value.index

/-- The loop of the callers over the values of a TLV, `while (value) { ...;
value = dlep_session_get_next_tlv_value(session, value); }`: the records
visited from the pointer `value` on, in the order of the visits. The result
is `none` when the loop has not ended after `fuel` records or a pointer lies
outside the array of values. -/
def dlep_session_walk_tlv_values (session : dlep_session) :
    Nat → Option Int → Option (List dlep_parser_value)
  | _, none => some []
  | 0, some _ => none
  | fuel + 1, some ptr =>
    match dlep_parser_value_at session ptr with
    | none => none
    | some value =>
      (dlep_session_walk_tlv_values session fuel
        (dlep_session_get_next_tlv_value session value)).map (fun rest => value :: rest)

/-- The chain of a TLV: `indices` are the indices of the records linked
from `start` through `tlv_next`, in chain order, and the last record has
`tlv_next` = -1 (an empty chain has `start` = -1). -/
def dlep_parser_chain (values : List dlep_parser_value) : Int → List Nat → Prop
  | start, [] => start = -1
  | start, i :: rest =>
    start = (i : Int) ∧
      match values[i]? with
      | some value => dlep_parser_chain values value.tlv_next rest
      | none => False

instance dlep_parser_chain_decidable (values : List dlep_parser_value) :
    ∀ (start : Int) (indices : List Nat),
      Decidable (dlep_parser_chain values start indices)
  | start, [] => decidable_of_iff (start = -1) (by rw [dlep_parser_chain])
  | start, i :: rest =>
    match h : values[i]? with
    | some value =>
      have := dlep_parser_chain_decidable values value.tlv_next rest
      decidable_of_iff (start = (i : Int) ∧ dlep_parser_chain values value.tlv_next rest)
        (by rw [dlep_parser_chain.eq_2, h])
    | none => isFalse (by rw [dlep_parser_chain.eq_2, h]; exact fun hc => hc.2)

/-! ## Radio handlers (`ext_base_proto/proto_radio.c`) -/

/-- Helper function to add a layer2 neighbor to a dlep session
(`_l2_neigh_added_to_session`). -/
def _l2_neigh_added_to_session (env : dlep_env) (session : dlep_session)
    (l2neigh : oonf_layer2_neigh) (mac : netaddr) : dlep_session :=
  match dlep_session_add_local_neighbor env session mac with
  | (session, none) => session
  | (session, some loc) =>
    let loc := { loc with neigh_addr := l2neigh.addr }
    let session :=
      (dlep_session_generate_signal env session .DLEP_DESTINATION_UP (some mac)).1
    dlep_local_neighbor_store session
      { loc with
        state := .DLEP_NEIGHBOR_UP_SENT
        _ack_timeout :=
          oonf_timer_set loc._ack_timeout
            (session.cfg.heartbeat_interval * 2 % UINT64_MOD) }

/-- The optional extension supported tlv of `_radio_process_peer_init`:
the extensions are updated from the value of the TLV (`value->length/2`
extension ids), or from nothing when the signal has no such TLV. -/
def _radio_peer_init_extensions (env : dlep_env) (rx : dlep_signal_values)
    (session : dlep_session) : dlep_session × Int :=
  match rx.extensions_supported with
  | some value => dlep_session_update_extensions env session value (value.length / 2)
  | none => dlep_session_update_extensions env session [] 0

/-- Body of the loop over the layer-2 neighbors in
`_radio_process_peer_init`. -/
def _radio_peer_init_l2neigh (env : dlep_env) (session : dlep_session)
    (l2neigh : oonf_layer2_neigh) : dlep_session :=
  let session :=
    if session.cfg.send_neighbors then
      _l2_neigh_added_to_session env session l2neigh l2neigh.addr
    else session
  if session.cfg.send_proxied then
    l2neigh.destinations.foldl
      (fun session destination =>
        _l2_neigh_added_to_session env session l2neigh destination)
      session
  else session

/-- The last part of `_radio_process_peer_init`: trigger DESTINATION UP for
all existing elements in l2 db. -/
def _radio_peer_init_l2db (env : dlep_env) (l2db : List oonf_layer2_net)
    (session : dlep_session) : dlep_session :=
  match oonf_layer2_net_get l2db session.l2_listener_name with
  | none => session
  | some l2net => l2net.neighbors.foldl (_radio_peer_init_l2neigh env) session

/-- Process the peer initialization message (`_radio_process_peer_init`).
The optional peer type TLV is only logged. -/
def _radio_process_peer_init (env : dlep_env) (l2db : List oonf_layer2_net)
    (rx : dlep_signal_values) (session : dlep_session) : dlep_session × Int :=
  if session.restrict_signal ≠ .DLEP_PEER_INITIALIZATION then
    -- ignore unless we are in initialization mode
    (session, 0)
  else
    -- mandatory heartbeat tlv
    match rx.heartbeat_tlv with
    | none => (session, -1)
    | some interval =>
      let session := { session with remote_heartbeat_interval := interval }
      let session := dlep_base_proto_start_local_heartbeat session
      let session := dlep_base_proto_start_remote_heartbeat session
      -- optional extension supported tlv
      let upd : dlep_session × Int := _radio_peer_init_extensions env rx session
      if upd.2 ≠ 0 then
        (upd.1, -1)
      else
        let gen : dlep_session × Int :=
          dlep_session_generate_signal env upd.1 .DLEP_PEER_INITIALIZATION_ACK none
        if gen.2 ≠ 0 then
          (gen.1, -1)
        else
          let session := _radio_peer_init_l2db env l2db gen.1
          ({ session with next_restrict_signal := .DLEP_ALL_SIGNALS }, 0)

/-- Process the destination up ack message
(`_radio_process_destination_up_ack`). The result of the lookup is
dereferenced without a NULL check: `none` where it is NULL. -/
def _radio_process_destination_up_ack (env : dlep_env) (rx : dlep_signal_values)
    (session : dlep_session) : Option (dlep_session × Int) :=
  match rx.mac_tlv with
  | none => some (session, -1)
  | some mac =>
    if rx.status = .DLEP_STATUS_OKAY then
      match dlep_session_get_local_neighbor session mac with
      | none => none
      | some loc =>
        if loc.state = .DLEP_NEIGHBOR_UP_SENT then
          let loc :=
            { loc with
              state := .DLEP_NEIGHBOR_UP_ACKED
              _ack_timeout := oonf_timer_stop loc._ack_timeout }
          if loc.changed then
            let session :=
              (dlep_session_generate_signal env session .DLEP_DESTINATION_UPDATE
                (some mac)).1
            some (dlep_local_neighbor_store session { loc with changed := false }, 0)
          else
            some (dlep_local_neighbor_store session loc, 0)
        else
          some (session, 0)
    else
      some (session, 0)

/-- Process the destination down ack message
(`_radio_process_destination_down_ack`). The result of the lookup is
dereferenced without a NULL check: `none` where it is NULL. -/
def _radio_process_destination_down_ack (rx : dlep_signal_values)
    (session : dlep_session) : Option (dlep_session × Int) :=
  match rx.mac_tlv with
  | none => some (session, -1)
  | some mac =>
    if rx.status = .DLEP_STATUS_OKAY then
      match dlep_session_get_local_neighbor session mac with
      | none => none
      | some loc =>
        if loc.state = .DLEP_NEIGHBOR_DOWN_SENT then
          some (dlep_session_remove_local_neighbor session loc, 0)
        else
          some (session, 0)
    else
      some (session, 0)

/-- Body of the session loop of `_l2_neigh_added`: whether the loop goes on
to the next session without acting (the two `continue` statements, the same
in `_l2_neigh_changed` and `_l2_neigh_removed`). -/
def l2_session_skipped (l2dest : Option oonf_layer2_destination)
    (cfg : dlep_session_config) : Bool :=
  (l2dest.isSome && !cfg.send_proxied) || (l2dest.isNone && !cfg.send_neighbors)

/-- Helper function triggered for a new layer2 neighbor (`_l2_neigh_added`).
For every session of the interface's session tree that passes the filter,
the neighbor is added to `radio_if->interf.session`. -/
def _l2_neigh_added (env : dlep_env) (radio_ifs : List dlep_radio_if)
    (l2neigh : oonf_layer2_neigh) (l2dest : Option oonf_layer2_destination)
    (mac : netaddr) : List dlep_radio_if :=
  match dlep_radio_get_by_layer2_if radio_ifs l2neigh.network_name with
  | none => radio_ifs
  | some radio_if =>
    dlep_radio_if_store radio_ifs
      (radio_if.interf.session_tree.foldl
        (fun radio_if radio_session =>
          if l2_session_skipped l2dest radio_session.session.cfg then
            radio_if
          else
            { radio_if with
              interf :=
                { radio_if.interf with
                  session :=
                    _l2_neigh_added_to_session env radio_if.interf.session l2neigh mac } })
        radio_if)

/-- Body of the session loop of `_l2_neigh_changed`, after the filter, on
`radio_session->session`. -/
def _l2_neigh_changed_session (env : dlep_env) (session : dlep_session)
    (l2neigh : oonf_layer2_neigh) (mac : netaddr) : dlep_session :=
  match dlep_session_add_local_neighbor env session mac with
  | (session, none) => session
  | (session, some loc) =>
    let loc := { loc with neigh_addr := l2neigh.addr }
    match loc.state with
    | .DLEP_NEIGHBOR_UP_SENT =>
      dlep_local_neighbor_store session { loc with changed := true }
    | .DLEP_NEIGHBOR_UP_ACKED =>
      let session :=
        (dlep_session_generate_signal env session .DLEP_DESTINATION_UPDATE (some mac)).1
      dlep_local_neighbor_store session { loc with changed := false }
    | .DLEP_NEIGHBOR_IDLE | .DLEP_NEIGHBOR_DOWN_SENT | .DLEP_NEIGHBOR_DOWN_ACKED =>
      let session :=
        (dlep_session_generate_signal env session .DLEP_DESTINATION_UP (some mac)).1
      dlep_local_neighbor_store session
        { loc with
          state := .DLEP_NEIGHBOR_UP_SENT
          changed := false
          _ack_timeout :=
            oonf_timer_set loc._ack_timeout
              (session.cfg.heartbeat_interval * 2 % UINT64_MOD) }

/-- Helper function triggered when a layer2 neighbor changed
(`_l2_neigh_changed`). -/
def _l2_neigh_changed (env : dlep_env) (radio_ifs : List dlep_radio_if)
    (l2neigh : oonf_layer2_neigh) (l2dest : Option oonf_layer2_destination)
    (mac : netaddr) : List dlep_radio_if :=
  match dlep_radio_get_by_layer2_if radio_ifs l2neigh.network_name with
  | none => radio_ifs
  | some radio_if =>
    dlep_radio_if_store radio_ifs
      { radio_if with
        interf :=
          { radio_if.interf with
            session_tree :=
              radio_if.interf.session_tree.map
                (fun radio_session =>
                  if l2_session_skipped l2dest radio_session.session.cfg then
                    radio_session
                  else
                    { radio_session with
                      session :=
                        _l2_neigh_changed_session env radio_session.session l2neigh mac }) } }

/-- Body of the session loop of `_l2_neigh_removed`, after the filter, on
`radio_session->session`. -/
def _l2_neigh_removed_session (env : dlep_env) (session : dlep_session)
    (l2neigh : oonf_layer2_neigh) (l2dest : Option oonf_layer2_destination)
    (mac : netaddr) : dlep_session :=
  match dlep_session_get_local_neighbor session mac with
  | none => session
  | some loc =>
    if (l2dest.isSome && decide (netaddr_cmp l2neigh.addr loc.neigh_addr = 0))
        || (l2dest.isNone && netaddr_is_unspec loc.neigh_addr) then
      let session :=
        (dlep_session_generate_signal env session .DLEP_DESTINATION_DOWN (some mac)).1
      dlep_local_neighbor_store session
        { loc with
          state := .DLEP_NEIGHBOR_DOWN_SENT
          _ack_timeout :=
            oonf_timer_set loc._ack_timeout
              (session.cfg.heartbeat_interval * 2 % UINT64_MOD) }
    else
      session

/-- Helper function triggered when a layer2 neighbor is removed
(`_l2_neigh_removed`). -/
def _l2_neigh_removed (env : dlep_env) (radio_ifs : List dlep_radio_if)
    (l2neigh : oonf_layer2_neigh) (l2dest : Option oonf_layer2_destination)
    (mac : netaddr) : List dlep_radio_if :=
  match dlep_radio_get_by_layer2_if radio_ifs l2neigh.network_name with
  | none => radio_ifs
  | some radio_if =>
    dlep_radio_if_store radio_ifs
      { radio_if with
        interf :=
          { radio_if.interf with
            session_tree :=
              radio_if.interf.session_tree.map
                (fun radio_session =>
                  if l2_session_skipped l2dest radio_session.session.cfg then
                    radio_session
                  else
                    { radio_session with
                      session :=
                        _l2_neigh_removed_session env radio_session.session l2neigh
                          l2dest mac }) } }

/-- Callback triggered when a layer2 neighbor object has been added
(`_cb_l2_neigh_added`). -/
def _cb_l2_neigh_added (env : dlep_env) (radio_ifs : List dlep_radio_if)
    (l2neigh : oonf_layer2_neigh) : List dlep_radio_if :=
  _l2_neigh_added env radio_ifs l2neigh none l2neigh.addr

/-- Callback triggered when a layer2 neighbor object has been changed
(`_cb_l2_neigh_changed`). -/
def _cb_l2_neigh_changed (env : dlep_env) (radio_ifs : List dlep_radio_if)
    (l2neigh : oonf_layer2_neigh) : List dlep_radio_if :=
  l2neigh.destinations.foldl
    (fun radio_ifs destination =>
      _l2_neigh_changed env radio_ifs l2neigh (some ⟨destination, l2neigh⟩) destination)
    (_l2_neigh_changed env radio_ifs l2neigh none l2neigh.addr)

/-- Callback triggered when a layer2 neighbor object has been removed
(`_cb_l2_neigh_removed`). -/
def _cb_l2_neigh_removed (env : dlep_env) (radio_ifs : List dlep_radio_if)
    (l2neigh : oonf_layer2_neigh) : List dlep_radio_if :=
  _l2_neigh_removed env radio_ifs l2neigh none l2neigh.addr

/-- Callback triggered when a layer2 destination object has been added
(`_cb_l2_dst_added`). -/
def _cb_l2_dst_added (env : dlep_env) (radio_ifs : List dlep_radio_if)
    (l2dst : oonf_layer2_destination) : List dlep_radio_if :=
  _l2_neigh_added env radio_ifs l2dst.neighbor none l2dst.destination

/-- Callback triggered when a layer2 destination object has been removed
(`_cb_l2_dst_removed`). -/
def _cb_l2_dst_removed (env : dlep_env) (radio_ifs : List dlep_radio_if)
    (l2dst : oonf_layer2_destination) : List dlep_radio_if :=
  _l2_neigh_removed env radio_ifs l2dst.neighbor none l2dst.destination

/-- Callback triggered when a destination up/down ack times out
(`_cb_destination_timeout`). -/
def _cb_destination_timeout (session : dlep_session) (loc : dlep_local_neighbor) :
    dlep_session :=
  dlep_session_remove_local_neighbor session loc

/-! ## TLV writer and the writer callbacks of the base protocol -/

/-- Modelled from the spec: a TLV handed to the TLV writer (`dlep_writer.c`,
not among the sources), by kind and content. -/
inductive dlep_tlv
  | heartbeat_interval (interval : Nat)
  | extensions_supported (ext_ids : List Nat)
  | peer_type (text : String)
deriving DecidableEq, Repr

/-- Modelled from the spec: `dlep_writer_add_heartbeat_tlv` appends a
heartbeat interval TLV to the signal being written. -/
def dlep_writer_add_heartbeat_tlv (writer : List dlep_tlv) (interval : Nat) :
    List dlep_tlv :=
  writer ++ [.heartbeat_interval interval]

/-- Modelled from the spec: `dlep_writer_add_supported_extensions` appends
an extensions-supported TLV to the signal being written. -/
def dlep_writer_add_supported_extensions (writer : List dlep_tlv) (ext_ids : List Nat) :
    List dlep_tlv :=
  writer ++ [.extensions_supported ext_ids]

/-- Modelled from the spec: `dlep_writer_add_peer_type_tlv` appends a peer
type TLV to the signal being written. -/
def dlep_writer_add_peer_type_tlv (writer : List dlep_tlv) (peer_type : String) :
    List dlep_tlv :=
  writer ++ [.peer_type peer_type]

/-- Generate a peer init ack signal (`_radio_write_peer_init_ack`), the
`add_tlvs` callback of DLEP_PEER_INITIALIZATION_ACK in `_radio_signals`.
`ext_ids` is the result of `dlep_extension_get_ids`, `writer` the TLVs of
the signal written so far. -/
def _radio_write_peer_init_ack (ext_ids : List Nat) (session : dlep_session)
    (writer : List dlep_tlv) : List dlep_tlv × Int :=
  -- write heartbeat interval
  let writer := dlep_writer_add_heartbeat_tlv writer session.remote_heartbeat_interval
  -- write supported extensions
  let writer :=
    if ext_ids.length ≠ 0 then dlep_writer_add_supported_extensions writer ext_ids
    else writer
  let writer :=
    match session.cfg.peer_type with
    | some peer_type => dlep_writer_add_peer_type_tlv writer peer_type
    | none => writer
  (writer, 0)

/-- The session on which `_radio_process_peer_init` generates the
PEER_INITIALIZATION_ACK, for a PEER_INITIALIZATION whose heartbeat TLV
carries `interval`: the heartbeat interval is stored, both heartbeat timers
are started and the extensions are updated. -/
def _radio_peer_init_ack_session (env : dlep_env) (rx : dlep_signal_values)
    (session : dlep_session) (interval : Nat) : dlep_session :=
  (_radio_peer_init_extensions env rx
    (dlep_base_proto_start_remote_heartbeat
      (dlep_base_proto_start_local_heartbeat
        { session with remote_heartbeat_interval := interval }))).1

/-! ## Router callbacks (`ext_base_proto/proto_router.c`) -/

/-- The session callback `cb_send_buffer(session, af_family)`: the output
buffer is handed over for sending; the call is recorded in `sent`. An
address family of 0 is AF_UNSPEC. -/
def cb_send_buffer (session : dlep_session) (af_family : netaddr_family) : dlep_session :=
  { session with sent := session.sent ++ [af_family] }

/-- Modelled from the spec: `oonf_timer_start(timer, rel_time)` starts the
timer with the given period. -/
def oonf_timer_start (_timer : oonf_timer_instance) (rel_time : Nat) : oonf_timer_instance :=
  .armed rel_time

/-- Callback to initialize the router session (`_cb_init_router`). -/
def _cb_init_router (env : dlep_env) (session : dlep_session) : dlep_session :=
  if session.restrict_signal = .DLEP_PEER_INITIALIZATION_ACK then
    -- we are waiting for a Peer Init Ack, so we need to send a Peer Init
    let session :=
      (dlep_session_generate_signal env session .DLEP_PEER_INITIALIZATION none).1
    let session := cb_send_buffer session .AF_UNSPEC
    let session :=
      { session with remote_heartbeat_interval := session.cfg.heartbeat_interval }
    dlep_base_proto_start_remote_heartbeat session
  else
    session

/-- Callback to apply new network settings to a router session
(`_cb_apply_router`); the local event timer is used as discovery timer. -/
def _cb_apply_router (session : dlep_session) : dlep_session :=
  if session.restrict_signal = .DLEP_PEER_OFFER then
    -- we are waiting for a Peer Offer, so we need to send Peer Discovery messages
    { session with
      local_event_timer :=
        oonf_timer_start session.local_event_timer session.cfg.discovery_interval }
  else
    session

/-- Callback to generate regular peer discovery signals
(`_cb_create_peer_discovery`), run when the discovery timer fires. -/
def _cb_create_peer_discovery (env : dlep_env) (session : dlep_session) : dlep_session :=
  let session := (dlep_session_generate_signal env session .DLEP_PEER_DISCOVERY none).1
  let session := cb_send_buffer session .AF_INET
  let session := (dlep_session_generate_signal env session .DLEP_PEER_DISCOVERY none).1
  cb_send_buffer session .AF_INET6

/-- Generate a peer discovery signal (`_router_write_peer_discovery`), the
`add_tlvs` callback of DLEP_PEER_DISCOVERY in `_router_signals`. -/
def _router_write_peer_discovery (session : dlep_session) (writer : List dlep_tlv) :
    List dlep_tlv × Int :=
  if session.restrict_signal ≠ .DLEP_PEER_OFFER then
    (writer, -1)
  else
    (writer, 0)

/-- Generate a peer init message (`_router_write_peer_init`), the `add_tlvs`
callback of DLEP_PEER_INITIALIZATION in `_router_signals`. `ext_ids` is the
result of `dlep_extension_get_ids`. -/
def _router_write_peer_init (ext_ids : List Nat) (session : dlep_session)
    (writer : List dlep_tlv) : List dlep_tlv × Int :=
  -- write supported extensions
  let writer :=
    if ext_ids.length ≠ 0 then dlep_writer_add_supported_extensions writer ext_ids
    else writer
  let writer := dlep_writer_add_heartbeat_tlv writer session.cfg.heartbeat_interval
  let writer :=
    match session.cfg.peer_type with
    | some peer_type => dlep_writer_add_peer_type_tlv writer peer_type
    | none => writer
  (writer, 0)

/-! ## Layer-2 table as the router maintains it -/

/-- Modelled from the spec: what the layer-2 database decides by itself:
whether a network or a neighbor can be created (`oonf_layer2_net_add`,
`oonf_layer2_neigh_add` return NULL otherwise), and the number of data
fields of a neighbor, OONF_LAYER2_NEIGH_COUNT. -/
structure oonf_layer2_env where
  net_alloc_ok : List oonf_layer2_net → String → Bool
  neigh_alloc_ok : oonf_layer2_net → netaddr → Bool
  neigh_count : Nat

/-- Write through a pointer to a layer-2 network: the network stored under
the name of `l2net` becomes `l2net`. -/
def oonf_layer2_net_store (l2db : List oonf_layer2_net) (l2net : oonf_layer2_net) :
    List oonf_layer2_net :=
  l2db.map (fun n => if n.name = l2net.name then l2net else n)

/-- Modelled from the spec: `oonf_layer2_net_add` of
`subsystems/oonf_layer2.c` (not among the sources): the network of that name,
created without neighbors if there is none yet; NULL if it cannot be
created. -/
def oonf_layer2_net_add (l2env : oonf_layer2_env) (l2db : List oonf_layer2_net)
    (ifname : String) : List oonf_layer2_net × Option oonf_layer2_net :=
  match oonf_layer2_net_get l2db ifname with
  | some l2net => (l2db, some l2net)
  | none =>
    if l2env.net_alloc_ok l2db ifname then
      (l2db ++ [⟨ifname, []⟩], some ⟨ifname, []⟩)
    else
      (l2db, none)

/-- Modelled from the spec: `oonf_layer2_neigh_get`: the neighbor of the
network with that address, `none` (NULL) if there is none. -/
def oonf_layer2_neigh_get (l2net : oonf_layer2_net) (addr : netaddr) :
    Option oonf_layer2_neigh :=
  l2net.neighbors.find? (fun n => decide (n.addr = addr))

/-- Write through a pointer to a layer-2 neighbor: the neighbor stored under
the address of `l2neigh` becomes `l2neigh`. -/
def oonf_layer2_neigh_store (l2net : oonf_layer2_net) (l2neigh : oonf_layer2_neigh) :
    oonf_layer2_net :=
  { l2net with
    neighbors := l2net.neighbors.map (fun n => if n.addr = l2neigh.addr then l2neigh else n) }

/-- Modelled from the spec: `oonf_layer2_neigh_add`: the neighbor of the
network with that address, created with data fields without value if there
is none yet; NULL if it cannot be created. -/
def oonf_layer2_neigh_add (l2env : oonf_layer2_env) (l2net : oonf_layer2_net)
    (addr : netaddr) : oonf_layer2_net × Option oonf_layer2_neigh :=
  match oonf_layer2_neigh_get l2net addr with
  | some l2neigh => (l2net, some l2neigh)
  | none =>
    if l2env.neigh_alloc_ok l2net addr then
      let l2neigh : oonf_layer2_neigh :=
        { addr := addr, network_name := l2net.name, destinations := [],
          data := List.replicate l2env.neigh_count ⟨false, 0, 0⟩ }
      ({ l2net with neighbors := l2net.neighbors ++ [l2neigh] }, some l2neigh)
    else
      (l2net, none)

/-- Modelled from the spec: `oonf_layer2_set_value(data, origin, value)`: the
field holds the value, tagged with the origin. -/
def oonf_layer2_set_value (_data : oonf_layer2_data) (origin : Nat) (value : Int) :
    oonf_layer2_data :=
  ⟨true, value, origin⟩

/-- Modelled from the spec: `oonf_layer2_reset_value(data)`: the field holds
no value any more. -/
def oonf_layer2_reset_value (_data : oonf_layer2_data) : oonf_layer2_data :=
  ⟨false, 0, 0⟩

/-- Modelled from the spec: `dlep_reader_map_l2neigh_data` of `dlep_reader.c`
(not among the sources): every metric TLV of the signal is mapped into its
data field, tagged with the origin of the session. `metrics` lists the
metric TLVs of the signal in mapping order, each with the index of its data
field and the value read from it, `none` where the TLV cannot be converted:
the mapping stops there with a nonzero result (-1). -/
def dlep_reader_map_l2neigh_data (data : List oonf_layer2_data)
    (metrics : List (Nat × Option Int)) (origin : Nat) : List oonf_layer2_data × Int :=
  match metrics with
  | [] => (data, 0)
  | (_, none) :: _ => (data, -1)
  | (idx, some value) :: rest =>
    dlep_reader_map_l2neigh_data
      (data.set idx (oonf_layer2_set_value (data.getD idx ⟨false, 0, 0⟩) origin value))
      rest origin

/-- Modelled from the spec: `oonf_layer2_neigh_remove(l2neigh, origin)` for
the neighbor `addr` of the network `ifname`: what the origin wrote into the
neighbor is reset, and the neighbor leaves the table when no data field
holds a value any more. -/
def oonf_layer2_neigh_remove (l2db : List oonf_layer2_net) (ifname : String)
    (addr : netaddr) (origin : Nat) : List oonf_layer2_net :=
  l2db.map
    (fun l2net =>
      if l2net.name = ifname then
        { l2net with
          neighbors :=
            l2net.neighbors.filterMap
              (fun n =>
                if n.addr = addr then
                  if (n.data.map
                      (fun d => if d._origin = origin then oonf_layer2_reset_value d
                        else d)).any (fun d => d._has_value) then
                    some
                      { n with
                        data :=
                          n.data.map
                            (fun d => if d._origin = origin then oonf_layer2_reset_value d
                              else d) }
                  else none
                else some n) }
      else l2net)

/-- Modelled from the spec: `dlep_session_generate_signal_status` of
`dlep_session.c` (not among the sources): like
`dlep_session_generate_signal`, with a status TLV carrying the status and the
text. -/
def dlep_session_generate_signal_status (env : dlep_env) (session : dlep_session)
    (signal : dlep_signals) (neighbor : Option netaddr) (status : dlep_status)
    (msg : String) : dlep_session × Int :=
  let ok := env.write_ok session.generated signal neighbor
  ({ session with
      generated := session.generated ++ [⟨signal, neighbor, ok⟩]
      generated_status :=
        session.generated_status ++ [⟨session.generated.length, status, msg⟩] },
    if ok then 0 else -1)

/-! ## Router handlers for destinations (`ext_base_proto/proto_router.c`) -/

/-- Process the destination up message (`_router_process_destination_up`).
`metrics` are the metric TLVs of the signal as
`dlep_reader_map_l2neigh_data` sees them. -/
def _router_process_destination_up (env : dlep_env) (l2env : oonf_layer2_env)
    (rx : dlep_signal_values) (metrics : List (Nat × Option Int))
    (l2db : List oonf_layer2_net) (session : dlep_session) :
    List oonf_layer2_net × dlep_session × Int :=
  match rx.mac_tlv with
  | none => (l2db, session, -1)
  | some mac =>
    match oonf_layer2_net_add l2env l2db session.l2_listener_name with
    | (l2db, none) =>
      let gen :=
        dlep_session_generate_signal_status env session .DLEP_DESTINATION_UP_ACK
          (some mac) .DLEP_STATUS_REQUEST_DENIED "Not enough memory"
      (l2db, gen.1, gen.2)
    | (l2db, some l2net) =>
      match oonf_layer2_neigh_add l2env l2net mac with
      | (l2net, none) =>
        let gen :=
          dlep_session_generate_signal_status env session .DLEP_DESTINATION_UP_ACK
            (some mac) .DLEP_STATUS_REQUEST_DENIED "Not enough memory"
        (oonf_layer2_net_store l2db l2net, gen.1, gen.2)
      | (l2net, some l2neigh) =>
        let mapped := dlep_reader_map_l2neigh_data l2neigh.data metrics session.l2_origin
        let l2db :=
          oonf_layer2_net_store l2db
            (oonf_layer2_neigh_store l2net { l2neigh with data := mapped.1 })
        if mapped.2 ≠ 0 then
          (l2db, session, mapped.2)
        else
          -- generate ACK
          let gen :=
            dlep_session_generate_signal env session .DLEP_DESTINATION_UP_ACK (some mac)
          (l2db, gen.1, gen.2)

/-- Process the destination down message
(`_router_process_destination_down`). -/
def _router_process_destination_down (env : dlep_env) (rx : dlep_signal_values)
    (l2db : List oonf_layer2_net) (session : dlep_session) :
    List oonf_layer2_net × dlep_session × Int :=
  match rx.mac_tlv with
  | none => (l2db, session, -1)
  | some mac =>
    match oonf_layer2_net_get l2db session.l2_listener_name with
    | none => (l2db, session, 0)
    | some l2net =>
      match oonf_layer2_neigh_get l2net mac with
      | none => (l2db, session, 0)
      | some l2neigh =>
        -- remove layer2 neighbor
        let l2db := oonf_layer2_neigh_remove l2db l2net.name l2neigh.addr session.l2_origin
        -- generate ACK
        let gen :=
          dlep_session_generate_signal env session .DLEP_DESTINATION_DOWN_ACK (some mac)
        (l2db, gen.1, gen.2)

/-- Process the destination update message
(`_router_process_destination_update`). -/
def _router_process_destination_update (rx : dlep_signal_values)
    (metrics : List (Nat × Option Int)) (l2db : List oonf_layer2_net)
    (session : dlep_session) : List oonf_layer2_net × dlep_session × Int :=
  match rx.mac_tlv with
  | none => (l2db, session, -1)
  | some mac =>
    match oonf_layer2_net_get l2db session.l2_listener_name with
    | none => (l2db, session, 0)
    | some l2net =>
      match oonf_layer2_neigh_get l2net mac with
      | none =>
        -- we did not get the destination up signal
        (l2db, session, 0)
      | some l2neigh =>
        let mapped := dlep_reader_map_l2neigh_data l2neigh.data metrics session.l2_origin
        let l2db :=
          oonf_layer2_net_store l2db
            (oonf_layer2_neigh_store l2net { l2neigh with data := mapped.1 })
        if mapped.2 ≠ 0 then
          (l2db, session, mapped.2)
        else
          (l2db, session, 0)

/-! ## Router: the PEER_OFFER handler (`ext_base_proto/proto_router.c`) -/

/-- Modelled from the spec: what `dlep_reader_ipv6_conpoint_tlv` and
`dlep_reader_ipv4_conpoint_tlv` of `dlep_reader.c` (not among the sources)
read from one connection point TLV: the address, the port and the TLS
flag. -/
structure dlep_conpoint where
  addr : netaddr
  port : Nat
  tls : Bool
deriving DecidableEq, Repr

/-- The connection point TLVs of a PEER_OFFER in TLV order, as
`dlep_session_get_tlv_value` and `dlep_session_get_next_tlv_value` walk
them; `none` is a value its reader rejects. -/
structure dlep_peer_offer where
  ipv6_conpoints : List (Option dlep_conpoint)
  ipv4_conpoints : List (Option dlep_conpoint)
deriving DecidableEq, Repr

/-- Modelled from the spec: what `_router_process_peer_offer` asks of the
interface. `os_interface_get_prefix_from_dst` is the interface prefix that
matches a destination, NULL if there is none; `dlep_router_get_by_layer2_if`
finds the router interface of a layer-2 interface name, NULL if there is
none, here with the answer to `&router_if->interf.session == session`. -/
structure dlep_router_env where
  os_interface_get_prefix_from_dst : netaddr → Option netaddr
  dlep_router_get_by_layer2_if : String → Option Bool

/-- Modelled from the spec: the link-local IPv6 prefix fe80::/10
(`NETADDR_IPV6_LINKLOCAL` of `common/netaddr.h`). -/
def NETADDR_IPV6_LINKLOCAL : netaddr := ⟨.AF_INET6, 0xfe80 * 2 ^ 112, 10⟩

/-- Modelled from the spec: the number of address bits of an address
family. -/
def netaddr_family_bits : netaddr_family → Nat
  | .AF_UNSPEC => 0
  | .AF_INET => 32
  | .AF_INET6 => 128
  | .AF_MAC48 => 48
  | .AF_EUI64 => 64

/-- Modelled from the spec: `netaddr_is_in_subnet(subnet, addr)` of
`common/netaddr.c`: same address family, the address is no shorter than the
subnet, and the leading bits of the address are those of the subnet. -/
def netaddr_is_in_subnet (subnet addr : netaddr) : Bool :=
  decide (addr._type = subnet._type ∧ subnet._prefix_len ≤ addr._prefix_len ∧
    addr._addr / 2 ^ (netaddr_family_bits subnet._type - subnet._prefix_len) =
      subnet._addr / 2 ^ (netaddr_family_bits subnet._type - subnet._prefix_len))

/-- The local variables `result`, `remote` and `port` of
`_router_process_peer_offer`; `none` is NULL for `result` and memory not yet
written for `remote` and `port`. -/
structure peer_offer_locals where
  result : Option netaddr
  remote : Option netaddr_socket
  port : Option Nat
deriving DecidableEq, Repr

/-- Modelled from the spec: `netaddr_socket_init(socket, addr, port,
if_index)`, with the value the variable `port` holds. -/
def netaddr_socket_init (addr : netaddr) (port : Option Nat) (if_index : Nat) :
    netaddr_socket :=
  ⟨addr, port, if_index⟩

/-- The arguments of the call `dlep_router_add_session(router_if, &local,
&remote)`. -/
structure dlep_router_add_session_args where
  loc : netaddr_socket
  remote : Option netaddr_socket
deriving DecidableEq, Repr

/-- The loop over the IPv6 connection points of `_router_process_peer_offer`
("IPv6 offer"); `none` when a reader fails and the handler returns -1. -/
def _router_process_peer_offer_ipv6 (renv : dlep_router_env) (if_index : Nat) :
    List (Option dlep_conpoint) → peer_offer_locals → Option peer_offer_locals
  | [], locals => some locals
  | none :: _, _ => none
  | some value :: rest, locals =>
    if value.tls then
      -- TLS not supported at the moment
      _router_process_peer_offer_ipv6 renv if_index rest
        ⟨locals.result, locals.remote, some value.port⟩
    else if netaddr_is_in_subnet NETADDR_IPV6_LINKLOCAL value.addr
        || locals.result.isNone then
      match renv.os_interface_get_prefix_from_dst value.addr with
      | some result =>
        _router_process_peer_offer_ipv6 renv if_index rest
          ⟨some result, some (netaddr_socket_init value.addr (some value.port) if_index),
            some value.port⟩
      | none =>
        _router_process_peer_offer_ipv6 renv if_index rest
          ⟨none, locals.remote, some value.port⟩
    else
      _router_process_peer_offer_ipv6 renv if_index rest
        ⟨locals.result, locals.remote, some value.port⟩

/-- The loop over the IPv4 connection points of `_router_process_peer_offer`
("IPv4 offer"), which runs while `result` is NULL; `none` when a reader fails
and the handler returns -1. -/
def _router_process_peer_offer_ipv4 (renv : dlep_router_env) (if_index : Nat) :
    List (Option dlep_conpoint) → peer_offer_locals → Option peer_offer_locals
  | [], locals => some locals
  | value :: rest, locals =>
    if locals.result.isSome then
      some locals
    else
      match value with
      | none => none
      | some value =>
        if value.tls then
          -- TLS not supported at the moment
          _router_process_peer_offer_ipv4 renv if_index rest
            ⟨locals.result, locals.remote, some value.port⟩
        else
          match renv.os_interface_get_prefix_from_dst value.addr with
          | some result =>
            _router_process_peer_offer_ipv4 renv if_index rest
              ⟨some result,
                some (netaddr_socket_init value.addr (some value.port) if_index),
                some value.port⟩
          | none =>
            _router_process_peer_offer_ipv4 renv if_index rest
              ⟨none, locals.remote, some value.port⟩

/-- Process the peer offer signal (`_router_process_peer_offer`): the
arguments of `dlep_router_add_session` if the session is created, and the
return value. `session.l2_listener_index` is `ifdata->index` and
`session.l2_listener_name` is `ifdata->name`. -/
def _router_process_peer_offer (renv : dlep_router_env) (offer : dlep_peer_offer)
    (session : dlep_session) : Option dlep_router_add_session_args × Int :=
  if session.restrict_signal ≠ .DLEP_PEER_OFFER then
    -- ignore unless we are in discovery mode
    (none, 0)
  else
    -- we are looking for a good address to respond to
    match _router_process_peer_offer_ipv6 renv session.l2_listener_index
        offer.ipv6_conpoints ⟨none, none, none⟩ with
    | none => (none, -1)
    | some locals =>
      match _router_process_peer_offer_ipv4 renv session.l2_listener_index
          offer.ipv4_conpoints locals with
      | none => (none, -1)
      | some locals =>
        -- remote address of incoming session
        let fallback : Option (netaddr × Option netaddr_socket) :=
          match locals.result with
          | some result => some (result, locals.remote)
          | none =>
            match renv.os_interface_get_prefix_from_dst session.remote_socket.addr with
            | none =>
              -- no possible way to communicate
              none
            | some result =>
              some (result,
                some (netaddr_socket_init session.remote_socket.addr locals.port
                  session.l2_listener_index))
        match fallback with
        | none => (none, -1)
        | some (result, remote) =>
          -- initialize session
          let loc := netaddr_socket_init result (some 0) session.l2_listener_index
          match renv.dlep_router_get_by_layer2_if session.l2_listener_name with
          | some true => (some ⟨loc, remote⟩, 0)
          | _ =>
            -- ignore incoming offer, something is wrong
            (none, -1)

/-! ## Signals in the receive buffer -/

/-- Modelled from the spec: the header of a signal on the wire,
`<signal_type:u16, signal_length:u16>` in big-endian, read from the first
four bytes of a buffer: the signal type and the declared length of the
TLVs. There is no header in less than four bytes. -/
def dlep_signal_header : List Nat → Option (Nat × Nat)
  | t0 :: t1 :: l0 :: l1 :: _ => some (t0 * 256 + t1, l0 * 256 + l1)
  | _ => none

/-- Modelled from the spec: `dlep_session_process_signal` of `dlep_session.c`
(not among the sources): 0 when the buffer holds no complete signal (less
than the header, or less than the declared `signal_length` after it), else
the signal is handed on with its type and its TLV bytes and the result is
the error of that (negative) or the number of bytes of the signal. `process`
stands for the check of `restrict_signal`, the session parser and the
handlers of the extensions: the session after them and 0 or a negative
error. -/
def dlep_session_process_signal (process : dlep_session → Nat → List Nat → dlep_session × Int)
    (session : dlep_session) (buffer : List Nat) : dlep_session × Int :=
  match dlep_signal_header buffer with
  | none => (session, 0)
  | some (signal_type, signal_length) =>
    if buffer.length - 4 < signal_length then
      (session, 0)
    else
      let processed := process session signal_type ((buffer.drop 4).take signal_length)
      if processed.2 < 0 then
        (processed.1, processed.2)
      else
        (processed.1, ((4 + signal_length : Nat) : Int))

/-- The loop of `dlep_session_process_buffer`: signals are consumed from the
front of `buffer` while they are complete; `offset` counts the bytes
consumed so far. Every round consumes at least four bytes, so a `fuel` of
the length of the buffer is never used up. -/
def dlep_session_process_buffer_loop
    (process : dlep_session → Nat → List Nat → dlep_session × Int) :
    Nat → dlep_session → List Nat → Nat → dlep_session × Int
  | 0, session, _, offset => (session, (offset : Int))
  | fuel + 1, session, buffer, offset =>
    let result := dlep_session_process_signal process session buffer
    if result.2 < 0 then
      (result.1, result.2)
    else if result.2 = 0 then
      (result.1, (offset : Int))
    else
      dlep_session_process_buffer_loop process fuel result.1 (buffer.drop result.2.toNat)
        (offset + result.2.toNat)

/-- Modelled from the spec: `dlep_session_process_buffer` of
`dlep_session.c` (not among the sources): "consume as many complete signals
as fit; return the number of bytes consumed. Partial trailing bytes are left
for the next call"; an error of a signal ends the processing with that
error. -/
def dlep_session_process_buffer
    (process : dlep_session → Nat → List Nat → dlep_session × Int)
    (session : dlep_session) (buffer : List Nat) : dlep_session × Int :=
  dlep_session_process_buffer_loop process buffer.length session buffer 0

/-- A sequence of bytes made of whole signals: each is a header of four
bytes followed by as many bytes of TLVs as the header declares. -/
inductive dlep_whole_signals : List Nat → Prop
  | nil : dlep_whole_signals []
  | cons (t0 t1 l0 l1 : Nat) (tlvs rest : List Nat) :
    tlvs.length = l0 * 256 + l1 → dlep_whole_signals rest →
    dlep_whole_signals (t0 :: t1 :: l0 :: l1 :: (tlvs ++ rest))

/-- A sequence of bytes that holds no complete signal at its start: it is
shorter than four bytes, or it begins with a header whose declared
`signal_length` exceeds the bytes available after the header. -/
def dlep_incomplete_signal (suffix : List Nat) : Prop :=
  suffix.length < 4 ∨
    ∃ signal_type signal_length,
      dlep_signal_header suffix = some (signal_type, signal_length) ∧
        suffix.length - 4 < signal_length

/-! ## Extensions and the allowed TLVs of a session -/

/-- Modelled from the spec: one TLV declaration of an extension, `{type,
min, max, mandatory_in_signals, may_repeat_in_signals}`. -/
structure dlep_extension_tlv where
  id : Nat
  length_min : Nat
  length_max : Nat
  mandatory_in_signals : List Nat
  may_repeat_in_signals : List Nat
deriving DecidableEq, Repr

/-- Modelled from the spec: the descriptor of an extension: numeric id and
list of TLV declarations (the signal handlers and hooks are left out). -/
structure dlep_extension where
  id : Nat
  tlvs : List dlep_extension_tlv
deriving DecidableEq, Repr

/-- Modelled from the spec: step 2 of the rebuild of the allowed-TLV map for
one declared TLV: "insert (or unmark-removable + widen min/max if a conflict
is compatible - otherwise fail with INTERNAL_ERROR)". `compatible` tells
which conflicts of the length bounds are compatible; `none` is the
failure. -/
def dlep_allowed_tlvs_declare (compatible : dlep_extension_tlv → dlep_parser_tlv → Bool)
    (allowed : List dlep_parser_tlv) (declared : dlep_extension_tlv) :
    Option (List dlep_parser_tlv) :=
  match allowed.find? (fun tlv => tlv.id = declared.id) with
  | none =>
    some (allowed ++ [⟨declared.id, -1, -1, declared.length_min, declared.length_max, false⟩])
  | some found =>
    if found.length_min = declared.length_min ∧ found.length_max = declared.length_max then
      some (allowed.map (fun tlv =>
        if tlv.id = declared.id then
          ⟨tlv.id, tlv.tlv_first, tlv.tlv_last, tlv.length_min, tlv.length_max, false⟩
        else tlv))
    else if compatible declared found then
      some (allowed.map (fun tlv =>
        if tlv.id = declared.id then
          ⟨tlv.id, tlv.tlv_first, tlv.tlv_last, min tlv.length_min declared.length_min,
            max tlv.length_max declared.length_max, false⟩
        else tlv))
    else
      none

/-- The declarations of a list of TLVs, one after the other; `none` as soon
as one fails. -/
def dlep_allowed_tlvs_declare_all (compatible : dlep_extension_tlv → dlep_parser_tlv → Bool) :
    List dlep_parser_tlv → List dlep_extension_tlv → Option (List dlep_parser_tlv)
  | allowed, [] => some allowed
  | allowed, declared :: rest =>
    match dlep_allowed_tlvs_declare compatible allowed declared with
    | none => none
    | some allowed => dlep_allowed_tlvs_declare_all compatible allowed rest

/-- Modelled from the spec: the extensions that are active after
`dlep_session_update_extensions(extension_ids)`: the base protocol, always,
and the registered extensions whose id is among `extension_ids`. -/
def dlep_active_extensions (base : dlep_extension) (registry : List dlep_extension)
    (extension_ids : List Nat) : List dlep_extension :=
  base :: registry.filter (fun ext => decide (ext.id ∈ extension_ids))

/-- Modelled from the spec: the rebuild of the allowed-TLV map by
`dlep_session_update_extensions` of `dlep_session.c` (not among the
sources): "1. Mark every currently-allowed TLV removable = true. 2. For each
extension now active (always include base proto), for each declared TLV,
insert (or unmark-removable + widen min/max if a conflict is compatible -
otherwise fail with INTERNAL_ERROR). 3. Remove any TLV still flagged
removable." The result is `none` when the update fails. -/
def dlep_session_update_allowed_tlvs
    (compatible : dlep_extension_tlv → dlep_parser_tlv → Bool) (base : dlep_extension)
    (registry : List dlep_extension) (session : dlep_session) (extension_ids : List Nat) :
    Option dlep_session :=
  let marked :=
    session.parser.allowed_tlvs.map (fun tlv =>
      (⟨tlv.id, tlv.tlv_first, tlv.tlv_last, tlv.length_min, tlv.length_max, true⟩ :
        dlep_parser_tlv))
  let declared :=
    (dlep_active_extensions base registry extension_ids).flatMap (fun ext => ext.tlvs)
  match dlep_allowed_tlvs_declare_all compatible marked declared with
  | none => none
  | some allowed =>
    some { session with
      parser := { session.parser with allowed_tlvs := allowed.filter (fun tlv => !tlv.remove) } }

/-! ## TLV writer and session parser on bytes -/

/-- DLEP writer for TLV data (`struct dlep_writer`); `out` holds the bytes of
the output buffer. -/
structure dlep_writer where
  out : List Nat
  signal_type : Nat
  signal_start : Nat
deriving DecidableEq, Repr

/-- Modelled from the spec: `start_signal(signal_type)` of the writer
(`dlep_writer.c`, not among the sources): "remember current buffer length,
append [the] header", in the 4-byte form `<type, length>` of the wire
framing, with the length still open; "record `signal_start` and
`signal_type`". -/
def dlep_writer_start_signal (writer : dlep_writer) (signal_type : Nat) : dlep_writer :=
  ⟨writer.out ++ [signal_type / 256, signal_type % 256, 0, 0], signal_type,
    writer.out.length⟩

/-- The bytes of one TLV on the wire, `<tlv_type:u16 BE, tlv_length:u16 BE,
value[tlv_length]>`. -/
def dlep_tlv_bytes (tlv : Nat × List Nat) : List Nat :=
  [tlv.1 / 256, tlv.1 % 256, tlv.2.length / 256, tlv.2.length % 256] ++ tlv.2

/-- Modelled from the spec: `add_tlv(type, value_bytes)` of the writer:
"append `<type, len(value), value>`. No escaping; length is u16
big-endian." -/
def dlep_writer_add_tlv (writer : dlep_writer) (tlv : Nat × List Nat) : dlep_writer :=
  { writer with out := writer.out ++ dlep_tlv_bytes tlv }

/-- Modelled from the spec: `finish_signal()` of the writer: "compute
`signal_length = buffer.length() - signal_start - header_size`, patch it
back into the header in big-endian, return. On overflow (>u16) the signal is
abandoned and the buffer truncated": the writer and 0, or -1 on overflow. -/
def dlep_writer_finish_signal (writer : dlep_writer) : dlep_writer × Int :=
  let signal_length := writer.out.length - writer.signal_start - 4
  if signal_length > 65535 then
    ({ writer with out := writer.out.take writer.signal_start }, -1)
  else
    ({ writer with
        out :=
          (writer.out.set (writer.signal_start + 2) (signal_length / 256)).set
            (writer.signal_start + 3) (signal_length % 256) },
      0)

/-- Writing a signal with a list of TLVs: `start_signal`, `add_tlv` for each
TLV in order, `finish_signal`. -/
def dlep_writer_write_signal (writer : dlep_writer) (signal_type : Nat)
    (tlvs : List (Nat × List Nat)) : dlep_writer × Int :=
  dlep_writer_finish_signal
    (tlvs.foldl dlep_writer_add_tlv (dlep_writer_start_signal writer signal_type))

/-- Return codes for DLEP parser (`enum dlep_parser_error`). -/
inductive dlep_parser_error
  | DLEP_NEW_PARSER_OKAY
  | DLEP_NEW_PARSER_INCOMPLETE_TLV_HEADER
  | DLEP_NEW_PARSER_INCOMPLETE_TLV
  | DLEP_NEW_PARSER_UNSUPPORTED_TLV
  | DLEP_NEW_PARSER_ILLEGAL_TLV_LENGTH
  | DLEP_NEW_PARSER_MISSING_MANDATORY_TLV
  | DLEP_NEW_PARSER_DUPLICATE_TLV
  | DLEP_NEW_PARSER_OUT_OF_MEMORY
  | DLEP_NEW_PARSER_INTERNAL_ERROR
deriving DecidableEq, Repr

/-- Modelled from the spec: step 5 of the session parser: "append a value
record; link it into the per-type chain via `tlv_last -> next`": the record
gets the next free index of `values`, the last record of the TLV so far
points to it, and the TLV entry points to it as its last (and, if it is the
first, as its first) value. -/
def dlep_parser_add_value (parser : dlep_session_parser_data) (tlv : dlep_parser_tlv)
    (index length : Nat) : dlep_session_parser_data :=
  let linked :=
    if tlv.tlv_last = -1 then
      parser.values
    else
      match parser.values[tlv.tlv_last.toNat]? with
      | some last =>
        parser.values.set tlv.tlv_last.toNat
          ⟨(parser.values.length : Int), last.index, last.length⟩
      | none => parser.values
  { parser with
    values := linked ++ [⟨-1, index, length⟩]
    allowed_tlvs :=
      parser.allowed_tlvs.map (fun t =>
        if t.id = tlv.id then
          ⟨t.id, if t.tlv_first = -1 then (parser.values.length : Int) else t.tlv_first,
            (parser.values.length : Int), t.length_min, t.length_max, t.remove⟩
        else t) }

/-- Modelled from the spec: the single pass of the session parser over the
TLVs of one signal, steps 1 to 5 of section 4.4, from the byte `pos` of the
signal on; `bytes` are the bytes from there. Every round consumes at least
four bytes, so a `fuel` of the number of bytes is never used up. -/
def dlep_parser_parse_loop :
    Nat → dlep_session_parser_data → Nat → List Nat →
      dlep_session_parser_data × dlep_parser_error
  | 0, parser, _, bytes =>
    if bytes = [] then (parser, .DLEP_NEW_PARSER_OKAY)
    else (parser, .DLEP_NEW_PARSER_INTERNAL_ERROR)
  | fuel + 1, parser, pos, bytes =>
    if bytes = [] then
      (parser, .DLEP_NEW_PARSER_OKAY)
    else
      match dlep_signal_header bytes with
      | none => (parser, .DLEP_NEW_PARSER_INCOMPLETE_TLV_HEADER)
      | some (tlv_type, tlv_length) =>
        if bytes.length - 4 < tlv_length then
          (parser, .DLEP_NEW_PARSER_INCOMPLETE_TLV)
        else
          match parser.allowed_tlvs.find? (fun t => t.id = tlv_type) with
          | none => (parser, .DLEP_NEW_PARSER_UNSUPPORTED_TLV)
          | some tlv =>
            if tlv_length < tlv.length_min ∨ tlv.length_max < tlv_length then
              (parser, .DLEP_NEW_PARSER_ILLEGAL_TLV_LENGTH)
            else
              dlep_parser_parse_loop fuel
                (dlep_parser_add_value parser tlv (pos + 4) tlv_length)
                (pos + 4 + tlv_length) (bytes.drop (4 + tlv_length))

/-- Modelled from the spec: "verify every TLV declared
mandatory-for-this-signal has `first != -1`". -/
def dlep_parser_check_mandatory (parser : dlep_session_parser_data)
    (extensions : List dlep_extension) (signal_type : Nat) : Bool :=
  extensions.all (fun ext =>
    ext.tlvs.all (fun declared =>
      if signal_type ∈ declared.mandatory_in_signals then
        match parser.allowed_tlvs.find? (fun t => t.id = declared.id) with
        | some tlv => decide (tlv.tlv_first ≠ -1)
        | none => false
      else true))

/-- Modelled from the spec: "if a non-repeating TLV was seen twice":
a TLV that may not repeat in the signal has at most one value, its first
value is its last. -/
def dlep_parser_check_duplicate (parser : dlep_session_parser_data)
    (extensions : List dlep_extension) (signal_type : Nat) : Bool :=
  extensions.all (fun ext =>
    ext.tlvs.all (fun declared =>
      if signal_type ∈ declared.may_repeat_in_signals then true
      else
        match parser.allowed_tlvs.find? (fun t => t.id = declared.id) with
        | some tlv => decide (tlv.tlv_first = tlv.tlv_last)
        | none => true))

/-- Modelled from the spec: the session parser (section 4.4) for the TLVs
of one signal (`dlep_session.c`, not among the sources): the value table is
emptied, `tlv_ptr` points at the first TLV byte, the TLVs are parsed in a
single pass, then the mandatory and the duplicate TLVs of the signal are
checked against the declarations of the active extensions. -/
def dlep_session_parse_tlvs (extensions : List dlep_extension) (session : dlep_session)
    (signal_type : Nat) (tlvs : List Nat) : dlep_session × dlep_parser_error :=
  let fresh : dlep_session_parser_data :=
    { allowed_tlvs :=
        session.parser.allowed_tlvs.map (fun t =>
          ⟨t.id, -1, -1, t.length_min, t.length_max, t.remove⟩)
      values := []
      tlv_ptr := tlvs }
  let parsed := dlep_parser_parse_loop tlvs.length fresh 0 tlvs
  if parsed.2 ≠ .DLEP_NEW_PARSER_OKAY then
    ({ session with parser := parsed.1 }, parsed.2)
  else if !dlep_parser_check_mandatory parsed.1 extensions signal_type then
    ({ session with parser := parsed.1 }, .DLEP_NEW_PARSER_MISSING_MANDATORY_TLV)
  else if !dlep_parser_check_duplicate parsed.1 extensions signal_type then
    ({ session with parser := parsed.1 }, .DLEP_NEW_PARSER_DUPLICATE_TLV)
  else
    ({ session with parser := parsed.1 }, .DLEP_NEW_PARSER_OKAY)

/-- The positions in a list of TLVs of those with the type `id`, in
order. -/
def tlv_positions (tlvs : List (Nat × List Nat)) (id : Nat) : List Nat :=
  (List.range tlvs.length).filter (fun i => decide ((tlvs[i]?).map (fun tlv => tlv.1) = some id))

/-- Where the values of a list of TLVs lie in the bytes written for them
from the byte `pos` on: index of the first value byte and length, for each
TLV in order. -/
def tlv_records : Nat → List (Nat × List Nat) → List (Nat × Nat)
  | _, [] => []
  | pos, tlv :: rest => (pos + 4, tlv.2.length) :: tlv_records (pos + 4 + tlv.2.length) rest

/-- The bytes the writer produced for a signal: what `out` holds behind the
bytes that were there before the signal. -/
def dlep_written_signal (writer : dlep_writer) (signal_type : Nat)
    (tlvs : List (Nat × List Nat)) : List Nat :=
  (dlep_writer_write_signal writer signal_type tlvs).1.out.drop writer.out.length

/-- The processing of one complete signal by the session parser, as
`dlep_session_process_signal` hands it on: 0 when the parser accepts the
TLVs, -1 when it returns an error. -/
def dlep_session_process_tlvs (extensions : List dlep_extension) (session : dlep_session)
    (signal_type : Nat) (tlvs : List Nat) : dlep_session × Int :=
  let parsed := dlep_session_parse_tlvs extensions session signal_type tlvs
  (parsed.1, if parsed.2 = .DLEP_NEW_PARSER_OKAY then 0 else -1)

/-- The part of an entry of the allowed-TLV map that parsing leaves alone:
the entry with its chain emptied. -/
def dlep_parser_tlv_static (tlv : dlep_parser_tlv) : dlep_parser_tlv :=
  ⟨tlv.id, -1, -1, tlv.length_min, tlv.length_max, tlv.remove⟩

/-- A parser holds the TLVs `tlvs`, parsed in this order from byte 0 on: the
value table has one record per TLV, in order, with the index and the length
of its value; the allowed-TLV map is the map `allowed` with its chains set;
and the chain of every allowed TLV links the records of the TLVs of its
type, in order, with `tlv_last` at the last of them. -/
def dlep_parser_holds (allowed : List dlep_parser_tlv) (parser : dlep_session_parser_data)
    (tlvs : List (Nat × List Nat)) : Prop :=
  parser.values.map (fun v => (v.index, v.length)) = tlv_records 0 tlvs ∧
    parser.allowed_tlvs.map dlep_parser_tlv_static = allowed.map dlep_parser_tlv_static ∧
    ∀ t ∈ parser.allowed_tlvs,
      dlep_parser_chain parser.values t.tlv_first (tlv_positions tlvs t.id) ∧
        t.tlv_last = (((tlv_positions tlvs t.id).getLast?).map (fun k => (k : Int))).getD (-1)

/-! ## The radio as a transition system -/

/-- The ack-timeout discipline for one local neighbor: in `UP_SENT` or
`DOWN_SENT` the ack-timeout timer is armed. -/
def ack_timer_ok (loc : dlep_local_neighbor) : Prop :=
  (loc.state = .DLEP_NEIGHBOR_UP_SENT ∨ loc.state = .DLEP_NEIGHBOR_DOWN_SENT) →
    loc._ack_timeout.is_armed = true

instance ack_timer_ok_decidable : DecidablePred ack_timer_ok :=
  fun loc => by unfold ack_timer_ok; infer_instance

/-- The ack-timeout discipline for every entry of a destination table. -/
def session_acks_armed (session : dlep_session) : Prop :=
  ∀ loc ∈ session.local_neighbor_tree, ack_timer_ok loc

instance session_acks_armed_decidable : DecidablePred session_acks_armed :=
  fun session => by unfold session_acks_armed; infer_instance

/-- The ack-timeout discipline for the sessions of one radio interface: the
interface's own session and the sessions of its session tree. -/
def radio_if_acks_armed (radio_if : dlep_radio_if) : Prop :=
  session_acks_armed radio_if.interf.session ∧
    ∀ radio_session ∈ radio_if.interf.session_tree,
      session_acks_armed radio_session.session

instance radio_if_acks_armed_decidable : DecidablePred radio_if_acks_armed :=
  fun radio_if => by unfold radio_if_acks_armed; infer_instance

/-- The ack-timeout discipline for every session of every radio interface. -/
def radio_acks_armed (radio_ifs : List dlep_radio_if) : Prop :=
  ∀ radio_if ∈ radio_ifs, radio_if_acks_armed radio_if

instance radio_acks_armed_decidable : DecidablePred radio_acks_armed :=
  fun radio_ifs => by unfold radio_acks_armed; infer_instance

/-- Initial states of the radio: no session has a local neighbor yet. -/
def radio_initial (radio_ifs : List dlep_radio_if) : Prop :=
  ∀ radio_if ∈ radio_ifs,
    radio_if.interf.session.local_neighbor_tree = [] ∧
      ∀ radio_session ∈ radio_if.interf.session_tree,
        radio_session.session.local_neighbor_tree = []

instance radio_initial_decidable : DecidablePred radio_initial :=
  fun radio_ifs => by unfold radio_initial; infer_instance

/-- Steps of one session: an inbound PEER_INITIALIZATION, DESTINATION_UP_ACK
or DESTINATION_DOWN_ACK is processed, or the ack-timeout timer of an entry
expires (it has to be armed to do so). -/
inductive session_step : dlep_session → dlep_session → Prop
  | peer_init (env : dlep_env) (l2db : List oonf_layer2_net) (rx : dlep_signal_values)
      (session : dlep_session) :
      session_step session (_radio_process_peer_init env l2db rx session).1
  | destination_up_ack (env : dlep_env) (rx : dlep_signal_values)
      (session result : dlep_session) (rc : Int) :
      _radio_process_destination_up_ack env rx session = some (result, rc) →
      session_step session result
  | destination_down_ack (rx : dlep_signal_values)
      (session result : dlep_session) (rc : Int) :
      _radio_process_destination_down_ack rx session = some (result, rc) →
      session_step session result
  | ack_timeout (session : dlep_session) (loc : dlep_local_neighbor) :
      loc ∈ session.local_neighbor_tree →
      loc._ack_timeout.is_armed = true →
      session_step session (_cb_destination_timeout session loc)

/-- Steps of the radio: a layer-2 callback runs, or one session of one
interface (its own session or a session of its tree) takes a step. -/
inductive radio_step : List dlep_radio_if → List dlep_radio_if → Prop
  | l2_neigh_added (env : dlep_env) (radio_ifs : List dlep_radio_if)
      (l2neigh : oonf_layer2_neigh) :
      radio_step radio_ifs (_cb_l2_neigh_added env radio_ifs l2neigh)
  | l2_neigh_changed (env : dlep_env) (radio_ifs : List dlep_radio_if)
      (l2neigh : oonf_layer2_neigh) :
      radio_step radio_ifs (_cb_l2_neigh_changed env radio_ifs l2neigh)
  | l2_neigh_removed (env : dlep_env) (radio_ifs : List dlep_radio_if)
      (l2neigh : oonf_layer2_neigh) :
      radio_step radio_ifs (_cb_l2_neigh_removed env radio_ifs l2neigh)
  | l2_dst_added (env : dlep_env) (radio_ifs : List dlep_radio_if)
      (l2dst : oonf_layer2_destination) :
      radio_step radio_ifs (_cb_l2_dst_added env radio_ifs l2dst)
  | l2_dst_removed (env : dlep_env) (radio_ifs : List dlep_radio_if)
      (l2dst : oonf_layer2_destination) :
      radio_step radio_ifs (_cb_l2_dst_removed env radio_ifs l2dst)
  | own_session (before after : List dlep_radio_if) (radio_if : dlep_radio_if)
      (result : dlep_session) :
      session_step radio_if.interf.session result →
      radio_step (before ++ radio_if :: after)
        (before ++
          { radio_if with interf := { radio_if.interf with session := result } } :: after)
  | tree_session (before after : List dlep_radio_if) (radio_if : dlep_radio_if)
      (front back : List dlep_radio_session) (radio_session : dlep_radio_session)
      (result : dlep_session) :
      radio_if.interf.session_tree = front ++ radio_session :: back →
      session_step radio_session.session result →
      radio_step (before ++ radio_if :: after)
        (before ++
          { radio_if with
            interf :=
              { radio_if.interf with
                session_tree := front ++ { radio_session with session := result } :: back } }
            :: after)

/-- States of the radio reachable from an initial state. -/
inductive radio_reachable : List dlep_radio_if → Prop
  | init (radio_ifs : List dlep_radio_if) :
      radio_initial radio_ifs → radio_reachable radio_ifs
  | step (radio_ifs next : List dlep_radio_if) :
      radio_reachable radio_ifs → radio_step radio_ifs next → radio_reachable next

/-! ## Example data -/

/-- The MAC address aa:bb:cc:dd:ee:ff. -/
def mac_aabb : netaddr := ⟨.AF_MAC48, 0xaabbccddeeff, 48⟩

/-- The MAC address 02:00:00:00:00:01. -/
def mac_0201 : netaddr := ⟨.AF_MAC48, 0x020000000001, 48⟩

/-- An environment in which every signal can be written, every entry can be
created and the extension update keeps no extension. -/
def env_ok : dlep_env := ⟨fun _ _ _ => true, fun _ _ => true, fun _ _ => some []⟩

/-- A session configuration with heartbeat interval 5000 ms. -/
def cfg_5000 (send_neighbors send_proxied : Bool) : dlep_session_config :=
  ⟨some "radio1", 0, 5000, send_neighbors, send_proxied⟩

/-- A fresh session on interface wlan0 in steady state. -/
def session_fresh (send_neighbors send_proxied : Bool) : dlep_session :=
  { cfg := cfg_5000 send_neighbors send_proxied
    restrict_signal := .DLEP_ALL_SIGNALS
    next_restrict_signal := .DLEP_ALL_SIGNALS
    extensions := []
    local_neighbor_tree := []
    l2_listener_name := "wlan0"
    local_event_timer := .stopped
    remote_heartbeat_timeout := .stopped
    remote_heartbeat_interval := 5000
    generated := [] }

/-- A radio interface wlan0 with one TCP session. -/
def radio_wlan0 (send_neighbors send_proxied : Bool) : dlep_radio_if :=
  ⟨⟨"wlan0", session_fresh send_neighbors send_proxied,
    [⟨session_fresh send_neighbors send_proxied⟩]⟩⟩

/-- The layer-2 neighbor aa:bb:cc:dd:ee:ff on wlan0, without proxied
destinations. -/
def l2neigh_aabb : oonf_layer2_neigh :=
  { addr := mac_aabb, network_name := "wlan0", destinations := [] }

/-- The layer-2 neighbor aa:bb:cc:dd:ee:ff on wlan0 with the proxied
destination 02:00:00:00:00:01. -/
def l2neigh_aabb_proxy : oonf_layer2_neigh :=
  { addr := mac_aabb, network_name := "wlan0", destinations := [mac_0201] }

/-- The proxied layer-2 destination 02:00:00:00:00:01 behind
aa:bb:cc:dd:ee:ff. -/
def l2dst_0201 : oonf_layer2_destination := ⟨mac_0201, l2neigh_aabb_proxy⟩

/-- The trace entry of a written signal for aa:bb:cc:dd:ee:ff. -/
def generated_aabb (signal : dlep_signals) : dlep_generated :=
  ⟨signal, some mac_aabb, true⟩

/-- A session (send_neighbors set) whose local neighbor aa:bb:cc:dd:ee:ff is
in UP_SENT with its ack timer running: the session after a layer-2 change
event for that neighbor. -/
def session_up_sent : dlep_session :=
  { session_fresh true false with
    local_neighbor_tree :=
      [⟨mac_aabb, .DLEP_NEIGHBOR_UP_SENT, false, mac_aabb, .armed 10000⟩]
    generated := [generated_aabb .DLEP_DESTINATION_UP] }

/-- A session (send_neighbors set) whose local neighbor aa:bb:cc:dd:ee:ff is
in DOWN_SENT with its ack timer running. -/
def session_down_sent : dlep_session :=
  { session_fresh true false with
    local_neighbor_tree :=
      [⟨mac_aabb, .DLEP_NEIGHBOR_DOWN_SENT, false, netaddr.zero, .armed 10000⟩]
    generated :=
      [generated_aabb .DLEP_DESTINATION_UP, generated_aabb .DLEP_DESTINATION_DOWN] }

/-- An acknowledgement for aa:bb:cc:dd:ee:ff with the given status. -/
def rx_ack_aabb (status : dlep_status) : dlep_signal_values :=
  ⟨none, some mac_aabb, status, none⟩

/-- A PEER_INITIALIZATION with heartbeat interval 3000 ms and no extension
TLV. -/
def rx_peer_init : dlep_signal_values :=
  ⟨some 3000, none, .DLEP_STATUS_OKAY, none⟩

/-- A fresh session on wlan0 waiting for the PEER_INITIALIZATION. -/
def session_waiting (send_neighbors send_proxied : Bool) : dlep_session :=
  { session_fresh send_neighbors send_proxied with
    restrict_signal := .DLEP_PEER_INITIALIZATION }

/-- The layer-2 database with the network wlan0 and its neighbor
aa:bb:cc:dd:ee:ff with one proxied destination. -/
def l2db_wlan0 : List oonf_layer2_net := [⟨"wlan0", [l2neigh_aabb_proxy]⟩]

/-- The radio interface wlan0 with one TCP session in the given state. -/
def radio_wlan0_with (session : dlep_session) : dlep_radio_if :=
  ⟨⟨"wlan0", session_fresh true false, [⟨session⟩]⟩⟩

/-- A router session on wlan0 with heartbeat interval 5000 ms, discovery
interval 1000 ms and peer type "router1", in the given state of the
handshake. -/
def session_router (restrict_signal : dlep_signals) : dlep_session :=
  { cfg := ⟨some "router1", 1000, 5000, true, false⟩
    restrict_signal := restrict_signal
    next_restrict_signal := restrict_signal
    extensions := []
    local_neighbor_tree := []
    l2_listener_name := "wlan0"
    local_event_timer := .stopped
    remote_heartbeat_timeout := .stopped
    remote_heartbeat_interval := 0
    generated := []
    l2_origin := 7
    l2_listener_index := 3 }

/-- An environment in which no local neighbor can be created. -/
def env_no_alloc : dlep_env := ⟨fun _ _ _ => true, fun _ _ => false, fun _ _ => some []⟩

/-- In a state of a session, a DESTINATION_UP for `mac` is in the trace at
or after position `start` and the local neighbor `mac` is in UP_SENT. -/
def destination_up_sent (mac : netaddr) (start : Nat) (session : dlep_session) : Prop :=
  start ≤ session.generated.length ∧
    (∃ g ∈ session.generated.drop start,
      g.signal = .DLEP_DESTINATION_UP ∧ g.neighbor = some mac) ∧
    ∃ loc, dlep_session_get_local_neighbor session mac = some loc ∧
      loc.state = .DLEP_NEIGHBOR_UP_SENT

/-- A layer-2 database in which networks and neighbors can be created;
neighbors have four data fields. -/
def l2env_ok : oonf_layer2_env := ⟨fun _ _ => true, fun _ _ => true, 4⟩

/-- A layer-2 database in which networks can be created, but no
neighbors. -/
def l2env_no_neigh : oonf_layer2_env := ⟨fun _ _ => true, fun _ _ => false, 4⟩

/-- A destination signal for aa:bb:cc:dd:ee:ff. -/
def rx_destination_aabb : dlep_signal_values :=
  ⟨none, some mac_aabb, .DLEP_STATUS_OKAY, none⟩

/-- Two metric TLVs, mapped to the data fields 1 and 2. -/
def metrics_aabb : List (Nat × Option Int) := [(1, some 54000000), (2, some 11000000)]

/-- The layer-2 neighbor aa:bb:cc:dd:ee:ff on wlan0 as the router session
with origin 7 enters it for `metrics_aabb`. -/
def l2neigh_router_aabb : oonf_layer2_neigh :=
  { addr := mac_aabb, network_name := "wlan0", destinations := [],
    data := [⟨false, 0, 0⟩, ⟨true, 54000000, 7⟩, ⟨true, 11000000, 7⟩, ⟨false, 0, 0⟩] }

/-- The layer-2 neighbor 02:00:00:00:00:01 on wlan0, entered by origin 9. -/
def l2neigh_router_0201 : oonf_layer2_neigh :=
  { addr := mac_0201, network_name := "wlan0", destinations := [],
    data := [⟨true, 1, 9⟩, ⟨false, 0, 0⟩, ⟨false, 0, 0⟩, ⟨false, 0, 0⟩] }

/-- The non-TLS connection points of a list, in TLV order. -/
def conpoints_without_tls (values : List dlep_conpoint) : List dlep_conpoint :=
  values.filter (fun c => !c.tls)

/-- The remote endpoint of a PEER_OFFER in the words of the specification:
among the non-TLS connection points the first link-local IPV6_CONPOINT in
TLV order, else the first IPV6_CONPOINT, else the first IPV4_CONPOINT, else
the address of the sender. -/
def peer_offer_endpoint_spec (v6 v4 : List dlep_conpoint) (sender : netaddr) : netaddr :=
  match (conpoints_without_tls v6).find?
      (fun c => netaddr_is_in_subnet NETADDR_IPV6_LINKLOCAL c.addr) with
  | some c => c.addr
  | none =>
    match (conpoints_without_tls v6).head? with
    | some c => c.addr
    | none =>
      match (conpoints_without_tls v4).head? with
      | some c => c.addr
      | none => sender

/-- The remote endpoint of a PEER_OFFER with the last link-local
IPV6_CONPOINT in the place of the first: among the non-TLS connection points
the last link-local IPV6_CONPOINT in TLV order, else the first
IPV6_CONPOINT, else the first IPV4_CONPOINT, else the address of the
sender. -/
def peer_offer_endpoint (v6 v4 : List dlep_conpoint) (sender : netaddr) : netaddr :=
  match (conpoints_without_tls v6).reverse.find?
      (fun c => netaddr_is_in_subnet NETADDR_IPV6_LINKLOCAL c.addr) with
  | some c => c.addr
  | none =>
    match (conpoints_without_tls v6).head? with
    | some c => c.addr
    | none =>
      match (conpoints_without_tls v4).head? with
      | some c => c.addr
      | none => sender

/-- The address fe80::1. -/
def addr_fe80_1 : netaddr := ⟨.AF_INET6, 0xfe80 * 2 ^ 112 + 1, 128⟩

/-- The address fe80::2. -/
def addr_fe80_2 : netaddr := ⟨.AF_INET6, 0xfe80 * 2 ^ 112 + 2, 128⟩

/-- The address 2001:db8::1. -/
def addr_2001_db8_1 : netaddr := ⟨.AF_INET6, 0x20010db8 * 2 ^ 96 + 1, 128⟩

/-- The address 10.0.0.1. -/
def addr_10_0_0_1 : netaddr := ⟨.AF_INET, 0x0a000001, 32⟩

/-- An interface with the prefixes fe80::/64 and 10.0.0.0/24, which belongs
to the router interface of the session. -/
def renv_wlan0 : dlep_router_env :=
  ⟨fun dst =>
      if dst._type = .AF_INET6 then some ⟨.AF_INET6, 0xfe80 * 2 ^ 112, 64⟩
      else if dst._type = .AF_INET then some ⟨.AF_INET, 0x0a000000, 24⟩
      else none,
    fun _ => some true⟩

/-- A router session in discovery on wlan0 that received a signal from
10.0.0.1. -/
def session_discovery : dlep_session :=
  { session_router .DLEP_PEER_OFFER with remote_socket := ⟨addr_10_0_0_1, some 854, 3⟩ }

/-- A session whose parser holds three values: the records 0 and 2 are the
chain of one TLV, the record 1 is the only value of another. -/
def session_parsed : dlep_session :=
  { session_router .DLEP_ALL_SIGNALS with
    parser :=
      { allowed_tlvs := [⟨7, 0, 2, 6, 6, false⟩, ⟨5, 1, 1, 2, 2, false⟩, ⟨9, -1, -1, 1, 1, false⟩]
        values := [⟨2, 4, 6⟩, ⟨-1, 14, 2⟩, ⟨-1, 20, 6⟩]
        tlv_ptr := [] } }

/-- A processing of signals that accepts every signal and leaves the
session as it is. -/
def process_accept (session : dlep_session) (_signal_type : Nat) (_tlvs : List Nat) :
    dlep_session × Int :=
  (session, 0)

/-- A receive buffer with a heartbeat signal without TLVs, a signal with six
bytes of TLVs, and the first five bytes of a signal that declares eight
bytes of TLVs. -/
def buffer_example : List Nat :=
  [0, 16, 0, 0, 0, 10, 0, 6, 0, 7, 0, 2, 1, 2, 0, 11, 0, 8, 0]

/-- A base protocol with the TLVs 1 (status, 1 byte or more, may repeat in
the signal 8), 5 (heartbeat interval, 2 bytes, mandatory in the signal 3)
and 7 (MAC address, 6 bytes, mandatory in the signal 8). -/
def extension_base : dlep_extension :=
  ⟨0, [⟨1, 1, 255, [], [8]⟩, ⟨5, 2, 2, [3], []⟩, ⟨7, 6, 6, [8], []⟩]⟩

/-- The extension 42 with the TLVs 7 (as the base protocol has it) and
20. -/
def extension_42 : dlep_extension :=
  ⟨42, [⟨7, 6, 6, [], []⟩, ⟨20, 4, 4, [], [8]⟩]⟩

/-- The extension 99 with the TLV 30. -/
def extension_99 : dlep_extension :=
  ⟨99, [⟨30, 1, 1, [], []⟩]⟩

/-- A session whose allowed-TLV map has the TLVs of the base protocol and of
the extension 99. -/
def session_allowed : dlep_session :=
  { session_router .DLEP_ALL_SIGNALS with
    parser :=
      { allowed_tlvs :=
          [⟨1, -1, -1, 1, 255, false⟩, ⟨5, -1, -1, 2, 2, false⟩, ⟨7, -1, -1, 6, 6, false⟩,
            ⟨30, -1, -1, 1, 1, false⟩] } }

/-- An extension with the TLV 40 of up to 65535 bytes. -/
def extension_large : dlep_extension :=
  ⟨0, [⟨40, 0, 65535, [], [8]⟩]⟩

/-- A session whose allowed-TLV map has the TLV 40 of up to 65535 bytes. -/
def session_large : dlep_session :=
  { session_router .DLEP_ALL_SIGNALS with
    parser := { allowed_tlvs := [⟨40, -1, -1, 0, 65535, false⟩] } }

/-- A TLV is allowed in the session: its type is a u16 found in the
allowed-TLV map, its length lies within the bounds of the entry, and its
value is made of bytes. -/
def tlv_allowed (session : dlep_session) (tlv : Nat × List Nat) : Prop :=
  tlv.1 < 65536 ∧ (∀ b ∈ tlv.2, b < 256) ∧
    ∃ entry, session.parser.allowed_tlvs.find? (fun t => t.id = tlv.1) = some entry ∧
      entry.length_min ≤ tlv.2.length ∧ tlv.2.length ≤ entry.length_max

/-- An environment in which no signal can be written. -/
def env_no_write : dlep_env := ⟨fun _ _ _ => false, fun _ _ => true, fun _ _ => some []⟩

/-- An environment in which the update of the extensions fails. -/
def env_no_extensions : dlep_env := ⟨fun _ _ _ => true, fun _ _ => true, fun _ _ => none⟩

/-- Between two states of a session the configuration, the heartbeat
interval of the peer, the restriction of the next signal and the interface
name are the same, and the trace grew by DESTINATION_UP signals only. -/
def destination_ups_only (before after : dlep_session) : Prop :=
  after.cfg = before.cfg ∧
    after.remote_heartbeat_interval = before.remote_heartbeat_interval ∧
    after.next_restrict_signal = before.next_restrict_signal ∧
    after.l2_listener_name = before.l2_listener_name ∧
    ∃ ups : List dlep_generated,
      after.generated = before.generated ++ ups ∧
        ∀ g ∈ ups, g.signal = .DLEP_DESTINATION_UP

end Dlep

namespace Remotecontrol

/-! ## Telnet remote control (`lib/remotecontrol/src/remotecontrol.c`) -/

/-- Modelled from the spec: `isblank` of the C library: space or tab. -/
def isblank (c : Char) : Bool :=
  c = Char.ofNat 32 || c = Char.ofNat 9

/-- Skip the blanks at the start of a C string. -/
def skip_blanks : List Char → List Char
  | [] => []
  | c :: rest => if isblank c then skip_blanks rest else c :: rest

/-- The comparison loop of `str_hasnextword`: the rest of `buffer` after
`word`, compared without regard to case, if all of `word` is there. -/
def match_word : List Char → List Char → Option (List Char)
  | [], buffer => some buffer
  | _ :: _, [] => none
  | w :: word, b :: buffer =>
    if !isblank b && w.toLower = b.toLower then match_word word buffer else none

/-- Modelled from the spec: `str_hasnextword(buffer, word)` of
`common/string.c` (not among the sources): if the first word of `buffer`
(after blanks) is `word`, the pointer behind it and the blanks that follow,
else NULL. -/
def str_hasnextword (buffer : List Char) (word : String) : Option (List Char) :=
  match match_word word.toList (skip_blanks buffer) with
  | none => none
  | some rest =>
    match rest with
    | [] => some []
    | c :: _ => if isblank c then some (skip_blanks rest) else none

/-- Modelled from the spec: the tables `LOG_SEVERITY_NAMES` (with
`LOG_SEVERITY_COUNT` entries) and `LOG_SOURCE_NAMES` (with
`olsr_log_get_sourcecount()` entries) of `olsr_logging.h` (not among the
sources). -/
structure log_tables where
  LOG_SEVERITY_NAMES : List String
  LOG_SOURCE_NAMES : List String

/-- Result constants of a telnet command (`enum olsr_telnet_result` of
`olsr_telnet.h`), those the handlers of this file return. -/
inductive olsr_telnet_result
  | TELNET_RESULT_ACTIVE
  | TELNET_RESULT_CONTINOUS
  | TELNET_RESULT_INTERNAL_ERROR
  | TELNET_RESULT_UNKNOWN_COMMAND
deriving DecidableEq, Repr

/-- The loop `for (i = 0; i < count; i++) { if ((next = str_hasnextword(param,
NAMES[i])) != NULL) break; }` from index `i` on: the first index whose name is
the next word of `param`, with `next`; `none` when the loop ends with
`i == count`. -/
def find_nextword (param : List Char) : List String → Nat → Option (Nat × List Char)
  | [], _ => none
  | name :: names, i =>
    match str_hasnextword param name with
    | some next => some (i, next)
    | none => find_nextword param names (i + 1)

/-- The assignment `mask[src].log_for_severity[sev] = value`. -/
def mask_set (mask : List (List Bool)) (src sev : Nat) (value : Bool) : List (List Bool) :=
  mask.set src ((mask.getD src []).set sev value)

/-- What a call of `_update_logfilter` leaves behind: the text appended to
`data->out`, the mask, whether `olsr_log_updatemask` was called, and the
return value. -/
structure logfilter_result where
  out : List String
  mask : List (List Bool)
  updated : Bool
  result : olsr_telnet_result
deriving DecidableEq, Repr

/-- The loop `while (param && *param)` of `_update_logfilter` over the
sources of the command, for the severity `sev`. Every round consumes at
least one character of `param`; `none` only when `fuel` rounds did not
suffice. -/
def _update_logfilter_sources (tables : log_tables) (sev : Nat) :
    Nat → List String → List (List Bool) → List Char → Bool → Option logfilter_result
  | fuel, out, mask, param, value =>
    if param = [] then
      -- olsr_log_updatemask()
      some ⟨out, mask, true, .TELNET_RESULT_ACTIVE⟩
    else
      match fuel with
      | 0 => none
      | fuel + 1 =>
        match find_nextword param tables.LOG_SOURCE_NAMES 0 with
        | some (src, next) =>
          _update_logfilter_sources tables sev fuel out (mask_set mask src sev value) next
            false
        | none =>
          some ⟨out ++ ["Error, unknown logging source: " ++ String.mk param ++ "\n"],
            mask, false, .TELNET_RESULT_ACTIVE⟩

/-- Update the remotecontrol logging filter (`_update_logfilter`). `param`
are the parameters of the log add/log remove command, `value` is true if
new sources should be added, false if they should be removed. -/
def _update_logfilter (tables : log_tables) (out : List String) (mask : List (List Bool))
    (param : List Char) (value : Bool) : Option logfilter_result :=
  match find_nextword param tables.LOG_SEVERITY_NAMES 0 with
  | none =>
    some ⟨out ++ ["Error, unknown severity level: " ++ String.mk param ++ "\n"], mask,
      false, .TELNET_RESULT_ACTIVE⟩
  | some (sev, next) =>
    _update_logfilter_sources tables sev (next.length + 1) out mask next value

/-- The branches of `_cb_handle_log` for the commands `log add` and `log
remove`, which come after the branches for no parameter and for `log show`:
`parameter` is `data->parameter` and `mask` is `rc_session->mask`. -/
def _cb_handle_log_update (tables : log_tables) (out : List String)
    (mask : List (List Bool)) (parameter : List Char) : Option logfilter_result :=
  match str_hasnextword parameter "add" with
  | some next => _update_logfilter tables out mask next true
  | none =>
    match str_hasnextword parameter "remove" with
    | some next => _update_logfilter tables out mask next false
    | none => some ⟨out, mask, false, .TELNET_RESULT_UNKNOWN_COMMAND⟩

/-! ### The `config` command -/

/-- The calls `_cb_handle_config` makes into the configuration subsystem
(`olsr_cfg.h`, `cfg_schema.h` and `cfg_cmd.h`), with the rest of the command
where it is passed on. -/
inductive cfg_call
  | cfg_schema_validate
  | olsr_cfg_trigger_commit
  | olsr_cfg_rollback
  | cfg_cmd_handle_format (arg : List Char)
  | cfg_cmd_handle_get (arg : List Char)
  | cfg_cmd_handle_load (arg : List Char)
  | cfg_cmd_handle_remove (arg : List Char)
  | cfg_cmd_handle_save (arg : List Char)
  | cfg_cmd_handle_schema (arg : List Char)
  | cfg_cmd_handle_set (arg : List Char)
deriving DecidableEq, Repr

/-- What a call of `_cb_handle_config` leaves behind: the text the handler
itself appended to `data->out`, the calls into the configuration subsystem,
oldest first, and the return value. -/
structure config_result where
  out : List String
  calls : List cfg_call
  result : olsr_telnet_result
deriving DecidableEq, Repr

/-- Handle config command (`_cb_handle_config`). `parameter` is
`data->parameter`, `none` for NULL; `validate` is the return value of
`cfg_schema_validate` on the raw database, 0 when it is valid. -/
def _cb_handle_config (validate : Int) (out : List String)
    (parameter : Option (List Char)) : config_result :=
  match parameter with
  | none => ⟨out ++ ["Error, 'config' needs a parameter\n"], [], .TELNET_RESULT_ACTIVE⟩
  | some [] => ⟨out ++ ["Error, 'config' needs a parameter\n"], [], .TELNET_RESULT_ACTIVE⟩
  | some (c :: rest) =>
    if (str_hasnextword (c :: rest) "commit").isSome then
      if validate = 0 then
        ⟨out, [.cfg_schema_validate, .olsr_cfg_trigger_commit], .TELNET_RESULT_ACTIVE⟩
      else
        ⟨out, [.cfg_schema_validate], .TELNET_RESULT_ACTIVE⟩
    else if (str_hasnextword (c :: rest) "rollback").isSome then
      ⟨out, [.olsr_cfg_rollback], .TELNET_RESULT_ACTIVE⟩
    else if let some next := str_hasnextword (c :: rest) "format" then
      ⟨out, [.cfg_cmd_handle_format next], .TELNET_RESULT_ACTIVE⟩
    else if let some next := str_hasnextword (c :: rest) "get" then
      ⟨out, [.cfg_cmd_handle_get next], .TELNET_RESULT_ACTIVE⟩
    else if let some next := str_hasnextword (c :: rest) "load" then
      ⟨out, [.cfg_cmd_handle_load next], .TELNET_RESULT_ACTIVE⟩
    else if let some next := str_hasnextword (c :: rest) "remove" then
      ⟨out, [.cfg_cmd_handle_remove next], .TELNET_RESULT_ACTIVE⟩
    else if let some next := str_hasnextword (c :: rest) "save" then
      ⟨out, [.cfg_cmd_handle_save next], .TELNET_RESULT_ACTIVE⟩
    else if let some next := str_hasnextword (c :: rest) "schema" then
      ⟨out, [.cfg_cmd_handle_schema next], .TELNET_RESULT_ACTIVE⟩
    else if let some next := str_hasnextword (c :: rest) "set" then
      ⟨out, [.cfg_cmd_handle_set next], .TELNET_RESULT_ACTIVE⟩
    else
      ⟨out, [], .TELNET_RESULT_UNKNOWN_COMMAND⟩

/-! ### The `route` command -/

/-- The copy loop of `str_cpynextword`: up to `room` characters of the word
at the start of the string, and the rest of the string. -/
def copy_word : Nat → List Char → List Char × List Char
  | 0, src => ([], src)
  | _ + 1, [] => ([], [])
  | room + 1, c :: src =>
    if isblank c then ([], c :: src)
    else ((copy_word room src).1.cons c, (copy_word room src).2)

/-- Modelled from the spec: `str_cpynextword(dst, src, len)` of
`common/string.c` (not among the sources), for `src` not NULL: the word at
the start of `src` (after blanks, at most `len - 1` characters) as it is
copied into `dst`, and the pointer to what follows the copied characters and
the blanks behind them, NULL at the end of `src`. The size `len` of `dst` is
positive. -/
def str_cpynextword (src : List Char) (len : Nat) : List Char × Option (List Char) :=
  let copied := copy_word (len - 1) (skip_blanks src)
  match skip_blanks copied.2 with
  | [] => (copied.1, none)
  | c :: rest => (copied.1, some (c :: rest))

/-- The digits at the start of a string as a number, most significant
first, from the value `acc` on. -/
def atoi_digits : List Char → Nat → Nat
  | [], acc => acc
  | c :: rest, acc => if c.isDigit then atoi_digits rest (acc * 10 + (c.toNat - 48)) else acc

/-- Modelled from the spec: `atoi` of the C library: white space, an
optional sign and the decimal digits that follow; 0 if there are none.
Values outside of `int` are not cut. -/
def atoi : List Char → Int
  | [] => 0
  | c :: rest =>
    if c.isWhitespace then atoi rest
    else if c = '-' then - (atoi_digits rest 0 : Int)
    else if c = '+' then (atoi_digits rest 0 : Int)
    else (atoi_digits (c :: rest) 0 : Int)

/-- The arguments of the call `os_routing_set(src, gw, dst, rttable,
if_index, metric, protocol, set, del_similar)`; `src` is `none` for NULL. -/
structure os_routing_set_args where
  src : Option Dlep.netaddr
  gw : Dlep.netaddr
  dst : Dlep.netaddr
  rttable : Int
  if_index : Nat
  metric : Int
  protocol : Int
  set : Bool
  del_similar : Bool
deriving DecidableEq, Repr

/-- Modelled from the spec: what `_cb_handle_route` asks of the rest of the
program: `sizeof(struct netaddr_str)`, `netaddr_from_string` (`none` when it
fails), `if_nametoindex` (0 for an unknown interface) and the return value
of `os_routing_set`. -/
structure route_env where
  netaddr_str_size : Nat
  netaddr_from_string : List Char → Option Dlep.netaddr
  if_nametoindex : List Char → Nat
  os_routing_set : os_routing_set_args → Int

/-- The local variables `src`, `gw`, `dst`, `table`, `protocol`, `metric`
and `if_index` of `_cb_handle_route`. -/
structure route_locals where
  src : Dlep.netaddr
  gw : Dlep.netaddr
  dst : Dlep.netaddr
  table : Int
  protocol : Int
  metric : Int
  if_index : Nat
deriving DecidableEq, Repr

/-- The local variables of `_cb_handle_route` as they are initialised:
`table = 0, protocol = 4, metric = -1, if_index = 0` and zeroed
addresses. -/
def route_locals_initial : route_locals :=
  ⟨Dlep.netaddr.zero, Dlep.netaddr.zero, Dlep.netaddr.zero, 0, 4, -1, 0⟩

/-- How one round of the loop `while (ptr)` of `_cb_handle_route` ends: with
an error text and `return TELNET_RESULT_ACTIVE`, or with the local variables
and `ptr` for the next round. -/
inductive route_round
  | error (text : String)
  | next (locals : route_locals) (ptr : Option (List Char))
deriving DecidableEq, Repr

/-- One round of the loop `while (ptr)` of `_cb_handle_route`, for `ptr` not
NULL: the chain of `if ((next = str_hasnextword(ptr, ...)))`. -/
def _cb_handle_route_option (renv : route_env) (locals : route_locals) (ptr : List Char) :
    route_round :=
  if let some next := str_hasnextword ptr "src" then
    let word := str_cpynextword next renv.netaddr_str_size
    match renv.netaddr_from_string word.1 with
    | none => .error ("Error, illegal source: " ++ String.mk word.1)
    | some addr => .next { locals with src := addr } word.2
  else if let some next := str_hasnextword ptr "gw" then
    let word := str_cpynextword next renv.netaddr_str_size
    match renv.netaddr_from_string word.1 with
    | none => .error ("Error, illegal gateway: " ++ String.mk word.1)
    | some addr => .next { locals with gw := addr } word.2
  else if let some next := str_hasnextword ptr "dst" then
    let word := str_cpynextword next renv.netaddr_str_size
    match renv.netaddr_from_string word.1 with
    | none => .error ("Error, illegal destination: " ++ String.mk word.1)
    | some addr => .next { locals with dst := addr } word.2
  else if let some next := str_hasnextword ptr "table" then
    let word := str_cpynextword next renv.netaddr_str_size
    .next { locals with table := atoi word.1 } word.2
  else if let some next := str_hasnextword ptr "proto" then
    let word := str_cpynextword next renv.netaddr_str_size
    .next { locals with protocol := atoi word.1 } word.2
  else if let some next := str_hasnextword ptr "metric" then
    let word := str_cpynextword next renv.netaddr_str_size
    .next { locals with table := atoi word.1 } word.2
  else if let some next := str_hasnextword ptr "interface" then
    let word := str_cpynextword next renv.netaddr_str_size
    .next { locals with if_index := renv.if_nametoindex word.1 } word.2
  else
    .error ("Cannot parse remainder of parameter string: " ++ String.mk ptr)

/-- The loop `while (ptr)` of `_cb_handle_route`: the error text of the
round that returns, or the local variables after the loop. Every round
consumes at least one character of `ptr`; `none` only when `fuel` rounds did
not suffice. -/
def _cb_handle_route_loop (renv : route_env) :
    Nat → route_locals → Option (List Char) → Option (Except String route_locals)
  | _, locals, none => some (.ok locals)
  | 0, _, some _ => none
  | fuel + 1, locals, some ptr =>
    match _cb_handle_route_option renv locals ptr with
    | .error text => some (.error text)
    | .next locals ptr => _cb_handle_route_loop renv fuel locals ptr

/-- What a call of `_cb_handle_route` leaves behind: the text appended to
`data->out`, the arguments of the call of `os_routing_set` if it is reached,
and the return value. -/
structure route_result where
  out : List String
  call : Option os_routing_set_args
  result : olsr_telnet_result
deriving DecidableEq, Repr

/-- The checks behind the loop of `_cb_handle_route` and the call of
`os_routing_set`. -/
def _cb_handle_route_set (renv : route_env) (out : List String) (set : Bool)
    (locals : route_locals) : route_result :=
  if locals.if_index = 0 then
    ⟨out ++ ["Missing or unknown interface"], none, .TELNET_RESULT_ACTIVE⟩
  else if locals.dst._type ≠ .AF_INET ∧ locals.dst._type ≠ .AF_INET6 then
    ⟨out ++ ["Error, IPv4 or IPv6 destination mandatory"], none, .TELNET_RESULT_ACTIVE⟩
  else if locals.src._type ≠ .AF_UNSPEC ∧ locals.src._type ≠ locals.dst._type then
    ⟨out ++ ["Error, illegal address type of source ip"], none, .TELNET_RESULT_ACTIVE⟩
  else if locals.gw._type = .AF_UNSPEC ∨ locals.gw._type ≠ locals.dst._type then
    ⟨out ++ ["Error, illegal or missing gateway ip"], none, .TELNET_RESULT_ACTIVE⟩
  else
    let args : os_routing_set_args :=
      ⟨if locals.src._type = .AF_UNSPEC then none else some locals.src, locals.gw,
        locals.dst, locals.table, locals.if_index, locals.metric, locals.protocol, set, true⟩
    ⟨out ++ ["set route: " ++ toString (renv.os_routing_set args)], some args,
      .TELNET_RESULT_ACTIVE⟩

/-- The option list of a `route set` or `route remove` command, the pointer
`next` behind the first word: `str_hasnextword(NULL, word)` is NULL. -/
def route_command (parameter : Option (List Char)) : Option (List Char) :=
  match parameter with
  | none => none
  | some parameter =>
    match str_hasnextword parameter "set" with
    | some next => some next
    | none => str_hasnextword parameter "remove"

/-- Handle the route command (`_cb_handle_route`). `parameter` is
`data->parameter`, `none` for NULL; the result is `none` only if the loop
ran out of fuel. -/
def _cb_handle_route (renv : route_env) (out : List String)
    (parameter : Option (List Char)) : Option route_result :=
  match route_command parameter with
  | none => some ⟨out, none, .TELNET_RESULT_UNKNOWN_COMMAND⟩
  | some next =>
    -- strncasecmp(data->parameter, "set", 3) == 0
    let set : Bool :=
      ((parameter.getD []).take 3).map Char.toLower = ['s', 'e', 't']
    match _cb_handle_route_loop renv (next.length + 1) route_locals_initial (some next) with
    | none => none
    | some (.error text) => some ⟨out ++ [text], none, .TELNET_RESULT_ACTIVE⟩
    | some (.ok locals) => some (_cb_handle_route_set renv out set locals)

/-- An environment for the route command: addresses are told apart by a
colon (IPv6) or a dot (IPv4), anything else is no address; the interface
`eth0` has index 2; `os_routing_set` returns 0. -/
def route_env_example : route_env :=
  ⟨62,
    fun s =>
      if s.contains ':' then some ⟨.AF_INET6, s.length, 128⟩
      else if s.contains '.' then some ⟨.AF_INET, s.length, 32⟩
      else none,
    fun s => if s = "eth0".toList then 2 else 0,
    fun _ => 0⟩

/-- The logging tables of the examples: three severities, four sources. -/
def tables_example : log_tables :=
  ⟨["DEBUG", "INFO", "WARN"], ["all", "logging", "config", "main"]⟩

/-- A logging mask for four sources and three severities with nothing
enabled. -/
def mask_none : List (List Bool) := List.replicate 4 [false, false, false]

/-- A logging mask for four sources and three severities with everything
enabled. -/
def mask_all : List (List Bool) := List.replicate 4 [true, true, true]

end Remotecontrol

namespace Nhdp

/-! ## NHDP domains (`src-plugins/nhdp/nhdp/nhdp_domain.c`) -/

/-- Modelled from the spec: constants of `nhdp.h`, `nhdp_domain.h` and
`rfc7181.h` (not among the sources) that `nhdp_domain.c` uses. -/
structure nhdp_constants where
  NHDP_MAXIMUM_DOMAINS : Nat
  RFC7181_METRIC_INFINITE : Nat
  RFC7181_WILLINGNESS_NEVER : Nat
  RFC7181_WILLINGNESS_MASK : Nat
  RFC7181_WILLINGNESS_SHIFT : Nat
  CFG_DOMAIN_NO_METRIC_MPR : String
  CFG_DOMAIN_ANY_METRIC_MPR : String
  RFC7181_MPR_FLOODING : Nat

/-- The largest value of `size_t`, which is what `-1` becomes as a `size_t`;
`size_t` is taken to have 64 bits. -/
def SIZE_MAX : Nat := 2 ^ 64 - 1

/-- Modelled from the spec: `struct nhdp_domain` of `nhdp_domain.h` (not
among the sources), with the fields `nhdp_domain.c` uses. `metric` and `mpr`
are the pointers to the handlers: `none` is `&_no_metric` resp.
`&_everyone_mprs`, `some name` the handler registered under that name. -/
structure nhdp_domain where
  ext : Nat
  index : Nat
  metric : Option String
  mpr : Option String
  metric_name : String
  mpr_name : String
  local_willingness : Nat
  _tmp_willingness : Nat
  neighbor_metric_changed : Bool
deriving DecidableEq, Repr

/-- The static variables of `nhdp_domain.c`: the list of domains, their
counter, the names of the registered metrics and MPR algorithms in tree
order, the flooding domain, and the flag that remembers if the node is MPR.
The listeners are callbacks and are kept apart; the reference counts of the
handlers are left out. -/
structure nhdp_domain_state where
  _domain_list : List nhdp_domain
  _domain_counter : Nat
  _domain_metrics : List String
  _domain_mprs : List String
  _flooding_domain : nhdp_domain
  _node_is_selected_as_mpr : Bool
deriving DecidableEq, Repr

/-- The static variables as the program starts: `_domain_counter = 0`,
`_node_is_selected_as_mpr = false`, everything else zeroed. -/
def nhdp_domain_static : nhdp_domain_state :=
  ⟨[], 0, [], [], ⟨0, 0, none, none, "", "", 0, 0, false⟩, false⟩

/-- Initialize nhdp metric core (`nhdp_domain_init`). -/
def nhdp_domain_init (state : nhdp_domain_state) : nhdp_domain_state :=
  { state with
    _domain_list := []
    _domain_metrics := []
    _domain_mprs := []
    _flooding_domain := { state._flooding_domain with metric := none, mpr := none } }

/-- Number of registered nhdp domains (`nhdp_domain_get_count`). -/
def nhdp_domain_get_count (state : nhdp_domain_state) : Nat :=
  state._domain_counter

/-- NHDP domain registered to this extension, NULL if not found
(`nhdp_domain_get_by_ext`). -/
def nhdp_domain_get_by_ext (state : nhdp_domain_state) (ext : Nat) : Option nhdp_domain :=
  state._domain_list.find? (fun d => d.ext = ext)

/-- Write through a pointer to a domain of the list: the domain with the
`ext` of `domain` becomes `domain`. -/
def nhdp_domain_store (state : nhdp_domain_state) (domain : nhdp_domain) :
    nhdp_domain_state :=
  { state with
    _domain_list := state._domain_list.map (fun d => if d.ext = domain.ext then domain else d) }

/-- Add a new domain to the NHDP system (`nhdp_domain_add`): the new state
and the pointer to the domain, NULL if out of memory or the maximum number
of domains has been reached. `alloc_ok` tells whether `oonf_class_malloc`
succeeds; the memory it returns is zeroed. -/
def nhdp_domain_add (c : nhdp_constants) (alloc_ok : Bool) (state : nhdp_domain_state)
    (ext : Nat) : nhdp_domain_state × Option nhdp_domain :=
  match nhdp_domain_get_by_ext state ext with
  | some domain => (state, some domain)
  | none =>
    if state._domain_counter = c.NHDP_MAXIMUM_DOMAINS then
      (state, none)
    else if !alloc_ok then
      (state, none)
    else
      -- initialize new domain
      let domain : nhdp_domain :=
        ⟨ext, state._domain_counter, none, none, "", "", 0, 0, false⟩
      -- add to domain list
      ({ state with
          _domain_counter := state._domain_counter + 1
          _domain_list := state._domain_list ++ [domain] },
        some domain)

/-- Modelled from the spec: `strcasecmp(a, b) == 0`. -/
def strcasecmp_eq (a b : String) : Bool :=
  a.toLower = b.toLower

/-- Reset the metric of a NHDP domain to hopcount (`_remove_metric`). -/
def _remove_metric (c : nhdp_constants) (domain : nhdp_domain) : nhdp_domain :=
  { domain with metric_name := c.CFG_DOMAIN_NO_METRIC_MPR, metric := none }

/-- Apply a new metric algorithm to a NHDP domain (`_apply_metric`). -/
def _apply_metric (c : nhdp_constants) (state : nhdp_domain_state) (domain : nhdp_domain)
    (metric_name : String) : nhdp_domain :=
  if strcasecmp_eq domain.metric_name metric_name then
    -- nothing to do, we already have the right metric
    domain
  else
    let domain := if domain.metric ≠ none then _remove_metric c domain else domain
    -- Handle wildcard metric name first
    let metric_name :=
      if strcasecmp_eq metric_name c.CFG_DOMAIN_ANY_METRIC_MPR then
        match state._domain_metrics with
        | first :: _ => first
        | [] => metric_name
      else metric_name
    -- look for metric implementation
    match state._domain_metrics.find? (fun name => strcasecmp_eq name metric_name) with
    | some name => { domain with metric_name := name, metric := some name }
    | none => { domain with metric_name := "Hopcount metric", metric := none }

/-- Reset the MPR of a NHDP domain to 'everyone is MPR' (`_remove_mpr`). -/
def _remove_mpr (c : nhdp_constants) (domain : nhdp_domain) : nhdp_domain :=
  { domain with mpr_name := c.CFG_DOMAIN_NO_METRIC_MPR, mpr := none }

/-- Apply a new MPR algorithm to a NHDP domain (`_apply_mpr`). -/
def _apply_mpr (c : nhdp_constants) (state : nhdp_domain_state) (domain : nhdp_domain)
    (mpr_name : String) (willingness : Nat) : nhdp_domain :=
  let domain := { domain with local_willingness := willingness }
  if strcasecmp_eq domain.mpr_name mpr_name then
    -- nothing else to do, we already have the right MPR
    domain
  else
    let domain := if domain.mpr ≠ none then _remove_mpr c domain else domain
    -- Handle wildcard mpr name first
    let mpr_name :=
      if strcasecmp_eq mpr_name c.CFG_DOMAIN_ANY_METRIC_MPR then
        match state._domain_mprs with
        | first :: _ => first
        | [] => mpr_name
      else mpr_name
    -- look for mpr implementation
    match state._domain_mprs.find? (fun name => strcasecmp_eq name mpr_name) with
    | some name => { domain with mpr_name := name, mpr := some name }
    | none => { domain with mpr_name := "Everyone MPR", mpr := none }

/-- Configure a NHDP domain to a metric and a MPR algorithm
(`nhdp_domain_configure`). -/
def nhdp_domain_configure (c : nhdp_constants) (alloc_ok : Bool)
    (state : nhdp_domain_state) (ext : Nat) (metric_name mpr_name : String)
    (willingness : Nat) : nhdp_domain_state × Option nhdp_domain :=
  match nhdp_domain_add c alloc_ok state ext with
  | (state, none) => (state, none)
  | (state, some domain) =>
    let domain := _apply_metric c state domain metric_name
    let domain := _apply_mpr c state domain mpr_name willingness
    (nhdp_domain_store state domain, some domain)

/-- The states reached from `nhdp_domain_init` (at the start of the program)
by calls of `nhdp_domain_add` and `nhdp_domain_configure`. -/
inductive nhdp_domain_reachable (c : nhdp_constants) : nhdp_domain_state → Prop
  | init : nhdp_domain_reachable c (nhdp_domain_init nhdp_domain_static)
  | add (state : nhdp_domain_state) (alloc_ok : Bool) (ext : Nat) :
    nhdp_domain_reachable c state →
    nhdp_domain_reachable c (nhdp_domain_add c alloc_ok state ext).1
  | configure (state : nhdp_domain_state) (alloc_ok : Bool) (ext : Nat)
    (metric_name mpr_name : String) (willingness : Nat) :
    nhdp_domain_reachable c state →
    nhdp_domain_reachable c
      (nhdp_domain_configure c alloc_ok state ext metric_name mpr_name willingness).1

/-! ## Links and neighbors of the NHDP database -/

/-- Modelled from the spec: `struct nhdp_link_domaindata` of `nhdp_db.h`
(not among the sources): the metric of a link in one domain, `metric.in` and
`metric.out`. -/
structure nhdp_link_domaindata where
  metric_in : Nat
  metric_out : Nat
deriving DecidableEq, Repr

/-- Modelled from the spec: `struct nhdp_link` of `nhdp_db.h`: the array
`_domaindata` with one entry per domain index, and the index of the
interface of `local_if`. -/
structure nhdp_link where
  _domaindata : List nhdp_link_domaindata
  local_if_index : Nat
deriving DecidableEq, Repr

/-- Modelled from the spec: `struct nhdp_neighbor_domaindata` of
`nhdp_db.h`; `best_link` is the position of the link in the links of the
neighbor, `none` for NULL. -/
structure nhdp_neighbor_domaindata where
  metric_in : Nat
  metric_out : Nat
  best_link : Option Nat
  best_link_ifindex : Nat
  willingness : Nat
  local_is_mpr : Bool
  neigh_is_mpr : Bool
deriving DecidableEq, Repr

/-- Modelled from the spec: `struct nhdp_neighbor` of `nhdp_db.h`. -/
structure nhdp_neighbor where
  flooding_willingness : Nat
  local_is_flooding_mpr : Bool
  neigh_is_flooding_mpr : Bool
  _domaindata : List nhdp_neighbor_domaindata
  _links : List nhdp_link
deriving DecidableEq, Repr

/-- Modelled from the spec: `nhdp_domain_get_linkdata(domain, lnk)` of
`nhdp_domain.h`: the entry `lnk->_domaindata[domain->index]`. -/
def nhdp_domain_get_linkdata (domain : nhdp_domain) (lnk : nhdp_link) :
    nhdp_link_domaindata :=
  lnk._domaindata.getD domain.index ⟨0, 0⟩

/-- Write through the pointer `nhdp_domain_get_linkdata(domain, lnk)`. -/
def nhdp_domain_set_linkdata (domain : nhdp_domain) (lnk : nhdp_link)
    (data : nhdp_link_domaindata) : nhdp_link :=
  { lnk with _domaindata := lnk._domaindata.set domain.index data }

/-- Modelled from the spec: `nhdp_domain_get_neighbordata(domain, neigh)` of
`nhdp_domain.h`: the entry `neigh->_domaindata[domain->index]`. -/
def nhdp_domain_get_neighbordata (domain : nhdp_domain) (neigh : nhdp_neighbor) :
    nhdp_neighbor_domaindata :=
  neigh._domaindata.getD domain.index ⟨0, 0, none, 0, 0, false, false⟩

/-- Write through the pointer `nhdp_domain_get_neighbordata(domain,
neigh)`. -/
def nhdp_domain_set_neighbordata (domain : nhdp_domain) (neigh : nhdp_neighbor)
    (data : nhdp_neighbor_domaindata) : nhdp_neighbor :=
  { neigh with _domaindata := neigh._domaindata.set domain.index data }

/-- The body of the loop of `nhdp_domain_set_incoming_metric` for one
domain: `acc` holds the link and the variable `changed`. -/
def set_incoming_metric_step (metric : Option String) (metric_in : Nat)
    (acc : nhdp_link × Bool) (domain : nhdp_domain) : nhdp_link × Bool :=
  if domain.metric = metric then
    let linkdata := nhdp_domain_get_linkdata domain acc.1
    (nhdp_domain_set_linkdata domain acc.1 ⟨metric_in, linkdata.metric_out⟩,
      acc.2 || decide (linkdata.metric_in ≠ metric_in))
  else acc

/-- Sets the incoming metric of a link (`nhdp_domain_set_incoming_metric`):
the link after the call and whether the metric changed. `metric` is the
pointer to the metric handler. -/
def nhdp_domain_set_incoming_metric (state : nhdp_domain_state) (metric : Option String)
    (lnk : nhdp_link) (metric_in : Nat) : nhdp_link × Bool :=
  state._domain_list.foldl (set_incoming_metric_step metric metric_in) (lnk, false)

/-! ## TLV values of the domains -/

/-- A destination buffer in memory: its bytes, and the writes that fell
outside of it (index and value), oldest first. -/
structure tlv_buffer where
  bytes : List Nat
  outside : List (Nat × Nat)
deriving DecidableEq, Repr

/-- The assignment `buffer[idx] = value`. -/
def buffer_write (buffer : tlv_buffer) (idx value : Nat) : tlv_buffer :=
  if idx < buffer.bytes.length then
    { buffer with bytes := buffer.bytes.set idx value }
  else
    { buffer with outside := buffer.outside ++ [(idx, value)] }

/-- The call `memset(buffer, value, size)` with the size of the buffer. -/
def buffer_memset (buffer : tlv_buffer) (value : Nat) : tlv_buffer :=
  { buffer with bytes := List.replicate buffer.bytes.length value }

/-- The loop of `nhdp_domain_process_mprtypes_tlv` and of
`nhdp_domain_encode_mprtypes_tlvvalue` over the domains, `mprtypes[count++]
= domain->ext; if (count >= mprtypes_size) break;`: the buffer and `count`
after the loop. The size of the buffer is `mprtypes_size`. -/
def mprtypes_loop : List nhdp_domain → tlv_buffer → Nat → tlv_buffer × Nat
  | [], mprtypes, count => (mprtypes, count)
  | domain :: rest, mprtypes, count =>
    let mprtypes := buffer_write mprtypes count domain.ext
    if count + 1 ≥ mprtypes.bytes.length then
      (mprtypes, count + 1)
    else
      mprtypes_loop rest mprtypes (count + 1)

/-- Process the MPRTYPES TLV (`nhdp_domain_process_mprtypes_tlv`): the
destination buffer, whose size is `mprtypes_size`, after the call and the
return value. `tlv` tells whether a TLV is given (the pointer is not NULL).
The result is `none` where `list_first_element` is used on an empty list,
which yields no domain. -/
def nhdp_domain_process_mprtypes_tlv (state : nhdp_domain_state) (mprtypes : tlv_buffer)
    (tlv : Bool) : Option (tlv_buffer × Nat) :=
  if !tlv then
    match state._domain_list with
    | [] => none
    | domain :: _ => some (buffer_write mprtypes 0 domain.ext, 1)
  else
    some (mprtypes_loop state._domain_list (buffer_memset mprtypes 255) 0)

/-- Generate MPRTYPES tlv value (`nhdp_domain_encode_mprtypes_tlvvalue`). -/
def nhdp_domain_encode_mprtypes_tlvvalue (state : nhdp_domain_state)
    (mprtypes : tlv_buffer) : tlv_buffer × Nat :=
  mprtypes_loop state._domain_list mprtypes 0

/-- The loop of `nhdp_domain_encode_willingness_tlvvalue` over the domains
("set routing willingness"): the buffer and the return value. Bytes are
`uint8_t`, so the shifted value is taken modulo 256. -/
def encode_willingness_loop (c : nhdp_constants) :
    List nhdp_domain → tlv_buffer → Nat → tlv_buffer × Nat
  | [], tlvvalue, len => (tlvvalue, len)
  | domain :: rest, tlvvalue, len =>
    let idx := (domain.index + 1) / 2
    if idx ≥ tlvvalue.bytes.length then
      -- return -1
      (tlvvalue, SIZE_MAX)
    else
      let len := if idx + 1 > len then idx + 1 else len
      let value := domain.local_willingness &&& c.RFC7181_WILLINGNESS_MASK
      let value :=
        if domain.index &&& 1 = 0 then (value <<< c.RFC7181_WILLINGNESS_SHIFT) % 256
        else value
      encode_willingness_loop c rest
        (buffer_write tlvvalue idx (tlvvalue.bytes.getD idx 0 ||| value)) len

/-- Calculates the tlvvalue of a Willingness tlv
(`nhdp_domain_encode_willingness_tlvvalue`): the destination array, whose
size is `tlvsize`, after the call and the return value. -/
def nhdp_domain_encode_willingness_tlvvalue (c : nhdp_constants)
    (state : nhdp_domain_state) (tlvvalue : tlv_buffer) : tlv_buffer × Nat :=
  let tlvvalue := buffer_memset tlvvalue 0
  -- set flooding willingness
  let tlvvalue := buffer_write tlvvalue 0 state._flooding_domain.local_willingness
  -- set routing willingness
  encode_willingness_loop c state._domain_list tlvvalue 0

/-- The loop of `nhdp_domain_encode_mpr_tlvvalue` over the domains: the
buffer and the return value, which is 0 where the loop returns with an
error. The bit `1 << bit_idx` is at most 128, so the byte is not cut. -/
def encode_mpr_loop (neigh : nhdp_neighbor) :
    List nhdp_domain → tlv_buffer → Nat → tlv_buffer × Nat
  | [], tlvvalue, len => (tlvvalue, len)
  | domain :: rest, tlvvalue, len =>
    let bit_idx := (domain.index + 1) &&& 7
    let byte_idx := (domain.index + 1) >>> 3
    if byte_idx ≥ tlvvalue.bytes.length then
      -- return 0
      (tlvvalue, 0)
    else
      let len := if byte_idx + 1 > len then byte_idx + 1 else len
      if (nhdp_domain_get_neighbordata domain neigh).neigh_is_mpr then
        encode_mpr_loop neigh rest
          (buffer_write tlvvalue byte_idx (tlvvalue.bytes.getD byte_idx 0 ||| 1 <<< bit_idx))
          len
      else
        encode_mpr_loop neigh rest tlvvalue len

/-- Calculates the tlvvalue of a MPR tlv (`nhdp_domain_encode_mpr_tlvvalue`):
the destination, whose size is `tlvsize`, after the call and the return
value, the length of the tlvvalue, 0 if an error happened. Bytes are
`uint8_t`, so the first byte with the flooding flag is taken modulo 256. -/
def nhdp_domain_encode_mpr_tlvvalue (c : nhdp_constants) (state : nhdp_domain_state)
    (tlvvalue : tlv_buffer) (neigh : nhdp_neighbor) : tlv_buffer × Nat :=
  let tlvvalue := buffer_memset tlvvalue 0
  -- set flooding MPR flag
  let tlvvalue :=
    if neigh.neigh_is_flooding_mpr then
      buffer_write tlvvalue 0 ((tlvvalue.bytes.getD 0 0 ||| c.RFC7181_MPR_FLOODING) % 256)
    else tlvvalue
  encode_mpr_loop neigh state._domain_list tlvvalue 0

/-- Modelled from the spec: `struct rfc5444_reader_tlvblock_entry` of
`rfc5444/rfc5444_reader.h` (not among the sources), with the fields
`nhdp_domain.c` reads: the value of the TLV and its length. -/
structure rfc5444_reader_tlvblock_entry where
  single_value : List Nat
  length : Nat
deriving DecidableEq, Repr

/-- The assignment `neighdata->local_is_mpr = value`. -/
def neighbordata_set_local_is_mpr (data : nhdp_neighbor_domaindata) (value : Bool) :
    nhdp_neighbor_domaindata :=
  { data with local_is_mpr := value }

/-- The first loop of `nhdp_domain_process_mpr_tlv` for one domain:
`nhdp_domain_get_neighbordata(domain, neigh)->local_is_mpr = false`. -/
def process_mpr_reset (neigh : nhdp_neighbor) (domain : nhdp_domain) : nhdp_neighbor :=
  nhdp_domain_set_neighbordata domain neigh
    (neighbordata_set_local_is_mpr (nhdp_domain_get_neighbordata domain neigh) false)

/-- The body of the loop `for (i=0; i<mprtypes_size; i++)` of
`nhdp_domain_process_mpr_tlv` ("set routing MPR flags"). -/
def process_mpr_step (state : nhdp_domain_state) (mprtypes : List Nat)
    (tlv : rfc5444_reader_tlvblock_entry) (neigh : nhdp_neighbor) (i : Nat) :
    nhdp_neighbor :=
  match nhdp_domain_get_by_ext state (mprtypes.getD i 0) with
  | none => neigh
  | some domain =>
    let bit_idx := (i + 1) &&& 7
    let byte_idx := (i + 1) >>> 3
    if byte_idx ≥ tlv.length then
      neigh
    else
      nhdp_domain_set_neighbordata domain neigh
        (neighbordata_set_local_is_mpr (nhdp_domain_get_neighbordata domain neigh)
          (decide (tlv.single_value.getD byte_idx 0 &&& 1 <<< bit_idx ≠ 0)))

/-- Process an in MPR tlv for a NHDP link (`nhdp_domain_process_mpr_tlv`):
the neighbor after the call. `mprtypes` is the list of extensions for MPR,
`mprtypes_size` the length of that array, `tlv` the MPR tlv context, `none`
for NULL. -/
def nhdp_domain_process_mpr_tlv (c : nhdp_constants) (state : nhdp_domain_state)
    (mprtypes : List Nat) (mprtypes_size : Nat) (neigh : nhdp_neighbor)
    (tlv : Option rfc5444_reader_tlvblock_entry) : nhdp_neighbor :=
  let neigh := { neigh with local_is_flooding_mpr := false }
  let neigh := state._domain_list.foldl process_mpr_reset neigh
  match tlv with
  | none => neigh
  | some tlv =>
    -- set flooding MPR flag
    let neigh :=
      { neigh with
        local_is_flooding_mpr :=
          decide (tlv.single_value.getD 0 0 &&& c.RFC7181_MPR_FLOODING ≠ 0) }
    -- set routing MPR flags
    (List.range mprtypes_size).foldl (process_mpr_step state mprtypes tlv) neigh

/-- The bit of a TLV value with the number `p`: bit `p & 7` of the byte
`p >> 3`. -/
def mpr_bit (value : List Nat) (p : Nat) : Bool :=
  (value.getD (p >>> 3) 0).testBit (p &&& 7)

/-! ## Changes of the neighborhood -/

/-- The database of neighbors next to the static variables of
`nhdp_domain.c`: `neigh_list` is `nhdp_db_get_neigh_list()`. -/
structure nhdp_db where
  domains : nhdp_domain_state
  neigh_list : List nhdp_neighbor
deriving DecidableEq, Repr

/-- Modelled from the spec: the callbacks `nhdp_domain.c` calls when the
neighborhood changes: `update_mpr` of the MPR handler registered under a
name (NULL is `none`) and `update` of the listeners in the order of
`_domain_listener_list`, called with the neighbor that changed (its position
in the list of neighbors, `none` for NULL). The callbacks work on the
neighbors and leave the static variables of `nhdp_domain.c` alone. -/
structure nhdp_callbacks where
  update_mpr :
    String → Option (nhdp_domain_state → List nhdp_neighbor → List nhdp_neighbor)
  listeners :
    List (Option (Option Nat → nhdp_domain_state → List nhdp_neighbor →
      List nhdp_neighbor))

/-- The loop "get best metric" of `_recalculate_neighbor_metric` over the
links of the neighbor, from position `i` on. -/
def best_metric_loop (domain : nhdp_domain) :
    List nhdp_link → Nat → nhdp_neighbor_domaindata → nhdp_neighbor_domaindata
  | [], _, neighdata => neighdata
  | lnk :: rest, i, neighdata =>
    let linkdata := nhdp_domain_get_linkdata domain lnk
    let neighdata :=
      if linkdata.metric_out < neighdata.metric_out then
        { neighdata with
          metric_out := linkdata.metric_out
          best_link := some i
          best_link_ifindex := lnk.local_if_index }
      else neighdata
    let neighdata :=
      if linkdata.metric_in < neighdata.metric_in then
        { neighdata with metric_in := linkdata.metric_in }
      else neighdata
    best_metric_loop domain rest (i + 1) neighdata

/-- Recalculate the 'best link/metric' values of a neighbor
(`_recalculate_neighbor_metric`): the domain and the neighbor after the
call. `best_link_ifindex` is set with the best link, which gives the value
the assignment after the loop gives. -/
def _recalculate_neighbor_metric (c : nhdp_constants) (domain : nhdp_domain)
    (neigh : nhdp_neighbor) : nhdp_domain × nhdp_neighbor :=
  let old := nhdp_domain_get_neighbordata domain neigh
  -- reset metric, reset best link
  let neighdata : nhdp_neighbor_domaindata :=
    { old with
      metric_in := c.RFC7181_METRIC_INFINITE
      metric_out := c.RFC7181_METRIC_INFINITE
      best_link := none }
  -- get best metric
  let neighdata := best_metric_loop domain neigh._links 0 neighdata
  let neigh := nhdp_domain_set_neighbordata domain neigh neighdata
  if old.metric_in ≠ neighdata.metric_in ∨ old.metric_out ≠ neighdata.metric_out then
    -- mark metric as updated
    ({ domain with neighbor_metric_changed := true }, neigh)
  else
    (domain, neigh)

/-- The default MPR handler (`_cb_update_everyone_mpr`). -/
def _cb_update_everyone_mpr (c : nhdp_constants) (state : nhdp_domain_state)
    (neigh_list : List nhdp_neighbor) : List nhdp_neighbor :=
  neigh_list.map
    (fun neigh =>
      let neigh :=
        if state._flooding_domain.mpr = none then
          { neigh with
            neigh_is_flooding_mpr :=
              decide (neigh.flooding_willingness > c.RFC7181_WILLINGNESS_NEVER) }
        else neigh
      state._domain_list.foldl
        (fun neigh domain =>
          if domain.mpr = none then
            let domaindata := nhdp_domain_get_neighbordata domain neigh
            nhdp_domain_set_neighbordata domain neigh
              { domaindata with
                neigh_is_mpr :=
                  decide (domaindata.willingness > c.RFC7181_WILLINGNESS_NEVER) }
          else neigh)
        neigh)

/-- The call `domain->mpr->update_mpr()` if the pointer is not NULL. -/
def domain_update_mpr (c : nhdp_constants) (cb : nhdp_callbacks)
    (state : nhdp_domain_state) (domain : nhdp_domain) (neigh_list : List nhdp_neighbor) :
    List nhdp_neighbor :=
  match domain.mpr with
  | none => _cb_update_everyone_mpr c state neigh_list
  | some name =>
    match cb.update_mpr name with
    | some update_mpr => update_mpr state neigh_list
    | none => neigh_list

/-- The inner loop of `nhdp_domain_neighborhood_changed`:
`_recalculate_neighbor_metric(domain, neigh)` for every neighbor. -/
def recalculate_all_neighbors (c : nhdp_constants) :
    nhdp_domain → List nhdp_neighbor → nhdp_domain × List nhdp_neighbor
  | domain, [] => (domain, [])
  | domain, neigh :: rest =>
    let first := _recalculate_neighbor_metric c domain neigh
    let others := recalculate_all_neighbors c first.1 rest
    (others.1, first.2 :: others.2)

/-- The first loop of `nhdp_domain_neighborhood_changed` over the domains:
`visited` are the domains the loop is done with, in list order. -/
def neighborhood_changed_loop (c : nhdp_constants) (cb : nhdp_callbacks)
    (state : nhdp_domain_state) :
    List nhdp_domain → List nhdp_domain → List nhdp_neighbor →
      List nhdp_domain × List nhdp_neighbor
  | visited, [], neigh_list => (visited, neigh_list)
  | visited, domain :: rest, neigh_list =>
    let recalculated := recalculate_all_neighbors c domain neigh_list
    let state := { state with _domain_list := visited ++ recalculated.1 :: rest }
    neighborhood_changed_loop c cb state (visited ++ [recalculated.1]) rest
      (domain_update_mpr c cb state recalculated.1 recalculated.2)

/-- The loop over the listeners: `listener->update(neigh)` where the pointer
`update` is not NULL. -/
def listeners_update (state : nhdp_domain_state) (neigh : Option Nat) :
    List (Option (Option Nat → nhdp_domain_state → List nhdp_neighbor →
      List nhdp_neighbor)) →
    List nhdp_neighbor → List nhdp_neighbor
  | [], neigh_list => neigh_list
  | none :: rest, neigh_list => listeners_update state neigh rest neigh_list
  | some update :: rest, neigh_list =>
    listeners_update state neigh rest (update neigh state neigh_list)

/-- The last loops of `nhdp_domain_neighborhood_changed` and
`nhdp_domain_neighbor_changed` ("check if we still have routing MPR
selectors"): the value `_node_is_selected_as_mpr` has when they end. -/
def check_mpr_selectors (domains : List nhdp_domain) (neigh_list : List nhdp_neighbor) :
    Bool :=
  domains.any
    (fun domain =>
      neigh_list.any (fun neigh => (nhdp_domain_get_neighbordata domain neigh).local_is_mpr))

/-- Neighborhood changed in terms of metrics or connectivity
(`nhdp_domain_neighborhood_changed`). -/
def nhdp_domain_neighborhood_changed (c : nhdp_constants) (cb : nhdp_callbacks)
    (db : nhdp_db) : nhdp_db :=
  let looped :=
    neighborhood_changed_loop c cb db.domains [] db.domains._domain_list db.neigh_list
  let state := { db.domains with _domain_list := looped.1 }
  let neigh_list := listeners_update state none cb.listeners looped.2
  -- check if we still have routing MPR selectors
  ⟨{ state with _node_is_selected_as_mpr := check_mpr_selectors looped.1 neigh_list },
    neigh_list⟩

/-- The first loop of `nhdp_domain_neighbor_changed` over the domains, for
the neighbor at position `neigh` of the list of neighbors. -/
def neighbor_changed_loop (c : nhdp_constants) (cb : nhdp_callbacks)
    (state : nhdp_domain_state) (neigh : Nat) :
    List nhdp_domain → List nhdp_domain → List nhdp_neighbor →
      List nhdp_domain × List nhdp_neighbor
  | visited, [], neigh_list => (visited, neigh_list)
  | visited, domain :: rest, neigh_list =>
    let recalculated : nhdp_domain × List nhdp_neighbor :=
      match neigh_list[neigh]? with
      | some n =>
        let r := _recalculate_neighbor_metric c domain n
        (r.1, neigh_list.set neigh r.2)
      | none => (domain, neigh_list)
    let state := { state with _domain_list := visited ++ recalculated.1 :: rest }
    neighbor_changed_loop c cb state neigh (visited ++ [recalculated.1]) rest
      (domain_update_mpr c cb state recalculated.1 recalculated.2)

/-- One neighbor changed in terms of metrics or connectivity
(`nhdp_domain_neighbor_changed`); `neigh` is the position of the neighbor in
the list of neighbors. -/
def nhdp_domain_neighbor_changed (c : nhdp_constants) (cb : nhdp_callbacks)
    (db : nhdp_db) (neigh : Nat) : nhdp_db :=
  let looped :=
    neighbor_changed_loop c cb db.domains neigh [] db.domains._domain_list db.neigh_list
  let state := { db.domains with _domain_list := looped.1 }
  let neigh_list := listeners_update state (some neigh) cb.listeners looped.2
  -- check if we still have routing MPR selectors
  ⟨{ state with _node_is_selected_as_mpr := check_mpr_selectors looped.1 neigh_list },
    neigh_list⟩

/-- True if this node is selected as a MPR by any other node
(`nhdp_domain_node_is_mpr`). -/
def nhdp_domain_node_is_mpr (state : nhdp_domain_state) : Bool :=
  state._node_is_selected_as_mpr

/-- The domain list discipline: the counter is the length of the list and
at most `NHDP_MAXIMUM_DOMAINS`, the k-th domain has index k, and no two
domains share an `ext`. -/
def nhdp_domain_list_ok (c : nhdp_constants) (state : nhdp_domain_state) : Prop :=
  state._domain_counter = state._domain_list.length ∧
    state._domain_counter ≤ c.NHDP_MAXIMUM_DOMAINS ∧
    state._domain_list.map (fun d => d.index) = List.range state._domain_list.length ∧
    (state._domain_list.map (fun d => d.ext)).Nodup

/-- The constants with the values of RFC 7181 and four domains; the
flooding flag of a MPR TLV is bit 0. -/
def constants_example : nhdp_constants :=
  ⟨4, 0xffffff, 0, 0xf, 4, "-", "*", 1⟩

/-- A domain with the given `ext`, `index` and metric handler, willingness
7. -/
def domain_example (ext index : Nat) (metric : Option String) : nhdp_domain :=
  ⟨ext, index, metric, none, "", "", 7, 0, false⟩

/-- A state with the two domains 0 and 1, both with the hopcount metric. -/
def state_two_domains : nhdp_domain_state :=
  { nhdp_domain_init nhdp_domain_static with
    _domain_list := [domain_example 0 0 none, domain_example 1 1 none]
    _domain_counter := 2 }

/-- A state with the three domains 0, 1 and 2; the domains 0 and 2 use the
metric "ff_dat", the domain 1 the hopcount metric. -/
def state_three_domains : nhdp_domain_state :=
  { nhdp_domain_init nhdp_domain_static with
    _domain_list :=
      [domain_example 0 0 (some "ff_dat"), domain_example 1 1 none,
        domain_example 2 2 (some "ff_dat")]
    _domain_counter := 3
    _domain_metrics := ["ff_dat"] }

/-- A link with the incoming metrics 100, 200, 300, 400 in the four
domains. -/
def link_example : nhdp_link :=
  ⟨[⟨100, 1⟩, ⟨200, 2⟩, ⟨300, 3⟩, ⟨400, 4⟩], 1⟩

/-- A neighbor with one link, whose data in the four domains has the flag
`local_is_mpr` set in the domain with index `selected` only. -/
def neighbor_example (selected : Nat) : nhdp_neighbor :=
  ⟨1, false, false,
    (List.range 4).map (fun i => ⟨500, 600, none, 0, 1, decide (i = selected), false⟩),
    [link_example]⟩

/-- The state after the domains with the extensions 0, 5 and 9 have been
registered with `nhdp_domain_add`, in this order. -/
def state_registered : nhdp_domain_state :=
  (nhdp_domain_add constants_example true
    (nhdp_domain_add constants_example true
      (nhdp_domain_add constants_example true (nhdp_domain_init nhdp_domain_static) 0).1
      5).1 9).1

/-- A neighbor with the flags `neigh_is_flooding_mpr` and, in the domains
with the indices 1 and 2, `neigh_is_mpr` set. -/
def neighbor_selected : nhdp_neighbor :=
  ⟨1, false, true,
    (List.range 4).map (fun i => ⟨500, 600, none, 0, 1, false, decide (i = 1 ∨ i = 2)⟩),
    []⟩

/-- Callbacks that leave the neighbors as they are: no MPR handler is
registered and there is one listener without `update`. -/
def callbacks_none : nhdp_callbacks := ⟨fun _ => none, [none]⟩

end Nhdp

namespace LinkConfig

open Dlep

/-! ## Link configuration (`src-plugins/generic/link_config/link_config.c`) -/

/-- The static variables `_l2_origin_current` and `_l2_origin_old` of the
plugin, the two origins `_init` registers. -/
structure link_config_origins where
  _l2_origin_current : Nat
  _l2_origin_old : Nat
deriving DecidableEq, Repr

/-- Modelled from the spec: `oonf_layer2_has_value(data)` of
`subsystems/oonf_layer2.h` (not among the sources): whether the field holds a
value. -/
def oonf_layer2_has_value (data : oonf_layer2_data) : Bool :=
  data._has_value

/-- Modelled from the spec: `oonf_layer2_get_origin(data)` of
`subsystems/oonf_layer2.h`: the origin that set the field. -/
def oonf_layer2_get_origin (data : oonf_layer2_data) : Nat :=
  data._origin

/-- Overwrite a layer-2 value that is either not set or was set by this
plugin (`_set_l2value`): the data field after the call and the return value,
-1 if the value was not overwritten, 0 otherwise. -/
def _set_l2value (origins : link_config_origins) (data : oonf_layer2_data) (value : Int) :
    oonf_layer2_data × Int :=
  if oonf_layer2_has_value data then
    let origin := oonf_layer2_get_origin data
    if origin ≠ 0 ∧ origin ≠ origins._l2_origin_current
        ∧ origin ≠ origins._l2_origin_old then
      (data, -1)
    else
      (oonf_layer2_set_value data origins._l2_origin_current value, 0)
  else
    (oonf_layer2_set_value data origins._l2_origin_current value, 0)

/-- The origins 11 (current) and 12 (old) of the examples. -/
def origins_example : link_config_origins := ⟨11, 12⟩

end LinkConfig

namespace Dlep

/-! ## Preservation of the ack-timeout discipline -/

theorem store_preserves_acks (session : dlep_session) (loc : dlep_local_neighbor)
    (h : session_acks_armed session) (hl : ack_timer_ok loc) :
    session_acks_armed (dlep_local_neighbor_store session loc) := by
  intro l hmem
  simp only [dlep_local_neighbor_store, List.mem_map] at hmem
  obtain ⟨l0, hl0, rfl⟩ := hmem
  split
  · exact hl
  · exact h l0 hl0

theorem generate_tree (env : dlep_env) (session : dlep_session) (signal : dlep_signals)
    (neighbor : Option netaddr) :
    (dlep_session_generate_signal env session signal neighbor).1.local_neighbor_tree =
      session.local_neighbor_tree := rfl

theorem generate_preserves_acks (env : dlep_env) (session : dlep_session)
    (signal : dlep_signals) (neighbor : Option netaddr) (h : session_acks_armed session) :
    session_acks_armed (dlep_session_generate_signal env session signal neighbor).1 := h

theorem add_preserves_acks (env : dlep_env) (session : dlep_session) (neigh : netaddr)
    (h : session_acks_armed session) :
    session_acks_armed (dlep_session_add_local_neighbor env session neigh).1 := by
  unfold dlep_session_add_local_neighbor
  split
  · exact h
  · split
    · intro l hmem
      simp only [List.mem_append, List.mem_singleton] at hmem
      rcases hmem with hmem | rfl
      · exact h l hmem
      · intro hs; simp at hs
    · exact h

theorem remove_preserves_acks (session : dlep_session) (loc : dlep_local_neighbor)
    (h : session_acks_armed session) :
    session_acks_armed (dlep_session_remove_local_neighbor session loc) := by
  intro l hmem
  simp only [dlep_session_remove_local_neighbor, List.mem_filter] at hmem
  exact h l hmem.1

theorem added_to_session_preserves_acks (env : dlep_env) (session : dlep_session)
    (l2neigh : oonf_layer2_neigh) (mac : netaddr) (h : session_acks_armed session) :
    session_acks_armed (_l2_neigh_added_to_session env session l2neigh mac) := by
  have hadd := add_preserves_acks env session mac h
  unfold _l2_neigh_added_to_session
  split
  · next s1 heq => rw [heq] at hadd; exact hadd
  · next s1 loc heq =>
    rw [heq] at hadd
    apply store_preserves_acks
    · exact generate_preserves_acks _ _ _ _ hadd
    · intro _; rfl

theorem get_some_mem (session : dlep_session) (neigh : netaddr) (loc : dlep_local_neighbor)
    (h : dlep_session_get_local_neighbor session neigh = some loc) :
    loc ∈ session.local_neighbor_tree ∧ loc.addr = neigh := by
  unfold dlep_session_get_local_neighbor at h
  refine ⟨List.mem_of_find?_eq_some h, ?_⟩
  have := List.find?_some h
  simpa using this

theorem add_some_mem (env : dlep_env) (session s1 : dlep_session) (neigh : netaddr)
    (loc : dlep_local_neighbor)
    (h : dlep_session_add_local_neighbor env session neigh = (s1, some loc)) :
    loc ∈ s1.local_neighbor_tree ∧ loc.addr = neigh := by
  unfold dlep_session_add_local_neighbor at h
  split at h
  · next l hget =>
    simp only [Prod.mk.injEq, Option.some.injEq] at h
    obtain ⟨rfl, rfl⟩ := h
    exact get_some_mem _ _ _ hget
  · split at h
    · simp only [Prod.mk.injEq, Option.some.injEq] at h
      obtain ⟨rfl, rfl⟩ := h
      simp
    · simp at h

theorem changed_session_preserves_acks (env : dlep_env) (session : dlep_session)
    (l2neigh : oonf_layer2_neigh) (mac : netaddr) (h : session_acks_armed session) :
    session_acks_armed (_l2_neigh_changed_session env session l2neigh mac) := by
  have hadd := add_preserves_acks env session mac h
  unfold _l2_neigh_changed_session
  split
  · next s1 heq => rw [heq] at hadd; exact hadd
  · next s1 loc heq =>
    rw [heq] at hadd
    have hloc := hadd loc (add_some_mem _ _ _ _ _ heq).1
    simp only
    split
    · next hst =>
      apply store_preserves_acks _ _ hadd
      intro _
      exact hloc (Or.inl hst)
    · next hst =>
      apply store_preserves_acks _ _ (generate_preserves_acks _ _ _ _ hadd)
      intro hs
      rcases hs with hs | hs <;> simp only at hs <;> rw [hst] at hs <;> cases hs
    · apply store_preserves_acks _ _ (generate_preserves_acks _ _ _ _ hadd)
      intro _; rfl
    · apply store_preserves_acks _ _ (generate_preserves_acks _ _ _ _ hadd)
      intro _; rfl
    · apply store_preserves_acks _ _ (generate_preserves_acks _ _ _ _ hadd)
      intro _; rfl

theorem removed_session_preserves_acks (env : dlep_env) (session : dlep_session)
    (l2neigh : oonf_layer2_neigh) (l2dest : Option oonf_layer2_destination) (mac : netaddr)
    (h : session_acks_armed session) :
    session_acks_armed (_l2_neigh_removed_session env session l2neigh l2dest mac) := by
  unfold _l2_neigh_removed_session
  split
  · exact h
  · split
    · apply store_preserves_acks _ _ (generate_preserves_acks _ _ _ _ h)
      intro _; rfl
    · exact h

theorem up_ack_preserves_acks (env : dlep_env) (rx : dlep_signal_values)
    (session result : dlep_session) (rc : Int)
    (hrun : _radio_process_destination_up_ack env rx session = some (result, rc))
    (h : session_acks_armed session) : session_acks_armed result := by
  unfold _radio_process_destination_up_ack at hrun
  split at hrun
  · simp only [Option.some.injEq, Prod.mk.injEq] at hrun
    rw [← hrun.1]; exact h
  · split at hrun
    · split at hrun
      · simp at hrun
      · split at hrun
        · simp only at hrun
          split at hrun
          · simp only [Option.some.injEq, Prod.mk.injEq] at hrun
            rw [← hrun.1]
            apply store_preserves_acks _ _ (generate_preserves_acks _ _ _ _ h)
            intro hs; simp at hs
          · simp only [Option.some.injEq, Prod.mk.injEq] at hrun
            rw [← hrun.1]
            apply store_preserves_acks _ _ h
            intro hs; simp at hs
        · simp only [Option.some.injEq, Prod.mk.injEq] at hrun
          rw [← hrun.1]; exact h
    · simp only [Option.some.injEq, Prod.mk.injEq] at hrun
      rw [← hrun.1]; exact h

theorem down_ack_preserves_acks (rx : dlep_signal_values)
    (session result : dlep_session) (rc : Int)
    (hrun : _radio_process_destination_down_ack rx session = some (result, rc))
    (h : session_acks_armed session) : session_acks_armed result := by
  unfold _radio_process_destination_down_ack at hrun
  split at hrun
  · simp only [Option.some.injEq, Prod.mk.injEq] at hrun
    rw [← hrun.1]; exact h
  · split at hrun
    · split at hrun
      · simp at hrun
      · split at hrun
        · simp only [Option.some.injEq, Prod.mk.injEq] at hrun
          rw [← hrun.1]
          exact remove_preserves_acks _ _ h
        · simp only [Option.some.injEq, Prod.mk.injEq] at hrun
          rw [← hrun.1]; exact h
    · simp only [Option.some.injEq, Prod.mk.injEq] at hrun
      rw [← hrun.1]; exact h

theorem foldl_preserves {α β : Type} (P : β → Prop) (f : β → α → β)
    (hf : ∀ b a, P b → P (f b a)) (l : List α) (b : β) (hb : P b) :
    P (l.foldl f b) := by
  induction l generalizing b with
  | nil => exact hb
  | cons a l ih => exact ih (f b a) (hf b a hb)

theorem peer_init_extensions_tree (env : dlep_env) (rx : dlep_signal_values)
    (session : dlep_session) :
    (_radio_peer_init_extensions env rx session).1.local_neighbor_tree =
      session.local_neighbor_tree := by
  unfold _radio_peer_init_extensions dlep_session_update_extensions
  split <;> split <;> rfl

theorem peer_init_l2neigh_preserves_acks (env : dlep_env) (session : dlep_session)
    (l2neigh : oonf_layer2_neigh) (h : session_acks_armed session) :
    session_acks_armed (_radio_peer_init_l2neigh env session l2neigh) := by
  have h1 : session_acks_armed
      (if session.cfg.send_neighbors then
        _l2_neigh_added_to_session env session l2neigh l2neigh.addr else session) := by
    split
    · exact added_to_session_preserves_acks _ _ _ _ h
    · exact h
  have h2 : ∀ s : dlep_session, session_acks_armed s → session_acks_armed
      (if s.cfg.send_proxied then
        l2neigh.destinations.foldl
          (fun session destination =>
            _l2_neigh_added_to_session env session l2neigh destination) s
      else s) := by
    intro s hs
    split
    · apply foldl_preserves session_acks_armed _ _ _ _ hs
      intro s2 d hs2
      exact added_to_session_preserves_acks _ _ _ _ hs2
    · exact hs
  exact h2 _ h1

theorem peer_init_l2db_preserves_acks (env : dlep_env) (l2db : List oonf_layer2_net)
    (session : dlep_session) (h : session_acks_armed session) :
    session_acks_armed (_radio_peer_init_l2db env l2db session) := by
  unfold _radio_peer_init_l2db
  split
  · exact h
  · exact foldl_preserves session_acks_armed _
      (fun s n hs => peer_init_l2neigh_preserves_acks env s n hs) _ _ h

theorem peer_init_preserves_acks (env : dlep_env) (l2db : List oonf_layer2_net)
    (rx : dlep_signal_values) (session : dlep_session) (h : session_acks_armed session) :
    session_acks_armed (_radio_process_peer_init env l2db rx session).1 := by
  have hext : ∀ s : dlep_session, session_acks_armed s →
      session_acks_armed (_radio_peer_init_extensions env rx s).1 := by
    intro s hs l hl
    rw [peer_init_extensions_tree] at hl
    exact hs l hl
  unfold _radio_process_peer_init
  split
  · exact h
  · split
    · exact h
    · simp only
      split
      · exact hext _ h
      · split
        · exact generate_preserves_acks _ _ _ _ (hext _ h)
        · exact peer_init_l2db_preserves_acks _ _ _
            (generate_preserves_acks _ _ _ _ (hext _ h))

theorem session_step_preserves_acks (session result : dlep_session)
    (hstep : session_step session result) (h : session_acks_armed session) :
    session_acks_armed result := by
  cases hstep with
  | peer_init env l2db rx => exact peer_init_preserves_acks env l2db rx session h
  | destination_up_ack env rx _ _ rc hrun => exact up_ack_preserves_acks env rx _ _ rc hrun h
  | destination_down_ack rx _ _ rc hrun => exact down_ack_preserves_acks rx _ _ rc hrun h
  | ack_timeout _ loc _ _ => exact remove_preserves_acks session loc h

theorem radio_get_mem (radio_ifs : List dlep_radio_if) (ifname : String)
    (radio_if : dlep_radio_if)
    (h : dlep_radio_get_by_layer2_if radio_ifs ifname = some radio_if) :
    radio_if ∈ radio_ifs :=
  List.mem_of_find?_eq_some h

theorem radio_store_preserves_acks (radio_ifs : List dlep_radio_if)
    (radio_if : dlep_radio_if) (h : radio_acks_armed radio_ifs)
    (hr : radio_if_acks_armed radio_if) :
    radio_acks_armed (dlep_radio_if_store radio_ifs radio_if) := by
  intro r hmem
  simp only [dlep_radio_if_store, List.mem_map] at hmem
  obtain ⟨r0, hr0, rfl⟩ := hmem
  split
  · exact hr
  · exact h r0 hr0

theorem l2_neigh_added_preserves_acks (env : dlep_env) (radio_ifs : List dlep_radio_if)
    (l2neigh : oonf_layer2_neigh) (l2dest : Option oonf_layer2_destination)
    (mac : netaddr) (h : radio_acks_armed radio_ifs) :
    radio_acks_armed (_l2_neigh_added env radio_ifs l2neigh l2dest mac) := by
  unfold _l2_neigh_added
  split
  · exact h
  · next radio_if hget =>
    apply radio_store_preserves_acks _ _ h
    apply foldl_preserves radio_if_acks_armed _ _ _ _ (h _ (radio_get_mem _ _ _ hget))
    intro r rs hr
    split
    · exact hr
    · exact ⟨added_to_session_preserves_acks _ _ _ _ hr.1, hr.2⟩

theorem l2_neigh_changed_preserves_acks (env : dlep_env) (radio_ifs : List dlep_radio_if)
    (l2neigh : oonf_layer2_neigh) (l2dest : Option oonf_layer2_destination)
    (mac : netaddr) (h : radio_acks_armed radio_ifs) :
    radio_acks_armed (_l2_neigh_changed env radio_ifs l2neigh l2dest mac) := by
  unfold _l2_neigh_changed
  split
  · exact h
  · next radio_if hget =>
    have hr := h _ (radio_get_mem _ _ _ hget)
    apply radio_store_preserves_acks _ _ h
    refine ⟨hr.1, ?_⟩
    intro rs hmem
    simp only [List.mem_map] at hmem
    obtain ⟨rs0, hrs0, rfl⟩ := hmem
    split
    · exact hr.2 rs0 hrs0
    · exact changed_session_preserves_acks _ _ _ _ (hr.2 rs0 hrs0)

theorem l2_neigh_removed_preserves_acks (env : dlep_env) (radio_ifs : List dlep_radio_if)
    (l2neigh : oonf_layer2_neigh) (l2dest : Option oonf_layer2_destination)
    (mac : netaddr) (h : radio_acks_armed radio_ifs) :
    radio_acks_armed (_l2_neigh_removed env radio_ifs l2neigh l2dest mac) := by
  unfold _l2_neigh_removed
  split
  · exact h
  · next radio_if hget =>
    have hr := h _ (radio_get_mem _ _ _ hget)
    apply radio_store_preserves_acks _ _ h
    refine ⟨hr.1, ?_⟩
    intro rs hmem
    simp only [List.mem_map] at hmem
    obtain ⟨rs0, hrs0, rfl⟩ := hmem
    split
    · exact hr.2 rs0 hrs0
    · exact removed_session_preserves_acks _ _ _ _ _ (hr.2 rs0 hrs0)

theorem radio_step_preserves_acks (radio_ifs next : List dlep_radio_if)
    (hstep : radio_step radio_ifs next) (h : radio_acks_armed radio_ifs) :
    radio_acks_armed next := by
  cases hstep with
  | l2_neigh_added env _ l2neigh => exact l2_neigh_added_preserves_acks _ _ _ _ _ h
  | l2_neigh_changed env _ l2neigh =>
    unfold _cb_l2_neigh_changed
    apply foldl_preserves radio_acks_armed _ _ _ _
      (l2_neigh_changed_preserves_acks _ _ _ _ _ h)
    intro w d hw
    exact l2_neigh_changed_preserves_acks _ _ _ _ _ hw
  | l2_neigh_removed env _ l2neigh => exact l2_neigh_removed_preserves_acks _ _ _ _ _ h
  | l2_dst_added env _ l2dst => exact l2_neigh_added_preserves_acks _ _ _ _ _ h
  | l2_dst_removed env _ l2dst => exact l2_neigh_removed_preserves_acks _ _ _ _ _ h
  | own_session before after radio_if result hs =>
    intro r hmem
    simp only [List.mem_append, List.mem_cons] at hmem
    have hr := h radio_if (by simp)
    rcases hmem with hmem | rfl | hmem
    · exact h r (by simp [hmem])
    · exact ⟨session_step_preserves_acks _ _ hs hr.1, hr.2⟩
    · exact h r (by simp [hmem])
  | tree_session before after radio_if front back radio_session result htree hs =>
    intro r hmem
    simp only [List.mem_append, List.mem_cons] at hmem
    have hr := h radio_if (by simp)
    rcases hmem with hmem | rfl | hmem
    · exact h r (by simp [hmem])
    · refine ⟨hr.1, ?_⟩
      intro rs hrs
      simp only [List.mem_append, List.mem_cons] at hrs
      rcases hrs with hrs | rfl | hrs
      · exact hr.2 rs (by rw [htree]; simp [hrs])
      · exact session_step_preserves_acks _ _ hs (hr.2 radio_session (by rw [htree]; simp))
      · exact hr.2 rs (by rw [htree]; simp [hrs])
    · exact h r (by simp [hmem])

theorem radio_initial_acks (radio_ifs : List dlep_radio_if) (h : radio_initial radio_ifs) :
    radio_acks_armed radio_ifs := by
  intro r hr
  obtain ⟨h1, h2⟩ := h r hr
  refine ⟨?_, ?_⟩
  · intro l hl; rw [h1] at hl; cases hl
  · intro rs hrs l hl; rw [h2 rs hrs] at hl; cases hl

/-- C1: in every state of the radio reachable from an initial state through
the layer-2 callbacks (neighbor added / changed / removed, destination added /
removed), inbound PEER_INITIALIZATION, DESTINATION_UP_ACK and
DESTINATION_DOWN_ACK and ack-timeout expiry, every local neighbor of every
session whose state is UP_SENT or DOWN_SENT has its ack-timeout timer armed. -/
theorem radio_reachable_acks_armed (radio_ifs : List dlep_radio_if)
    (h : radio_reachable radio_ifs) : radio_acks_armed radio_ifs := by
  induction h with
  | init w hinit => exact radio_initial_acks w hinit
  | step w next _ hstep ih => exact radio_step_preserves_acks w next hstep ih

/-- C1, witness: the state after a layer-2 change of aa:bb:cc:dd:ee:ff on
wlan0 is reachable and has a local neighbor in UP_SENT, with its timer
armed. -/
theorem radio_reachable_acks_armed_witness :
    (∃ radio_if ∈ _cb_l2_neigh_changed env_ok [radio_wlan0 true false] l2neigh_aabb,
      ∃ radio_session ∈ radio_if.interf.session_tree,
        ∃ loc ∈ radio_session.session.local_neighbor_tree,
          loc.state = .DLEP_NEIGHBOR_UP_SENT) ∧
      radio_acks_armed (_cb_l2_neigh_changed env_ok [radio_wlan0 true false] l2neigh_aabb) :=
  ⟨by decide,
    radio_reachable_acks_armed _
      (radio_reachable.step _ _ (radio_reachable.init _ (by decide))
        (radio_step.l2_neigh_changed env_ok _ l2neigh_aabb))⟩

/-! ## Lookup after a write -/

theorem get_store_same (session : dlep_session) (loc : dlep_local_neighbor)
    (h : ∃ l ∈ session.local_neighbor_tree, l.addr = loc.addr) :
    dlep_session_get_local_neighbor (dlep_local_neighbor_store session loc) loc.addr =
      some loc := by
  unfold dlep_session_get_local_neighbor dlep_local_neighbor_store
  simp only
  generalize session.local_neighbor_tree = tree at h
  induction tree with
  | nil => obtain ⟨l, hl, _⟩ := h; cases hl
  | cons x xs ih =>
    by_cases hx : x.addr = loc.addr
    · simp [List.find?_cons, hx]
    · have hxs : ∃ l ∈ xs, l.addr = loc.addr := by
        obtain ⟨l, hl, hla⟩ := h
        rcases List.mem_cons.mp hl with rfl | hl
        · exact absurd hla hx
        · exact ⟨l, hl, hla⟩
      simp [List.find?_cons, hx, ih hxs]

theorem get_store_other (session : dlep_session) (loc : dlep_local_neighbor) (a : netaddr)
    (h : a ≠ loc.addr) :
    dlep_session_get_local_neighbor (dlep_local_neighbor_store session loc) a =
      dlep_session_get_local_neighbor session a := by
  unfold dlep_session_get_local_neighbor dlep_local_neighbor_store
  simp only
  generalize session.local_neighbor_tree = tree
  induction tree with
  | nil => rfl
  | cons x xs ih =>
    rw [List.map_cons]
    by_cases hx : x.addr = loc.addr
    · have hxa : ¬ x.addr = a := fun e => h (e.symm.trans hx)
      rw [if_pos hx, List.find?_cons_of_neg, List.find?_cons_of_neg, ih]
      · simpa using hxa
      · simpa using Ne.symm h
    · rw [if_neg hx]
      by_cases hxa : x.addr = a
      · rw [List.find?_cons_of_pos, List.find?_cons_of_pos] <;> simpa using hxa
      · rw [List.find?_cons_of_neg, List.find?_cons_of_neg, ih] <;> simpa using hxa

theorem get_remove_same (session : dlep_session) (loc : dlep_local_neighbor) :
    dlep_session_get_local_neighbor (dlep_session_remove_local_neighbor session loc)
      loc.addr = none := by
  unfold dlep_session_get_local_neighbor dlep_session_remove_local_neighbor
  simp only
  rw [List.find?_eq_none]
  intro l hl
  simp only [List.mem_filter, decide_eq_true_eq] at hl
  simpa using hl.2

theorem get_remove_other (session : dlep_session) (loc : dlep_local_neighbor) (a : netaddr)
    (h : a ≠ loc.addr) :
    dlep_session_get_local_neighbor (dlep_session_remove_local_neighbor session loc) a =
      dlep_session_get_local_neighbor session a := by
  unfold dlep_session_get_local_neighbor dlep_session_remove_local_neighbor
  simp only
  generalize session.local_neighbor_tree = tree
  induction tree with
  | nil => rfl
  | cons x xs ih =>
    by_cases hx : x.addr = loc.addr
    · have hxa : ¬ x.addr = a := fun e => h (e.symm.trans hx)
      rw [List.filter_cons_of_neg, List.find?_cons_of_neg, ih]
      · simpa using hxa
      · simpa using hx
    · rw [List.filter_cons_of_pos]
      · by_cases hxa : x.addr = a
        · rw [List.find?_cons_of_pos, List.find?_cons_of_pos] <;> simpa using hxa
        · rw [List.find?_cons_of_neg, List.find?_cons_of_neg, ih] <;> simpa using hxa
      · simpa using hx

theorem radio_get_store (radio_ifs : List dlep_radio_if) (ifname : String)
    (radio_if stored : dlep_radio_if)
    (h : dlep_radio_get_by_layer2_if radio_ifs ifname = some radio_if)
    (hname : stored.interf.l2_ifname = radio_if.interf.l2_ifname) :
    dlep_radio_get_by_layer2_if (dlep_radio_if_store radio_ifs stored) ifname =
      some stored := by
  have hn : radio_if.interf.l2_ifname = ifname := by
    have := List.find?_some h
    simpa using this
  unfold dlep_radio_get_by_layer2_if dlep_radio_if_store at *
  induction radio_ifs with
  | nil => simp at h
  | cons x xs ih =>
    by_cases hx : x.interf.l2_ifname = ifname
    · simp [List.find?_cons, hx, hname, hn]
    · have h2 : List.find? (fun r => decide (r.interf.l2_ifname = ifname)) xs =
          some radio_if := by
        simpa [List.find?_cons, hx] using h
      have hx2 : ¬ x.interf.l2_ifname = stored.interf.l2_ifname := by
        rw [hname, hn]; exact hx
      simp [List.find?_cons, hx, hx2, ih h2]

/-! ## Destination sub-state-machine -/

theorem add_existing (env : dlep_env) (session : dlep_session) (mac : netaddr)
    (loc : dlep_local_neighbor)
    (h : dlep_session_get_local_neighbor session mac = some loc) :
    dlep_session_add_local_neighbor env session mac = (session, some loc) := by
  unfold dlep_session_add_local_neighbor
  rw [h]

theorem changed_session_up_sent (env : dlep_env) (session : dlep_session)
    (l2neigh : oonf_layer2_neigh) (mac : netaddr) (loc : dlep_local_neighbor)
    (hloc : dlep_session_get_local_neighbor session mac = some loc)
    (hstate : loc.state = .DLEP_NEIGHBOR_UP_SENT) :
    _l2_neigh_changed_session env session l2neigh mac =
      dlep_local_neighbor_store session
        { loc with neigh_addr := l2neigh.addr, changed := true } := by
  unfold _l2_neigh_changed_session
  rw [add_existing env session mac loc hloc]
  simp only [hstate]

theorem l2_neigh_changed_get (env : dlep_env) (radio_ifs : List dlep_radio_if)
    (l2neigh : oonf_layer2_neigh) (l2dest : Option oonf_layer2_destination)
    (mac : netaddr) (radio_if : dlep_radio_if)
    (hif : dlep_radio_get_by_layer2_if radio_ifs l2neigh.network_name = some radio_if) :
    dlep_radio_get_by_layer2_if (_l2_neigh_changed env radio_ifs l2neigh l2dest mac)
        l2neigh.network_name =
      some
        { radio_if with
          interf :=
            { radio_if.interf with
              session_tree :=
                radio_if.interf.session_tree.map
                  (fun radio_session =>
                    if l2_session_skipped l2dest radio_session.session.cfg then
                      radio_session
                    else
                      { radio_session with
                        session :=
                          _l2_neigh_changed_session env radio_session.session l2neigh
                            mac }) } } := by
  unfold _l2_neigh_changed
  rw [hif]
  exact radio_get_store _ _ _ _ hif rfl

/-- C5: on a session of the interface's session tree that passes the
send_neighbors/send_proxied filter and holds a local neighbor for `mac` in
UP_SENT, `_l2_neigh_changed` for `mac` sets `changed`, leaves the state
UP_SENT and generates no signal on the session; when a DESTINATION_UP_ACK
with status OKAY for `mac` is processed afterwards, the handler returns 0,
the trace of the session grows by exactly one DESTINATION_UPDATE for `mac`,
and `changed` is false again. -/
theorem l2_neigh_changed_while_up_sent (env env_ack : dlep_env)
    (radio_ifs : List dlep_radio_if) (l2neigh : oonf_layer2_neigh)
    (l2dest : Option oonf_layer2_destination) (mac : netaddr) (radio_if : dlep_radio_if)
    (i : Nat) (radio_session : dlep_radio_session) (loc : dlep_local_neighbor)
    (rx : dlep_signal_values)
    (hif : dlep_radio_get_by_layer2_if radio_ifs l2neigh.network_name = some radio_if)
    (hsession : radio_if.interf.session_tree[i]? = some radio_session)
    (hfilter : l2_session_skipped l2dest radio_session.session.cfg = false)
    (hloc : dlep_session_get_local_neighbor radio_session.session mac = some loc)
    (hstate : loc.state = .DLEP_NEIGHBOR_UP_SENT)
    (hmac : rx.mac_tlv = some mac) (hstatus : rx.status = .DLEP_STATUS_OKAY) :
    ∃ radio_if' radio_session' loc',
      dlep_radio_get_by_layer2_if (_l2_neigh_changed env radio_ifs l2neigh l2dest mac)
          l2neigh.network_name = some radio_if' ∧
      radio_if'.interf.session_tree[i]? = some radio_session' ∧
      dlep_session_get_local_neighbor radio_session'.session mac = some loc' ∧
      loc'.changed = true ∧ loc'.state = .DLEP_NEIGHBOR_UP_SENT ∧
      radio_session'.session.generated = radio_session.session.generated ∧
      ∃ acked loc'',
        _radio_process_destination_up_ack env_ack rx radio_session'.session =
          some (acked, 0) ∧
        acked.generated =
          radio_session.session.generated ++
            [⟨.DLEP_DESTINATION_UPDATE, some mac,
              env_ack.write_ok radio_session.session.generated .DLEP_DESTINATION_UPDATE
                (some mac)⟩] ∧
        dlep_session_get_local_neighbor acked mac = some loc'' ∧
        loc''.changed = false ∧ loc''.state = .DLEP_NEIGHBOR_UP_ACKED := by
  obtain ⟨hmem, haddr⟩ := get_some_mem _ _ _ hloc
  have hex : ∀ l : dlep_local_neighbor, l.addr = mac →
      ∃ l0 ∈ radio_session.session.local_neighbor_tree, l0.addr = l.addr :=
    fun l hl => ⟨loc, hmem, by rw [haddr, hl]⟩
  have hget1 : dlep_session_get_local_neighbor
      (dlep_local_neighbor_store radio_session.session
        { loc with neigh_addr := l2neigh.addr, changed := true }) mac =
      some { loc with neigh_addr := l2neigh.addr, changed := true } := by
    have := get_store_same radio_session.session
      { loc with neigh_addr := l2neigh.addr, changed := true } (hex _ haddr)
    simpa only [haddr] using this
  refine ⟨_, ⟨dlep_local_neighbor_store radio_session.session
      { loc with neigh_addr := l2neigh.addr, changed := true }⟩, _,
    l2_neigh_changed_get env radio_ifs l2neigh l2dest mac radio_if hif, ?_, hget1, rfl,
    hstate, rfl, ?_⟩
  · simp only [List.getElem?_map, hsession, Option.map_some', hfilter]
    rw [changed_session_up_sent env _ l2neigh mac loc hloc hstate]
    rfl
  · refine ⟨dlep_local_neighbor_store
        (dlep_session_generate_signal env_ack
          (dlep_local_neighbor_store radio_session.session
            { loc with neigh_addr := l2neigh.addr, changed := true })
          .DLEP_DESTINATION_UPDATE (some mac)).1
        { addr := loc.addr, state := .DLEP_NEIGHBOR_UP_ACKED, changed := false,
          neigh_addr := l2neigh.addr, _ack_timeout := oonf_timer_stop loc._ack_timeout },
      { addr := loc.addr, state := .DLEP_NEIGHBOR_UP_ACKED, changed := false,
        neigh_addr := l2neigh.addr, _ack_timeout := oonf_timer_stop loc._ack_timeout },
      ?_, rfl, ?_, rfl, rfl⟩
    · have hget2 := hget1
      simp only [hstate] at hget2
      unfold _radio_process_destination_up_ack
      simp only [hmac, hstatus, hstate, hget2, if_true]
    · have := get_store_same
        (dlep_session_generate_signal env_ack
          (dlep_local_neighbor_store radio_session.session
            { loc with neigh_addr := l2neigh.addr, changed := true })
          .DLEP_DESTINATION_UPDATE (some mac)).1
        { addr := loc.addr, state := .DLEP_NEIGHBOR_UP_ACKED, changed := false,
          neigh_addr := l2neigh.addr, _ack_timeout := oonf_timer_stop loc._ack_timeout }
        ⟨{ loc with neigh_addr := l2neigh.addr, changed := true }, by
          show _ ∈ List.map _ _
          exact List.mem_map.mpr ⟨loc, hmem, by simp⟩, rfl⟩
      simpa only [haddr] using this

/-- C5, witness: the session of wlan0 with aa:bb:cc:dd:ee:ff in UP_SENT,
a layer-2 change of that neighbor and a DESTINATION_UP_ACK with status
OKAY. -/
theorem l2_neigh_changed_while_up_sent_witness :
    (dlep_radio_get_by_layer2_if [radio_wlan0_with session_up_sent]
        l2neigh_aabb.network_name = some (radio_wlan0_with session_up_sent) ∧
      (radio_wlan0_with session_up_sent).interf.session_tree[0]? =
        some ⟨session_up_sent⟩ ∧
      l2_session_skipped none session_up_sent.cfg = false ∧
      dlep_session_get_local_neighbor session_up_sent mac_aabb =
        some ⟨mac_aabb, .DLEP_NEIGHBOR_UP_SENT, false, mac_aabb, .armed 10000⟩) ∧
    ∃ radio_if' radio_session' loc',
      dlep_radio_get_by_layer2_if
          (_l2_neigh_changed env_ok [radio_wlan0_with session_up_sent] l2neigh_aabb none
            mac_aabb)
          l2neigh_aabb.network_name = some radio_if' ∧
      radio_if'.interf.session_tree[0]? = some radio_session' ∧
      dlep_session_get_local_neighbor radio_session'.session mac_aabb = some loc' ∧
      loc'.changed = true ∧ loc'.state = .DLEP_NEIGHBOR_UP_SENT ∧
      radio_session'.session.generated = session_up_sent.generated ∧
      ∃ acked loc'',
        _radio_process_destination_up_ack env_ok (rx_ack_aabb .DLEP_STATUS_OKAY)
            radio_session'.session = some (acked, 0) ∧
        acked.generated =
          session_up_sent.generated ++
            [⟨.DLEP_DESTINATION_UPDATE, some mac_aabb,
              env_ok.write_ok session_up_sent.generated .DLEP_DESTINATION_UPDATE
                (some mac_aabb)⟩] ∧
        dlep_session_get_local_neighbor acked mac_aabb = some loc'' ∧
        loc''.changed = false ∧ loc''.state = .DLEP_NEIGHBOR_UP_ACKED :=
  ⟨by decide,
    l2_neigh_changed_while_up_sent env_ok env_ok [radio_wlan0_with session_up_sent]
      l2neigh_aabb none mac_aabb (radio_wlan0_with session_up_sent) 0 ⟨session_up_sent⟩
      ⟨mac_aabb, .DLEP_NEIGHBOR_UP_SENT, false, mac_aabb, .armed 10000⟩
      (rx_ack_aabb .DLEP_STATUS_OKAY) (by decide) (by decide) (by decide) (by decide)
      rfl rfl rfl⟩

/-- C6 as stated fails: a DESTINATION_UP_ACK for aa:bb:cc:dd:ee:ff with
status REQUEST_DENIED, processed while the local neighbor is in UP_SENT,
returns 0 and leaves the session as it was: the entry stays in UP_SENT and
its ack timer keeps running. -/
theorem radio_process_destination_up_ack_denied :
    (rx_ack_aabb .DLEP_STATUS_REQUEST_DENIED).mac_tlv = some mac_aabb ∧
    dlep_session_get_local_neighbor session_up_sent mac_aabb =
      some ⟨mac_aabb, .DLEP_NEIGHBOR_UP_SENT, false, mac_aabb, .armed 10000⟩ ∧
    _radio_process_destination_up_ack env_ok (rx_ack_aabb .DLEP_STATUS_REQUEST_DENIED)
      session_up_sent = some (session_up_sent, 0) := by
  decide

/-- C6, amended: for a local neighbor in UP_SENT, processing a
DESTINATION_UP_ACK that carries its MAC and has status OKAY returns 0, moves
the entry to UP_ACKED and stops its ack-timeout timer. -/
theorem radio_process_destination_up_ack_okay (env : dlep_env) (rx : dlep_signal_values)
    (session : dlep_session) (mac : netaddr) (loc : dlep_local_neighbor)
    (hloc : dlep_session_get_local_neighbor session mac = some loc)
    (hstate : loc.state = .DLEP_NEIGHBOR_UP_SENT)
    (hmac : rx.mac_tlv = some mac) (hstatus : rx.status = .DLEP_STATUS_OKAY) :
    ∃ result loc',
      _radio_process_destination_up_ack env rx session = some (result, 0) ∧
      dlep_session_get_local_neighbor result mac = some loc' ∧
      loc'.state = .DLEP_NEIGHBOR_UP_ACKED ∧
      loc'._ack_timeout = .stopped := by
  obtain ⟨hmem, haddr⟩ := get_some_mem _ _ _ hloc
  unfold _radio_process_destination_up_ack
  simp only [hmac, hstatus, hloc, hstate, if_true]
  cases hch : loc.changed
  · refine ⟨dlep_local_neighbor_store session
        ⟨loc.addr, .DLEP_NEIGHBOR_UP_ACKED, false, loc.neigh_addr, .stopped⟩,
      ⟨loc.addr, .DLEP_NEIGHBOR_UP_ACKED, false, loc.neigh_addr, .stopped⟩, rfl, ?_, rfl, rfl⟩
    have := get_store_same session
      ⟨loc.addr, .DLEP_NEIGHBOR_UP_ACKED, false, loc.neigh_addr, .stopped⟩
      ⟨loc, hmem, rfl⟩
    simpa only [haddr] using this
  · refine ⟨dlep_local_neighbor_store
        (dlep_session_generate_signal env session .DLEP_DESTINATION_UPDATE (some mac)).1
        ⟨loc.addr, .DLEP_NEIGHBOR_UP_ACKED, false, loc.neigh_addr, .stopped⟩,
      ⟨loc.addr, .DLEP_NEIGHBOR_UP_ACKED, false, loc.neigh_addr, .stopped⟩, rfl, ?_, rfl, rfl⟩
    have := get_store_same
      (dlep_session_generate_signal env session .DLEP_DESTINATION_UPDATE (some mac)).1
      ⟨loc.addr, .DLEP_NEIGHBOR_UP_ACKED, false, loc.neigh_addr, .stopped⟩
      ⟨loc, hmem, rfl⟩
    simpa only [haddr] using this

/-- C6, witness: the session with aa:bb:cc:dd:ee:ff in UP_SENT and an
acknowledgement with status OKAY. -/
theorem radio_process_destination_up_ack_okay_witness :
    ∃ result loc',
      _radio_process_destination_up_ack env_ok (rx_ack_aabb .DLEP_STATUS_OKAY)
        session_up_sent = some (result, 0) ∧
      dlep_session_get_local_neighbor result mac_aabb = some loc' ∧
      loc'.state = .DLEP_NEIGHBOR_UP_ACKED ∧
      loc'._ack_timeout = .stopped :=
  radio_process_destination_up_ack_okay env_ok (rx_ack_aabb .DLEP_STATUS_OKAY)
    session_up_sent mac_aabb
    ⟨mac_aabb, .DLEP_NEIGHBOR_UP_SENT, false, mac_aabb, .armed 10000⟩
    (by decide) rfl rfl rfl

/-- The guard of `_radio_process_destination_down_ack` on the status: on a
session that holds aa:bb:cc:dd:ee:ff in DOWN_SENT, a DESTINATION_DOWN_ACK for
that MAC with status REQUEST_DENIED returns 0 and leaves the entry in the
destination table. -/
theorem radio_process_destination_down_ack_denied :
    (rx_ack_aabb .DLEP_STATUS_REQUEST_DENIED).mac_tlv = some mac_aabb ∧
    dlep_session_get_local_neighbor session_down_sent mac_aabb =
      some ⟨mac_aabb, .DLEP_NEIGHBOR_DOWN_SENT, false, netaddr.zero, .armed 10000⟩ ∧
    _radio_process_destination_down_ack (rx_ack_aabb .DLEP_STATUS_REQUEST_DENIED)
      session_down_sent = some (session_down_sent, 0) := by
  decide

/-- What the handler of the DESTINATION_DOWN_ACK and the ack-timeout
callback do to the destination table, for every session: for a local
neighbor in DOWN_SENT, processing a DESTINATION_DOWN_ACK that carries its MAC
and has status OKAY returns 0 and removes the entry, leaving the entries of
other addresses as they were; and the ack-timeout callback removes the entry
it fires for, whatever the state of that entry, leaving the entries of other
addresses as they were. -/
theorem radio_destination_entry_removed (rx : dlep_signal_values)
    (session : dlep_session) (mac : netaddr) (loc : dlep_local_neighbor)
    (hloc : dlep_session_get_local_neighbor session mac = some loc)
    (hstate : loc.state = .DLEP_NEIGHBOR_DOWN_SENT)
    (hmac : rx.mac_tlv = some mac) (hstatus : rx.status = .DLEP_STATUS_OKAY) :
    (∃ result,
      _radio_process_destination_down_ack rx session = some (result, 0) ∧
      dlep_session_get_local_neighbor result mac = none ∧
      ∀ other, other ≠ mac →
        dlep_session_get_local_neighbor result other =
          dlep_session_get_local_neighbor session other) ∧
    ∀ (timed : dlep_session) (fired : dlep_local_neighbor),
      dlep_session_get_local_neighbor (_cb_destination_timeout timed fired) fired.addr =
        none ∧
      ∀ other, other ≠ fired.addr →
        dlep_session_get_local_neighbor (_cb_destination_timeout timed fired) other =
          dlep_session_get_local_neighbor timed other := by
  obtain ⟨_, haddr⟩ := get_some_mem _ _ _ hloc
  refine ⟨⟨dlep_session_remove_local_neighbor session loc, ?_, ?_, ?_⟩, ?_⟩
  · unfold _radio_process_destination_down_ack
    simp only [hmac, hstatus, hloc, hstate, if_true]
  · have := get_remove_same session loc
    rwa [haddr] at this
  · intro other hother
    exact get_remove_other session loc other (by rw [haddr]; exact hother)
  · intro timed fired
    exact ⟨get_remove_same timed fired, fun other hother =>
      get_remove_other timed fired other hother⟩

/-- The removal on a session with aa:bb:cc:dd:ee:ff in DOWN_SENT and an
acknowledgement with status OKAY. -/
theorem radio_destination_entry_removed_witness :
    (∃ result,
      _radio_process_destination_down_ack (rx_ack_aabb .DLEP_STATUS_OKAY)
        session_down_sent = some (result, 0) ∧
      dlep_session_get_local_neighbor result mac_aabb = none ∧
      ∀ other, other ≠ mac_aabb →
        dlep_session_get_local_neighbor result other =
          dlep_session_get_local_neighbor session_down_sent other) ∧
    ∀ (timed : dlep_session) (fired : dlep_local_neighbor),
      dlep_session_get_local_neighbor (_cb_destination_timeout timed fired) fired.addr =
        none ∧
      ∀ other, other ≠ fired.addr →
        dlep_session_get_local_neighbor (_cb_destination_timeout timed fired) other =
          dlep_session_get_local_neighbor timed other :=
  radio_destination_entry_removed (rx_ack_aabb .DLEP_STATUS_OKAY) session_down_sent
    mac_aabb ⟨mac_aabb, .DLEP_NEIGHBOR_DOWN_SENT, false, netaddr.zero, .armed 10000⟩
    (by decide) rfl rfl rfl

/-! ## The ack-timeout duration -/

theorem add_some_cfg (env : dlep_env) (session created : dlep_session) (mac : netaddr)
    (loc : dlep_local_neighbor)
    (h : dlep_session_add_local_neighbor env session mac = (created, some loc)) :
    created.cfg = session.cfg ∧ created.generated = session.generated := by
  unfold dlep_session_add_local_neighbor at h
  split at h
  · simp only [Prod.mk.injEq] at h; rw [← h.1]; exact ⟨rfl, rfl⟩
  · split at h
    · simp only [Prod.mk.injEq] at h; rw [← h.1]; exact ⟨rfl, rfl⟩
    · simp at h

theorem added_to_session_entry (env : dlep_env) (session created : dlep_session)
    (l2neigh : oonf_layer2_neigh) (mac : netaddr) (loc : dlep_local_neighbor)
    (hadd : dlep_session_add_local_neighbor env session mac = (created, some loc)) :
    dlep_session_get_local_neighbor
        (_l2_neigh_added_to_session env session l2neigh mac) mac =
      some ⟨loc.addr, .DLEP_NEIGHBOR_UP_SENT, loc.changed, l2neigh.addr,
        .armed (session.cfg.heartbeat_interval * 2 % 2 ^ 64)⟩ := by
  obtain ⟨hmem, haddr⟩ := add_some_mem _ _ _ _ _ hadd
  have := get_store_same
    (dlep_session_generate_signal env created .DLEP_DESTINATION_UP (some mac)).1
    ⟨loc.addr, .DLEP_NEIGHBOR_UP_SENT, loc.changed, l2neigh.addr,
      .armed (session.cfg.heartbeat_interval * 2 % 2 ^ 64)⟩ ⟨loc, hmem, rfl⟩
  unfold _l2_neigh_added_to_session
  rw [hadd]
  rw [← (add_some_cfg _ _ _ _ _ hadd).1]
  rw [← (add_some_cfg _ _ _ _ _ hadd).1] at this
  simpa only [haddr] using this

theorem changed_session_entry (env : dlep_env) (session created : dlep_session)
    (l2neigh : oonf_layer2_neigh) (mac : netaddr) (loc : dlep_local_neighbor)
    (hadd : dlep_session_add_local_neighbor env session mac = (created, some loc))
    (hstate : loc.state = .DLEP_NEIGHBOR_IDLE ∨ loc.state = .DLEP_NEIGHBOR_DOWN_SENT ∨
      loc.state = .DLEP_NEIGHBOR_DOWN_ACKED) :
    dlep_session_get_local_neighbor
        (_l2_neigh_changed_session env session l2neigh mac) mac =
      some ⟨loc.addr, .DLEP_NEIGHBOR_UP_SENT, false, l2neigh.addr,
        .armed (session.cfg.heartbeat_interval * 2 % 2 ^ 64)⟩ := by
  obtain ⟨hmem, haddr⟩ := add_some_mem _ _ _ _ _ hadd
  have := get_store_same
    (dlep_session_generate_signal env created .DLEP_DESTINATION_UP (some mac)).1
    ⟨loc.addr, .DLEP_NEIGHBOR_UP_SENT, false, l2neigh.addr,
      .armed (session.cfg.heartbeat_interval * 2 % 2 ^ 64)⟩ ⟨loc, hmem, rfl⟩
  rw [← (add_some_cfg _ _ _ _ _ hadd).1]
  rw [← (add_some_cfg _ _ _ _ _ hadd).1] at this
  unfold _l2_neigh_changed_session
  rw [hadd]
  rcases hstate with hs | hs | hs <;> simp only [hs] <;> simpa only [haddr] using this

/-- C9: every place where the radio arms the ack-timeout timer of a local
neighbor uses twice the configured heartbeat interval of the session, reduced
modulo 2 ^ 64: `_l2_neigh_added_to_session` when the entry exists or could be
created, the loop body of `_l2_neigh_changed` for an entry in IDLE, DOWN_SENT
or DOWN_ACKED, and the loop body of `_l2_neigh_removed` when it sends the
DESTINATION_DOWN; with a heartbeat interval of 5000 the duration is 10000. -/
theorem ack_timeout_duration (env : dlep_env) (session : dlep_session)
    (l2neigh : oonf_layer2_neigh) (l2dest : Option oonf_layer2_destination)
    (mac : netaddr) :
    (∀ created loc,
      dlep_session_add_local_neighbor env session mac = (created, some loc) →
      ∃ loc',
        dlep_session_get_local_neighbor
          (_l2_neigh_added_to_session env session l2neigh mac) mac = some loc' ∧
        loc'.state = .DLEP_NEIGHBOR_UP_SENT ∧
        loc'._ack_timeout = .armed (session.cfg.heartbeat_interval * 2 % 2 ^ 64)) ∧
    (∀ created loc,
      dlep_session_add_local_neighbor env session mac = (created, some loc) →
      loc.state = .DLEP_NEIGHBOR_IDLE ∨ loc.state = .DLEP_NEIGHBOR_DOWN_SENT ∨
        loc.state = .DLEP_NEIGHBOR_DOWN_ACKED →
      ∃ loc',
        dlep_session_get_local_neighbor
          (_l2_neigh_changed_session env session l2neigh mac) mac = some loc' ∧
        loc'.state = .DLEP_NEIGHBOR_UP_SENT ∧
        loc'._ack_timeout = .armed (session.cfg.heartbeat_interval * 2 % 2 ^ 64)) ∧
    (∀ loc,
      dlep_session_get_local_neighbor session mac = some loc →
      ((l2dest.isSome && decide (netaddr_cmp l2neigh.addr loc.neigh_addr = 0))
        || (l2dest.isNone && netaddr_is_unspec loc.neigh_addr)) = true →
      ∃ loc',
        dlep_session_get_local_neighbor
          (_l2_neigh_removed_session env session l2neigh l2dest mac) mac = some loc' ∧
        loc'.state = .DLEP_NEIGHBOR_DOWN_SENT ∧
        loc'._ack_timeout = .armed (session.cfg.heartbeat_interval * 2 % 2 ^ 64)) ∧
    (session.cfg.heartbeat_interval = 5000 →
      session.cfg.heartbeat_interval * 2 % 2 ^ 64 = 10000) := by
  refine ⟨?_, ?_, ?_, ?_⟩
  · intro created loc hadd
    exact ⟨_, added_to_session_entry env session created l2neigh mac loc hadd, rfl, rfl⟩
  · intro created loc hadd hstate
    exact ⟨_, changed_session_entry env session created l2neigh mac loc hadd hstate,
      rfl, rfl⟩
  · intro loc hget hcond
    obtain ⟨hmem, haddr⟩ := get_some_mem _ _ _ hget
    refine ⟨⟨loc.addr, .DLEP_NEIGHBOR_DOWN_SENT, loc.changed, loc.neigh_addr,
      .armed (session.cfg.heartbeat_interval * 2 % 2 ^ 64)⟩, ?_, rfl, rfl⟩
    have := get_store_same
      (dlep_session_generate_signal env session .DLEP_DESTINATION_DOWN (some mac)).1
      ⟨loc.addr, .DLEP_NEIGHBOR_DOWN_SENT, loc.changed, loc.neigh_addr,
        .armed (session.cfg.heartbeat_interval * 2 % 2 ^ 64)⟩ ⟨loc, hmem, rfl⟩
    unfold _l2_neigh_removed_session
    rw [hget]
    simp only [hcond, if_true]
    simpa only [haddr] using this
  · intro h
    rw [h]
    norm_num

/-- C9, witness: with a heartbeat interval of 5000 ms the timer is armed
with 10000 ms when aa:bb:cc:dd:ee:ff is added to a fresh session, when it
changes while in DOWN_SENT, and when it is removed while its entry has no
wireless neighbor address. -/
theorem ack_timeout_duration_witness :
    (∃ loc',
      dlep_session_get_local_neighbor
        (_l2_neigh_added_to_session env_ok (session_fresh true false) l2neigh_aabb
          mac_aabb) mac_aabb = some loc' ∧
      loc'._ack_timeout = .armed 10000) ∧
    (∃ loc',
      dlep_session_get_local_neighbor
        (_l2_neigh_changed_session env_ok session_down_sent l2neigh_aabb mac_aabb)
        mac_aabb = some loc' ∧
      loc'._ack_timeout = .armed 10000) ∧
    (∃ loc',
      dlep_session_get_local_neighbor
        (_l2_neigh_removed_session env_ok session_down_sent l2neigh_aabb none mac_aabb)
        mac_aabb = some loc' ∧
      loc'._ack_timeout = .armed 10000) := by
  refine ⟨?_, ?_, ?_⟩
  · obtain ⟨loc', h1, _, h3⟩ :=
      (ack_timeout_duration env_ok (session_fresh true false) l2neigh_aabb none
        mac_aabb).1
        { session_fresh true false with
          local_neighbor_tree :=
            [⟨mac_aabb, .DLEP_NEIGHBOR_IDLE, false, netaddr.zero, .stopped⟩] }
        ⟨mac_aabb, .DLEP_NEIGHBOR_IDLE, false, netaddr.zero, .stopped⟩ (by decide)
    exact ⟨loc', h1, h3⟩
  · obtain ⟨loc', h1, _, h3⟩ :=
      (ack_timeout_duration env_ok session_down_sent l2neigh_aabb none mac_aabb).2.1
        session_down_sent
        ⟨mac_aabb, .DLEP_NEIGHBOR_DOWN_SENT, false, netaddr.zero, .armed 10000⟩
        (by decide) (by decide)
    exact ⟨loc', h1, h3⟩
  · obtain ⟨loc', h1, _, h3⟩ :=
      (ack_timeout_duration env_ok session_down_sent l2neigh_aabb none mac_aabb).2.2.1
        ⟨mac_aabb, .DLEP_NEIGHBOR_DOWN_SENT, false, netaddr.zero, .armed 10000⟩
        (by decide) (by decide)
    exact ⟨loc', h1, h3⟩

/-! ## Peer initialisation -/

theorem destination_ups_only_refl (session : dlep_session) :
    destination_ups_only session session :=
  ⟨rfl, rfl, rfl, rfl, [], by simp, by simp⟩

theorem destination_ups_only_trans (a b c : dlep_session)
    (hab : destination_ups_only a b) (hbc : destination_ups_only b c) :
    destination_ups_only a c := by
  obtain ⟨h1, h2, h3, h4, ups, h5, h6⟩ := hab
  obtain ⟨k1, k2, k3, k4, ups', k5, k6⟩ := hbc
  refine ⟨k1.trans h1, k2.trans h2, k3.trans h3, k4.trans h4, ups ++ ups', ?_, ?_⟩
  · rw [k5, h5, List.append_assoc]
  · intro g hg
    rcases List.mem_append.mp hg with hg | hg
    · exact h6 g hg
    · exact k6 g hg

theorem foldl_destination_ups_only {α : Type} (f : dlep_session → α → dlep_session)
    (hf : ∀ s a, destination_ups_only s (f s a)) (l : List α) (session : dlep_session) :
    destination_ups_only session (l.foldl f session) := by
  induction l generalizing session with
  | nil => exact destination_ups_only_refl session
  | cons a l ih =>
    exact destination_ups_only_trans _ _ _ (hf session a) (ih (f session a))

theorem added_to_session_ups_only (env : dlep_env) (session : dlep_session)
    (l2neigh : oonf_layer2_neigh) (mac : netaddr) :
    destination_ups_only session (_l2_neigh_added_to_session env session l2neigh mac) := by
  unfold _l2_neigh_added_to_session dlep_session_add_local_neighbor
  split
  · next s1 heq =>
    split at heq
    · simp at heq
    · split at heq
      · simp at heq
      · simp only [Prod.mk.injEq, and_true] at heq
        rw [← heq]; exact destination_ups_only_refl session
  · next s1 loc heq =>
    have hs1 : s1.cfg = session.cfg ∧
        s1.remote_heartbeat_interval = session.remote_heartbeat_interval ∧
        s1.next_restrict_signal = session.next_restrict_signal ∧
        s1.l2_listener_name = session.l2_listener_name ∧
        s1.generated = session.generated := by
      split at heq
      · simp only [Prod.mk.injEq] at heq
        rw [← heq.1]; exact ⟨rfl, rfl, rfl, rfl, rfl⟩
      · split at heq
        · simp only [Prod.mk.injEq] at heq
          rw [← heq.1]; exact ⟨rfl, rfl, rfl, rfl, rfl⟩
        · simp at heq
    obtain ⟨h1, h2, h3, h4, h5⟩ := hs1
    refine ⟨h1, h2, h3, h4,
      [⟨.DLEP_DESTINATION_UP, some mac,
        env.write_ok s1.generated .DLEP_DESTINATION_UP (some mac)⟩], ?_, ?_⟩
    · show s1.generated ++ _ = _
      rw [h5]
    · intro g hg
      rw [List.mem_singleton.mp hg]

theorem peer_init_l2db_ups_only (env : dlep_env) (l2db : List oonf_layer2_net)
    (session : dlep_session) :
    destination_ups_only session (_radio_peer_init_l2db env l2db session) := by
  unfold _radio_peer_init_l2db
  split
  · exact destination_ups_only_refl session
  · apply foldl_destination_ups_only
    intro s l2neigh
    unfold _radio_peer_init_l2neigh
    have h1 : destination_ups_only s
        (if s.cfg.send_neighbors then
          _l2_neigh_added_to_session env s l2neigh l2neigh.addr else s) := by
      split
      · exact added_to_session_ups_only env s l2neigh l2neigh.addr
      · exact destination_ups_only_refl s
    have h2 : ∀ t : dlep_session, destination_ups_only t
        (if t.cfg.send_proxied then
          l2neigh.destinations.foldl
            (fun session destination =>
              _l2_neigh_added_to_session env session l2neigh destination) t
        else t) := by
      intro t
      split
      · exact foldl_destination_ups_only _
          (fun u d => added_to_session_ups_only env u l2neigh d) _ t
      · exact destination_ups_only_refl t
    exact destination_ups_only_trans _ _ _ h1 (h2 _)

theorem peer_init_extensions_frame (env : dlep_env) (rx : dlep_signal_values)
    (session other : dlep_session) :
    (_radio_peer_init_extensions env rx session).2 =
        (_radio_peer_init_extensions env rx other).2 ∧
      (_radio_peer_init_extensions env rx session).1.generated = session.generated ∧
      (_radio_peer_init_extensions env rx session).1.remote_heartbeat_interval =
        session.remote_heartbeat_interval := by
  unfold _radio_peer_init_extensions dlep_session_update_extensions
  split <;> split <;> exact ⟨rfl, rfl, rfl⟩

/-- C10: when a radio session with restrict_signal = PEER_INITIALIZATION
processes a PEER_INITIALIZATION whose heartbeat TLV carries `interval`, the
extension update succeeds and the PEER_INITIALIZATION_ACK can be written,
the handler returns 0, remote_heartbeat_interval is `interval`,
next_restrict_signal is ALL_SIGNALS, and the trace of the session grew by
exactly one PEER_INITIALIZATION_ACK, followed by DESTINATION_UP signals
only. -/
theorem radio_process_peer_init_success (env : dlep_env) (l2db : List oonf_layer2_net)
    (rx : dlep_signal_values) (session : dlep_session) (interval : Nat)
    (hrestrict : session.restrict_signal = .DLEP_PEER_INITIALIZATION)
    (hheartbeat : rx.heartbeat_tlv = some interval)
    (hext : (_radio_peer_init_extensions env rx session).2 = 0)
    (hack : env.write_ok session.generated .DLEP_PEER_INITIALIZATION_ACK none = true) :
    (_radio_process_peer_init env l2db rx session).2 = 0 ∧
    (_radio_process_peer_init env l2db rx session).1.remote_heartbeat_interval = interval ∧
    (_radio_process_peer_init env l2db rx session).1.next_restrict_signal =
      .DLEP_ALL_SIGNALS ∧
    ∃ ups : List dlep_generated,
      (_radio_process_peer_init env l2db rx session).1.generated =
        session.generated ++ ⟨.DLEP_PEER_INITIALIZATION_ACK, none, true⟩ :: ups ∧
      ∀ g ∈ ups, g.signal = .DLEP_DESTINATION_UP := by
  have hne : ¬ (session.restrict_signal ≠ .DLEP_PEER_INITIALIZATION) := by
    simp [hrestrict]
  unfold _radio_process_peer_init
  rw [if_neg hne]
  simp only [hheartbeat]
  generalize hmid : dlep_base_proto_start_remote_heartbeat
    (dlep_base_proto_start_local_heartbeat
      { session with remote_heartbeat_interval := interval }) = mid
  have hm1 : mid.generated = session.generated := by rw [← hmid]; rfl
  have hm2 : mid.remote_heartbeat_interval = interval := by rw [← hmid]; rfl
  obtain ⟨hrc, hgen, hhb⟩ := peer_init_extensions_frame env rx mid session
  rw [hext] at hrc
  generalize _radio_peer_init_extensions env rx mid = upd at hrc hgen hhb ⊢
  have hwr : dlep_session_generate_signal env upd.1 .DLEP_PEER_INITIALIZATION_ACK none =
      ({ upd.1 with
          generated := upd.1.generated ++ [⟨.DLEP_PEER_INITIALIZATION_ACK, none, true⟩] },
        0) := by
    unfold dlep_session_generate_signal
    simp only [hgen, hm1, hack, if_true]
  rw [if_neg (by simp [hrc]), hwr, if_neg (by simp)]
  obtain ⟨_, k2, _, _, ups, k5, k6⟩ := peer_init_l2db_ups_only env l2db
    { upd.1 with
      generated := upd.1.generated ++ [⟨.DLEP_PEER_INITIALIZATION_ACK, none, true⟩] }
  refine ⟨rfl, ?_, rfl, ups, ?_, k6⟩
  · show (_radio_peer_init_l2db env l2db _).remote_heartbeat_interval = interval
    rw [k2]
    show upd.1.remote_heartbeat_interval = interval
    rw [hhb, hm2]
  · show (_radio_peer_init_l2db env l2db _).generated = _
    rw [k5]
    show (upd.1.generated ++ [_]) ++ ups = _
    rw [hgen, hm1, List.append_assoc]
    rfl

/-- C10, witness: a session on wlan0 waiting for the PEER_INITIALIZATION,
and a PEER_INITIALIZATION with heartbeat interval 3000 ms. -/
theorem radio_process_peer_init_success_witness :
    (_radio_process_peer_init env_ok l2db_wlan0 rx_peer_init
        (session_waiting true true)).2 = 0 ∧
    (_radio_process_peer_init env_ok l2db_wlan0 rx_peer_init
        (session_waiting true true)).1.remote_heartbeat_interval = 3000 ∧
    (_radio_process_peer_init env_ok l2db_wlan0 rx_peer_init
        (session_waiting true true)).1.next_restrict_signal = .DLEP_ALL_SIGNALS ∧
    ∃ ups : List dlep_generated,
      (_radio_process_peer_init env_ok l2db_wlan0 rx_peer_init
          (session_waiting true true)).1.generated =
        (session_waiting true true).generated ++
          ⟨.DLEP_PEER_INITIALIZATION_ACK, none, true⟩ :: ups ∧
      ∀ g ∈ ups, g.signal = .DLEP_DESTINATION_UP :=
  radio_process_peer_init_success env_ok l2db_wlan0 rx_peer_init
    (session_waiting true true) 3000 rfl rfl (by decide) rfl

/-! ## Where the layer-2 callbacks miss the sessions -/

/-- C2, failing input: wlan0 has one TCP session with send_neighbors set and
the layer-2 table reports the new neighbor aa:bb:cc:dd:ee:ff. The
DESTINATION_UP is generated on the interface's own session, which gets the
local neighbor in UP_SENT; the TCP session generates nothing and has no
local neighbor. -/
theorem cb_l2_neigh_added_on_interface_session :
    (session_fresh true false).cfg.send_neighbors = true ∧
    _cb_l2_neigh_added env_ok
        [⟨⟨"wlan0", session_fresh true false, [⟨session_fresh true false⟩]⟩⟩]
        l2neigh_aabb =
      [⟨⟨"wlan0", session_up_sent, [⟨session_fresh true false⟩]⟩⟩] ∧
    (session_fresh true false).generated = [] ∧
    dlep_session_get_local_neighbor (session_fresh true false) mac_aabb = none := by
  decide

/-- C3, failing input: the TCP session of wlan0 (send_neighbors set) gets
its local neighbor aa:bb:cc:dd:ee:ff from a layer-2 change event; when the
layer-2 table then reports the removal of that neighbor, nothing happens: no
DESTINATION_DOWN is generated, the entry stays in UP_SENT. -/
theorem cb_l2_neigh_removed_does_nothing :
    _cb_l2_neigh_changed env_ok [radio_wlan0 true false] l2neigh_aabb =
      [radio_wlan0_with session_up_sent] ∧
    _cb_l2_neigh_removed env_ok [radio_wlan0_with session_up_sent] l2neigh_aabb =
      [radio_wlan0_with session_up_sent] := by
  decide

/-- C4, failing inputs: the layer-2 table reports the proxied destination
02:00:00:00:00:01 behind aa:bb:cc:dd:ee:ff on wlan0. With send_proxied set
and send_neighbors clear, no session generates anything; with send_proxied
clear and send_neighbors set, a DESTINATION_UP for the destination is
generated (on the interface's own session). -/
theorem cb_l2_dst_added_filters_on_send_neighbors :
    _cb_l2_dst_added env_ok [radio_wlan0 false true] l2dst_0201 =
      [radio_wlan0 false true] ∧
    (radio_wlan0 false true).interf.session.generated = [] ∧
    (radio_wlan0 false true).interf.session_tree.map (fun s => s.session.generated) =
      [[]] ∧
    (_cb_l2_dst_added env_ok [radio_wlan0 true false] l2dst_0201).map
        (fun r => r.interf.session.generated) =
      [[⟨.DLEP_DESTINATION_UP, some mac_0201, true⟩]] := by
  decide

theorem radio_write_peer_init_ack_tlvs (ext_ids : List Nat) (session : dlep_session)
    (writer : List dlep_tlv) :
    ∃ rest,
      _radio_write_peer_init_ack ext_ids session writer =
        (writer ++ .heartbeat_interval session.remote_heartbeat_interval :: rest, 0) ∧
      ∀ tlv ∈ rest, ∀ interval, tlv ≠ .heartbeat_interval interval := by
  unfold _radio_write_peer_init_ack dlep_writer_add_heartbeat_tlv
    dlep_writer_add_supported_extensions dlep_writer_add_peer_type_tlv
  by_cases hext : ext_ids.length ≠ 0 <;> cases hpt : session.cfg.peer_type <;>
    simp [hext]

theorem radio_process_peer_init_on_ack_session (env : dlep_env)
    (l2db : List oonf_layer2_net) (rx : dlep_signal_values) (session : dlep_session)
    (interval : Nat)
    (hrestrict : session.restrict_signal = .DLEP_PEER_INITIALIZATION)
    (hheartbeat : rx.heartbeat_tlv = some interval)
    (hext : (_radio_peer_init_extensions env rx session).2 = 0) :
    _radio_process_peer_init env l2db rx session =
      if (dlep_session_generate_signal env
          (_radio_peer_init_ack_session env rx session interval)
          .DLEP_PEER_INITIALIZATION_ACK none).2 ≠ 0 then
        ((dlep_session_generate_signal env
          (_radio_peer_init_ack_session env rx session interval)
          .DLEP_PEER_INITIALIZATION_ACK none).1, -1)
      else
        ({ _radio_peer_init_l2db env l2db
            (dlep_session_generate_signal env
              (_radio_peer_init_ack_session env rx session interval)
              .DLEP_PEER_INITIALIZATION_ACK none).1 with
          next_restrict_signal := .DLEP_ALL_SIGNALS }, 0) := by
  have hne : ¬ (session.restrict_signal ≠ .DLEP_PEER_INITIALIZATION) := by
    simp [hrestrict]
  have hrc := (peer_init_extensions_frame env rx
    (dlep_base_proto_start_remote_heartbeat
      (dlep_base_proto_start_local_heartbeat
        { session with remote_heartbeat_interval := interval })) session).1
  rw [hext] at hrc
  unfold _radio_process_peer_init _radio_peer_init_ack_session
  rw [if_neg hne]
  simp only [hheartbeat]
  rw [if_neg (by simp [hrc])]

/-- C11, failing input: a radio session with cfg.heartbeat_interval = 5000
receives a PEER_INITIALIZATION whose heartbeat TLV carries 3000. The handler
succeeds; on the session on which it generates the PEER_INITIALIZATION_ACK
the writer callback puts the heartbeat interval 3000 of the router into the
heartbeat TLV, not the configured 5000. -/
theorem radio_peer_init_ack_carries_remote_heartbeat :
    (session_waiting true true).cfg.heartbeat_interval = 5000 ∧
    rx_peer_init.heartbeat_tlv = some 3000 ∧
    (_radio_process_peer_init env_ok l2db_wlan0 rx_peer_init
      (session_waiting true true)).2 = 0 ∧
    (_radio_peer_init_ack_session env_ok rx_peer_init
      (session_waiting true true) 3000).cfg.heartbeat_interval = 5000 ∧
    _radio_write_peer_init_ack []
        (_radio_peer_init_ack_session env_ok rx_peer_init (session_waiting true true) 3000)
        [] =
      ([.heartbeat_interval 3000, .peer_type "radio1"], 0) := by
  decide

/-- C14: initialising a router session whose restrict_signal is
PEER_INITIALIZATION_ACK appends exactly one PEER_INITIALIZATION to the trace
of the session, calls cb_send_buffer once (address family 0), sets
remote_heartbeat_interval to cfg.heartbeat_interval and starts the remote
heartbeat watchdog; the writer callback of the signal writes the supported
extensions if there are any, one heartbeat TLV with cfg.heartbeat_interval,
and a peer type TLV iff cfg.peer_type is set. For any other restrict_signal
the session is left as it is. -/
theorem cb_init_router_sends_peer_init (env : dlep_env) (ext_ids : List Nat)
    (session : dlep_session) :
    (session.restrict_signal = .DLEP_PEER_INITIALIZATION_ACK →
      (_cb_init_router env session).generated =
        session.generated ++
          [⟨.DLEP_PEER_INITIALIZATION, none,
            env.write_ok session.generated .DLEP_PEER_INITIALIZATION none⟩] ∧
      (_cb_init_router env session).sent = session.sent ++ [.AF_UNSPEC] ∧
      (_cb_init_router env session).remote_heartbeat_interval =
        session.cfg.heartbeat_interval ∧
      (_cb_init_router env session).remote_heartbeat_timeout =
        .armed (session.cfg.heartbeat_interval * 2 % 2 ^ 64) ∧
      (_cb_init_router env session).cfg = session.cfg ∧
      (_cb_init_router env session).restrict_signal = session.restrict_signal ∧
      _router_write_peer_init ext_ids session [] =
        ((if ext_ids.length ≠ 0 then [dlep_tlv.extensions_supported ext_ids] else []) ++
          [dlep_tlv.heartbeat_interval session.cfg.heartbeat_interval] ++
          (match session.cfg.peer_type with
            | some peer_type => [dlep_tlv.peer_type peer_type]
            | none => []), 0)) ∧
    (session.restrict_signal ≠ .DLEP_PEER_INITIALIZATION_ACK →
      _cb_init_router env session = session) := by
  refine ⟨fun h => ?_, fun h => ?_⟩
  · unfold _cb_init_router
    rw [if_pos h]
    refine ⟨rfl, rfl, rfl, rfl, rfl, rfl, ?_⟩
    unfold _router_write_peer_init dlep_writer_add_heartbeat_tlv
      dlep_writer_add_supported_extensions dlep_writer_add_peer_type_tlv
    by_cases hext : ext_ids.length ≠ 0 <;> cases hpt : session.cfg.peer_type <;>
      simp [hext]
  · unfold _cb_init_router
    rw [if_neg h]

/-- C14, witness: a router session with heartbeat interval 5000 ms and
peer type "router1", waiting for the PEER_INITIALIZATION_ACK, and the same
session still in discovery. -/
theorem cb_init_router_sends_peer_init_witness :
    ((_cb_init_router env_ok (session_router .DLEP_PEER_INITIALIZATION_ACK)).generated =
        [⟨.DLEP_PEER_INITIALIZATION, none, true⟩] ∧
      (_cb_init_router env_ok (session_router .DLEP_PEER_INITIALIZATION_ACK)).sent =
        [.AF_UNSPEC] ∧
      (_cb_init_router env_ok
        (session_router .DLEP_PEER_INITIALIZATION_ACK)).remote_heartbeat_interval = 5000 ∧
      _router_write_peer_init [] (session_router .DLEP_PEER_INITIALIZATION_ACK) [] =
        ([.heartbeat_interval 5000, .peer_type "router1"], 0)) ∧
    _cb_init_router env_ok (session_router .DLEP_PEER_OFFER) =
      session_router .DLEP_PEER_OFFER := by
  have h := cb_init_router_sends_peer_init env_ok []
    (session_router .DLEP_PEER_INITIALIZATION_ACK)
  have h' := cb_init_router_sends_peer_init env_ok [] (session_router .DLEP_PEER_OFFER)
  obtain ⟨h1, h2, h3, _, _, _, h4⟩ := h.1 rfl
  exact ⟨⟨h1, h2, h3, h4⟩, h'.2 (by decide)⟩

/-- C20: each run of the discovery timer callback appends PEER_DISCOVERY to
the trace of the session exactly twice and calls cb_send_buffer exactly
twice, first for AF_INET and then for AF_INET6, changing nothing else;
`_cb_apply_router` starts the timer, with period cfg.discovery_interval,
only when restrict_signal = PEER_OFFER and leaves the session as it is
otherwise; and the writer callback of PEER_DISCOVERY succeeds exactly when
restrict_signal = PEER_OFFER. -/
theorem router_peer_discovery (env : dlep_env) (session : dlep_session)
    (writer : List dlep_tlv) :
    _cb_create_peer_discovery env session =
      { session with
        generated :=
          session.generated ++
            [⟨.DLEP_PEER_DISCOVERY, none,
                env.write_ok session.generated .DLEP_PEER_DISCOVERY none⟩,
              ⟨.DLEP_PEER_DISCOVERY, none,
                env.write_ok
                  (session.generated ++
                    [⟨.DLEP_PEER_DISCOVERY, none,
                      env.write_ok session.generated .DLEP_PEER_DISCOVERY none⟩])
                  .DLEP_PEER_DISCOVERY none⟩]
        sent := session.sent ++ [.AF_INET, .AF_INET6] } ∧
    (session.restrict_signal = .DLEP_PEER_OFFER →
      _cb_apply_router session =
        { session with local_event_timer := .armed session.cfg.discovery_interval }) ∧
    (session.restrict_signal ≠ .DLEP_PEER_OFFER → _cb_apply_router session = session) ∧
    ((_router_write_peer_discovery session writer).2 = 0 ↔
      session.restrict_signal = .DLEP_PEER_OFFER) := by
  refine ⟨?_, fun h => ?_, fun h => ?_, ?_⟩
  · unfold _cb_create_peer_discovery cb_send_buffer dlep_session_generate_signal
    simp
  · unfold _cb_apply_router
    rw [if_pos h]
    rfl
  · unfold _cb_apply_router
    rw [if_neg h]
  · unfold _router_write_peer_discovery
    by_cases h : session.restrict_signal = .DLEP_PEER_OFFER <;> simp [h]

/-- C20, witness: a router session in discovery with discovery interval
1000 ms. -/
theorem router_peer_discovery_witness :
    (_cb_create_peer_discovery env_ok (session_router .DLEP_PEER_OFFER)).generated =
      [⟨.DLEP_PEER_DISCOVERY, none, true⟩, ⟨.DLEP_PEER_DISCOVERY, none, true⟩] ∧
    (_cb_create_peer_discovery env_ok (session_router .DLEP_PEER_OFFER)).sent =
      [.AF_INET, .AF_INET6] ∧
    (_cb_apply_router (session_router .DLEP_PEER_OFFER)).local_event_timer =
      .armed 1000 ∧
    _cb_apply_router (session_router .DLEP_ALL_SIGNALS) =
      session_router .DLEP_ALL_SIGNALS := by
  obtain ⟨h1, h2, _, _⟩ :=
    router_peer_discovery env_ok (session_router .DLEP_PEER_OFFER) []
  obtain ⟨_, _, h3, _⟩ :=
    router_peer_discovery env_ok (session_router .DLEP_ALL_SIGNALS) []
  refine ⟨?_, ?_, ?_, h3 (by decide)⟩
  · rw [h1]; rfl
  · rw [h1]; rfl
  · rw [h2 rfl]; rfl

/-! ## Destinations announced at peer initialisation -/

theorem add_get_other (env : dlep_env) (session created : dlep_session)
    (mac other : netaddr) (found : Option dlep_local_neighbor)
    (hadd : dlep_session_add_local_neighbor env session mac = (created, found))
    (hne : other ≠ mac) :
    dlep_session_get_local_neighbor created other =
      dlep_session_get_local_neighbor session other := by
  unfold dlep_session_add_local_neighbor at hadd
  split at hadd
  · simp only [Prod.mk.injEq] at hadd; rw [← hadd.1]
  · split at hadd
    · simp only [Prod.mk.injEq] at hadd
      rw [← hadd.1]
      unfold dlep_session_get_local_neighbor
      simp only [List.find?_append]
      have : List.find? (fun l => decide (l.addr = other))
          [(⟨mac, .DLEP_NEIGHBOR_IDLE, false, netaddr.zero, .stopped⟩ :
            dlep_local_neighbor)] = none := by
        rw [List.find?_cons_of_neg]
        · rfl
        · simpa using Ne.symm hne
      rw [this]
      simp
    · simp only [Prod.mk.injEq] at hadd; rw [← hadd.1]

theorem added_to_session_get_other (env : dlep_env) (session : dlep_session)
    (l2neigh : oonf_layer2_neigh) (mac other : netaddr) (hne : other ≠ mac) :
    dlep_session_get_local_neighbor
        (_l2_neigh_added_to_session env session l2neigh mac) other =
      dlep_session_get_local_neighbor session other := by
  unfold _l2_neigh_added_to_session
  split
  · next s1 heq => exact add_get_other env session s1 mac other none heq hne
  · next s1 loc heq =>
    have haddr := (add_some_mem _ _ _ _ _ heq).2
    simp only
    rw [get_store_other _ _ other (by simpa [haddr] using hne)]
    exact add_get_other env session s1 mac other (some loc) heq hne

theorem add_of_alloc (env : dlep_env) (session : dlep_session) (mac : netaddr)
    (halloc : ∀ tree, env.alloc_ok tree mac = true) :
    ∃ created loc, dlep_session_add_local_neighbor env session mac = (created, some loc) := by
  unfold dlep_session_add_local_neighbor
  split
  · exact ⟨_, _, rfl⟩
  · rw [if_pos (halloc _)]
    exact ⟨_, _, rfl⟩

theorem added_to_session_trace (env : dlep_env) (session created : dlep_session)
    (l2neigh : oonf_layer2_neigh) (mac : netaddr) (loc : dlep_local_neighbor)
    (hadd : dlep_session_add_local_neighbor env session mac = (created, some loc)) :
    (_l2_neigh_added_to_session env session l2neigh mac).generated =
      session.generated ++
        [⟨.DLEP_DESTINATION_UP, some mac,
          env.write_ok session.generated .DLEP_DESTINATION_UP (some mac)⟩] := by
  unfold _l2_neigh_added_to_session
  rw [hadd]
  show created.generated ++ _ = _
  rw [(add_some_cfg _ _ _ _ _ hadd).2]

theorem added_to_session_up_sent (env : dlep_env) (session : dlep_session)
    (l2neigh : oonf_layer2_neigh) (mac : netaddr) (start : Nat)
    (hstart : start ≤ session.generated.length)
    (halloc : ∀ tree, env.alloc_ok tree mac = true) :
    destination_up_sent mac start (_l2_neigh_added_to_session env session l2neigh mac) := by
  obtain ⟨created, loc, hadd⟩ := add_of_alloc env session mac halloc
  have htrace := added_to_session_trace env session created l2neigh mac loc hadd
  refine ⟨?_, ?_, ?_⟩
  · rw [htrace, List.length_append]; omega
  · rw [htrace, List.drop_append_of_le_length hstart]
    exact ⟨_, List.mem_append_right _ (List.mem_singleton.mpr rfl), rfl, rfl⟩
  · exact ⟨_, added_to_session_entry env session created l2neigh mac loc hadd, rfl⟩

theorem added_to_session_keeps_up_sent (env : dlep_env) (session : dlep_session)
    (l2neigh : oonf_layer2_neigh) (mac other : netaddr) (start : Nat)
    (h : destination_up_sent other start session) :
    destination_up_sent other start (_l2_neigh_added_to_session env session l2neigh mac) := by
  obtain ⟨hstart, ⟨g, hg, hg1, hg2⟩, loc, hloc, hstate⟩ := h
  obtain ⟨_, _, _, _, ups, hups, _⟩ := added_to_session_ups_only env session l2neigh mac
  refine ⟨?_, ⟨g, ?_, hg1, hg2⟩, ?_⟩
  · rw [hups, List.length_append]; omega
  · rw [hups, List.drop_append_of_le_length hstart]
    exact List.mem_append_left _ hg
  · by_cases hne : other = mac
    · subst hne
      exact ⟨_, added_to_session_entry env session session l2neigh other loc
        (add_existing env session other loc hloc), rfl⟩
    · rw [added_to_session_get_other env session l2neigh mac other hne]
      exact ⟨loc, hloc, hstate⟩

theorem foldl_mem_establishes {α β : Type} (P Q : β → Prop) (f : β → α → β)
    (x : α) (hP : ∀ b a, P b → P (f b a)) (hQ : ∀ b a, Q b → Q (f b a))
    (hx : ∀ b, P b → Q (f b x)) (l : List α) (hmem : x ∈ l) (b : β) (hb : P b) :
    Q (l.foldl f b) := by
  induction l generalizing b with
  | nil => cases hmem
  | cons a l ih =>
    rcases List.mem_cons.mp hmem with rfl | hmem
    · exact foldl_preserves Q f hQ l _ (hx b hb)
    · exact ih hmem (f b a) (hP b a hb)

theorem added_to_session_length (env : dlep_env) (session : dlep_session)
    (l2neigh : oonf_layer2_neigh) (mac : netaddr) (start : Nat)
    (h : start ≤ session.generated.length) :
    start ≤ (_l2_neigh_added_to_session env session l2neigh mac).generated.length := by
  obtain ⟨_, _, _, _, ups, hups, _⟩ := added_to_session_ups_only env session l2neigh mac
  rw [hups, List.length_append]; omega

theorem peer_init_l2neigh_ups_only (env : dlep_env) (session : dlep_session)
    (l2neigh : oonf_layer2_neigh) :
    destination_ups_only session (_radio_peer_init_l2neigh env session l2neigh) := by
  unfold _radio_peer_init_l2neigh
  have h1 : destination_ups_only session
      (if session.cfg.send_neighbors then
        _l2_neigh_added_to_session env session l2neigh l2neigh.addr else session) := by
    split
    · exact added_to_session_ups_only env session l2neigh l2neigh.addr
    · exact destination_ups_only_refl session
  have h2 : ∀ t : dlep_session, destination_ups_only t
      (if t.cfg.send_proxied then
        l2neigh.destinations.foldl
          (fun session destination =>
            _l2_neigh_added_to_session env session l2neigh destination) t
      else t) := by
    intro t
    split
    · exact foldl_destination_ups_only _
        (fun u d => added_to_session_ups_only env u l2neigh d) _ t
    · exact destination_ups_only_refl t
  exact destination_ups_only_trans _ _ _ h1 (h2 _)

theorem peer_init_l2neigh_keeps_up_sent (env : dlep_env) (session : dlep_session)
    (l2neigh : oonf_layer2_neigh) (other : netaddr) (start : Nat)
    (h : destination_up_sent other start session) :
    destination_up_sent other start (_radio_peer_init_l2neigh env session l2neigh) := by
  unfold _radio_peer_init_l2neigh
  have h1 : destination_up_sent other start
      (if session.cfg.send_neighbors then
        _l2_neigh_added_to_session env session l2neigh l2neigh.addr else session) := by
    split
    · exact added_to_session_keeps_up_sent env session l2neigh _ other start h
    · exact h
  have h2 : ∀ t : dlep_session, destination_up_sent other start t →
      destination_up_sent other start
        (if t.cfg.send_proxied then
          l2neigh.destinations.foldl
            (fun session destination =>
              _l2_neigh_added_to_session env session l2neigh destination) t
        else t) := by
    intro t ht
    split
    · exact foldl_preserves (destination_up_sent other start) _
        (fun u d hu => added_to_session_keeps_up_sent env u l2neigh d other start hu) _ t ht
    · exact ht
  exact h2 _ h1

theorem peer_init_l2neigh_direct (env : dlep_env) (session : dlep_session)
    (l2neigh : oonf_layer2_neigh) (start : Nat)
    (hstart : start ≤ session.generated.length)
    (hflag : session.cfg.send_neighbors = true)
    (halloc : ∀ tree, env.alloc_ok tree l2neigh.addr = true) :
    destination_up_sent l2neigh.addr start
      (_radio_peer_init_l2neigh env session l2neigh) := by
  have h1 := added_to_session_up_sent env session l2neigh l2neigh.addr start hstart halloc
  unfold _radio_peer_init_l2neigh
  simp only [hflag, if_true]
  split
  · exact foldl_preserves (destination_up_sent l2neigh.addr start) _
      (fun u d hu => added_to_session_keeps_up_sent env u l2neigh d _ start hu) _ _ h1
  · exact h1

theorem peer_init_l2neigh_proxied (env : dlep_env) (session : dlep_session)
    (l2neigh : oonf_layer2_neigh) (destination : netaddr) (start : Nat)
    (hstart : start ≤ session.generated.length)
    (hflag : session.cfg.send_proxied = true)
    (hmem : destination ∈ l2neigh.destinations)
    (halloc : ∀ tree, env.alloc_ok tree destination = true) :
    destination_up_sent destination start
      (_radio_peer_init_l2neigh env session l2neigh) := by
  unfold _radio_peer_init_l2neigh
  have h1 : (if session.cfg.send_neighbors then
      _l2_neigh_added_to_session env session l2neigh l2neigh.addr else session).cfg =
        session.cfg ∧
      start ≤ (if session.cfg.send_neighbors then
        _l2_neigh_added_to_session env session l2neigh l2neigh.addr
          else session).generated.length := by
    split
    · exact ⟨(added_to_session_ups_only env session l2neigh l2neigh.addr).1,
        added_to_session_length env session l2neigh _ start hstart⟩
    · exact ⟨rfl, hstart⟩
  simp only [h1.1, hflag, if_true]
  exact foldl_mem_establishes (fun s => start ≤ s.generated.length)
    (destination_up_sent destination start) _ destination
    (fun u d hu => added_to_session_length env u l2neigh d start hu)
    (fun u d hu => added_to_session_keeps_up_sent env u l2neigh d destination start hu)
    (fun u hu => added_to_session_up_sent env u l2neigh destination start hu halloc)
    _ hmem _ h1.2

theorem peer_init_l2neigh_cfg_length (env : dlep_env) (session : dlep_session)
    (l2neigh : oonf_layer2_neigh) (cfg : dlep_session_config) (start : Nat)
    (h : session.cfg = cfg ∧ start ≤ session.generated.length) :
    (_radio_peer_init_l2neigh env session l2neigh).cfg = cfg ∧
      start ≤ (_radio_peer_init_l2neigh env session l2neigh).generated.length := by
  obtain ⟨k1, _, _, _, ups, k5, _⟩ := peer_init_l2neigh_ups_only env session l2neigh
  refine ⟨k1.trans h.1, ?_⟩
  rw [k5, List.length_append]
  omega

theorem peer_init_l2neigh_nothing (env : dlep_env) (session : dlep_session)
    (l2neigh : oonf_layer2_neigh)
    (h : session.cfg.send_neighbors = false ∧ session.cfg.send_proxied = false) :
    _radio_peer_init_l2neigh env session l2neigh = session := by
  unfold _radio_peer_init_l2neigh
  simp [h.1, h.2]

theorem peer_init_ack_session_frame (env : dlep_env) (rx : dlep_signal_values)
    (session : dlep_session) (interval : Nat) :
    (_radio_peer_init_ack_session env rx session interval).cfg = session.cfg ∧
      (_radio_peer_init_ack_session env rx session interval).generated =
        session.generated ∧
      (_radio_peer_init_ack_session env rx session interval).l2_listener_name =
        session.l2_listener_name := by
  unfold _radio_peer_init_ack_session _radio_peer_init_extensions
    dlep_session_update_extensions
  split <;> split <;> exact ⟨rfl, rfl, rfl⟩

/-- C12 as stated fails: a radio session with both flags set processes a
PEER_INITIALIZATION successfully while no local neighbor can be created
(`dlep_session_add_local_neighbor` returns NULL). The handler returns 0, the
trace holds the PEER_INITIALIZATION_ACK only and the destination table stays
empty, although wlan0 has the layer-2 neighbor aa:bb:cc:dd:ee:ff. -/
theorem radio_peer_init_without_local_neighbors :
    (session_waiting true true).cfg.send_neighbors = true ∧
    oonf_layer2_net_get l2db_wlan0 (session_waiting true true).l2_listener_name =
      some ⟨"wlan0", [l2neigh_aabb_proxy]⟩ ∧
    (_radio_process_peer_init env_no_alloc l2db_wlan0 rx_peer_init
      (session_waiting true true)).2 = 0 ∧
    (_radio_process_peer_init env_no_alloc l2db_wlan0 rx_peer_init
      (session_waiting true true)).1.generated =
        [⟨.DLEP_PEER_INITIALIZATION_ACK, none, true⟩] ∧
    (_radio_process_peer_init env_no_alloc l2db_wlan0 rx_peer_init
      (session_waiting true true)).1.local_neighbor_tree = [] := by
  decide

/-- C12, amended: after a successful PEER_INITIALIZATION on a radio session
(restrict_signal = PEER_INITIALIZATION, heartbeat TLV read, extensions
updated, PEER_INITIALIZATION_ACK written), for every layer-2 neighbor `n` of
the network of the session's interface: if send_neighbors is set and the
local neighbor for the address of `n` can be created, a DESTINATION_UP for
that address was generated after the acknowledgement and its local neighbor
is in UP_SENT; if send_proxied is set the same holds for every proxied
destination of `n` whose local neighbor can be created; and if both flags
are clear nothing was generated after the acknowledgement. -/
theorem radio_peer_init_destinations (env : dlep_env) (l2db : List oonf_layer2_net)
    (rx : dlep_signal_values) (session : dlep_session) (interval : Nat)
    (hrestrict : session.restrict_signal = .DLEP_PEER_INITIALIZATION)
    (hheartbeat : rx.heartbeat_tlv = some interval)
    (hext : (_radio_peer_init_extensions env rx session).2 = 0)
    (hack : env.write_ok session.generated .DLEP_PEER_INITIALIZATION_ACK none = true) :
    ∃ ups : List dlep_generated,
      (_radio_process_peer_init env l2db rx session).1.generated =
        session.generated ++ ⟨.DLEP_PEER_INITIALIZATION_ACK, none, true⟩ :: ups ∧
      (∀ l2net, oonf_layer2_net_get l2db session.l2_listener_name = some l2net →
        session.cfg.send_neighbors = true →
        ∀ n ∈ l2net.neighbors, (∀ tree, env.alloc_ok tree n.addr = true) →
          (∃ g ∈ ups, g.signal = .DLEP_DESTINATION_UP ∧ g.neighbor = some n.addr) ∧
          ∃ loc,
            dlep_session_get_local_neighbor
              (_radio_process_peer_init env l2db rx session).1 n.addr = some loc ∧
            loc.state = .DLEP_NEIGHBOR_UP_SENT) ∧
      (∀ l2net, oonf_layer2_net_get l2db session.l2_listener_name = some l2net →
        session.cfg.send_proxied = true →
        ∀ n ∈ l2net.neighbors, ∀ d ∈ n.destinations,
          (∀ tree, env.alloc_ok tree d = true) →
          (∃ g ∈ ups, g.signal = .DLEP_DESTINATION_UP ∧ g.neighbor = some d) ∧
          ∃ loc,
            dlep_session_get_local_neighbor
              (_radio_process_peer_init env l2db rx session).1 d = some loc ∧
            loc.state = .DLEP_NEIGHBOR_UP_SENT) ∧
      (session.cfg.send_neighbors = false → session.cfg.send_proxied = false →
        ups = []) := by
  obtain ⟨hcfg, hgen, hname⟩ := peer_init_ack_session_frame env rx session interval
  rw [radio_process_peer_init_on_ack_session env l2db rx session interval hrestrict
    hheartbeat hext]
  generalize _radio_peer_init_ack_session env rx session interval = ack at hcfg hgen hname ⊢
  have hwr : dlep_session_generate_signal env ack .DLEP_PEER_INITIALIZATION_ACK none =
      ({ ack with
          generated := ack.generated ++ [⟨.DLEP_PEER_INITIALIZATION_ACK, none, true⟩] },
        0) := by
    unfold dlep_session_generate_signal
    simp only [hgen, hack, if_true]
  rw [hwr, if_neg (by simp)]
  generalize hG : ({ ack with
    generated := ack.generated ++ [⟨.DLEP_PEER_INITIALIZATION_ACK, none, true⟩] } :
      dlep_session) = acked
  have hG1 : acked.generated =
      session.generated ++ [⟨.DLEP_PEER_INITIALIZATION_ACK, none, true⟩] := by
    rw [← hG, ← hgen]
  have hG2 : acked.cfg = session.cfg := by rw [← hG]; exact hcfg
  have hG3 : acked.l2_listener_name = session.l2_listener_name := by rw [← hG]; exact hname
  obtain ⟨_, _, _, _, ups, k5, _⟩ := peer_init_l2db_ups_only env l2db acked
  have hdrop : (_radio_peer_init_l2db env l2db acked).generated.drop
      acked.generated.length = ups := by
    rw [k5, List.drop_left]
  have hfinal : ∀ mac,
      destination_up_sent mac acked.generated.length
        (_radio_peer_init_l2db env l2db acked) →
      (∃ g ∈ ups, g.signal = .DLEP_DESTINATION_UP ∧ g.neighbor = some mac) ∧
        ∃ loc,
          dlep_session_get_local_neighbor
            ({ _radio_peer_init_l2db env l2db acked with
              next_restrict_signal := .DLEP_ALL_SIGNALS }, (0 : Int)).1 mac = some loc ∧
          loc.state = .DLEP_NEIGHBOR_UP_SENT := by
    intro mac h
    obtain ⟨_, hg, hloc⟩ := h
    rw [hdrop] at hg
    exact ⟨hg, hloc⟩
  refine ⟨ups, ?_, ?_, ?_, ?_⟩
  · show (_radio_peer_init_l2db env l2db acked).generated = _
    rw [k5, hG1, List.append_assoc]
    rfl
  · intro l2net hnet hflag n hn halloc
    apply hfinal
    unfold _radio_peer_init_l2db
    rw [hG3, hnet]
    exact foldl_mem_establishes
      (fun s => s.cfg = session.cfg ∧ acked.generated.length ≤ s.generated.length)
      (destination_up_sent n.addr acked.generated.length) _ n
      (fun s a hs => peer_init_l2neigh_cfg_length env s a _ _ hs)
      (fun s a hs => peer_init_l2neigh_keeps_up_sent env s a _ _ hs)
      (fun s hs => peer_init_l2neigh_direct env s n _ hs.2 (by rw [hs.1]; exact hflag)
        halloc)
      _ hn acked ⟨hG2, le_refl _⟩
  · intro l2net hnet hflag n hn d hd halloc
    apply hfinal
    unfold _radio_peer_init_l2db
    rw [hG3, hnet]
    exact foldl_mem_establishes
      (fun s => s.cfg = session.cfg ∧ acked.generated.length ≤ s.generated.length)
      (destination_up_sent d acked.generated.length) _ n
      (fun s a hs => peer_init_l2neigh_cfg_length env s a _ _ hs)
      (fun s a hs => peer_init_l2neigh_keeps_up_sent env s a _ _ hs)
      (fun s hs => peer_init_l2neigh_proxied env s n d _ hs.2 (by rw [hs.1]; exact hflag)
        hd halloc)
      _ hn acked ⟨hG2, le_refl _⟩
  · intro h1 h2
    have hsame : _radio_peer_init_l2db env l2db acked = acked := by
      unfold _radio_peer_init_l2db
      split
      · rfl
      · exact foldl_preserves (fun s => s = acked) _
          (fun s a hs => by
            rw [hs]
            exact peer_init_l2neigh_nothing env acked a
              ⟨by rw [hG2]; exact h1, by rw [hG2]; exact h2⟩) _ _ rfl
    rw [hsame] at k5
    have := congrArg List.length k5
    rw [List.length_append] at this
    exact List.eq_nil_of_length_eq_zero (by omega)

/-- C12, witness: the session on wlan0 with both flags set, in an
environment where every local neighbor can be created. -/
theorem radio_peer_init_destinations_witness :
    ∃ ups : List dlep_generated,
      (_radio_process_peer_init env_ok l2db_wlan0 rx_peer_init
          (session_waiting true true)).1.generated =
        (session_waiting true true).generated ++
          ⟨.DLEP_PEER_INITIALIZATION_ACK, none, true⟩ :: ups ∧
      ((∃ g ∈ ups, g.signal = .DLEP_DESTINATION_UP ∧ g.neighbor = some mac_aabb) ∧
        ∃ loc,
          dlep_session_get_local_neighbor
            (_radio_process_peer_init env_ok l2db_wlan0 rx_peer_init
              (session_waiting true true)).1 mac_aabb = some loc ∧
          loc.state = .DLEP_NEIGHBOR_UP_SENT) ∧
      ((∃ g ∈ ups, g.signal = .DLEP_DESTINATION_UP ∧ g.neighbor = some mac_0201) ∧
        ∃ loc,
          dlep_session_get_local_neighbor
            (_radio_process_peer_init env_ok l2db_wlan0 rx_peer_init
              (session_waiting true true)).1 mac_0201 = some loc ∧
          loc.state = .DLEP_NEIGHBOR_UP_SENT) := by
  obtain ⟨ups, h1, h2, h3, _⟩ :=
    radio_peer_init_destinations env_ok l2db_wlan0 rx_peer_init
      (session_waiting true true) 3000 rfl rfl (by decide) rfl
  exact ⟨ups, h1,
    h2 ⟨"wlan0", [l2neigh_aabb_proxy]⟩ (by decide) rfl l2neigh_aabb_proxy
      (by simp) (fun _ => rfl),
    h3 ⟨"wlan0", [l2neigh_aabb_proxy]⟩ (by decide) rfl l2neigh_aabb_proxy
      (by simp) mac_0201 (by decide) (fun _ => rfl)⟩

/-! ## Layer-2 table of the router -/

theorem map_l2neigh_data_pointwise (metrics : List (Nat × Option Int)) (origin : Nat)
    (data : List oonf_layer2_data)
    (hok : (dlep_reader_map_l2neigh_data data metrics origin).2 = 0) :
    ∃ g : Nat → Option oonf_layer2_data, ∀ d : List oonf_layer2_data,
      (dlep_reader_map_l2neigh_data d metrics origin).2 = 0 ∧
      ∀ j, (dlep_reader_map_l2neigh_data d metrics origin).1[j]? =
        match g j with
        | some x => (d[j]?).map (fun _ => x)
        | none => d[j]? := by
  induction metrics generalizing data with
  | nil => exact ⟨fun _ => none, fun d => ⟨rfl, fun j => rfl⟩⟩
  | cons m rest ih =>
    obtain ⟨idx, value⟩ := m
    cases value with
    | none => simp [dlep_reader_map_l2neigh_data] at hok
    | some v =>
      simp only [dlep_reader_map_l2neigh_data] at hok
      obtain ⟨g, hg⟩ := ih _ hok
      refine ⟨fun j =>
        match g j with
        | some x => some x
        | none => if idx = j then some ⟨true, v, origin⟩ else none, fun d => ?_⟩
      simp only [dlep_reader_map_l2neigh_data]
      refine ⟨(hg _).1, fun j => ?_⟩
      rw [(hg _).2 j]
      cases hj : g j with
      | some x =>
        simp only [List.getElem?_set']
        by_cases hij : idx = j
        · subst hij
          cases hd : d[idx]? <;> simp [Function.const]
        · simp [hij]
      | none =>
        simp only [List.getElem?_set']
        by_cases hij : idx = j
        · subst hij
          cases hd : d[idx]? <;> simp [Function.const, oonf_layer2_set_value]
        · simp [hij]

theorem map_l2neigh_data_idem (metrics : List (Nat × Option Int)) (origin : Nat)
    (data : List oonf_layer2_data)
    (hok : (dlep_reader_map_l2neigh_data data metrics origin).2 = 0) :
    dlep_reader_map_l2neigh_data (dlep_reader_map_l2neigh_data data metrics origin).1
        metrics origin =
      dlep_reader_map_l2neigh_data data metrics origin := by
  obtain ⟨g, hg⟩ := map_l2neigh_data_pointwise metrics origin data hok
  apply Prod.ext
  · apply List.ext_getElem?
    intro j
    rw [(hg _).2 j, (hg data).2 j]
    cases g j with
    | some x => cases data[j]? <;> rfl
    | none => rfl
  · rw [(hg _).1, (hg data).1]

theorem layer2_net_add_found (l2env : oonf_layer2_env) (l2db added : List oonf_layer2_net)
    (ifname : String) (l2net : oonf_layer2_net)
    (h : oonf_layer2_net_add l2env l2db ifname = (added, some l2net)) :
    oonf_layer2_net_get added ifname = some l2net ∧ l2net.name = ifname := by
  unfold oonf_layer2_net_add at h
  split at h
  · next found hget =>
    simp only [Prod.mk.injEq, Option.some.injEq] at h
    obtain ⟨rfl, rfl⟩ := h
    refine ⟨hget, ?_⟩
    have := List.find?_some hget
    simpa using this
  · next hget =>
    split at h
    · simp only [Prod.mk.injEq, Option.some.injEq] at h
      obtain ⟨rfl, rfl⟩ := h
      refine ⟨?_, rfl⟩
      unfold oonf_layer2_net_get at hget ⊢
      rw [List.find?_append, hget]
      simp
    · simp at h

theorem layer2_neigh_add_found (l2env : oonf_layer2_env) (l2net added : oonf_layer2_net)
    (addr : netaddr) (l2neigh : oonf_layer2_neigh)
    (h : oonf_layer2_neigh_add l2env l2net addr = (added, some l2neigh)) :
    oonf_layer2_neigh_get added addr = some l2neigh ∧ l2neigh.addr = addr ∧
      added.name = l2net.name := by
  unfold oonf_layer2_neigh_add at h
  split at h
  · next found hget =>
    simp only [Prod.mk.injEq, Option.some.injEq] at h
    obtain ⟨rfl, rfl⟩ := h
    refine ⟨hget, ?_, rfl⟩
    have := List.find?_some hget
    simpa using this
  · next hget =>
    split at h
    · simp only [Prod.mk.injEq, Option.some.injEq] at h
      obtain ⟨rfl, rfl⟩ := h
      refine ⟨?_, rfl, rfl⟩
      unfold oonf_layer2_neigh_get at hget ⊢
      simp only
      rw [List.find?_append, hget]
      simp
    · simp at h

theorem layer2_net_get_store (l2db : List oonf_layer2_net) (ifname : String)
    (found stored : oonf_layer2_net)
    (h : oonf_layer2_net_get l2db ifname = some found) (hname : stored.name = ifname) :
    oonf_layer2_net_get (oonf_layer2_net_store l2db stored) ifname = some stored := by
  unfold oonf_layer2_net_get oonf_layer2_net_store at *
  induction l2db with
  | nil => simp at h
  | cons x xs ih =>
    rw [List.map_cons]
    by_cases hx : x.name = ifname
    · rw [if_pos (hx.trans hname.symm), List.find?_cons_of_pos]
      simpa using hname
    · have h2 : List.find? (fun n => decide (n.name = ifname)) xs = some found := by
        rwa [List.find?_cons_of_neg] at h
        simpa using hx
      rw [if_neg (by rw [hname]; exact hx), List.find?_cons_of_neg, ih h2]
      simpa using hx

theorem layer2_neigh_get_store (l2net : oonf_layer2_net) (addr : netaddr)
    (found stored : oonf_layer2_neigh)
    (h : oonf_layer2_neigh_get l2net addr = some found) (haddr : stored.addr = addr) :
    oonf_layer2_neigh_get (oonf_layer2_neigh_store l2net stored) addr = some stored := by
  unfold oonf_layer2_neigh_get oonf_layer2_neigh_store at *
  simp only
  generalize l2net.neighbors = neighbors at h
  induction neighbors with
  | nil => simp at h
  | cons x xs ih =>
    rw [List.map_cons]
    by_cases hx : x.addr = addr
    · rw [if_pos (hx.trans haddr.symm), List.find?_cons_of_pos]
      simpa using haddr
    · have h2 : List.find? (fun n => decide (n.addr = addr)) xs = some found := by
        rwa [List.find?_cons_of_neg] at h
        simpa using hx
      rw [if_neg (by rw [haddr]; exact hx), List.find?_cons_of_neg, ih h2]
      simpa using hx

theorem layer2_net_store_idem (l2db : List oonf_layer2_net) (stored : oonf_layer2_net) :
    oonf_layer2_net_store (oonf_layer2_net_store l2db stored) stored =
      oonf_layer2_net_store l2db stored := by
  unfold oonf_layer2_net_store
  rw [List.map_map]
  apply List.map_congr_left
  intro n _
  by_cases hn : n.name = stored.name <;> simp [hn]

theorem layer2_neigh_store_idem (l2net : oonf_layer2_net) (stored : oonf_layer2_neigh) :
    oonf_layer2_neigh_store (oonf_layer2_neigh_store l2net stored) stored =
      oonf_layer2_neigh_store l2net stored := by
  unfold oonf_layer2_neigh_store
  simp only [List.map_map]
  congr 1
  apply List.map_congr_left
  intro n _
  by_cases hn : n.addr = stored.addr <;> simp [hn]

theorem router_destination_up_success (env : dlep_env) (l2env : oonf_layer2_env)
    (rx : dlep_signal_values) (metrics : List (Nat × Option Int))
    (l2db created : List oonf_layer2_net) (session : dlep_session) (mac : netaddr)
    (l2net grown : oonf_layer2_net) (l2neigh : oonf_layer2_neigh)
    (hmac : rx.mac_tlv = some mac)
    (hnet : oonf_layer2_net_add l2env l2db session.l2_listener_name = (created, some l2net))
    (hneigh : oonf_layer2_neigh_add l2env l2net mac = (grown, some l2neigh))
    (hmap : (dlep_reader_map_l2neigh_data l2neigh.data metrics session.l2_origin).2 = 0) :
    _router_process_destination_up env l2env rx metrics l2db session =
      (oonf_layer2_net_store created
          (oonf_layer2_neigh_store grown
            { l2neigh with
              data :=
                (dlep_reader_map_l2neigh_data l2neigh.data metrics session.l2_origin).1 }),
        (dlep_session_generate_signal env session .DLEP_DESTINATION_UP_ACK (some mac)).1,
        (dlep_session_generate_signal env session .DLEP_DESTINATION_UP_ACK (some mac)).2) := by
  unfold _router_process_destination_up
  simp only [hmac, hnet, hneigh, hmap, ne_eq, not_true_eq_false, if_false]

theorem layer2_neigh_remove_other_net (l2db : List oonf_layer2_net) (ifname : String)
    (addr : netaddr) (origin : Nat) (other : String) (hne : other ≠ ifname) :
    oonf_layer2_net_get (oonf_layer2_neigh_remove l2db ifname addr origin) other =
      oonf_layer2_net_get l2db other := by
  unfold oonf_layer2_net_get oonf_layer2_neigh_remove
  induction l2db with
  | nil => rfl
  | cons x xs ih =>
    rw [List.map_cons]
    by_cases hx : x.name = ifname
    · have hxo : ¬ x.name = other := fun e => hne (e.symm.trans hx)
      rw [if_pos hx, List.find?_cons_of_neg, List.find?_cons_of_neg, ih]
      · simpa using hxo
      · simpa using hxo
    · rw [if_neg hx]
      by_cases hxo : x.name = other
      · rw [List.find?_cons_of_pos, List.find?_cons_of_pos] <;> simpa using hxo
      · rw [List.find?_cons_of_neg, List.find?_cons_of_neg, ih] <;> simpa using hxo

theorem layer2_neigh_remove_net (l2db : List oonf_layer2_net) (ifname : String)
    (addr : netaddr) (origin : Nat) (l2net : oonf_layer2_net)
    (hnet : oonf_layer2_net_get l2db ifname = some l2net) :
    ∃ removed,
      oonf_layer2_net_get (oonf_layer2_neigh_remove l2db ifname addr origin) ifname =
        some removed ∧
      removed.name = ifname ∧
      ∀ other, other ≠ addr →
        oonf_layer2_neigh_get removed other = oonf_layer2_neigh_get l2net other := by
  unfold oonf_layer2_net_get oonf_layer2_neigh_remove at *
  induction l2db with
  | nil => simp at hnet
  | cons x xs ih =>
    rw [List.map_cons]
    by_cases hx : x.name = ifname
    · rw [List.find?_cons_of_pos _ (by simpa using hx)] at hnet
      simp only [Option.some.injEq] at hnet
      subst hnet
      rw [if_pos hx, List.find?_cons_of_pos _ (by simpa using hx)]
      refine ⟨_, rfl, hx, ?_⟩
      intro other hother
      unfold oonf_layer2_neigh_get
      simp only
      generalize x.neighbors = neighbors
      induction neighbors with
      | nil => rfl
      | cons n ns ihn =>
        by_cases hn : n.addr = addr
        · have hno : ¬ n.addr = other := fun e => hother (e.symm.trans hn)
          rw [List.find?_cons_of_neg _ (by simpa using hno)]
          by_cases hany : ((List.map
              (fun d => if d._origin = origin then oonf_layer2_reset_value d else d)
              n.data).any fun d => d._has_value) = true
          · rw [List.filterMap_cons_some (by rw [if_pos hn, if_pos hany]),
              List.find?_cons_of_neg _ (by simpa using hno)]
            exact ihn
          · rw [List.filterMap_cons_none (by rw [if_pos hn, if_neg hany])]
            exact ihn
        · rw [List.filterMap_cons_some (by rw [if_neg hn])]
          by_cases hno : n.addr = other
          · rw [List.find?_cons_of_pos _ (by simpa using hno),
              List.find?_cons_of_pos _ (by simpa using hno)]
          · rw [List.find?_cons_of_neg _ (by simpa using hno),
              List.find?_cons_of_neg _ (by simpa using hno)]
            exact ihn
    · rw [List.find?_cons_of_neg _ (by simpa using hx)] at hnet
      rw [if_neg hx, List.find?_cons_of_neg _ (by simpa using hx)]
      exact ih hnet

/-- C15: when a router processes a DESTINATION_UP with a MAC TLV and the
layer-2 network or the layer-2 neighbor cannot be created, the handler
generates a DESTINATION_UP_ACK for that MAC with status REQUEST_DENIED and
the text "Not enough memory" and returns the result of that generation: the
trace of the session grows by that acknowledgement, its status TLV is
recorded, and the result is 0 whenever the acknowledgement could be
written. -/
theorem router_destination_up_denied (env : dlep_env) (l2env : oonf_layer2_env)
    (rx : dlep_signal_values) (metrics : List (Nat × Option Int))
    (l2db : List oonf_layer2_net) (session : dlep_session) (mac : netaddr)
    (hmac : rx.mac_tlv = some mac)
    (hfail :
      (∃ created,
        oonf_layer2_net_add l2env l2db session.l2_listener_name = (created, none)) ∨
      ∃ created l2net grown,
        oonf_layer2_net_add l2env l2db session.l2_listener_name = (created, some l2net) ∧
        oonf_layer2_neigh_add l2env l2net mac = (grown, none)) :
    (_router_process_destination_up env l2env rx metrics l2db session).2 =
      dlep_session_generate_signal_status env session .DLEP_DESTINATION_UP_ACK (some mac)
        .DLEP_STATUS_REQUEST_DENIED "Not enough memory" ∧
    (_router_process_destination_up env l2env rx metrics l2db session).2.1.generated =
      session.generated ++
        [⟨.DLEP_DESTINATION_UP_ACK, some mac,
          env.write_ok session.generated .DLEP_DESTINATION_UP_ACK (some mac)⟩] ∧
    (_router_process_destination_up env l2env rx metrics l2db session).2.1.generated_status =
      session.generated_status ++
        [⟨session.generated.length, .DLEP_STATUS_REQUEST_DENIED, "Not enough memory"⟩] ∧
    (env.write_ok session.generated .DLEP_DESTINATION_UP_ACK (some mac) = true →
      (_router_process_destination_up env l2env rx metrics l2db session).2.2 = 0) := by
  have key : (_router_process_destination_up env l2env rx metrics l2db session).2 =
      dlep_session_generate_signal_status env session .DLEP_DESTINATION_UP_ACK (some mac)
        .DLEP_STATUS_REQUEST_DENIED "Not enough memory" := by
    unfold _router_process_destination_up
    rcases hfail with ⟨created, h1⟩ | ⟨created, l2net, grown, h1, h2⟩
    · simp only [hmac, h1]
    · simp only [hmac, h1, h2]
  refine ⟨key, ?_, ?_, ?_⟩
  · rw [key]; rfl
  · rw [key]; rfl
  · intro hw
    rw [key]
    unfold dlep_session_generate_signal_status
    simp only [hw, if_true]

/-- C15, witness: a DESTINATION_UP for aa:bb:cc:dd:ee:ff while no layer-2
neighbor can be created. -/
theorem router_destination_up_denied_witness :
    (_router_process_destination_up env_ok l2env_no_neigh rx_destination_aabb
        metrics_aabb [] (session_router .DLEP_ALL_SIGNALS)).2.1.generated =
      [⟨.DLEP_DESTINATION_UP_ACK, some mac_aabb, true⟩] ∧
    (_router_process_destination_up env_ok l2env_no_neigh rx_destination_aabb
        metrics_aabb [] (session_router .DLEP_ALL_SIGNALS)).2.1.generated_status =
      [⟨0, .DLEP_STATUS_REQUEST_DENIED, "Not enough memory"⟩] ∧
    (_router_process_destination_up env_ok l2env_no_neigh rx_destination_aabb
        metrics_aabb [] (session_router .DLEP_ALL_SIGNALS)).2.2 = 0 := by
  obtain ⟨_, h2, h3, h4⟩ :=
    router_destination_up_denied env_ok l2env_no_neigh rx_destination_aabb metrics_aabb []
      (session_router .DLEP_ALL_SIGNALS) mac_aabb rfl
      (Or.inr ⟨[⟨"wlan0", []⟩], ⟨"wlan0", []⟩, ⟨"wlan0", []⟩, by decide, by decide⟩)
  exact ⟨h2, h3, h4 rfl⟩

/-- C16 as stated fails: the router processes a DESTINATION_UP for
aa:bb:cc:dd:ee:ff while no layer-2 neighbor can be created, answers with
REQUEST_DENIED and returns 0; when the same DESTINATION_UP is processed
again and the neighbor can be created, the second processing adds the
neighbor to the layer-2 table. And a DESTINATION_UP with a metric TLV that
cannot be mapped is answered with no DESTINATION_UP_ACK at all. -/
theorem router_destination_up_retry_adds_entry :
    _router_process_destination_up env_ok l2env_no_neigh rx_destination_aabb
        metrics_aabb [] (session_router .DLEP_ALL_SIGNALS) =
      ([⟨"wlan0", []⟩],
        { session_router .DLEP_ALL_SIGNALS with
          generated := [⟨.DLEP_DESTINATION_UP_ACK, some mac_aabb, true⟩]
          generated_status := [⟨0, .DLEP_STATUS_REQUEST_DENIED, "Not enough memory"⟩] },
        0) ∧
    (_router_process_destination_up env_ok l2env_ok rx_destination_aabb metrics_aabb
        [⟨"wlan0", []⟩]
        { session_router .DLEP_ALL_SIGNALS with
          generated := [⟨.DLEP_DESTINATION_UP_ACK, some mac_aabb, true⟩]
          generated_status :=
            [⟨0, .DLEP_STATUS_REQUEST_DENIED, "Not enough memory"⟩] }).1 =
      [⟨"wlan0", [l2neigh_router_aabb]⟩] ∧
    (_router_process_destination_up env_ok l2env_ok rx_destination_aabb [(1, none)] []
        (session_router .DLEP_ALL_SIGNALS)).2 =
      (session_router .DLEP_ALL_SIGNALS, -1) := by
  decide

/-- C16, amended: when the router processed a DESTINATION_UP for which it
found or created the layer-2 network and neighbor and mapped the metric
TLVs, processing the same DESTINATION_UP (same MAC, same metric TLVs) again
leaves the layer-2 table in the state the first processing left it in (no
entry is added, the metric fields are rewritten with the same values), and
each of the two processings appends exactly one DESTINATION_UP_ACK for the
MAC to the trace of the session, without status TLV. -/
theorem router_destination_up_twice (env env' : dlep_env) (l2env l2env' : oonf_layer2_env)
    (rx : dlep_signal_values) (metrics : List (Nat × Option Int))
    (l2db created : List oonf_layer2_net) (session : dlep_session) (mac : netaddr)
    (l2net grown : oonf_layer2_net) (l2neigh : oonf_layer2_neigh)
    (hmac : rx.mac_tlv = some mac)
    (hnet : oonf_layer2_net_add l2env l2db session.l2_listener_name = (created, some l2net))
    (hneigh : oonf_layer2_neigh_add l2env l2net mac = (grown, some l2neigh))
    (hmap : (dlep_reader_map_l2neigh_data l2neigh.data metrics session.l2_origin).2 = 0) :
    (_router_process_destination_up env' l2env' rx metrics
        (_router_process_destination_up env l2env rx metrics l2db session).1
        (_router_process_destination_up env l2env rx metrics l2db session).2.1).1 =
      (_router_process_destination_up env l2env rx metrics l2db session).1 ∧
    (_router_process_destination_up env l2env rx metrics l2db session).2.1.generated =
      session.generated ++
        [⟨.DLEP_DESTINATION_UP_ACK, some mac,
          env.write_ok session.generated .DLEP_DESTINATION_UP_ACK (some mac)⟩] ∧
    (_router_process_destination_up env' l2env' rx metrics
        (_router_process_destination_up env l2env rx metrics l2db session).1
        (_router_process_destination_up env l2env rx metrics l2db session).2.1).2.1.generated =
      (_router_process_destination_up env l2env rx metrics l2db session).2.1.generated ++
        [⟨.DLEP_DESTINATION_UP_ACK, some mac,
          env'.write_ok
            (_router_process_destination_up env l2env rx metrics l2db session).2.1.generated
            .DLEP_DESTINATION_UP_ACK (some mac)⟩] ∧
    (_router_process_destination_up env' l2env' rx metrics
        (_router_process_destination_up env l2env rx metrics l2db session).1
        (_router_process_destination_up env l2env rx metrics l2db session).2.1).2.1.generated_status =
      session.generated_status := by
  obtain ⟨hget1, hname1⟩ := layer2_net_add_found _ _ _ _ _ hnet
  obtain ⟨hget2, haddr2, hname2⟩ := layer2_neigh_add_found _ _ _ _ _ hneigh
  rw [router_destination_up_success env l2env rx metrics l2db created session mac l2net
    grown l2neigh hmac hnet hneigh hmap]
  generalize hmapped :
    (dlep_reader_map_l2neigh_data l2neigh.data metrics session.l2_origin).1 = mapped
  have hidem : dlep_reader_map_l2neigh_data mapped metrics session.l2_origin =
      (mapped, 0) := by
    have := map_l2neigh_data_idem metrics session.l2_origin l2neigh.data hmap
    rw [hmapped] at this
    rw [this]
    exact Prod.ext hmapped hmap
  have hnet' : oonf_layer2_net_add l2env'
      (oonf_layer2_net_store created
        (oonf_layer2_neigh_store grown { l2neigh with data := mapped }))
      session.l2_listener_name =
      (oonf_layer2_net_store created
        (oonf_layer2_neigh_store grown { l2neigh with data := mapped }),
        some (oonf_layer2_neigh_store grown { l2neigh with data := mapped })) := by
    unfold oonf_layer2_net_add
    rw [layer2_net_get_store created session.l2_listener_name l2net
      (oonf_layer2_neigh_store grown { l2neigh with data := mapped }) hget1
      (hname2.trans hname1)]
  have hneigh' : oonf_layer2_neigh_add l2env'
      (oonf_layer2_neigh_store grown { l2neigh with data := mapped }) mac =
      (oonf_layer2_neigh_store grown { l2neigh with data := mapped },
        some { l2neigh with data := mapped }) := by
    unfold oonf_layer2_neigh_add
    rw [layer2_neigh_get_store grown mac l2neigh { l2neigh with data := mapped } hget2
      haddr2]
  have hsecond := router_destination_up_success env' l2env' rx metrics
    (oonf_layer2_net_store created
      (oonf_layer2_neigh_store grown { l2neigh with data := mapped }))
    (oonf_layer2_net_store created
      (oonf_layer2_neigh_store grown { l2neigh with data := mapped }))
    (dlep_session_generate_signal env session .DLEP_DESTINATION_UP_ACK (some mac)).1 mac
    (oonf_layer2_neigh_store grown { l2neigh with data := mapped })
    (oonf_layer2_neigh_store grown { l2neigh with data := mapped })
    { l2neigh with data := mapped } hmac hnet' hneigh'
    (by show (dlep_reader_map_l2neigh_data mapped metrics session.l2_origin).2 = 0
        rw [hidem])
  rw [hsecond]
  refine ⟨?_, rfl, rfl, rfl⟩
  show oonf_layer2_net_store _ (oonf_layer2_neigh_store _
    { l2neigh with
      data := (dlep_reader_map_l2neigh_data mapped metrics session.l2_origin).1 }) = _
  rw [hidem, layer2_neigh_store_idem, layer2_net_store_idem]

/-- C16, witness: a DESTINATION_UP for aa:bb:cc:dd:ee:ff with two metric
TLVs, processed twice on an empty layer-2 table. -/
theorem router_destination_up_twice_witness :
    (_router_process_destination_up env_ok l2env_ok rx_destination_aabb metrics_aabb []
        (session_router .DLEP_ALL_SIGNALS)).1 = [⟨"wlan0", [l2neigh_router_aabb]⟩] ∧
    (_router_process_destination_up env_ok l2env_ok rx_destination_aabb metrics_aabb
        (_router_process_destination_up env_ok l2env_ok rx_destination_aabb metrics_aabb []
          (session_router .DLEP_ALL_SIGNALS)).1
        (_router_process_destination_up env_ok l2env_ok rx_destination_aabb metrics_aabb []
          (session_router .DLEP_ALL_SIGNALS)).2.1).1 =
      (_router_process_destination_up env_ok l2env_ok rx_destination_aabb metrics_aabb []
        (session_router .DLEP_ALL_SIGNALS)).1 :=
  ⟨by decide,
    (router_destination_up_twice env_ok env_ok l2env_ok l2env_ok rx_destination_aabb
      metrics_aabb [] [⟨"wlan0", []⟩] (session_router .DLEP_ALL_SIGNALS) mac_aabb
      ⟨"wlan0", []⟩
      ⟨"wlan0",
        [{ addr := mac_aabb, network_name := "wlan0", destinations := [],
           data := List.replicate 4 ⟨false, 0, 0⟩ }]⟩
      { addr := mac_aabb, network_name := "wlan0", destinations := [],
        data := List.replicate 4 ⟨false, 0, 0⟩ }
      rfl (by decide) (by decide) (by decide)).1⟩

theorem layer2_net_get_name (l2db : List oonf_layer2_net) (ifname : String)
    (l2net : oonf_layer2_net) (h : oonf_layer2_net_get l2db ifname = some l2net) :
    l2net.name = ifname := by
  unfold oonf_layer2_net_get at h
  simpa using List.find?_some h

theorem layer2_neigh_get_addr (l2net : oonf_layer2_net) (addr : netaddr)
    (l2neigh : oonf_layer2_neigh) (h : oonf_layer2_neigh_get l2net addr = some l2neigh) :
    l2neigh.addr = addr := by
  unfold oonf_layer2_neigh_get at h
  simpa using List.find?_some h

/-- C17: when a router processes a DESTINATION_DOWN whose MAC has an entry
in the layer-2 table of the session's interface, the table becomes the
result of one `oonf_layer2_neigh_remove` for that MAC on that interface with
the session's own `l2_origin`; the lookups of all other networks and of all
other neighbors of the interface are unchanged; exactly one
DESTINATION_DOWN_ACK for the MAC is appended to the trace, without status
TLV, and the result of the handler is the result of that generation. -/
theorem router_destination_down_removes (env : dlep_env) (rx : dlep_signal_values)
    (l2db : List oonf_layer2_net) (session : dlep_session) (mac : netaddr)
    (l2net : oonf_layer2_net) (l2neigh : oonf_layer2_neigh)
    (hmac : rx.mac_tlv = some mac)
    (hnet : oonf_layer2_net_get l2db session.l2_listener_name = some l2net)
    (hneigh : oonf_layer2_neigh_get l2net mac = some l2neigh) :
    (_router_process_destination_down env rx l2db session).1 =
      oonf_layer2_neigh_remove l2db session.l2_listener_name mac session.l2_origin ∧
    (∀ other, other ≠ session.l2_listener_name →
      oonf_layer2_net_get (_router_process_destination_down env rx l2db session).1 other =
        oonf_layer2_net_get l2db other) ∧
    (∃ removed,
      oonf_layer2_net_get (_router_process_destination_down env rx l2db session).1
        session.l2_listener_name = some removed ∧
      ∀ other, other ≠ mac →
        oonf_layer2_neigh_get removed other = oonf_layer2_neigh_get l2net other) ∧
    (_router_process_destination_down env rx l2db session).2 =
      dlep_session_generate_signal env session .DLEP_DESTINATION_DOWN_ACK (some mac) ∧
    (_router_process_destination_down env rx l2db session).2.1.generated =
      session.generated ++
        [⟨.DLEP_DESTINATION_DOWN_ACK, some mac,
          env.write_ok session.generated .DLEP_DESTINATION_DOWN_ACK (some mac)⟩] ∧
    (_router_process_destination_down env rx l2db session).2.1.generated_status =
      session.generated_status := by
  have hname := layer2_net_get_name _ _ _ hnet
  have haddr := layer2_neigh_get_addr _ _ _ hneigh
  have key : _router_process_destination_down env rx l2db session =
      (oonf_layer2_neigh_remove l2db session.l2_listener_name mac session.l2_origin,
        (dlep_session_generate_signal env session .DLEP_DESTINATION_DOWN_ACK (some mac)).1,
        (dlep_session_generate_signal env session .DLEP_DESTINATION_DOWN_ACK
          (some mac)).2) := by
    unfold _router_process_destination_down
    simp only [hmac, hnet, hneigh, hname, haddr]
  rw [key]
  refine ⟨rfl, ?_, ?_, rfl, rfl, rfl⟩
  · intro other hother
    exact layer2_neigh_remove_other_net l2db _ mac _ other hother
  · obtain ⟨removed, h1, _, h3⟩ :=
      layer2_neigh_remove_net l2db session.l2_listener_name mac session.l2_origin l2net hnet
    exact ⟨removed, h1, h3⟩

/-- C17, witness: a DESTINATION_DOWN for aa:bb:cc:dd:ee:ff on a router
whose layer-2 table holds that neighbor (written by the session) and
02:00:00:00:00:01 (written by another origin): the first leaves the table,
the second stays as it is, one DESTINATION_DOWN_ACK is generated. -/
theorem router_destination_down_removes_witness :
    (_router_process_destination_down env_ok rx_destination_aabb
        [⟨"wlan0", [l2neigh_router_aabb, l2neigh_router_0201]⟩]
        (session_router .DLEP_ALL_SIGNALS)).1 = [⟨"wlan0", [l2neigh_router_0201]⟩] ∧
    (_router_process_destination_down env_ok rx_destination_aabb
        [⟨"wlan0", [l2neigh_router_aabb, l2neigh_router_0201]⟩]
        (session_router .DLEP_ALL_SIGNALS)).2.1.generated =
      [⟨.DLEP_DESTINATION_DOWN_ACK, some mac_aabb, true⟩] :=
  ⟨by decide,
    (router_destination_down_removes env_ok rx_destination_aabb
      [⟨"wlan0", [l2neigh_router_aabb, l2neigh_router_0201]⟩]
      (session_router .DLEP_ALL_SIGNALS) mac_aabb
      ⟨"wlan0", [l2neigh_router_aabb, l2neigh_router_0201]⟩ l2neigh_router_aabb
      rfl (by decide) (by decide)).2.2.2.2.1⟩

/-- C18: when a router processes a DESTINATION_DOWN that carries a MAC TLV
and the layer-2 network of the session's interface does not exist, or it
exists and has no neighbor with that MAC, the handler returns 0, the layer-2
table is unchanged and the session is unchanged, so no signal is
generated. -/
theorem router_destination_down_unknown (env : dlep_env) (rx : dlep_signal_values)
    (l2db : List oonf_layer2_net) (session : dlep_session) (mac : netaddr)
    (hmac : rx.mac_tlv = some mac)
    (hunknown :
      oonf_layer2_net_get l2db session.l2_listener_name = none ∨
      ∃ l2net, oonf_layer2_net_get l2db session.l2_listener_name = some l2net ∧
        oonf_layer2_neigh_get l2net mac = none) :
    _router_process_destination_down env rx l2db session = (l2db, session, 0) := by
  unfold _router_process_destination_down
  rcases hunknown with h | ⟨l2net, h1, h2⟩
  · simp only [hmac, h]
  · simp only [hmac, h1, h2]

/-- C18, witness: a DESTINATION_DOWN for aa:bb:cc:dd:ee:ff on a router
whose layer-2 table only holds 02:00:00:00:00:01. -/
theorem router_destination_down_unknown_witness :
    _router_process_destination_down env_ok rx_destination_aabb
        [⟨"wlan0", [l2neigh_router_0201]⟩] (session_router .DLEP_ALL_SIGNALS) =
      ([⟨"wlan0", [l2neigh_router_0201]⟩], session_router .DLEP_ALL_SIGNALS, 0) :=
  router_destination_down_unknown env_ok rx_destination_aabb
    [⟨"wlan0", [l2neigh_router_0201]⟩] (session_router .DLEP_ALL_SIGNALS) mac_aabb rfl
    (Or.inr ⟨⟨"wlan0", [l2neigh_router_0201]⟩, by decide, by decide⟩)

/-- C19: the router's DESTINATION_UPDATE handler leaves the session as it
is for every input, so it generates no signal; and for a MAC TLV whose
layer-2 network or neighbor does not exist it returns 0 and leaves the
layer-2 table unchanged. -/
theorem router_destination_update_no_signal (rx : dlep_signal_values)
    (metrics : List (Nat × Option Int)) (l2db : List oonf_layer2_net)
    (session : dlep_session) :
    (_router_process_destination_update rx metrics l2db session).2.1 = session ∧
    (∀ mac, rx.mac_tlv = some mac →
      (oonf_layer2_net_get l2db session.l2_listener_name = none ∨
        ∃ l2net, oonf_layer2_net_get l2db session.l2_listener_name = some l2net ∧
          oonf_layer2_neigh_get l2net mac = none) →
      _router_process_destination_update rx metrics l2db session = (l2db, session, 0)) := by
  constructor
  · unfold _router_process_destination_update
    split
    · rfl
    · split
      · rfl
      · split
        · rfl
        · simp only
          split <;> rfl
  · intro mac hmac hunknown
    unfold _router_process_destination_update
    rcases hunknown with h | ⟨l2net, h1, h2⟩
    · simp only [hmac, h]
    · simp only [hmac, h1, h2]

/-- C19, witness: a DESTINATION_UPDATE for aa:bb:cc:dd:ee:ff on a router
whose layer-2 table only holds 02:00:00:00:00:01. -/
theorem router_destination_update_no_signal_witness :
    _router_process_destination_update rx_destination_aabb metrics_aabb
        [⟨"wlan0", [l2neigh_router_0201]⟩] (session_router .DLEP_ALL_SIGNALS) =
      ([⟨"wlan0", [l2neigh_router_0201]⟩], session_router .DLEP_ALL_SIGNALS, 0) :=
  (router_destination_update_no_signal rx_destination_aabb metrics_aabb
    [⟨"wlan0", [l2neigh_router_0201]⟩] (session_router .DLEP_ALL_SIGNALS)).2 mac_aabb rfl
    (Or.inr ⟨⟨"wlan0", [l2neigh_router_0201]⟩, by decide, by decide⟩)

/-- The connection point the IPv6 loop settles on, given whether `result`
was set before the loop. -/
theorem peer_offer_ipv6_all (renv : dlep_router_env) (if_index : Nat)
    (v6 : List dlep_conpoint)
    (hmatching : ∀ c ∈ v6, c.tls = false →
      (renv.os_interface_get_prefix_from_dst c.addr).isSome = true)
    (locals : peer_offer_locals) :
    ∃ after, _router_process_peer_offer_ipv6 renv if_index (v6.map some) locals =
        some after ∧
      match ((conpoints_without_tls v6).reverse.find?
          (fun c => netaddr_is_in_subnet NETADDR_IPV6_LINKLOCAL c.addr)).or
          (if locals.result.isSome then none else (conpoints_without_tls v6).head?) with
      | some c =>
        after.result = renv.os_interface_get_prefix_from_dst c.addr ∧
          after.remote = some ⟨c.addr, some c.port, if_index⟩
      | none => after.result = locals.result ∧ after.remote = locals.remote := by
  induction v6 generalizing locals with
  | nil =>
    refine ⟨locals, rfl, ?_⟩
    cases h : locals.result <;> simp [conpoints_without_tls]
  | cons c rest ih =>
    have hrest : ∀ c ∈ rest, c.tls = false →
        (renv.os_interface_get_prefix_from_dst c.addr).isSome = true :=
      fun d hd => hmatching d (List.mem_cons_of_mem _ hd)
    rw [List.map_cons]
    unfold _router_process_peer_offer_ipv6
    by_cases htls : c.tls = true
    · rw [if_pos htls]
      obtain ⟨after, h1, h2⟩ := ih hrest ⟨locals.result, locals.remote, some c.port⟩
      refine ⟨after, h1, ?_⟩
      have hf : conpoints_without_tls (c :: rest) = conpoints_without_tls rest := by
        unfold conpoints_without_tls
        rw [List.filter_cons_of_neg (by simp [htls])]
      rw [hf]
      exact h2
    · rw [if_neg htls]
      have htls' : c.tls = false := by simpa using htls
      have hf : conpoints_without_tls (c :: rest) = c :: conpoints_without_tls rest := by
        unfold conpoints_without_tls
        rw [List.filter_cons_of_pos (by simp [htls'])]
      rw [hf, List.reverse_cons, List.find?_append, List.head?_cons]
      by_cases hcond : (netaddr_is_in_subnet NETADDR_IPV6_LINKLOCAL c.addr
          || locals.result.isNone) = true
      · rw [if_pos hcond]
        have hp := hmatching c (List.mem_cons_self _ _) htls'
        obtain ⟨pfx, hpfx⟩ := Option.isSome_iff_exists.mp hp
        simp only [hpfx]
        obtain ⟨after, h1, h2⟩ := ih hrest
          ⟨some pfx, some (netaddr_socket_init c.addr (some c.port) if_index), some c.port⟩
        refine ⟨after, h1, ?_⟩
        simp only [Option.isSome_some, if_true, Option.or_none] at h2
        cases hlast : (conpoints_without_tls rest).reverse.find?
            (fun c => netaddr_is_in_subnet NETADDR_IPV6_LINKLOCAL c.addr) with
        | some d =>
          rw [hlast] at h2
          simpa using h2
        | none =>
          rw [hlast] at h2
          simp only at h2
          have hsel : ((none : Option dlep_conpoint).or
              (List.find? (fun c => netaddr_is_in_subnet NETADDR_IPV6_LINKLOCAL c.addr)
                [c])).or (if locals.result.isSome = true then none else some c) =
              some c := by
            by_cases hll : netaddr_is_in_subnet NETADDR_IPV6_LINKLOCAL c.addr = true
            · simp [hll]
            · have hnone : locals.result.isNone = true := by
                simpa [hll] using hcond
              have hres : locals.result = none := by simpa using hnone
              simp [hll, hres]
          rw [hsel]
          simp only
          rw [hpfx]
          exact ⟨h2.1, h2.2⟩
      · rw [if_neg hcond]
        have hll : netaddr_is_in_subnet NETADDR_IPV6_LINKLOCAL c.addr = false := by
          cases h : netaddr_is_in_subnet NETADDR_IPV6_LINKLOCAL c.addr
          · rfl
          · simp [h] at hcond
        have hsome : locals.result.isSome = true := by
          cases h : locals.result
          · simp [h] at hcond
          · rfl
        obtain ⟨after, h1, h2⟩ := ih hrest ⟨locals.result, locals.remote, some c.port⟩
        refine ⟨after, h1, ?_⟩
        simp only [hsome, if_true, Option.or_none] at h2 ⊢
        rw [List.find?_cons_of_neg _ (by simp [hll]), List.find?_nil, Option.or_none]
        exact h2

theorem peer_offer_ipv4_skipped (renv : dlep_router_env) (if_index : Nat)
    (values : List (Option dlep_conpoint)) (locals : peer_offer_locals)
    (hresult : locals.result.isSome = true) :
    _router_process_peer_offer_ipv4 renv if_index values locals = some locals := by
  cases values with
  | nil => rfl
  | cons v rest =>
    unfold _router_process_peer_offer_ipv4
    rw [if_pos hresult]

theorem peer_offer_ipv4_all (renv : dlep_router_env) (if_index : Nat)
    (v4 : List dlep_conpoint)
    (hmatching : ∀ c ∈ v4, c.tls = false →
      (renv.os_interface_get_prefix_from_dst c.addr).isSome = true)
    (locals : peer_offer_locals) (hresult : locals.result = none) :
    ∃ after, _router_process_peer_offer_ipv4 renv if_index (v4.map some) locals =
        some after ∧
      match (conpoints_without_tls v4).head? with
      | some c =>
        after.result = renv.os_interface_get_prefix_from_dst c.addr ∧
          after.remote = some ⟨c.addr, some c.port, if_index⟩
      | none => after.result = none ∧ after.remote = locals.remote := by
  induction v4 generalizing locals with
  | nil => exact ⟨locals, rfl, hresult, rfl⟩
  | cons c rest ih =>
    have hrest : ∀ c ∈ rest, c.tls = false →
        (renv.os_interface_get_prefix_from_dst c.addr).isSome = true :=
      fun d hd => hmatching d (List.mem_cons_of_mem _ hd)
    rw [List.map_cons]
    unfold _router_process_peer_offer_ipv4
    rw [if_neg (by simp [hresult])]
    simp only
    by_cases htls : c.tls = true
    · rw [if_pos htls]
      obtain ⟨after, h1, h2⟩ := ih hrest ⟨locals.result, locals.remote, some c.port⟩ hresult
      refine ⟨after, h1, ?_⟩
      have hf : conpoints_without_tls (c :: rest) = conpoints_without_tls rest := by
        unfold conpoints_without_tls
        rw [List.filter_cons_of_neg (by simp [htls])]
      rw [hf]
      exact h2
    · rw [if_neg htls]
      have htls' : c.tls = false := by simpa using htls
      have hf : conpoints_without_tls (c :: rest) = c :: conpoints_without_tls rest := by
        unfold conpoints_without_tls
        rw [List.filter_cons_of_pos (by simp [htls'])]
      rw [hf, List.head?_cons]
      have hp := hmatching c (List.mem_cons_self _ _) htls'
      obtain ⟨pfx, hpfx⟩ := Option.isSome_iff_exists.mp hp
      simp only [hpfx]
      rw [peer_offer_ipv4_skipped renv if_index (rest.map some)
        ⟨some pfx, some (netaddr_socket_init c.addr (some c.port) if_index), some c.port⟩
        rfl]
      exact ⟨_, rfl, rfl, rfl⟩

theorem conpoints_without_tls_mem (values : List dlep_conpoint) (c : dlep_conpoint)
    (h : c ∈ conpoints_without_tls values) : c ∈ values ∧ c.tls = false := by
  unfold conpoints_without_tls at h
  rw [List.mem_filter] at h
  exact ⟨h.1, by simpa using h.2⟩

theorem head?_mem_of_eq_some {α : Type} (l : List α) (a : α) (h : l.head? = some a) :
    a ∈ l := by
  cases l with
  | nil => simp at h
  | cons x xs =>
    simp only [List.head?_cons, Option.some.injEq] at h
    subst h
    exact List.mem_cons_self _ _

/-- What the handler does once the loops have settled on `result` and
`remote`. -/
theorem peer_offer_of_loops (renv : dlep_router_env) (offer : dlep_peer_offer)
    (session : dlep_session) (after6 after4 : peer_offer_locals)
    (hrestrict : session.restrict_signal = .DLEP_PEER_OFFER)
    (h6 : _router_process_peer_offer_ipv6 renv session.l2_listener_index
      offer.ipv6_conpoints ⟨none, none, none⟩ = some after6)
    (h4 : _router_process_peer_offer_ipv4 renv session.l2_listener_index
      offer.ipv4_conpoints after6 = some after4) :
    _router_process_peer_offer renv offer session =
      match (match after4.result with
          | some result => some (result, after4.remote)
          | none =>
            match renv.os_interface_get_prefix_from_dst session.remote_socket.addr with
            | none => none
            | some result =>
              some (result,
                some (netaddr_socket_init session.remote_socket.addr after4.port
                  session.l2_listener_index)) :
          Option (netaddr × Option netaddr_socket)) with
      | none => (none, -1)
      | some (result, remote) =>
        match renv.dlep_router_get_by_layer2_if session.l2_listener_name with
        | some true =>
          (some ⟨netaddr_socket_init result (some 0) session.l2_listener_index, remote⟩, 0)
        | _ => (none, -1) := by
  unfold _router_process_peer_offer
  rw [if_neg (by simp [hrestrict])]
  simp only [h6, h4]

/-- C13 as stated fails: a router in discovery receives a PEER_OFFER with
the two non-TLS link-local connection points fe80::1 (port 854) and fe80::2
(port 855), both with a matching local prefix. The specification selects
the first, fe80::1; the handler creates the session to the last, fe80::2. -/
theorem router_peer_offer_takes_last_linklocal :
    session_discovery.restrict_signal = .DLEP_PEER_OFFER ∧
    (∀ c ∈ [(⟨addr_fe80_1, 854, false⟩ : dlep_conpoint), ⟨addr_fe80_2, 855, false⟩],
      (renv_wlan0.os_interface_get_prefix_from_dst c.addr).isSome = true) ∧
    peer_offer_endpoint_spec [⟨addr_fe80_1, 854, false⟩, ⟨addr_fe80_2, 855, false⟩] []
      session_discovery.remote_socket.addr = addr_fe80_1 ∧
    _router_process_peer_offer renv_wlan0
        ⟨[some ⟨addr_fe80_1, 854, false⟩, some ⟨addr_fe80_2, 855, false⟩], []⟩
        session_discovery =
      (some ⟨⟨⟨.AF_INET6, 0xfe80 * 2 ^ 112, 64⟩, some 0, 3⟩,
          some ⟨addr_fe80_2, some 855, 3⟩⟩, 0) := by
  decide

/-- C13, amended: when a router in discovery (restrict_signal = PEER_OFFER)
processes a PEER_OFFER whose connection point TLVs can all be read and in
which every offered non-TLS address has a matching local prefix, the remote
endpoint is chosen among the non-TLS connection points as the last
link-local IPV6_CONPOINT in TLV order if there is one, else the first
IPV6_CONPOINT, else the first IPV4_CONPOINT, else the address of the sender:
if the interface has a prefix for that address and belongs to the router
interface of the session, the handler creates the session from that prefix
(port 0) to that address and returns 0; otherwise it returns -1 and creates
no session. -/
theorem router_peer_offer_endpoint (renv : dlep_router_env) (session : dlep_session)
    (v6 v4 : List dlep_conpoint)
    (hrestrict : session.restrict_signal = .DLEP_PEER_OFFER)
    (hmatching : ∀ c ∈ v6 ++ v4, c.tls = false →
      (renv.os_interface_get_prefix_from_dst c.addr).isSome = true) :
    match renv.os_interface_get_prefix_from_dst
        (peer_offer_endpoint v6 v4 session.remote_socket.addr) with
    | none =>
      _router_process_peer_offer renv ⟨v6.map some, v4.map some⟩ session = (none, -1)
    | some pfx =>
      match renv.dlep_router_get_by_layer2_if session.l2_listener_name with
      | some true =>
        ∃ port,
          _router_process_peer_offer renv ⟨v6.map some, v4.map some⟩ session =
            (some ⟨⟨pfx, some 0, session.l2_listener_index⟩,
                some ⟨peer_offer_endpoint v6 v4 session.remote_socket.addr, port,
                  session.l2_listener_index⟩⟩, 0)
      | _ =>
        _router_process_peer_offer renv ⟨v6.map some, v4.map some⟩ session = (none, -1) := by
  have hp6 : ∀ c ∈ v6, c.tls = false →
      (renv.os_interface_get_prefix_from_dst c.addr).isSome = true :=
    fun c hc => hmatching c (List.mem_append_left _ hc)
  have hp4 : ∀ c ∈ v4, c.tls = false →
      (renv.os_interface_get_prefix_from_dst c.addr).isSome = true :=
    fun c hc => hmatching c (List.mem_append_right _ hc)
  obtain ⟨after6, h6, hsel6⟩ :=
    peer_offer_ipv6_all renv session.l2_listener_index v6 hp6 ⟨none, none, none⟩
  simp only [Option.isSome_none, Bool.false_eq_true, if_false] at hsel6
  -- the loops settle on one connection point, or on none
  have hloops : ∃ after4,
      _router_process_peer_offer_ipv4 renv session.l2_listener_index (v4.map some) after6 =
        some after4 ∧
      ((∃ (c : dlep_conpoint) (pfx : netaddr), c.addr = peer_offer_endpoint v6 v4 session.remote_socket.addr ∧
          renv.os_interface_get_prefix_from_dst c.addr = some pfx ∧
          after4.result = some pfx ∧
          after4.remote = some ⟨c.addr, some c.port, session.l2_listener_index⟩) ∨
        (session.remote_socket.addr =
            peer_offer_endpoint v6 v4 session.remote_socket.addr ∧
          after4.result = none)) := by
    unfold peer_offer_endpoint
    cases hlast : (conpoints_without_tls v6).reverse.find?
        (fun c => netaddr_is_in_subnet NETADDR_IPV6_LINKLOCAL c.addr) with
    | some c =>
      rw [hlast] at hsel6
      simp only [Option.or_some] at hsel6
      have hmem := conpoints_without_tls_mem v6 c
        (List.mem_reverse.mp (List.mem_of_find?_eq_some hlast))
      obtain ⟨pfx, hpfx⟩ := Option.isSome_iff_exists.mp (hp6 c hmem.1 hmem.2)
      refine ⟨after6, peer_offer_ipv4_skipped _ _ _ _ (by rw [hsel6.1, hpfx]; rfl), ?_⟩
      exact Or.inl ⟨c, pfx, rfl, hpfx, hsel6.1.trans hpfx, hsel6.2⟩
    | none =>
      rw [hlast] at hsel6
      simp only [Option.none_or] at hsel6
      cases hhead : (conpoints_without_tls v6).head? with
      | some c =>
        rw [hhead] at hsel6
        simp only at hsel6
        have hmem := conpoints_without_tls_mem v6 c (head?_mem_of_eq_some _ _ hhead)
        obtain ⟨pfx, hpfx⟩ := Option.isSome_iff_exists.mp (hp6 c hmem.1 hmem.2)
        refine ⟨after6, peer_offer_ipv4_skipped _ _ _ _ (by rw [hsel6.1, hpfx]; rfl), ?_⟩
        exact Or.inl ⟨c, pfx, rfl, hpfx, hsel6.1.trans hpfx, hsel6.2⟩
      | none =>
        rw [hhead] at hsel6
        simp only at hsel6
        obtain ⟨after4, h4, hsel4⟩ :=
          peer_offer_ipv4_all renv session.l2_listener_index v4 hp4 after6 hsel6.1
        refine ⟨after4, h4, ?_⟩
        cases hhead4 : (conpoints_without_tls v4).head? with
        | some c =>
          rw [hhead4] at hsel4
          simp only at hsel4
          have hmem := conpoints_without_tls_mem v4 c (head?_mem_of_eq_some _ _ hhead4)
          obtain ⟨pfx, hpfx⟩ := Option.isSome_iff_exists.mp (hp4 c hmem.1 hmem.2)
          exact Or.inl ⟨c, pfx, rfl, hpfx, hsel4.1.trans hpfx, hsel4.2⟩
        | none =>
          rw [hhead4] at hsel4
          simp only at hsel4
          exact Or.inr ⟨rfl, hsel4.1⟩
  obtain ⟨after4, h4, hcases⟩ := hloops
  rw [peer_offer_of_loops renv ⟨v6.map some, v4.map some⟩ session after6 after4 hrestrict
    h6 h4]
  generalize peer_offer_endpoint v6 v4 session.remote_socket.addr = choice at hcases ⊢
  rcases hcases with ⟨c, pfx, hc, hpfx, hres, hrem⟩ | ⟨hc, hres⟩
  · subst hc
    rw [hpfx, hres, hrem]
    simp only
    cases hif : renv.dlep_router_get_by_layer2_if session.l2_listener_name with
    | none => rfl
    | some b =>
      cases b
      · rfl
      · exact ⟨some c.port, rfl⟩
  · subst hc
    rw [hres]
    cases hpfx : renv.os_interface_get_prefix_from_dst session.remote_socket.addr with
    | none => rfl
    | some pfx =>
      simp only
      cases hif : renv.dlep_router_get_by_layer2_if session.l2_listener_name with
      | none => rfl
      | some b =>
        cases b
        · rfl
        · exact ⟨after4.port, rfl⟩

/-- C13, witness: a PEER_OFFER with a TLS connection point, the global
address 2001:db8::1 and the link-local connection points fe80::1 and
fe80::2: the session is created to fe80::2. -/
theorem router_peer_offer_endpoint_witness :
    ∃ port,
      _router_process_peer_offer renv_wlan0
          ⟨[(⟨addr_fe80_2, 853, true⟩ : dlep_conpoint), ⟨addr_2001_db8_1, 854, false⟩,
              ⟨addr_fe80_1, 854, false⟩, ⟨addr_fe80_2, 855, false⟩].map some,
            [(⟨addr_10_0_0_1, 854, false⟩ : dlep_conpoint)].map some⟩
          session_discovery =
        (some ⟨⟨⟨.AF_INET6, 0xfe80 * 2 ^ 112, 64⟩, some 0, 3⟩,
            some ⟨addr_fe80_2, port, 3⟩⟩, 0) :=
  router_peer_offer_endpoint renv_wlan0 session_discovery
    [⟨addr_fe80_2, 853, true⟩, ⟨addr_2001_db8_1, 854, false⟩, ⟨addr_fe80_1, 854, false⟩,
      ⟨addr_fe80_2, 855, false⟩]
    [⟨addr_10_0_0_1, 854, false⟩] rfl (by decide)

/-! ## Chains of TLV values -/

theorem parser_value_at_index (session : dlep_session) (i : Nat) :
    dlep_parser_value_at session (i : Int) = session.parser.values[i]? := by
  unfold dlep_parser_value_at
  rw [if_pos (Int.ofNat_nonneg i)]
  rfl

theorem walk_chain (session : dlep_session) (indices : List Nat) :
    ∀ (start : Int) (fuel : Nat),
      dlep_parser_chain session.parser.values start indices → indices.length ≤ fuel →
      ∃ records,
        dlep_session_walk_tlv_values session fuel
            (if start = -1 then none else some start) = some records ∧
          indices.map (fun i => session.parser.values[i]?) = records.map some := by
  induction indices with
  | nil =>
    intro start fuel hchain _
    unfold dlep_parser_chain at hchain
    rw [if_pos hchain]
    refine ⟨[], ?_, rfl⟩
    cases fuel <;> rfl
  | cons i rest ih =>
    intro start fuel hchain hfuel
    unfold dlep_parser_chain at hchain
    obtain ⟨hstart, hrest⟩ := hchain
    cases hv : session.parser.values[i]? with
    | none => rw [hv] at hrest; exact hrest.elim
    | some value =>
      rw [hv] at hrest
      simp only at hrest
      have hne : ¬ start = -1 := by
        rw [hstart]
        omega
      rw [if_neg hne]
      cases fuel with
      | zero => simp at hfuel
      | succ fuel =>
        obtain ⟨records, hwalk, hrecords⟩ :=
          ih value.tlv_next fuel hrest (by simpa using hfuel)
        refine ⟨value :: records, ?_, ?_⟩
        · unfold dlep_session_walk_tlv_values
          rw [hstart, parser_value_at_index, hv]
          simp only
          unfold dlep_session_get_next_tlv_value
          rw [hwalk]
          rfl
        · rw [List.map_cons, List.map_cons, hv, hrecords]

theorem parser_chain_unique (values : List dlep_parser_value) (a : List Nat) :
    ∀ (start : Int) (b : List Nat),
      dlep_parser_chain values start a → dlep_parser_chain values start b → a = b := by
  induction a with
  | nil =>
    intro start b ha hb
    cases b with
    | nil => rfl
    | cons j rest =>
      unfold dlep_parser_chain at ha hb
      omega
  | cons i rest ih =>
    intro start b ha hb
    cases b with
    | nil =>
      unfold dlep_parser_chain at ha hb
      omega
    | cons j rest' =>
      unfold dlep_parser_chain at ha hb
      obtain ⟨hi, ha⟩ := ha
      obtain ⟨hj, hb⟩ := hb
      have hij : i = j := by omega
      subst hij
      cases hv : values[i]? with
      | none => rw [hv] at ha; exact ha.elim
      | some value =>
        rw [hv] at ha hb
        rw [ih value.tlv_next rest' ha hb]

theorem parser_chain_suffix (values : List dlep_parser_value) (a : List Nat) :
    ∀ (start : Int) (i : Nat) (b : List Nat),
      dlep_parser_chain values start (a ++ i :: b) →
      dlep_parser_chain values (i : Int) (i :: b) := by
  induction a with
  | nil =>
    intro start i b h
    unfold dlep_parser_chain at h ⊢
    exact ⟨rfl, h.2⟩
  | cons j rest ih =>
    intro start i b h
    rw [List.cons_append] at h
    unfold dlep_parser_chain at h
    cases hv : values[j]? with
    | none => rw [hv] at h; exact h.2.elim
    | some value =>
      rw [hv] at h
      exact ih value.tlv_next i b h.2

theorem parser_chain_nodup (values : List dlep_parser_value) (indices : List Nat) :
    ∀ (start : Int), dlep_parser_chain values start indices → indices.Nodup := by
  induction indices with
  | nil => intro _ _; exact List.nodup_nil
  | cons i rest ih =>
    intro start h
    have hfull := h
    unfold dlep_parser_chain at h
    cases hv : values[i]? with
    | none => rw [hv] at h; exact h.2.elim
    | some value =>
      rw [hv] at h
      refine List.nodup_cons.mpr ⟨?_, ih value.tlv_next h.2⟩
      intro hmem
      obtain ⟨a, b, hsplit⟩ := List.append_of_mem hmem
      have hsuffix : dlep_parser_chain values (i : Int) (i :: b) := by
        have h2 := h.2
        rw [hsplit] at h2
        exact parser_chain_suffix values a value.tlv_next i b h2
      have hwhole : dlep_parser_chain values (i : Int) (i :: rest) := by
        unfold dlep_parser_chain
        rw [hv]
        exact ⟨rfl, h.2⟩
      have heq := parser_chain_unique values (i :: b) (i : Int) (i :: rest) hsuffix hwhole
      have hlen := congrArg List.length heq
      rw [hsplit] at hlen
      simp at hlen
      omega

/-- C21: `dlep_session_get_tlv_first_value` returns NULL iff `tlv_first` of
the TLV is -1 and otherwise the pointer to the record at index `tlv_first`
of the values of the parser; `dlep_session_get_next_tlv_value` returns NULL
iff `tlv_next` of the value is -1 and otherwise the pointer to the record at
index `tlv_next`. Hence, for a TLV whose chain ends after the `k` records
with the indices `indices`, the chain is acyclic, and the loop that starts
at the first value and follows the next values visits exactly those `k`
records, in chain order, and then stops. -/
theorem tlv_value_chain_walk (session : dlep_session) (tlv : dlep_parser_tlv)
    (value : dlep_parser_value) (indices : List Nat) (fuel : Nat) :
    (dlep_session_get_tlv_first_value session tlv = none ↔ tlv.tlv_first = -1) ∧
    (tlv.tlv_first ≠ -1 →
      dlep_session_get_tlv_first_value session tlv = some tlv.tlv_first) ∧
    (dlep_session_get_next_tlv_value session value = none ↔ value.tlv_next = -1) ∧
    (value.tlv_next ≠ -1 →
      dlep_session_get_next_tlv_value session value = some value.tlv_next) ∧
    (dlep_parser_chain session.parser.values tlv.tlv_first indices →
      indices.length ≤ fuel →
      indices.Nodup ∧
      ∃ records,
        dlep_session_walk_tlv_values session fuel
            (dlep_session_get_tlv_first_value session tlv) = some records ∧
          records.length = indices.length ∧
          indices.map (fun i => session.parser.values[i]?) = records.map some) := by
  refine ⟨?_, ?_, ?_, ?_, ?_⟩
  · unfold dlep_session_get_tlv_first_value
    by_cases h : tlv.tlv_first = -1 <;> simp [h]
  · intro h
    unfold dlep_session_get_tlv_first_value
    rw [if_neg h]
  · unfold dlep_session_get_next_tlv_value
    by_cases h : value.tlv_next = -1 <;> simp [h]
  · intro h
    unfold dlep_session_get_next_tlv_value
    rw [if_neg h]
  · intro hchain hfuel
    refine ⟨parser_chain_nodup _ _ _ hchain, ?_⟩
    obtain ⟨records, hwalk, hrecords⟩ :=
      walk_chain session indices tlv.tlv_first fuel hchain hfuel
    refine ⟨records, hwalk, ?_, hrecords⟩
    have := congrArg List.length hrecords
    simpa using this.symm

/-- C21, witness: the TLV 7 of the parsed session has the chain of the
records 0 and 2; the loop visits them and stops. -/
theorem tlv_value_chain_walk_witness :
    dlep_session_walk_tlv_values session_parsed 3
        (dlep_session_get_tlv_first_value session_parsed ⟨7, 0, 2, 6, 6, false⟩) =
      some [⟨2, 4, 6⟩, ⟨-1, 20, 6⟩] := by
  obtain ⟨records, hwalk, _, hrecords⟩ :=
    ((tlv_value_chain_walk session_parsed ⟨7, 0, 2, 6, 6, false⟩ ⟨-1, 0, 0⟩ [0, 2] 3).2.2.2.2
      (by decide) (by decide)).2
  rw [hwalk]
  have h : [some (⟨2, 4, 6⟩ : dlep_parser_value), some ⟨-1, 20, 6⟩] = records.map some :=
    hrecords
  match records, h with
  | [a, b], h =>
    simp only [List.map_cons, List.map_nil, List.cons.injEq, Option.some.injEq,
      and_true] at h
    rw [← h.1, ← h.2]

end Dlep

namespace Remotecontrol

/-! ## The logging filter of the telnet session -/

/-- C25, failing input: with the severities DEBUG, INFO, WARN and the
sources all, logging, config, main, the command `log add INFO config main`
on a mask with nothing enabled enables INFO for config only: for main, the
second source, INFO is written as disabled. On a mask with everything
enabled the same command switches INFO off for main. -/
theorem log_add_enables_first_source_only :
    _cb_handle_log_update tables_example [] mask_none "add INFO config main".toList =
      some ⟨[], [[false, false, false], [false, false, false], [false, true, false],
        [false, false, false]], true, .TELNET_RESULT_ACTIVE⟩ ∧
    _cb_handle_log_update tables_example [] mask_all "add INFO config main".toList =
      some ⟨[], [[true, true, true], [true, true, true], [true, true, true],
        [true, false, true]], true, .TELNET_RESULT_ACTIVE⟩ := by
  decide

end Remotecontrol

namespace Nhdp

/-! ## The list of domains -/

theorem domain_get_by_ext_mem (state : nhdp_domain_state) (ext : Nat) (domain : nhdp_domain)
    (h : nhdp_domain_get_by_ext state ext = some domain) :
    domain ∈ state._domain_list ∧ domain.ext = ext := by
  unfold nhdp_domain_get_by_ext at h
  exact ⟨List.mem_of_find?_eq_some h, by simpa using List.find?_some h⟩

theorem domain_get_by_ext_none (state : nhdp_domain_state) (ext : Nat)
    (h : nhdp_domain_get_by_ext state ext = none) :
    ∀ d ∈ state._domain_list, d.ext ≠ ext := by
  unfold nhdp_domain_get_by_ext at h
  intro d hd
  have := List.find?_eq_none.mp h d hd
  simpa using this

theorem domain_add_list_ok (c : nhdp_constants) (alloc_ok : Bool)
    (state : nhdp_domain_state) (ext : Nat) (h : nhdp_domain_list_ok c state) :
    nhdp_domain_list_ok c (nhdp_domain_add c alloc_ok state ext).1 := by
  unfold nhdp_domain_add
  cases hget : nhdp_domain_get_by_ext state ext with
  | some domain => exact h
  | none =>
    simp only
    by_cases hmax : state._domain_counter = c.NHDP_MAXIMUM_DOMAINS
    · rw [if_pos hmax]; exact h
    · rw [if_neg hmax]
      cases alloc_ok with
      | false => exact h
      | true =>
        obtain ⟨hcount, hle, hindex, hext⟩ := h
        simp only [Bool.not_true, Bool.false_eq_true, if_false]
        refine ⟨?_, ?_, ?_, ?_⟩
        · simp [hcount]
        · show state._domain_counter + 1 ≤ c.NHDP_MAXIMUM_DOMAINS
          omega
        · show (state._domain_list ++ [_]).map (fun d : nhdp_domain => d.index) = _
          rw [List.map_append, hindex, List.length_append, List.length_singleton,
            List.range_succ, List.map_singleton, hcount]
        · show ((state._domain_list ++ [_]).map (fun d : nhdp_domain => d.ext)).Nodup
          rw [List.map_append, List.map_singleton]
          refine List.Nodup.append hext (List.nodup_singleton _) ?_
          intro x hx hx2
          rw [List.mem_singleton] at hx2
          subst hx2
          obtain ⟨d, hd, hdx⟩ := List.mem_map.mp hx
          exact domain_get_by_ext_none state _ hget d hd hdx

theorem domain_add_result (c : nhdp_constants) (alloc_ok : Bool)
    (state : nhdp_domain_state) (ext : Nat) (domain : nhdp_domain)
    (h : (nhdp_domain_add c alloc_ok state ext).2 = some domain) :
    domain ∈ (nhdp_domain_add c alloc_ok state ext).1._domain_list := by
  unfold nhdp_domain_add at h ⊢
  cases hget : nhdp_domain_get_by_ext state ext with
  | some found =>
    rw [hget] at h
    simp only [Option.some.injEq] at h
    subst h
    exact (domain_get_by_ext_mem state ext found hget).1
  | none =>
    rw [hget] at h
    simp only at h ⊢
    by_cases hmax : state._domain_counter = c.NHDP_MAXIMUM_DOMAINS
    · rw [if_pos hmax] at h; simp at h
    · rw [if_neg hmax] at h ⊢
      cases alloc_ok with
      | false => simp at h
      | true =>
        simp only [Bool.not_true, Bool.false_eq_true, if_false, Option.some.injEq] at h ⊢
        subst h
        simp

theorem apply_metric_ext_index (c : nhdp_constants) (state : nhdp_domain_state)
    (domain : nhdp_domain) (metric_name : String) :
    (_apply_metric c state domain metric_name).ext = domain.ext ∧
      (_apply_metric c state domain metric_name).index = domain.index := by
  unfold _apply_metric _remove_metric
  split
  · exact ⟨rfl, rfl⟩
  · simp only
    split <;> split <;> exact ⟨rfl, rfl⟩

theorem apply_mpr_ext_index (c : nhdp_constants) (state : nhdp_domain_state)
    (domain : nhdp_domain) (mpr_name : String) (willingness : Nat) :
    (_apply_mpr c state domain mpr_name willingness).ext = domain.ext ∧
      (_apply_mpr c state domain mpr_name willingness).index = domain.index := by
  unfold _apply_mpr _remove_mpr
  simp only
  split
  · exact ⟨rfl, rfl⟩
  · split <;> split <;> exact ⟨rfl, rfl⟩

theorem domain_store_list_ok (c : nhdp_constants) (state : nhdp_domain_state)
    (old domain : nhdp_domain) (h : nhdp_domain_list_ok c state)
    (hold : old ∈ state._domain_list) (hext : domain.ext = old.ext)
    (hindex : domain.index = old.index) :
    nhdp_domain_list_ok c (nhdp_domain_store state domain) := by
  obtain ⟨hcount, hle, hidx, hnodup⟩ := h
  have hsame : ∀ d ∈ state._domain_list, d.ext = domain.ext → d = old := by
    intro d hd hde
    exact List.inj_on_of_nodup_map hnodup hd hold (hde.trans hext)
  have hmapext : (state._domain_list.map (fun d => if d.ext = domain.ext then domain else d)).map
      (fun d : nhdp_domain => d.ext) = state._domain_list.map (fun d => d.ext) := by
    rw [List.map_map]
    apply List.map_congr_left
    intro d _
    by_cases hd : d.ext = domain.ext <;> simp [hd]
  have hmapidx : (state._domain_list.map (fun d => if d.ext = domain.ext then domain else d)).map
      (fun d : nhdp_domain => d.index) = state._domain_list.map (fun d => d.index) := by
    rw [List.map_map]
    apply List.map_congr_left
    intro d hmem
    by_cases hd : d.ext = domain.ext
    · have := hsame d hmem hd
      subst this
      simp [hd, hindex]
    · simp [hd]
  unfold nhdp_domain_store nhdp_domain_list_ok
  simp only [List.length_map]
  exact ⟨hcount, hle, hmapidx.trans hidx, hmapext ▸ hnodup⟩

theorem domain_configure_list_ok (c : nhdp_constants) (alloc_ok : Bool)
    (state : nhdp_domain_state) (ext : Nat) (metric_name mpr_name : String)
    (willingness : Nat) (h : nhdp_domain_list_ok c state) :
    nhdp_domain_list_ok c
      (nhdp_domain_configure c alloc_ok state ext metric_name mpr_name willingness).1 := by
  have hadd := domain_add_list_ok c alloc_ok state ext h
  have hres := domain_add_result c alloc_ok state ext
  unfold nhdp_domain_configure
  generalize nhdp_domain_add c alloc_ok state ext = added at hadd hres
  obtain ⟨state', result⟩ := added
  cases result with
  | none => exact hadd
  | some domain =>
    simp only
    have hm := apply_metric_ext_index c state' domain metric_name
    have hp := apply_mpr_ext_index c state' (_apply_metric c state' domain metric_name)
      mpr_name willingness
    exact domain_store_list_ok c state' domain _ hadd (hres domain rfl)
      (hp.1.trans hm.1) (hp.2.trans hm.2)

theorem domain_reachable_list_ok (c : nhdp_constants) (state : nhdp_domain_state)
    (h : nhdp_domain_reachable c state) : nhdp_domain_list_ok c state := by
  induction h with
  | init =>
    refine ⟨rfl, Nat.zero_le _, rfl, ?_⟩
    exact List.nodup_nil
  | add state alloc_ok ext _ ih => exact domain_add_list_ok c alloc_ok state ext ih
  | configure state alloc_ok ext metric_name mpr_name willingness _ ih =>
    exact domain_configure_list_ok c alloc_ok state ext metric_name mpr_name willingness ih

/-- C28: in every state reached from `nhdp_domain_init` by calls of
`nhdp_domain_add` and `nhdp_domain_configure`, `nhdp_domain_get_count()` is
the number of domains in the list and at most `NHDP_MAXIMUM_DOMAINS`, the
k-th domain of the list has index k, and no two domains share an `ext`;
`nhdp_domain_add(ext)` for a registered `ext` returns the existing domain
and leaves the state (hence the count) as it is, and for a new `ext` when
the count is `NHDP_MAXIMUM_DOMAINS` it returns NULL and changes nothing. -/
theorem nhdp_domain_reachable_counted (c : nhdp_constants) (state : nhdp_domain_state)
    (h : nhdp_domain_reachable c state) :
    nhdp_domain_get_count state = state._domain_list.length ∧
    nhdp_domain_get_count state ≤ c.NHDP_MAXIMUM_DOMAINS ∧
    (∀ (k : Nat) (d : nhdp_domain), state._domain_list[k]? = some d → d.index = k) ∧
    (∀ (j k : Nat) (d e : nhdp_domain), state._domain_list[j]? = some d → state._domain_list[k]? = some e →
      d.ext = e.ext → j = k) ∧
    (∀ alloc_ok ext domain, nhdp_domain_get_by_ext state ext = some domain →
      nhdp_domain_add c alloc_ok state ext = (state, some domain)) ∧
    (∀ alloc_ok ext, nhdp_domain_get_by_ext state ext = none →
      nhdp_domain_get_count state = c.NHDP_MAXIMUM_DOMAINS →
      nhdp_domain_add c alloc_ok state ext = (state, none)) := by
  obtain ⟨hcount, hle, hidx, hnodup⟩ := domain_reachable_list_ok c state h
  have hindex : ∀ (k : Nat) (d : nhdp_domain),
      state._domain_list[k]? = some d → d.index = k := by
    intro k d hk
    have h1 : (state._domain_list.map (fun d => d.index))[k]? = some d.index := by
      rw [List.getElem?_map, hk]; rfl
    rw [hidx] at h1
    have hlt : k < state._domain_list.length := by
      have := List.getElem?_eq_some_iff.mp hk
      exact this.1
    rw [List.getElem?_range hlt] at h1
    simpa using h1.symm
  refine ⟨hcount, hle, hindex, ?_, ?_, ?_⟩
  · intro j k d e hj hk hde
    have hd := List.getElem?_mem hj
    have he := List.getElem?_mem hk
    have hsame : d = e := List.inj_on_of_nodup_map hnodup hd he hde
    subst hsame
    rw [← hindex j d hj, ← hindex k d hk]
  · intro alloc_ok ext domain hget
    unfold nhdp_domain_add
    rw [hget]
  · intro alloc_ok ext hget hmax
    unfold nhdp_domain_add
    rw [hget]
    simp only
    rw [if_pos (show state._domain_counter = c.NHDP_MAXIMUM_DOMAINS from hmax)]

/-- C28, witness: the state after `nhdp_domain_add(0)` and
`nhdp_domain_configure(1, ...)`. -/
theorem nhdp_domain_reachable_counted_witness :
    nhdp_domain_get_count
        (nhdp_domain_configure constants_example true
          (nhdp_domain_add constants_example true (nhdp_domain_init nhdp_domain_static) 0).1
          1 "ff_dat" "*" 7).1 =
      (nhdp_domain_configure constants_example true
          (nhdp_domain_add constants_example true (nhdp_domain_init nhdp_domain_static) 0).1
          1 "ff_dat" "*" 7).1._domain_list.length :=
  (nhdp_domain_reachable_counted constants_example _
    (.configure _ true 1 "ff_dat" "*" 7 (.add _ true 0 .init))).1

/-! ## The incoming metric of a link -/

theorem linkdata_set_get_same (d e : nhdp_domain) (lnk : nhdp_link)
    (data : nhdp_link_domaindata) (hindex : d.index = e.index)
    (hrange : d.index < lnk._domaindata.length) :
    nhdp_domain_get_linkdata e (nhdp_domain_set_linkdata d lnk data) = data := by
  unfold nhdp_domain_get_linkdata nhdp_domain_set_linkdata
  rw [List.getD_eq_getElem?_getD, ← hindex, List.getElem?_set_self hrange]
  rfl

theorem linkdata_set_get_other (d e : nhdp_domain) (lnk : nhdp_link)
    (data : nhdp_link_domaindata) (hindex : d.index ≠ e.index) :
    nhdp_domain_get_linkdata e (nhdp_domain_set_linkdata d lnk data) =
      nhdp_domain_get_linkdata e lnk := by
  unfold nhdp_domain_get_linkdata nhdp_domain_set_linkdata
  rw [List.getD_eq_getElem?_getD, List.getD_eq_getElem?_getD, List.getElem?_set_ne hindex]

/-- The loop of `nhdp_domain_set_incoming_metric` over a list of domains
with pairwise different indices, all inside the array of the link. -/
theorem set_incoming_metric_loop (metric : Option String) (m : Nat)
    (l : List nhdp_domain) :
    ∀ (lnk : nhdp_link) (changed : Bool),
      (l.map (fun d => d.index)).Nodup →
      (∀ d ∈ l, d.index < lnk._domaindata.length) →
      ((l.foldl (set_incoming_metric_step metric m) (lnk, changed)).2 = true ↔
        changed = true ∨
          ∃ d ∈ l, d.metric = metric ∧ (nhdp_domain_get_linkdata d lnk).metric_in ≠ m) ∧
      (l.foldl (set_incoming_metric_step metric m) (lnk, changed)).1._domaindata.length =
        lnk._domaindata.length ∧
      (∀ e : nhdp_domain, (∃ d ∈ l, d.metric = metric ∧ d.index = e.index) →
        nhdp_domain_get_linkdata e
            (l.foldl (set_incoming_metric_step metric m) (lnk, changed)).1 =
          ⟨m, (nhdp_domain_get_linkdata e lnk).metric_out⟩) ∧
      (∀ e : nhdp_domain, (¬ ∃ d ∈ l, d.metric = metric ∧ d.index = e.index) →
        nhdp_domain_get_linkdata e
            (l.foldl (set_incoming_metric_step metric m) (lnk, changed)).1 =
          nhdp_domain_get_linkdata e lnk) := by
  induction l with
  | nil =>
    intro lnk changed _ _
    simp
  | cons d rest ih =>
    intro lnk changed hnodup hrange
    rw [List.map_cons, List.nodup_cons] at hnodup
    obtain ⟨hd, hrestnodup⟩ := hnodup
    have hdrest : ∀ e ∈ rest, d.index ≠ e.index := by
      intro e he heq
      exact hd (List.mem_map.mpr ⟨e, he, heq.symm⟩)
    have hdrange := hrange d (List.mem_cons_self _ _)
    rw [List.foldl_cons]
    by_cases hm : d.metric = metric
    · have hstep : set_incoming_metric_step metric m (lnk, changed) d =
          (nhdp_domain_set_linkdata d lnk ⟨m, (nhdp_domain_get_linkdata d lnk).metric_out⟩,
            changed || decide ((nhdp_domain_get_linkdata d lnk).metric_in ≠ m)) := by
        unfold set_incoming_metric_step
        rw [if_pos hm]
      rw [hstep]
      have hlen : (nhdp_domain_set_linkdata d lnk
          ⟨m, (nhdp_domain_get_linkdata d lnk).metric_out⟩)._domaindata.length =
          lnk._domaindata.length := by
        unfold nhdp_domain_set_linkdata
        simp
      obtain ⟨h1, h2, h3, h4⟩ := ih
        (nhdp_domain_set_linkdata d lnk ⟨m, (nhdp_domain_get_linkdata d lnk).metric_out⟩)
        (changed || decide ((nhdp_domain_get_linkdata d lnk).metric_in ≠ m)) hrestnodup
        (by
          intro e he
          rw [hlen]
          exact hrange e (List.mem_cons_of_mem _ he))
      refine ⟨?_, ?_, ?_, ?_⟩
      · rw [h1]
        constructor
        · rintro (hc | ⟨e, he, hem, hne⟩)
          · rw [Bool.or_eq_true] at hc
            rcases hc with hc | hc
            · exact Or.inl hc
            · exact Or.inr ⟨d, List.mem_cons_self _ _, hm, by simpa using hc⟩
          · rw [linkdata_set_get_other d e lnk _ (hdrest e he)] at hne
            exact Or.inr ⟨e, List.mem_cons_of_mem _ he, hem, hne⟩
        · rintro (hc | ⟨e, he, hem, hne⟩)
          · exact Or.inl (by simp [hc])
          · rcases List.mem_cons.mp he with rfl | he
            · exact Or.inl (by simp [hne])
            · refine Or.inr ⟨e, he, hem, ?_⟩
              rw [linkdata_set_get_other d e lnk _ (hdrest e he)]
              exact hne
      · rw [h2, hlen]
      · rintro e ⟨x, hx, hxm, hxe⟩
        rcases List.mem_cons.mp hx with rfl | hx
        · have hnot : ¬ ∃ y ∈ rest, y.metric = metric ∧ y.index = e.index := by
            rintro ⟨y, hy, _, hye⟩
            exact hdrest y hy (hxe.trans hye.symm)
          rw [h4 e hnot, linkdata_set_get_same x e lnk _ hxe hdrange]
          unfold nhdp_domain_get_linkdata
          rw [hxe]
        · have hde : d.index ≠ e.index := fun hc => hdrest x hx (hc.trans hxe.symm)
          rw [h3 e ⟨x, hx, hxm, hxe⟩, linkdata_set_get_other d e lnk _ hde]
      · intro e hnot
        have hde : d.index ≠ e.index :=
          fun hc => hnot ⟨d, List.mem_cons_self _ _, hm, hc⟩
        have hnot2 : ¬ ∃ y ∈ rest, y.metric = metric ∧ y.index = e.index := by
          rintro ⟨y, hy, h⟩
          exact hnot ⟨y, List.mem_cons_of_mem _ hy, h⟩
        rw [h4 e hnot2, linkdata_set_get_other d e lnk _ hde]
    · have hstep : set_incoming_metric_step metric m (lnk, changed) d = (lnk, changed) := by
        unfold set_incoming_metric_step
        rw [if_neg hm]
      rw [hstep]
      obtain ⟨h1, h2, h3, h4⟩ := ih lnk changed hrestnodup
        (fun e he => hrange e (List.mem_cons_of_mem _ he))
      refine ⟨?_, h2, ?_, ?_⟩
      · rw [h1]
        constructor
        · rintro (hc | ⟨e, he, h⟩)
          · exact Or.inl hc
          · exact Or.inr ⟨e, List.mem_cons_of_mem _ he, h⟩
        · rintro (hc | ⟨e, he, hem, hne⟩)
          · exact Or.inl hc
          · rcases List.mem_cons.mp he with rfl | he
            · exact (hm hem).elim
            · exact Or.inr ⟨e, he, hem, hne⟩
      · rintro e ⟨x, hx, hxm, hxe⟩
        rcases List.mem_cons.mp hx with rfl | hx
        · exact (hm hxm).elim
        · exact h3 e ⟨x, hx, hxm, hxe⟩
      · intro e hnot
        exact h4 e (fun ⟨y, hy, h⟩ => hnot ⟨y, List.mem_cons_of_mem _ hy, h⟩)

/-- In a reachable state the indices of the domains are pairwise different
and lie inside an array of `NHDP_MAXIMUM_DOMAINS` entries. -/
theorem domain_reachable_indices (c : nhdp_constants) (state : nhdp_domain_state)
    (h : nhdp_domain_reachable c state) (lnk : nhdp_link)
    (hlen : lnk._domaindata.length = c.NHDP_MAXIMUM_DOMAINS) :
    (state._domain_list.map (fun d => d.index)).Nodup ∧
      ∀ d ∈ state._domain_list, d.index < lnk._domaindata.length := by
  obtain ⟨hcount, hle, hidx, _⟩ := domain_reachable_list_ok c state h
  refine ⟨hidx ▸ List.nodup_range _, ?_⟩
  intro d hd
  have hmem : d.index ∈ state._domain_list.map (fun d => d.index) :=
    List.mem_map.mpr ⟨d, hd, rfl⟩
  rw [hidx, List.mem_range] at hmem
  omega

/-- C27: for a list of domains with pairwise different indices inside the
array of the link, `nhdp_domain_set_incoming_metric(metric, lnk, m)` returns
true iff some domain using that metric had an incoming link metric for
`lnk` different from `m` before the call; after the call every domain using
that metric has the incoming link metric `m` for `lnk` (its outgoing metric
is as before), the data of the domains using another metric is unchanged,
and an immediate second call with the same arguments returns false. -/
theorem nhdp_domain_set_incoming_metric_changed (state : nhdp_domain_state)
    (metric : Option String) (lnk : nhdp_link) (m : Nat)
    (hnodup : (state._domain_list.map (fun d => d.index)).Nodup)
    (hrange : ∀ d ∈ state._domain_list, d.index < lnk._domaindata.length) :
    ((nhdp_domain_set_incoming_metric state metric lnk m).2 = true ↔
      ∃ d ∈ state._domain_list,
        d.metric = metric ∧ (nhdp_domain_get_linkdata d lnk).metric_in ≠ m) ∧
    (∀ d ∈ state._domain_list, d.metric = metric →
      nhdp_domain_get_linkdata d (nhdp_domain_set_incoming_metric state metric lnk m).1 =
        ⟨m, (nhdp_domain_get_linkdata d lnk).metric_out⟩) ∧
    (∀ d ∈ state._domain_list, d.metric ≠ metric →
      nhdp_domain_get_linkdata d (nhdp_domain_set_incoming_metric state metric lnk m).1 =
        nhdp_domain_get_linkdata d lnk) ∧
    (nhdp_domain_set_incoming_metric state metric
      (nhdp_domain_set_incoming_metric state metric lnk m).1 m).2 = false := by
  obtain ⟨h1, h2, h3, h4⟩ :=
    set_incoming_metric_loop metric m state._domain_list lnk false hnodup hrange
  have hinj : ∀ d ∈ state._domain_list, ∀ x ∈ state._domain_list,
      x.index = d.index → x = d :=
    fun d hd x hx hxd => List.inj_on_of_nodup_map hnodup hx hd hxd
  have hafter : ∀ d ∈ state._domain_list, d.metric = metric →
      nhdp_domain_get_linkdata d (nhdp_domain_set_incoming_metric state metric lnk m).1 =
        ⟨m, (nhdp_domain_get_linkdata d lnk).metric_out⟩ :=
    fun d hd hm => h3 d ⟨d, hd, hm, rfl⟩
  refine ⟨?_, hafter, ?_, ?_⟩
  · unfold nhdp_domain_set_incoming_metric
    rw [h1]
    simp
  · intro d hd hm
    apply h4 d
    rintro ⟨x, hx, hxm, hxd⟩
    have := hinj d hd x hx hxd
    subst this
    exact hm hxm
  · obtain ⟨h1', _, _, _⟩ :=
      set_incoming_metric_loop metric m state._domain_list
        (nhdp_domain_set_incoming_metric state metric lnk m).1 false hnodup
        (by
          intro d hd
          unfold nhdp_domain_set_incoming_metric
          rw [h2]
          exact hrange d hd)
    cases hres : (nhdp_domain_set_incoming_metric state metric
        (nhdp_domain_set_incoming_metric state metric lnk m).1 m).2 with
    | false => rfl
    | true =>
      have hres2 : (List.foldl (set_incoming_metric_step metric m)
          ((nhdp_domain_set_incoming_metric state metric lnk m).1, false)
          state._domain_list).2 = true := hres
      rcases h1'.mp hres2 with hc | ⟨d, hd, hm, hne⟩
      · simp at hc
      · rw [hafter d hd hm] at hne
        exact (hne rfl).elim

/-- C27, witness: three domains, of which the domains 0 and 2 use the
metric "ff_dat"; the incoming metric 300 is set on a link that had 100, 200,
300 for them. -/
theorem nhdp_domain_set_incoming_metric_changed_witness :
    nhdp_domain_set_incoming_metric state_three_domains (some "ff_dat") link_example 300 =
      (⟨[⟨300, 1⟩, ⟨200, 2⟩, ⟨300, 3⟩, ⟨400, 4⟩], 1⟩, true) ∧
    (nhdp_domain_set_incoming_metric state_three_domains (some "ff_dat")
      (nhdp_domain_set_incoming_metric state_three_domains (some "ff_dat")
        link_example 300).1 300).2 = false :=
  ⟨by decide,
    (nhdp_domain_set_incoming_metric_changed state_three_domains (some "ff_dat")
      link_example 300 (by decide) (by decide)).2.2.2⟩

/-! ## Return values of the TLV encoders -/

/-- The loop of `nhdp_domain_encode_willingness_tlvvalue` returns `-1` as a
`size_t`, which is not 0, as soon as the byte of a domain lies outside the
buffer. -/
theorem encode_willingness_loop_error (c : nhdp_constants) (l : List nhdp_domain) :
    ∀ (tlvvalue : tlv_buffer) (len : Nat),
      (∃ d ∈ l, (d.index + 1) / 2 ≥ tlvvalue.bytes.length) →
      (encode_willingness_loop c l tlvvalue len).2 = SIZE_MAX := by
  induction l with
  | nil =>
    intro tlvvalue len h
    obtain ⟨d, hd, _⟩ := h
    simp at hd
  | cons d rest ih =>
    intro tlvvalue len h
    unfold encode_willingness_loop
    simp only
    by_cases hidx : (d.index + 1) / 2 ≥ tlvvalue.bytes.length
    · rw [if_pos hidx]
    · rw [if_neg hidx]
      apply ih
      obtain ⟨e, he, hbad⟩ := h
      rcases List.mem_cons.mp he with rfl | he
      · exact (hidx hbad).elim
      · refine ⟨e, he, ?_⟩
        unfold buffer_write
        rw [if_pos (by omega)]
        simpa using hbad

/-- C26, failing input: with two registered domains (indices 0 and 1) and a
destination buffer of one byte, the byte (1+1)/2 = 1 of the second domain
lies outside the buffer; `nhdp_domain_encode_willingness_tlvvalue` returns
`-1` converted to `size_t`, 18446744073709551615, and not 0. -/
theorem encode_willingness_returns_minus_one :
    (∃ d ∈ state_two_domains._domain_list, (d.index + 1) / 2 ≥ [0].length) ∧
    (nhdp_domain_encode_willingness_tlvvalue constants_example state_two_domains
      ⟨[0], []⟩).2 = 18446744073709551615 := by
  decide

/-- C30, failing input: with one registered domain (`ext` 0) and a
destination buffer of size 0, `nhdp_domain_process_mprtypes_tlv` with a TLV
writes the byte `mprtypes[0]`, which lies outside the buffer, and returns 1,
more than the size of the buffer; without a TLV it does the same. -/
theorem process_mprtypes_tlv_overruns_empty_buffer :
    nhdp_domain_process_mprtypes_tlv
        { state_two_domains with _domain_list := [domain_example 0 0 none] } ⟨[], []⟩ true =
      some (⟨[], [(0, 0)]⟩, 1) ∧
    nhdp_domain_process_mprtypes_tlv
        { state_two_domains with _domain_list := [domain_example 0 0 none] } ⟨[], []⟩ false =
      some (⟨[], [(0, 0)]⟩, 1) := by
  decide

/-- C29: after `nhdp_domain_neighborhood_changed()` and after
`nhdp_domain_neighbor_changed()`, `nhdp_domain_node_is_mpr()` returns true
iff there is a registered domain and a neighbor whose `local_is_mpr` flag
for that domain is set, as the domains and the neighbors stand after the
update callbacks ran. -/
theorem node_is_mpr_after_change (c : nhdp_constants) (cb : nhdp_callbacks) (db : nhdp_db)
    (neigh : Nat) :
    (nhdp_domain_node_is_mpr (nhdp_domain_neighborhood_changed c cb db).domains = true ↔
      ∃ domain ∈ (nhdp_domain_neighborhood_changed c cb db).domains._domain_list,
        ∃ n ∈ (nhdp_domain_neighborhood_changed c cb db).neigh_list,
          (nhdp_domain_get_neighbordata domain n).local_is_mpr = true) ∧
    (nhdp_domain_node_is_mpr (nhdp_domain_neighbor_changed c cb db neigh).domains = true ↔
      ∃ domain ∈ (nhdp_domain_neighbor_changed c cb db neigh).domains._domain_list,
        ∃ n ∈ (nhdp_domain_neighbor_changed c cb db neigh).neigh_list,
          (nhdp_domain_get_neighbordata domain n).local_is_mpr = true) := by
  constructor
  · unfold nhdp_domain_node_is_mpr nhdp_domain_neighborhood_changed check_mpr_selectors
    simp only [List.any_eq_true]
  · unfold nhdp_domain_node_is_mpr nhdp_domain_neighbor_changed check_mpr_selectors
    simp only [List.any_eq_true]

/-- Two domains with the everyone-MPR handler and two neighbors: the second
neighbor has `local_is_mpr` set in the domain 1, so the node is MPR after a
change of the neighborhood; with one neighbor that has no flag set in a
registered domain, it is not. -/
theorem node_is_mpr_after_change_example :
    nhdp_domain_node_is_mpr
        (nhdp_domain_neighborhood_changed constants_example callbacks_none
          ⟨state_two_domains, [neighbor_example 3, neighbor_example 1]⟩).domains = true ∧
    nhdp_domain_node_is_mpr
        (nhdp_domain_neighbor_changed constants_example callbacks_none
          ⟨{ state_two_domains with _node_is_selected_as_mpr := true },
            [neighbor_example 3]⟩ 0).domains = false := by
  decide

end Nhdp

namespace Dlep

/-! ## Complete signals of the receive buffer -/

theorem signal_header_some (buffer : List Nat) (signal_type signal_length : Nat)
    (h : dlep_signal_header buffer = some (signal_type, signal_length)) :
    ∃ t0 t1 l0 l1 rest, buffer = t0 :: t1 :: l0 :: l1 :: rest ∧
      signal_type = t0 * 256 + t1 ∧ signal_length = l0 * 256 + l1 := by
  match buffer, h with
  | t0 :: t1 :: l0 :: l1 :: rest, h =>
    unfold dlep_signal_header at h
    simp only [Option.some.injEq, Prod.mk.injEq] at h
    exact ⟨t0, t1, l0, l1, rest, rfl, h.1.symm, h.2.symm⟩

theorem signal_header_none (buffer : List Nat) (h : dlep_signal_header buffer = none) :
    buffer.length < 4 := by
  match buffer, h with
  | [], _ => simp
  | [_], _ => simp
  | [_, _], _ => simp
  | [_, _, _], _ => simp
  | _ :: _ :: _ :: _ :: _, h => simp [dlep_signal_header] at h

/-- What `dlep_session_process_signal` returns: 0 on an incomplete signal, a
negative error of the processing, or the length of one whole signal at the
start of the buffer. -/
theorem process_signal_cases
    (process : dlep_session → Nat → List Nat → dlep_session × Int)
    (session : dlep_session) (buffer : List Nat) :
    ((dlep_session_process_signal process session buffer).2 = 0 ∧
        dlep_incomplete_signal buffer) ∨
      (dlep_session_process_signal process session buffer).2 < 0 ∨
      ∃ t0 t1 l0 l1 tlvs rest,
        buffer = t0 :: t1 :: l0 :: l1 :: (tlvs ++ rest) ∧ tlvs.length = l0 * 256 + l1 ∧
          (dlep_session_process_signal process session buffer).2 =
            ((4 + tlvs.length : Nat) : Int) := by
  unfold dlep_session_process_signal
  cases hheader : dlep_signal_header buffer with
  | none => exact Or.inl ⟨rfl, Or.inl (signal_header_none buffer hheader)⟩
  | some header =>
    obtain ⟨signal_type, signal_length⟩ := header
    obtain ⟨t0, t1, l0, l1, rest, hbuf, htype, hlen⟩ :=
      signal_header_some buffer signal_type signal_length hheader
    simp only
    by_cases hshort : buffer.length - 4 < signal_length
    · rw [if_pos hshort]
      exact Or.inl ⟨rfl, Or.inr ⟨signal_type, signal_length, hheader, hshort⟩⟩
    · rw [if_neg hshort]
      by_cases herr : (process session signal_type ((buffer.drop 4).take signal_length)).2 < 0
      · rw [if_pos herr]
        exact Or.inr (Or.inl herr)
      · rw [if_neg herr]
        refine Or.inr (Or.inr ⟨t0, t1, l0, l1, rest.take signal_length,
          rest.drop signal_length, ?_, ?_, ?_⟩)
        · rw [List.take_append_drop]
          exact hbuf
        · rw [hbuf] at hshort
          simp only [List.length_cons] at hshort
          rw [List.length_take, ← hlen]
          omega
        · rw [hbuf] at hshort
          simp only [List.length_cons] at hshort
          rw [List.length_take]
          have : min signal_length rest.length = signal_length := by omega
          rw [this]

theorem whole_signals_append (a b : List Nat) (ha : dlep_whole_signals a)
    (hb : dlep_whole_signals b) : dlep_whole_signals (a ++ b) := by
  induction ha with
  | nil => exact hb
  | cons t0 t1 l0 l1 tlvs rest hlen _ ih =>
    have : t0 :: t1 :: l0 :: l1 :: (tlvs ++ rest) ++ b =
        t0 :: t1 :: l0 :: l1 :: (tlvs ++ (rest ++ b)) := by simp
    rw [this]
    exact dlep_whole_signals.cons t0 t1 l0 l1 tlvs (rest ++ b) hlen ih

theorem process_buffer_loop_consumed
    (process : dlep_session → Nat → List Nat → dlep_session × Int) (fuel : Nat) :
    ∀ (session : dlep_session) (buffer : List Nat) (offset : Nat),
      buffer.length ≤ fuel →
      (dlep_session_process_buffer_loop process fuel session buffer offset).2 < 0 ∨
        ∃ consumed : Nat,
          (dlep_session_process_buffer_loop process fuel session buffer offset).2 =
            ((offset + consumed : Nat) : Int) ∧
          consumed ≤ buffer.length ∧
          dlep_whole_signals (buffer.take consumed) ∧
          dlep_incomplete_signal (buffer.drop consumed) := by
  induction fuel with
  | zero =>
    intro session buffer offset hfuel
    have hnil : buffer = [] := List.length_eq_zero.mp (by omega)
    subst hnil
    exact Or.inr ⟨0, rfl, Nat.le_refl _, dlep_whole_signals.nil, Or.inl (by simp)⟩
  | succ fuel ih =>
    intro session buffer offset hfuel
    unfold dlep_session_process_buffer_loop
    simp only
    rcases process_signal_cases process session buffer with
      ⟨hzero, hinc⟩ | hneg | ⟨t0, t1, l0, l1, tlvs, rest, hbuf, hlen, hres⟩
    · rw [if_neg (by omega), if_pos hzero]
      exact Or.inr ⟨0, rfl, Nat.zero_le _, dlep_whole_signals.nil, hinc⟩
    · rw [if_pos hneg]
      exact Or.inl hneg
    · rw [if_neg (by omega), if_neg (by omega), hres]
      simp only [Int.toNat_ofNat]
      have hdrop : buffer.drop (4 + tlvs.length) = rest := by
        rw [hbuf]
        have hsplit : t0 :: t1 :: l0 :: l1 :: (tlvs ++ rest) =
            ([t0, t1, l0, l1] ++ tlvs) ++ rest := by
          simp
        have hfront : ([t0, t1, l0, l1] ++ tlvs).length = 4 + tlvs.length := by
          simp only [List.length_append, List.length_cons, List.length_nil]
        rw [hsplit, List.drop_left' hfront]
      rw [hdrop]
      have hrestlen : rest.length ≤ fuel := by
        rw [hbuf] at hfuel
        simp only [List.length_cons, List.length_append] at hfuel
        omega
      rcases ih (dlep_session_process_signal process session buffer).1 rest
          (offset + (4 + tlvs.length)) hrestlen with hneg | ⟨consumed, hval, hle, hwhole, hinc⟩
      · exact Or.inl hneg
      · refine Or.inr ⟨4 + tlvs.length + consumed, ?_, ?_, ?_, ?_⟩
        · rw [hval]
          congr 1
          omega
        · rw [hbuf]
          simp only [List.length_cons, List.length_append]
          omega
        · have htake : buffer.take (4 + tlvs.length + consumed) =
              (t0 :: t1 :: l0 :: l1 :: (tlvs ++ [])) ++ rest.take consumed := by
            rw [hbuf]
            have hsplit : t0 :: t1 :: l0 :: l1 :: (tlvs ++ rest) =
                ([t0, t1, l0, l1] ++ tlvs) ++ rest := by simp
            have hfront : ([t0, t1, l0, l1] ++ tlvs).length = 4 + tlvs.length := by
              simp only [List.length_append, List.length_cons, List.length_nil]
            rw [hsplit, ← hfront, List.take_append]
            simp
          rw [htake]
          exact whole_signals_append _ _
            (dlep_whole_signals.cons t0 t1 l0 l1 tlvs [] hlen dlep_whole_signals.nil) hwhole
        · have : buffer.drop (4 + tlvs.length + consumed) = rest.drop consumed := by
            rw [← hdrop, List.drop_drop]
          rw [this]
          exact hinc

theorem process_buffer_loop_no_error
    (process : dlep_session → Nat → List Nat → dlep_session × Int)
    (hprocess : ∀ session signal_type tlvs, 0 ≤ (process session signal_type tlvs).2)
    (fuel : Nat) :
    ∀ (session : dlep_session) (buffer : List Nat) (offset : Nat),
      0 ≤ (dlep_session_process_buffer_loop process fuel session buffer offset).2 := by
  induction fuel with
  | zero =>
    intro session buffer offset
    exact Int.ofNat_nonneg _
  | succ fuel ih =>
    intro session buffer offset
    unfold dlep_session_process_buffer_loop
    simp only
    have hsignal : 0 ≤ (dlep_session_process_signal process session buffer).2 := by
      unfold dlep_session_process_signal
      cases hheader : dlep_signal_header buffer with
      | none => exact Int.le_refl _
      | some header =>
        obtain ⟨signal_type, signal_length⟩ := header
        simp only
        split
        · exact Int.le_refl _
        · have := hprocess session signal_type ((buffer.drop 4).take signal_length)
          rw [if_neg (by omega)]
          exact Int.ofNat_nonneg _
    rw [if_neg (by omega)]
    split
    · exact Int.ofNat_nonneg _
    · exact ih _ _ _

/-- C22: for every input byte sequence, `dlep_session_process_buffer`
returns a negative error of the processing of one of the signals, or the
number of bytes it consumed: that number is the total length of a prefix of
the input made of whole signals, and the unconsumed suffix is shorter than 4
bytes or begins with a signal header whose declared `signal_length` exceeds
the bytes available after the header. When no signal is answered with an
error, a number of bytes is returned. -/
theorem process_buffer_consumes_whole_signals
    (process : dlep_session → Nat → List Nat → dlep_session × Int)
    (session : dlep_session) (buffer : List Nat) :
    ((dlep_session_process_buffer process session buffer).2 < 0 ∨
      ∃ consumed : Nat,
        (dlep_session_process_buffer process session buffer).2 = (consumed : Int) ∧
        consumed ≤ buffer.length ∧
        dlep_whole_signals (buffer.take consumed) ∧
        dlep_incomplete_signal (buffer.drop consumed)) ∧
    ((∀ s signal_type tlvs, 0 ≤ (process s signal_type tlvs).2) →
      0 ≤ (dlep_session_process_buffer process session buffer).2) := by
  constructor
  · rcases process_buffer_loop_consumed process buffer.length session buffer 0
        (Nat.le_refl _) with hneg | ⟨consumed, hval, hrest⟩
    · exact Or.inl hneg
    · refine Or.inr ⟨consumed, ?_, hrest⟩
      unfold dlep_session_process_buffer
      rw [hval, Nat.zero_add]
  · intro hprocess
    exact process_buffer_loop_no_error process hprocess _ _ _ _

/-- C22, witness: of a buffer with two whole signals (4 and 10 bytes) and
five bytes of a third, 14 bytes are consumed when every signal is
accepted. -/
theorem process_buffer_consumes_whole_signals_witness :
    dlep_session_process_buffer process_accept (session_router .DLEP_ALL_SIGNALS)
        buffer_example =
      (session_router .DLEP_ALL_SIGNALS, 14) ∧
    0 ≤ (dlep_session_process_buffer process_accept (session_router .DLEP_ALL_SIGNALS)
      buffer_example).2 :=
  ⟨by decide,
    (process_buffer_consumes_whole_signals process_accept (session_router .DLEP_ALL_SIGNALS)
      buffer_example).2 (fun _ _ _ => Int.le_refl 0)⟩

/-! ## The allowed TLVs after an update of the extensions -/

theorem allowed_tlvs_declare_step (compatible : dlep_extension_tlv → dlep_parser_tlv → Bool)
    (allowed after : List dlep_parser_tlv) (declared : dlep_extension_tlv)
    (h : dlep_allowed_tlvs_declare compatible allowed declared = some after) :
    (∀ tlv ∈ after, tlv.remove = false →
      tlv.id = declared.id ∨ ∃ old ∈ allowed, old.id = tlv.id ∧ old.remove = false) ∧
    (∃ tlv ∈ after, tlv.id = declared.id ∧ tlv.remove = false) ∧
    (∀ old ∈ allowed, old.remove = false →
      ∃ tlv ∈ after, tlv.id = old.id ∧ tlv.remove = false) := by
  unfold dlep_allowed_tlvs_declare at h
  cases hfind : allowed.find? (fun tlv => decide (tlv.id = declared.id)) with
  | none =>
    rw [hfind] at h
    simp only [Option.some.injEq] at h
    subst h
    refine ⟨?_, ?_, ?_⟩
    · intro tlv htlv hremove
      rcases List.mem_append.mp htlv with hold | hnew
      · exact Or.inr ⟨tlv, hold, rfl, hremove⟩
      · rw [List.mem_singleton] at hnew
        subst hnew
        exact Or.inl rfl
    · exact ⟨_, List.mem_append_right _ (List.mem_singleton_self _), rfl, rfl⟩
    · intro old hold hremove
      exact ⟨old, List.mem_append_left _ hold, rfl, hremove⟩
  | some found =>
    rw [hfind] at h
    have hfound_mem : found ∈ allowed := List.mem_of_find?_eq_some hfind
    have hfound_id : found.id = declared.id := by simpa using List.find?_some hfind
    -- both successful branches replace the entries of that id by unmarked ones
    have key : ∀ (f : dlep_parser_tlv → dlep_parser_tlv),
        (∀ tlv, (f tlv).id = tlv.id ∧ (f tlv).remove = false) →
        after = allowed.map (fun tlv => if tlv.id = declared.id then f tlv else tlv) →
        (∀ tlv ∈ after, tlv.remove = false →
          tlv.id = declared.id ∨ ∃ old ∈ allowed, old.id = tlv.id ∧ old.remove = false) ∧
        (∃ tlv ∈ after, tlv.id = declared.id ∧ tlv.remove = false) ∧
        (∀ old ∈ allowed, old.remove = false →
          ∃ tlv ∈ after, tlv.id = old.id ∧ tlv.remove = false) := by
      intro f hf hafter
      subst hafter
      refine ⟨?_, ?_, ?_⟩
      · intro tlv htlv hremove
        obtain ⟨old, hold, hmap⟩ := List.mem_map.mp htlv
        by_cases hid : old.id = declared.id
        · rw [if_pos hid] at hmap
          subst hmap
          exact Or.inl ((hf old).1.trans hid)
        · rw [if_neg hid] at hmap
          subst hmap
          exact Or.inr ⟨old, hold, rfl, hremove⟩
      · refine ⟨f found, List.mem_map.mpr ⟨found, hfound_mem, by rw [if_pos hfound_id]⟩, ?_, ?_⟩
        · exact (hf found).1.trans hfound_id
        · exact (hf found).2
      · intro old hold hremove
        by_cases hid : old.id = declared.id
        · exact ⟨f old, List.mem_map.mpr ⟨old, hold, by rw [if_pos hid]⟩, (hf old).1,
            (hf old).2⟩
        · exact ⟨old, List.mem_map.mpr ⟨old, hold, by rw [if_neg hid]⟩, rfl, hremove⟩
    simp only at h
    split at h
    · simp only [Option.some.injEq] at h
      exact key
        (fun tlv => ⟨tlv.id, tlv.tlv_first, tlv.tlv_last, tlv.length_min, tlv.length_max,
          false⟩)
        (fun tlv => ⟨rfl, rfl⟩) h.symm
    · split at h
      · simp only [Option.some.injEq] at h
        exact key
          (fun tlv => ⟨tlv.id, tlv.tlv_first, tlv.tlv_last,
            min tlv.length_min declared.length_min, max tlv.length_max declared.length_max,
            false⟩)
          (fun tlv => ⟨rfl, rfl⟩) h.symm
      · simp at h

theorem allowed_tlvs_declare_all_spec
    (compatible : dlep_extension_tlv → dlep_parser_tlv → Bool)
    (declared : List dlep_extension_tlv) :
    ∀ (allowed after : List dlep_parser_tlv),
      dlep_allowed_tlvs_declare_all compatible allowed declared = some after →
      (∀ tlv ∈ after, tlv.remove = false →
        (∃ d ∈ declared, d.id = tlv.id) ∨
          ∃ old ∈ allowed, old.id = tlv.id ∧ old.remove = false) ∧
      (∀ d ∈ declared, ∃ tlv ∈ after, tlv.id = d.id ∧ tlv.remove = false) ∧
      (∀ old ∈ allowed, old.remove = false →
        ∃ tlv ∈ after, tlv.id = old.id ∧ tlv.remove = false) := by
  induction declared with
  | nil =>
    intro allowed after h
    unfold dlep_allowed_tlvs_declare_all at h
    simp only [Option.some.injEq] at h
    subst h
    refine ⟨?_, ?_, ?_⟩
    · intro tlv htlv hremove
      exact Or.inr ⟨tlv, htlv, rfl, hremove⟩
    · intro d hd
      simp at hd
    · intro old hold hremove
      exact ⟨old, hold, rfl, hremove⟩
  | cons d rest ih =>
    intro allowed after h
    unfold dlep_allowed_tlvs_declare_all at h
    cases hstep : dlep_allowed_tlvs_declare compatible allowed d with
    | none => rw [hstep] at h; simp at h
    | some middle =>
      rw [hstep] at h
      simp only at h
      obtain ⟨s1, s2, s3⟩ := allowed_tlvs_declare_step compatible allowed middle d hstep
      obtain ⟨r1, r2, r3⟩ := ih middle after h
      refine ⟨?_, ?_, ?_⟩
      · intro tlv htlv hremove
        rcases r1 tlv htlv hremove with ⟨e, he, hid⟩ | ⟨mid, hmid, hid, hmidremove⟩
        · exact Or.inl ⟨e, List.mem_cons_of_mem _ he, hid⟩
        · rcases s1 mid hmid hmidremove with hd | ⟨old, hold, holdid, holdremove⟩
          · exact Or.inl ⟨d, List.mem_cons_self _ _, hd.symm.trans hid⟩
          · exact Or.inr ⟨old, hold, holdid.trans hid, holdremove⟩
      · intro e he
        rcases List.mem_cons.mp he with rfl | he
        · obtain ⟨mid, hmid, hid, hmidremove⟩ := s2
          obtain ⟨tlv, htlv, htid, htremove⟩ := r3 mid hmid hmidremove
          exact ⟨tlv, htlv, htid.trans hid, htremove⟩
        · exact r2 e he
      · intro old hold hremove
        obtain ⟨mid, hmid, hid, hmidremove⟩ := s3 old hold hremove
        obtain ⟨tlv, htlv, htid, htremove⟩ := r3 mid hmid hmidremove
        exact ⟨tlv, htlv, htid.trans hid, htremove⟩

/-- C24: after the rebuild of the allowed-TLV map by
`dlep_session_update_extensions(E)` succeeds, the map holds exactly the TLV
types declared by the active extensions, which are the base protocol and the
registered extensions of `E`: every declared type has an entry, every entry
has the type of a declaration of one of these extensions, and no entry is
marked removable. -/
theorem update_extensions_allowed_tlvs
    (compatible : dlep_extension_tlv → dlep_parser_tlv → Bool) (base : dlep_extension)
    (registry : List dlep_extension) (session updated : dlep_session)
    (extension_ids : List Nat)
    (h : dlep_session_update_allowed_tlvs compatible base registry session extension_ids =
      some updated) :
    (∀ ext ∈ dlep_active_extensions base registry extension_ids, ∀ d ∈ ext.tlvs,
      ∃ tlv ∈ updated.parser.allowed_tlvs, tlv.id = d.id) ∧
    (∀ tlv ∈ updated.parser.allowed_tlvs,
      ∃ ext ∈ dlep_active_extensions base registry extension_ids,
        ∃ d ∈ ext.tlvs, d.id = tlv.id) ∧
    (∀ tlv ∈ updated.parser.allowed_tlvs, tlv.remove = false) := by
  unfold dlep_session_update_allowed_tlvs at h
  simp only at h
  cases hall : dlep_allowed_tlvs_declare_all compatible
      (session.parser.allowed_tlvs.map (fun tlv =>
        (⟨tlv.id, tlv.tlv_first, tlv.tlv_last, tlv.length_min, tlv.length_max, true⟩ :
          dlep_parser_tlv)))
      ((dlep_active_extensions base registry extension_ids).flatMap (fun ext => ext.tlvs)) with
  | none => rw [hall] at h; simp at h
  | some allowed =>
    rw [hall] at h
    simp only [Option.some.injEq] at h
    subst h
    obtain ⟨r1, r2, _⟩ := allowed_tlvs_declare_all_spec compatible _ _ _ hall
    refine ⟨?_, ?_, ?_⟩
    · intro ext hext d hd
      obtain ⟨tlv, htlv, hid, hremove⟩ :=
        r2 d (List.mem_flatMap.mpr ⟨ext, hext, hd⟩)
      exact ⟨tlv, List.mem_filter.mpr ⟨htlv, by simp [hremove]⟩, hid⟩
    · intro tlv htlv
      obtain ⟨hmem, hremove⟩ := List.mem_filter.mp htlv
      have hremove2 : tlv.remove = false := by simpa using hremove
      rcases r1 tlv hmem hremove2 with ⟨d, hd, hid⟩ | ⟨old, hold, _, holdremove⟩
      · obtain ⟨ext, hext, hdext⟩ := List.mem_flatMap.mp hd
        exact ⟨ext, hext, d, hdext, hid⟩
      · obtain ⟨orig, _, horig⟩ := List.mem_map.mp hold
        rw [← horig] at holdremove
        simp at holdremove
    · intro tlv htlv
      have := (List.mem_filter.mp htlv).2
      simpa using this

/-- C24, witness: the registry holds the extensions 42 and 99, the session
has the TLVs of the base protocol and of the extension 99, and the peer
supports the extensions 42 and 77: the map then holds the TLVs 1, 5, 7 of
the base protocol and 20 of the extension 42, the TLV 30 is gone. -/
theorem update_extensions_allowed_tlvs_witness :
    (dlep_session_update_allowed_tlvs (fun _ _ => false) extension_base
        [extension_42, extension_99] session_allowed [42, 77]).map
        (fun s => s.parser.allowed_tlvs.map (fun tlv => tlv.id)) = some [1, 5, 7, 20] ∧
    ∀ tlv ∈ ({ session_allowed with
        parser :=
          { allowed_tlvs :=
              [⟨1, -1, -1, 1, 255, false⟩, ⟨5, -1, -1, 2, 2, false⟩, ⟨7, -1, -1, 6, 6, false⟩,
                ⟨20, -1, -1, 4, 4, false⟩] } } : dlep_session).parser.allowed_tlvs,
      tlv.remove = false :=
  ⟨by decide,
    (update_extensions_allowed_tlvs (fun _ _ => false) extension_base
      [extension_42, extension_99] session_allowed _ [42, 77] (by decide)).2.2⟩

/-! ## Writing a signal -/

theorem writer_add_tlvs (tlvs : List (Nat × List Nat)) :
    ∀ writer : dlep_writer,
      tlvs.foldl dlep_writer_add_tlv writer =
        ⟨writer.out ++ tlvs.flatMap dlep_tlv_bytes, writer.signal_type, writer.signal_start⟩ := by
  induction tlvs with
  | nil => intro writer; simp
  | cons x rest ih =>
    intro writer
    rw [List.foldl_cons, ih]
    simp [dlep_writer_add_tlv, List.flatMap_cons]

theorem set_after_prefix (a l : List Nat) (k v : Nat) :
    (a ++ l).set (a.length + k) v = a ++ l.set k v := by
  induction a with
  | nil => simp
  | cons x rest ih =>
    have h : (x :: rest).length + k = (rest.length + k) + 1 := by
      simp only [List.length_cons]; omega
    rw [h, List.cons_append, List.set_cons_succ, ih, List.cons_append]

/-- A signal whose TLVs fit into 65535 bytes is written as its header,
with the number of TLV bytes as `signal_length`, followed by the bytes of
the TLVs in order. -/
theorem writer_write_signal_ok (writer : dlep_writer) (signal_type : Nat)
    (tlvs : List (Nat × List Nat))
    (hsize : (tlvs.flatMap dlep_tlv_bytes).length ≤ 65535) :
    dlep_writer_write_signal writer signal_type tlvs =
      (⟨writer.out ++
          ([signal_type / 256, signal_type % 256,
              (tlvs.flatMap dlep_tlv_bytes).length / 256,
              (tlvs.flatMap dlep_tlv_bytes).length % 256] ++
            tlvs.flatMap dlep_tlv_bytes),
        signal_type, writer.out.length⟩, 0) := by
  unfold dlep_writer_write_signal
  rw [writer_add_tlvs]
  unfold dlep_writer_finish_signal dlep_writer_start_signal
  simp only
  have hlen : (writer.out ++ [signal_type / 256, signal_type % 256, 0, 0] ++
      tlvs.flatMap dlep_tlv_bytes).length - writer.out.length - 4 =
      (tlvs.flatMap dlep_tlv_bytes).length := by
    simp only [List.length_append, List.length_cons, List.length_nil]
    omega
  rw [hlen, if_neg (by omega)]
  have hshape : writer.out ++ [signal_type / 256, signal_type % 256, 0, 0] ++
      tlvs.flatMap dlep_tlv_bytes =
      writer.out ++ ([signal_type / 256, signal_type % 256, 0, 0] ++
        tlvs.flatMap dlep_tlv_bytes) := by
    rw [List.append_assoc]
  rw [hshape, set_after_prefix, set_after_prefix]
  rfl

/-- A signal whose TLVs take more than 65535 bytes is abandoned: the buffer
is what it was before the signal and the result is -1. -/
theorem writer_write_signal_overflow (writer : dlep_writer) (signal_type : Nat)
    (tlvs : List (Nat × List Nat))
    (hsize : 65535 < (tlvs.flatMap dlep_tlv_bytes).length) :
    dlep_writer_write_signal writer signal_type tlvs =
      (⟨writer.out, signal_type, writer.out.length⟩, -1) := by
  unfold dlep_writer_write_signal
  rw [writer_add_tlvs]
  unfold dlep_writer_finish_signal dlep_writer_start_signal
  simp only
  have hlen : (writer.out ++ [signal_type / 256, signal_type % 256, 0, 0] ++
      tlvs.flatMap dlep_tlv_bytes).length - writer.out.length - 4 =
      (tlvs.flatMap dlep_tlv_bytes).length := by
    simp only [List.length_append, List.length_cons, List.length_nil]
    omega
  rw [hlen, if_pos (by omega)]
  simp

theorem signal_header_written (signal_type len : Nat) (rest : List Nat) :
    dlep_signal_header ([signal_type / 256, signal_type % 256, len / 256, len % 256] ++ rest) =
      some (signal_type, len) := by
  show some (signal_type / 256 * 256 + signal_type % 256, len / 256 * 256 + len % 256) = _
  have h1 : signal_type / 256 * 256 + signal_type % 256 = signal_type := by omega
  have h2 : len / 256 * 256 + len % 256 = len := by omega
  rw [h1, h2]

/-! ## Positions and records of a list of TLVs -/

theorem tlv_records_length (tlvs : List (Nat × List Nat)) :
    ∀ pos, (tlv_records pos tlvs).length = tlvs.length := by
  induction tlvs with
  | nil => intro pos; rfl
  | cons x rest ih =>
    intro pos
    simp [tlv_records, ih]

theorem tlv_records_append (a b : List (Nat × List Nat)) :
    ∀ pos, tlv_records pos (a ++ b) =
      tlv_records pos a ++ tlv_records (pos + (a.flatMap dlep_tlv_bytes).length) b := by
  induction a with
  | nil => intro pos; simp [tlv_records]
  | cons x rest ih =>
    intro pos
    have hpos : pos + 4 + x.2.length + (rest.flatMap dlep_tlv_bytes).length =
        pos + ((x :: rest).flatMap dlep_tlv_bytes).length := by
      simp only [List.flatMap_cons, dlep_tlv_bytes, List.length_append, List.length_cons,
        List.length_nil]
      omega
    rw [List.cons_append]
    show (pos + 4, x.2.length) :: tlv_records (pos + 4 + x.2.length) (rest ++ b) =
      (pos + 4, x.2.length) :: tlv_records (pos + 4 + x.2.length) rest ++ _
    rw [ih, hpos]
    rfl

theorem tlv_positions_mem (tlvs : List (Nat × List Nat)) (id i : Nat) :
    i ∈ tlv_positions tlvs id ↔
      i < tlvs.length ∧ (tlvs[i]?).map (fun tlv => tlv.1) = some id := by
  unfold tlv_positions
  rw [List.mem_filter, List.mem_range]
  simp

theorem tlv_positions_snoc (tlvs : List (Nat × List Nat)) (x : Nat × List Nat) (id : Nat) :
    tlv_positions (tlvs ++ [x]) id =
      tlv_positions tlvs id ++ (if x.1 = id then [tlvs.length] else []) := by
  unfold tlv_positions
  rw [List.length_append, List.length_singleton, List.range_succ, List.filter_append]
  congr 1
  · apply List.filter_congr
    intro i hi
    rw [List.mem_range] at hi
    rw [List.getElem?_append_left hi]
  · by_cases hx : x.1 = id
    · simp [hx]
    · simp [hx]

/-! ## Linking a value into the chain of its TLV -/

theorem parser_chain_congr (values other : List dlep_parser_value) (indices : List Nat) :
    ∀ start : Int, (∀ i ∈ indices, other[i]? = values[i]?) →
      dlep_parser_chain values start indices → dlep_parser_chain other start indices := by
  induction indices with
  | nil =>
    intro start _ h
    unfold dlep_parser_chain at h ⊢
    exact h
  | cons i rest ih =>
    intro start hsame h
    unfold dlep_parser_chain at h ⊢
    refine ⟨h.1, ?_⟩
    rw [hsame i (List.mem_cons_self _ _)]
    cases hv : values[i]? with
    | none => rw [hv] at h; exact h.2.elim
    | some value =>
      rw [hv] at h
      exact ih value.tlv_next (fun j hj => hsame j (List.mem_cons_of_mem _ hj)) h.2

theorem parser_chain_lt (values : List dlep_parser_value) (indices : List Nat) :
    ∀ start : Int, dlep_parser_chain values start indices →
      ∀ i ∈ indices, i < values.length := by
  induction indices with
  | nil => intro _ _ i hi; simp at hi
  | cons j rest ih =>
    intro start h i hi
    unfold dlep_parser_chain at h
    cases hv : values[j]? with
    | none => rw [hv] at h; exact h.2.elim
    | some value =>
      rw [hv] at h
      rcases List.mem_cons.mp hi with rfl | hi
      · exact (List.getElem?_eq_some_iff.mp hv).1
      · exact ih value.tlv_next h.2 i hi

/-- The chain of a TLV grows by the new record when the last record of the
chain is made to point to it. -/
theorem parser_chain_extend (values : List dlep_parser_value) (added : dlep_parser_value)
    (hadded : added.tlv_next = -1) (indices : List Nat) :
    ∀ (start : Int) (k : Nat) (last : dlep_parser_value),
      dlep_parser_chain values start indices →
      indices.getLast? = some k → values[k]? = some last →
      dlep_parser_chain
        (values.set k ⟨(values.length : Int), last.index, last.length⟩ ++ [added]) start
        (indices ++ [values.length]) := by
  induction indices with
  | nil =>
    intro start k last _ hlast _
    simp at hlast
  | cons i rest ih =>
    intro start k last hchain hlast hk
    have hnodup := parser_chain_nodup values (i :: rest) start hchain
    have hlt := parser_chain_lt values (i :: rest) start hchain
    have hi : i < values.length := hlt i (List.mem_cons_self _ _)
    unfold dlep_parser_chain at hchain
    cases hv : values[i]? with
    | none => rw [hv] at hchain; exact hchain.2.elim
    | some value =>
      rw [hv] at hchain
      obtain ⟨hstart, hrest⟩ := hchain
      rw [List.cons_append]
      unfold dlep_parser_chain
      refine ⟨hstart, ?_⟩
      have hleft : (values.set k ⟨(values.length : Int), last.index, last.length⟩ ++
          [added])[i]? =
          (values.set k ⟨(values.length : Int), last.index, last.length⟩)[i]? :=
        List.getElem?_append_left (by simpa using hi)
      rw [hleft]
      cases rest with
      | nil =>
        -- the record `i` is the last of the chain
        simp only [List.getLast?_singleton, Option.some.injEq] at hlast
        subst hlast
        rw [hv] at hk
        simp only [Option.some.injEq] at hk
        subst hk
        rw [List.getElem?_set_self hi]
        simp only [List.nil_append]
        unfold dlep_parser_chain
        refine ⟨rfl, ?_⟩
        have hnew : (values.set i ⟨(values.length : Int), value.index, value.length⟩ ++
            [added])[values.length]? = some added := by
          rw [List.getElem?_append_right (by simp)]
          simp
        rw [hnew]
        simp only
        unfold dlep_parser_chain
        exact hadded
      | cons j rest2 =>
        have hlast2 : (j :: rest2).getLast? = some k := by
          rw [List.getLast?_cons_cons] at hlast
          exact hlast
        have hkmem : k ∈ j :: rest2 := List.mem_of_getLast?_eq_some hlast2
        have hik : k ≠ i := by
          intro hc
          subst hc
          exact (List.nodup_cons.mp hnodup).1 hkmem
        rw [List.getElem?_set_ne hik, hv]
        exact ih value.tlv_next k last hrest hlast2 hk

/-! ## The parser after one more TLV -/

theorem parser_find_static (l1 l2 : List dlep_parser_tlv) (id : Nat) :
    l1.map dlep_parser_tlv_static = l2.map dlep_parser_tlv_static →
    ∀ t2, l2.find? (fun t => decide (t.id = id)) = some t2 →
      ∃ t1, l1.find? (fun t => decide (t.id = id)) = some t1 ∧
        dlep_parser_tlv_static t1 = dlep_parser_tlv_static t2 := by
  induction l1 generalizing l2 with
  | nil =>
    intro h t2 hfind
    cases l2 with
    | nil => simp at hfind
    | cons y ys => simp at h
  | cons x xs ih =>
    intro h t2 hfind
    cases l2 with
    | nil => simp at h
    | cons y ys =>
      simp only [List.map_cons, List.cons.injEq] at h
      have hid0 := congrArg (fun t : dlep_parser_tlv => t.id) h.1
      have hid : x.id = y.id := hid0
      by_cases hy : y.id = id
      · rw [List.find?_cons_of_pos _ (by simpa using hy)] at hfind
        simp only [Option.some.injEq] at hfind
        subst hfind
        exact ⟨x, List.find?_cons_of_pos _ (by simpa using hid.trans hy), h.1⟩
      · rw [List.find?_cons_of_neg _ (by simpa using hy)] at hfind
        obtain ⟨t1, h1, h2⟩ := ih ys h.2 t2 hfind
        refine ⟨t1, ?_, h2⟩
        rw [List.find?_cons_of_neg _ (by simpa using fun hc => hy (hid.symm.trans hc))]
        exact h1

theorem parser_holds_length (allowed : List dlep_parser_tlv)
    (parser : dlep_session_parser_data) (tlvs : List (Nat × List Nat))
    (h : dlep_parser_holds allowed parser tlvs) : parser.values.length = tlvs.length := by
  have := congrArg List.length h.1
  rw [List.length_map, tlv_records_length] at this
  exact this

/-- Step 5 of the parser keeps the value table and the chains in line with
the TLVs parsed so far. -/
theorem parser_holds_add_value (allowed : List dlep_parser_tlv)
    (parser : dlep_session_parser_data) (tlvs : List (Nat × List Nat))
    (x : Nat × List Nat) (tlv : dlep_parser_tlv)
    (h : dlep_parser_holds allowed parser tlvs)
    (hfind : parser.allowed_tlvs.find? (fun t => decide (t.id = x.1)) = some tlv) :
    dlep_parser_holds allowed
      (dlep_parser_add_value parser tlv ((tlvs.flatMap dlep_tlv_bytes).length + 4) x.2.length)
      (tlvs ++ [x]) := by
  have hn := parser_holds_length allowed parser tlvs h
  obtain ⟨hrecords, hstatic, hchains⟩ := h
  have htlv_mem : tlv ∈ parser.allowed_tlvs := List.mem_of_find?_eq_some hfind
  have htlv_id : tlv.id = x.1 := by simpa using List.find?_some hfind
  obtain ⟨htlv_chain, htlv_last⟩ := hchains tlv htlv_mem
  rw [htlv_id] at htlv_chain htlv_last
  -- the value table with the old last record linked to the new one
  generalize hlinked :
    (if tlv.tlv_last = -1 then parser.values
      else
        match parser.values[tlv.tlv_last.toNat]? with
        | some last =>
          parser.values.set tlv.tlv_last.toNat
            ⟨(parser.values.length : Int), last.index, last.length⟩
        | none => parser.values) = linked
  have hshape : dlep_parser_add_value parser tlv ((tlvs.flatMap dlep_tlv_bytes).length + 4)
      x.2.length =
      { parser with
        values := linked ++ [⟨-1, (tlvs.flatMap dlep_tlv_bytes).length + 4, x.2.length⟩]
        allowed_tlvs :=
          parser.allowed_tlvs.map (fun t =>
            if t.id = tlv.id then
              ⟨t.id, if t.tlv_first = -1 then (parser.values.length : Int) else t.tlv_first,
                (parser.values.length : Int), t.length_min, t.length_max, t.remove⟩
            else t) } := by
    unfold dlep_parser_add_value
    simp only
    rw [hlinked]
  rw [hshape]
  -- what linking does to the table
  have hlinked_cases :
      ((tlv_positions tlvs x.1 = [] ∧ linked = parser.values) ∨
        ∃ k last, (tlv_positions tlvs x.1).getLast? = some k ∧
          parser.values[k]? = some last ∧
          linked = parser.values.set k
            ⟨(parser.values.length : Int), last.index, last.length⟩) := by
    cases hlast : (tlv_positions tlvs x.1).getLast? with
    | none =>
      left
      rw [hlast] at htlv_last
      have htlv_last : tlv.tlv_last = -1 := htlv_last
      rw [← hlinked, if_pos htlv_last]
      exact ⟨List.getLast?_eq_none_iff.mp hlast, rfl⟩
    | some k =>
      right
      rw [hlast] at htlv_last
      have htlv_last : tlv.tlv_last = (k : Int) := htlv_last
      have hk : k < parser.values.length :=
        parser_chain_lt _ _ _ htlv_chain k (List.mem_of_getLast?_eq_some hlast)
      have hget : parser.values[k]? = some (parser.values[k]) := List.getElem?_eq_getElem hk
      refine ⟨k, parser.values[k], rfl, hget, ?_⟩
      rw [← hlinked, if_neg (by omega), htlv_last]
      simp only [Int.toNat_ofNat]
      rw [hget]
  have hlinked_len : linked.length = parser.values.length := by
    rcases hlinked_cases with ⟨_, heq⟩ | ⟨k, last, _, _, heq⟩
    · rw [heq]
    · rw [heq, List.length_set]
  have hlinked_records : linked.map (fun v : dlep_parser_value => (v.index, v.length)) =
      parser.values.map (fun v => (v.index, v.length)) := by
    rcases hlinked_cases with ⟨_, heq⟩ | ⟨k, last, _, hk, heq⟩
    · rw [heq]
    · rw [heq]
      apply List.ext_getElem?
      intro j
      rw [List.getElem?_map, List.getElem?_map, List.getElem?_set']
      by_cases hkj : k = j
      · subst hkj
        rw [if_pos rfl, hk]
        rfl
      · rw [if_neg hkj]
  have hother : ∀ i, i < parser.values.length →
      (tlvs[i]?).map (fun t => t.1) ≠ some x.1 →
      (linked ++ [(⟨-1, (tlvs.flatMap dlep_tlv_bytes).length + 4, x.2.length⟩ :
        dlep_parser_value)])[i]? = parser.values[i]? := by
    intro i hi htype
    rw [List.getElem?_append_left (by omega)]
    rcases hlinked_cases with ⟨_, heq⟩ | ⟨k, last, hk, _, heq⟩
    · rw [heq]
    · rw [heq]
      have hkpos := (tlv_positions_mem tlvs x.1 k).mp (List.mem_of_getLast?_eq_some hk)
      rw [List.getElem?_set_ne]
      intro hc
      subst hc
      exact htype hkpos.2
  refine ⟨?_, ?_, ?_⟩
  · show (linked ++ [_]).map (fun v : dlep_parser_value => (v.index, v.length)) = _
    rw [List.map_append, hlinked_records, hrecords, tlv_records_append]
    simp [tlv_records]
  · show (parser.allowed_tlvs.map _).map dlep_parser_tlv_static = _
    rw [← hstatic, List.map_map]
    apply List.map_congr_left
    intro t _
    by_cases ht : t.id = tlv.id
    · simp [ht, dlep_parser_tlv_static]
    · simp [ht]
  · intro t' ht'
    obtain ⟨t, ht, hmap⟩ := List.mem_map.mp ht'
    obtain ⟨hchain, hlast⟩ := hchains t ht
    rw [tlv_positions_snoc]
    by_cases hid : t.id = tlv.id
    · rw [if_pos hid] at hmap
      subst hmap
      have hidx : t.id = x.1 := hid.trans htlv_id
      simp only
      rw [hidx] at hchain hlast ⊢
      rw [if_pos rfl, ← hn]
      refine ⟨?_, by simp⟩
      rcases hlinked_cases with ⟨hnil, heq⟩ | ⟨k, last, hk, hget, heq⟩
      · rw [hnil] at hchain ⊢
        unfold dlep_parser_chain at hchain
        rw [if_pos hchain, heq, List.nil_append]
        unfold dlep_parser_chain
        refine ⟨rfl, ?_⟩
        rw [List.getElem?_append_right (Nat.le_refl _)]
        simp only [Nat.sub_self, List.getElem?_cons_zero]
        unfold dlep_parser_chain
        rfl
      · have hfirst : t.tlv_first ≠ -1 := by
          cases hps : tlv_positions tlvs x.1 with
          | nil => rw [hps] at hk; simp at hk
          | cons i rest =>
            rw [hps] at hchain
            unfold dlep_parser_chain at hchain
            have := hchain.1
            omega
        rw [if_neg hfirst, heq]
        exact parser_chain_extend parser.values _ rfl _ t.tlv_first k last hchain hk hget
    · rw [if_neg hid] at hmap
      subst hmap
      have hidx : ¬ x.1 = t.id := fun hc => hid (hc.symm.trans htlv_id.symm)
      rw [if_neg hidx, List.append_nil]
      refine ⟨?_, hlast⟩
      apply parser_chain_congr parser.values _ _ _ _ hchain
      intro i hi
      have hipos := (tlv_positions_mem tlvs t.id i).mp hi
      apply hother i (by omega)
      rw [hipos.2]
      intro hc
      simp only [Option.some.injEq] at hc
      exact hidx hc.symm

/-! ## Parsing what the writer wrote -/

theorem tlv_bytes_shape (x : Nat × List Nat) (rest : List Nat) :
    dlep_tlv_bytes x ++ rest =
      [x.1 / 256, x.1 % 256, x.2.length / 256, x.2.length % 256] ++ (x.2 ++ rest) := by
  unfold dlep_tlv_bytes
  rw [List.append_assoc]

/-- The single pass of the parser over the bytes written for a list of
allowed TLVs accepts them all and holds them afterwards. -/
theorem parse_loop_holds (allowed : List dlep_parser_tlv) (post : List (Nat × List Nat)) :
    ∀ (pre : List (Nat × List Nat)) (parser : dlep_session_parser_data) (fuel : Nat),
      dlep_parser_holds allowed parser pre →
      (∀ x ∈ post, ∃ entry, allowed.find? (fun t => decide (t.id = x.1)) = some entry ∧
        entry.length_min ≤ x.2.length ∧ x.2.length ≤ entry.length_max) →
      (post.flatMap dlep_tlv_bytes).length ≤ fuel →
      ∃ parsed,
        dlep_parser_parse_loop fuel parser (pre.flatMap dlep_tlv_bytes).length
            (post.flatMap dlep_tlv_bytes) = (parsed, .DLEP_NEW_PARSER_OKAY) ∧
          dlep_parser_holds allowed parsed (pre ++ post) ∧
          parsed.tlv_ptr = parser.tlv_ptr := by
  induction post with
  | nil =>
    intro pre parser fuel hholds _ _
    refine ⟨parser, ?_, by rw [List.append_nil]; exact hholds, rfl⟩
    cases fuel with
    | zero => unfold dlep_parser_parse_loop; simp
    | succ fuel => unfold dlep_parser_parse_loop; simp
  | cons x rest ih =>
    intro pre parser fuel hholds hallowed hfuel
    obtain ⟨entry, hentry, hmin, hmax⟩ := hallowed x (List.mem_cons_self _ _)
    obtain ⟨found, hfound, hstatic⟩ :=
      parser_find_static parser.allowed_tlvs allowed x.1 hholds.2.1 entry hentry
    have hmin0 := congrArg (fun t : dlep_parser_tlv => t.length_min) hstatic
    have hmax0 := congrArg (fun t : dlep_parser_tlv => t.length_max) hstatic
    have hfound_min : found.length_min = entry.length_min := hmin0
    have hfound_max : found.length_max = entry.length_max := hmax0
    have hbytes : (x :: rest).flatMap dlep_tlv_bytes =
        [x.1 / 256, x.1 % 256, x.2.length / 256, x.2.length % 256] ++
          (x.2 ++ rest.flatMap dlep_tlv_bytes) := by
      rw [List.flatMap_cons, tlv_bytes_shape]
    have hlen : ((x :: rest).flatMap dlep_tlv_bytes).length =
        4 + x.2.length + (rest.flatMap dlep_tlv_bytes).length := by
      rw [hbytes]
      simp only [List.length_append, List.length_cons, List.length_nil]
      omega
    cases fuel with
    | zero => omega
    | succ fuel =>
      unfold dlep_parser_parse_loop
      have hne : ¬ (x :: rest).flatMap dlep_tlv_bytes = [] := by
        rw [hbytes]; simp
      rw [if_neg hne]
      have hheader : dlep_signal_header ((x :: rest).flatMap dlep_tlv_bytes) =
          some (x.1, x.2.length) := by
        rw [hbytes]
        exact signal_header_written x.1 x.2.length _
      rw [hheader]
      simp only
      rw [if_neg (by omega), hfound]
      simp only
      rw [if_neg (by omega)]
      have hdrop : ((x :: rest).flatMap dlep_tlv_bytes).drop (4 + x.2.length) =
          rest.flatMap dlep_tlv_bytes := by
        rw [hbytes, ← List.append_assoc]
        apply List.drop_left'
        simp only [List.length_append, List.length_cons, List.length_nil]
      have hpos : (pre.flatMap dlep_tlv_bytes).length + 4 + x.2.length =
          ((pre ++ [x]).flatMap dlep_tlv_bytes).length := by
        simp only [List.flatMap_append, List.flatMap_cons, List.flatMap_nil, List.append_nil,
          List.length_append, dlep_tlv_bytes, List.length_cons, List.length_nil]
        omega
      rw [hdrop, hpos]
      obtain ⟨parsed, hparsed, hholds2, hptr⟩ :=
        ih (pre ++ [x])
          (dlep_parser_add_value parser found ((pre.flatMap dlep_tlv_bytes).length + 4)
            x.2.length)
          fuel (parser_holds_add_value allowed parser pre x found hholds hfound)
          (fun y hy => hallowed y (List.mem_cons_of_mem _ hy)) (by omega)
      refine ⟨parsed, hparsed, ?_, ?_⟩
      · have : pre ++ x :: rest = pre ++ [x] ++ rest := by simp
        rw [this]
        exact hholds2
      · rw [hptr]
        rfl

/-- The value of the TLV at a position lies in the written bytes where its
record says. -/
theorem tlv_records_binary (tlvs : List (Nat × List Nat)) :
    ∀ (front : List Nat) (i : Nat) (x : Nat × List Nat) (r : Nat × Nat),
      tlvs[i]? = some x → (tlv_records front.length tlvs)[i]? = some r →
      r.2 = x.2.length ∧
        ((front ++ tlvs.flatMap dlep_tlv_bytes).drop r.1).take r.2 = x.2 := by
  induction tlvs with
  | nil => intro front i x r hx _; simp at hx
  | cons y rest ih =>
    intro front i x r hx hr
    cases i with
    | zero =>
      simp only [List.getElem?_cons_zero, Option.some.injEq] at hx
      subst hx
      unfold tlv_records at hr
      simp only [List.getElem?_cons_zero, Option.some.injEq] at hr
      subst hr
      refine ⟨rfl, ?_⟩
      simp only
      rw [List.flatMap_cons, tlv_bytes_shape, ← List.append_assoc,
        List.drop_left' (by simp only [List.length_append, List.length_cons, List.length_nil]),
        List.take_left' rfl]
    | succ i =>
      simp only [List.getElem?_cons_succ] at hx
      unfold tlv_records at hr
      simp only [List.getElem?_cons_succ] at hr
      have hfront : front.length + 4 + y.2.length = (front ++ dlep_tlv_bytes y).length := by
        simp only [List.length_append, dlep_tlv_bytes, List.length_cons, List.length_nil]
        omega
      rw [hfront] at hr
      have := ih (front ++ dlep_tlv_bytes y) i x r hx hr
      rw [List.flatMap_cons, ← List.append_assoc]
      exact this

theorem fresh_parser_holds (allowed : List dlep_parser_tlv) (tlv_ptr : List Nat) :
    dlep_parser_holds allowed
      { allowed_tlvs :=
          allowed.map (fun t => ⟨t.id, -1, -1, t.length_min, t.length_max, t.remove⟩)
        values := []
        tlv_ptr := tlv_ptr } [] := by
  refine ⟨rfl, ?_, ?_⟩
  · simp only [List.map_map]
    apply List.map_congr_left
    intro t _
    rfl
  · intro t ht
    obtain ⟨t0, _, ht0⟩ := List.mem_map.mp ht
    subst ht0
    refine ⟨?_, rfl⟩
    show dlep_parser_chain [] (-1) (tlv_positions [] t0.id)
    unfold tlv_positions
    simp only [List.length_nil, List.range_zero, List.filter_nil]
    unfold dlep_parser_chain
    rfl

theorem tlv_positions_of_mem (tlvs : List (Nat × List Nat)) (x : Nat × List Nat)
    (hx : x ∈ tlvs) : tlv_positions tlvs x.1 ≠ [] := by
  obtain ⟨i, hi, hget⟩ := List.getElem_of_mem hx
  have hmem : i ∈ tlv_positions tlvs x.1 := by
    rw [tlv_positions_mem]
    refine ⟨hi, ?_⟩
    rw [List.getElem?_eq_getElem hi, hget]
    rfl
  intro hnil
  rw [hnil] at hmem
  simp at hmem

/-! ## The checks after the pass and the round trip -/

theorem parser_holds_find (allowed : List dlep_parser_tlv)
    (parser : dlep_session_parser_data) (tlvs : List (Nat × List Nat)) (id : Nat)
    (h : dlep_parser_holds allowed parser tlvs) (tlv : dlep_parser_tlv)
    (hfind : parser.allowed_tlvs.find? (fun t => decide (t.id = id)) = some tlv) :
    dlep_parser_chain parser.values tlv.tlv_first (tlv_positions tlvs id) ∧
      tlv.tlv_last = (((tlv_positions tlvs id).getLast?).map (fun k => (k : Int))).getD (-1) := by
  have hmem : tlv ∈ parser.allowed_tlvs := List.mem_of_find?_eq_some hfind
  have hid : tlv.id = id := by simpa using List.find?_some hfind
  have := h.2.2 tlv hmem
  rw [hid] at this
  exact this

theorem parser_check_mandatory_ok (allowed : List dlep_parser_tlv)
    (parser : dlep_session_parser_data) (tlvs : List (Nat × List Nat))
    (extensions : List dlep_extension) (signal_type : Nat)
    (h : dlep_parser_holds allowed parser tlvs)
    (hallowed : ∀ x ∈ tlvs, ∃ entry, allowed.find? (fun t => decide (t.id = x.1)) = some entry)
    (hmand : ∀ ext ∈ extensions, ∀ d ∈ ext.tlvs, signal_type ∈ d.mandatory_in_signals →
      ∃ x ∈ tlvs, x.1 = d.id) :
    dlep_parser_check_mandatory parser extensions signal_type = true := by
  unfold dlep_parser_check_mandatory
  rw [List.all_eq_true]
  intro ext hext
  rw [List.all_eq_true]
  intro d hd
  by_cases hm : signal_type ∈ d.mandatory_in_signals
  · rw [if_pos hm]
    obtain ⟨x, hx, hxd⟩ := hmand ext hext d hd hm
    obtain ⟨entry, hentry⟩ := hallowed x hx
    rw [hxd] at hentry
    obtain ⟨found, hfound, _⟩ :=
      parser_find_static parser.allowed_tlvs allowed d.id h.2.1 entry hentry
    rw [hfound]
    simp only [decide_eq_true_eq]
    have hchain := (parser_holds_find allowed parser tlvs d.id h found hfound).1
    have hne := tlv_positions_of_mem tlvs x hx
    rw [hxd] at hne
    cases hps : tlv_positions tlvs d.id with
    | nil => exact (hne hps).elim
    | cons i rest =>
      rw [hps] at hchain
      unfold dlep_parser_chain at hchain
      have := hchain.1
      omega
  · rw [if_neg hm]

theorem parser_check_duplicate_ok (allowed : List dlep_parser_tlv)
    (parser : dlep_session_parser_data) (tlvs : List (Nat × List Nat))
    (extensions : List dlep_extension) (signal_type : Nat)
    (h : dlep_parser_holds allowed parser tlvs)
    (hdup : ∀ ext ∈ extensions, ∀ d ∈ ext.tlvs, signal_type ∉ d.may_repeat_in_signals →
      (tlv_positions tlvs d.id).length ≤ 1) :
    dlep_parser_check_duplicate parser extensions signal_type = true := by
  unfold dlep_parser_check_duplicate
  rw [List.all_eq_true]
  intro ext hext
  rw [List.all_eq_true]
  intro d hd
  by_cases hr : signal_type ∈ d.may_repeat_in_signals
  · rw [if_pos hr]
  · rw [if_neg hr]
    cases hfind : parser.allowed_tlvs.find? (fun t => decide (t.id = d.id)) with
    | none => rfl
    | some found =>
      simp only [decide_eq_true_eq]
      obtain ⟨hchain, hlast⟩ := parser_holds_find allowed parser tlvs d.id h found hfind
      have hlen := hdup ext hext d hd hr
      cases hps : tlv_positions tlvs d.id with
      | nil =>
        rw [hps] at hchain hlast
        unfold dlep_parser_chain at hchain
        rw [hchain, hlast]
        rfl
      | cons i rest =>
        rw [hps] at hchain hlast hlen
        cases rest with
        | nil =>
          unfold dlep_parser_chain at hchain
          rw [hchain.1, hlast]
          rfl
        | cons j rest2 =>
          simp only [List.length_cons] at hlen
          omega

theorem tlv_bytes_length_le (tlvs : List (Nat × List Nat)) (x : Nat × List Nat)
    (hx : x ∈ tlvs) : x.2.length + 4 ≤ (tlvs.flatMap dlep_tlv_bytes).length := by
  induction tlvs with
  | nil => simp at hx
  | cons y rest ih =>
    rw [List.flatMap_cons, List.length_append]
    rcases List.mem_cons.mp hx with rfl | hx
    · simp only [dlep_tlv_bytes, List.length_append, List.length_cons, List.length_nil]
      omega
    · have := ih hx
      omega

/-- The bytes produced for a signal that fits: header and TLVs. -/
theorem written_signal_ok (writer : dlep_writer) (signal_type : Nat)
    (tlvs : List (Nat × List Nat))
    (hsize : (tlvs.flatMap dlep_tlv_bytes).length ≤ 65535) :
    dlep_written_signal writer signal_type tlvs =
      [signal_type / 256, signal_type % 256,
          (tlvs.flatMap dlep_tlv_bytes).length / 256,
          (tlvs.flatMap dlep_tlv_bytes).length % 256] ++
        tlvs.flatMap dlep_tlv_bytes := by
  unfold dlep_written_signal
  rw [writer_write_signal_ok writer signal_type tlvs hsize]
  exact List.drop_left _ _

/-- The session parser accepts the bytes written for a list of allowed TLVs
that has the mandatory TLVs of the signal and repeats none that may not
repeat, and holds these TLVs afterwards. -/
theorem parse_written_tlvs (extensions : List dlep_extension) (session : dlep_session)
    (signal_type : Nat) (tlvs : List (Nat × List Nat))
    (hallowed : ∀ x ∈ tlvs, tlv_allowed session x)
    (hmand : ∀ ext ∈ extensions, ∀ d ∈ ext.tlvs, signal_type ∈ d.mandatory_in_signals →
      ∃ x ∈ tlvs, x.1 = d.id)
    (hdup : ∀ ext ∈ extensions, ∀ d ∈ ext.tlvs, signal_type ∉ d.may_repeat_in_signals →
      (tlv_positions tlvs d.id).length ≤ 1) :
    ∃ parsed,
      dlep_session_parse_tlvs extensions session signal_type (tlvs.flatMap dlep_tlv_bytes) =
        ({ session with parser := parsed }, .DLEP_NEW_PARSER_OKAY) ∧
      dlep_parser_holds session.parser.allowed_tlvs parsed tlvs ∧
      parsed.tlv_ptr = tlvs.flatMap dlep_tlv_bytes := by
  have hentries : ∀ x ∈ tlvs, ∃ entry,
      session.parser.allowed_tlvs.find? (fun t => decide (t.id = x.1)) = some entry ∧
        entry.length_min ≤ x.2.length ∧ x.2.length ≤ entry.length_max :=
    fun x hx => (hallowed x hx).2.2
  obtain ⟨parsed, hloop, hholds, hptr⟩ :=
    parse_loop_holds session.parser.allowed_tlvs tlvs [] _ _
      (fresh_parser_holds session.parser.allowed_tlvs (tlvs.flatMap dlep_tlv_bytes))
      hentries (Nat.le_refl _)
  rw [List.nil_append] at hholds
  refine ⟨parsed, ?_, hholds, hptr⟩
  unfold dlep_session_parse_tlvs
  simp only
  have hloop2 : dlep_parser_parse_loop (tlvs.flatMap dlep_tlv_bytes).length
      { allowed_tlvs :=
          session.parser.allowed_tlvs.map (fun t =>
            ⟨t.id, -1, -1, t.length_min, t.length_max, t.remove⟩)
        values := []
        tlv_ptr := tlvs.flatMap dlep_tlv_bytes } 0 (tlvs.flatMap dlep_tlv_bytes) =
      (parsed, .DLEP_NEW_PARSER_OKAY) := hloop
  rw [hloop2]
  simp only [ne_eq, not_true_eq_false, if_false]
  rw [parser_check_mandatory_ok session.parser.allowed_tlvs parsed tlvs extensions
      signal_type hholds (fun x hx => (hentries x hx).imp (fun _ h => h.1)) hmand,
    parser_check_duplicate_ok session.parser.allowed_tlvs parsed tlvs extensions
      signal_type hholds hdup]
  simp

theorem writer_overflow_of_large_tlv (value : List Nat) (hvalue : value.length = 65535) :
    dlep_writer_write_signal ⟨[], 0, 0⟩ 8 [(40, value)] = (⟨[], 8, 0⟩, -1) := by
  have hlen : ([(40, value)].flatMap dlep_tlv_bytes).length = 4 + 65535 := by
    simp only [List.flatMap_cons, List.flatMap_nil, List.append_nil, dlep_tlv_bytes,
      List.length_append, List.length_cons, List.length_nil, hvalue]
  exact writer_write_signal_overflow ⟨[], 0, 0⟩ 8 [(40, value)] (by rw [hlen]; decide)

/-- C23 as stated fails. A signal 3 without TLVs is written (header only),
but the parser answers it with an error, for the TLV 5 is mandatory in the
signal 3. A signal 3 with two TLVs 5 of two bytes, each allowed in the
session, is written and the parser answers with an error, for the TLV 5 may
not repeat. And a signal with one allowed TLV 40 of 65535 bytes takes more
than 65535 bytes of TLVs: the writer abandons it and produces nothing. -/
theorem signal_roundtrip_needs_signal_rules :
    ((dlep_writer_write_signal ⟨[], 0, 0⟩ 3 []).2 = 0 ∧
      dlep_written_signal ⟨[], 0, 0⟩ 3 [] = [0, 3, 0, 0] ∧
      (dlep_session_parse_tlvs [extension_base] session_allowed 3 []).2 =
        .DLEP_NEW_PARSER_MISSING_MANDATORY_TLV ∧
      (dlep_session_process_signal (dlep_session_process_tlvs [extension_base])
        session_allowed (dlep_written_signal ⟨[], 0, 0⟩ 3 [])).2 = -1) ∧
    (session_allowed.parser.allowed_tlvs.find? (fun t => t.id = 5) =
        some ⟨5, -1, -1, 2, 2, false⟩ ∧
      (dlep_writer_write_signal ⟨[], 0, 0⟩ 3 [(5, [1, 1]), (5, [1, 2])]).2 = 0 ∧
      (dlep_session_parse_tlvs [extension_base] session_allowed 3
        [0, 5, 0, 2, 1, 1, 0, 5, 0, 2, 1, 2]).2 = .DLEP_NEW_PARSER_DUPLICATE_TLV ∧
      (dlep_session_process_signal (dlep_session_process_tlvs [extension_base])
        session_allowed
        (dlep_written_signal ⟨[], 0, 0⟩ 3 [(5, [1, 1]), (5, [1, 2])])).2 = -1) ∧
    (session_large.parser.allowed_tlvs.find? (fun t => t.id = 40) =
        some ⟨40, -1, -1, 0, 65535, false⟩ ∧
      (List.replicate 65535 0).length ≤ 65535 ∧
      dlep_writer_write_signal ⟨[], 0, 0⟩ 8 [(40, List.replicate 65535 0)] =
        (⟨[], 8, 0⟩, -1)) := by
  exact ⟨by decide, by decide, by decide, Nat.le_of_eq (List.length_replicate 65535 0),
    writer_overflow_of_large_tlv (List.replicate 65535 0) (List.length_replicate 65535 0)⟩

/-- C23, amended: for every signal type (a u16) and every list of TLVs
T1..Tn allowed in the session (type found in the allowed-TLV map, length
within its bounds) whose bytes fit into one signal (at most 65535 bytes of
TLVs) and which has every TLV that is mandatory in the signal and no second
TLV of a type that may not repeat in it, writing the signal with the TLV
writer succeeds and produces bytes, and parsing the produced bytes consumes
them all and yields the same n TLVs in the same order: the value table has
n records, the i-th record has the length and the value bytes of Ti and
belongs to the chain of the type of Ti, and the chain of every allowed type
links the records of the TLVs of that type, in order. -/
theorem signal_write_parse_roundtrip (extensions : List dlep_extension)
    (session : dlep_session) (writer : dlep_writer) (signal_type : Nat)
    (tlvs : List (Nat × List Nat))
    (hsignal : signal_type < 65536)
    (hallowed : ∀ x ∈ tlvs, tlv_allowed session x)
    (hsize : (tlvs.flatMap dlep_tlv_bytes).length ≤ 65535)
    (hmand : ∀ ext ∈ extensions, ∀ d ∈ ext.tlvs, signal_type ∈ d.mandatory_in_signals →
      ∃ x ∈ tlvs, x.1 = d.id)
    (hdup : ∀ ext ∈ extensions, ∀ d ∈ ext.tlvs, signal_type ∉ d.may_repeat_in_signals →
      (tlv_positions tlvs d.id).length ≤ 1) :
    (dlep_writer_write_signal writer signal_type tlvs).2 = 0 ∧
    (∀ b ∈ dlep_written_signal writer signal_type tlvs, b < 256) ∧
    ∃ parsed : dlep_session_parser_data,
      dlep_session_process_signal (dlep_session_process_tlvs extensions) session
          (dlep_written_signal writer signal_type tlvs) =
        ({ session with parser := parsed },
          ((dlep_written_signal writer signal_type tlvs).length : Int)) ∧
      parsed.values.length = tlvs.length ∧
      (∀ (i : Nat) (v : dlep_parser_value) (x : Nat × List Nat),
        parsed.values[i]? = some v → tlvs[i]? = some x →
        v.length = x.2.length ∧
          (dlep_session_get_tlv_binary { session with parser := parsed } v).take v.length =
            x.2 ∧
          ∃ t ∈ parsed.allowed_tlvs, t.id = x.1 ∧ i ∈ tlv_positions tlvs t.id) ∧
      (∀ t ∈ parsed.allowed_tlvs,
        dlep_parser_chain parsed.values t.tlv_first (tlv_positions tlvs t.id)) := by
  have hwritten := written_signal_ok writer signal_type tlvs hsize
  obtain ⟨parsed, hparse, hholds, hptr⟩ :=
    parse_written_tlvs extensions session signal_type tlvs hallowed hmand hdup
  refine ⟨?_, ?_, parsed, ?_, parser_holds_length _ _ _ hholds, ?_, ?_⟩
  · rw [writer_write_signal_ok writer signal_type tlvs hsize]
  · intro b hb
    rw [hwritten] at hb
    rcases List.mem_append.mp hb with hheader | hbody
    · simp only [List.mem_cons, List.mem_singleton, List.not_mem_nil, or_false] at hheader
      rcases hheader with rfl | rfl | rfl | rfl <;> omega
    · obtain ⟨x, hx, hbx⟩ := List.mem_flatMap.mp hbody
      have hlen := tlv_bytes_length_le tlvs x hx
      obtain ⟨htype, hvalue, _⟩ := hallowed x hx
      unfold dlep_tlv_bytes at hbx
      rcases List.mem_append.mp hbx with hh | hv
      · simp only [List.mem_cons, List.mem_singleton, List.not_mem_nil, or_false] at hh
        rcases hh with rfl | rfl | rfl | rfl <;> omega
      · exact hvalue b hv
  · rw [hwritten]
    unfold dlep_session_process_signal
    rw [signal_header_written]
    simp only
    have hlen : ([signal_type / 256, signal_type % 256,
        (tlvs.flatMap dlep_tlv_bytes).length / 256,
        (tlvs.flatMap dlep_tlv_bytes).length % 256] ++
        tlvs.flatMap dlep_tlv_bytes).length = 4 + (tlvs.flatMap dlep_tlv_bytes).length := by
      simp only [List.length_append, List.length_cons, List.length_nil]
    rw [hlen, if_neg (by omega)]
    have hbody : (([signal_type / 256, signal_type % 256,
        (tlvs.flatMap dlep_tlv_bytes).length / 256,
        (tlvs.flatMap dlep_tlv_bytes).length % 256] ++
        tlvs.flatMap dlep_tlv_bytes).drop 4).take (tlvs.flatMap dlep_tlv_bytes).length =
        tlvs.flatMap dlep_tlv_bytes := by
      show List.take _ (tlvs.flatMap dlep_tlv_bytes) = _
      exact List.take_length _
    rw [hbody]
    unfold dlep_session_process_tlvs
    rw [hparse]
    simp
  · intro i v x hv hx
    have hrecord : (tlv_records 0 tlvs)[i]? = some (v.index, v.length) := by
      rw [← hholds.1, List.getElem?_map, hv]
      rfl
    obtain ⟨hlen, hbinary⟩ := tlv_records_binary tlvs [] i x (v.index, v.length) hx hrecord
    refine ⟨hlen, ?_, ?_⟩
    · unfold dlep_session_get_tlv_binary
      show (parsed.tlv_ptr.drop v.index).take v.length = x.2
      rw [hptr]
      exact hbinary
    · obtain ⟨_, _, entry, hentry, _, _⟩ := hallowed x (List.getElem?_mem hx)
      obtain ⟨found, hfound, _⟩ :=
        parser_find_static parsed.allowed_tlvs session.parser.allowed_tlvs x.1 hholds.2.1
          entry hentry
      have hid : found.id = x.1 := by simpa using List.find?_some hfound
      refine ⟨found, List.mem_of_find?_eq_some hfound, hid, ?_⟩
      rw [tlv_positions_mem, hid]
      refine ⟨(List.getElem?_eq_some_iff.mp hx).1, ?_⟩
      rw [hx]
      rfl
  · intro t ht
    exact (hholds.2.2 t ht).1

/-- C23, witness: the signal 8 with a TLV 7 (six bytes) and two TLVs 1 (one
and two bytes) is written after two bytes that were in the buffer; the
produced 25 bytes parse into three records, the chain of the TLV 1 links the
records 1 and 2. -/
theorem signal_write_parse_roundtrip_witness :
    (dlep_writer_write_signal ⟨[9, 9], 0, 0⟩ 8
      [(7, [1, 2, 3, 4, 5, 6]), (1, [0]), (1, [1, 2])]).2 = 0 ∧
    (dlep_session_process_signal (dlep_session_process_tlvs [extension_base]) session_allowed
      (dlep_written_signal ⟨[9, 9], 0, 0⟩ 8
        [(7, [1, 2, 3, 4, 5, 6]), (1, [0]), (1, [1, 2])])).2 = 25 ∧
    (dlep_session_process_signal (dlep_session_process_tlvs [extension_base]) session_allowed
      (dlep_written_signal ⟨[9, 9], 0, 0⟩ 8
        [(7, [1, 2, 3, 4, 5, 6]), (1, [0]), (1, [1, 2])])).1.parser.values =
      [⟨-1, 4, 6⟩, ⟨2, 14, 1⟩, ⟨-1, 19, 2⟩] :=
  ⟨(signal_write_parse_roundtrip [extension_base] session_allowed ⟨[9, 9], 0, 0⟩ 8
      [(7, [1, 2, 3, 4, 5, 6]), (1, [0]), (1, [1, 2])] (by decide)
      (by
        intro x hx
        simp only [List.mem_cons, List.mem_singleton, List.not_mem_nil, or_false] at hx
        rcases hx with rfl | rfl | rfl
        · exact ⟨by decide, by decide, ⟨7, -1, -1, 6, 6, false⟩, by decide, by decide,
            by decide⟩
        · exact ⟨by decide, by decide, ⟨1, -1, -1, 1, 255, false⟩, by decide, by decide,
            by decide⟩
        · exact ⟨by decide, by decide, ⟨1, -1, -1, 1, 255, false⟩, by decide, by decide,
            by decide⟩)
      (by decide) (by decide) (by decide)).1,
    by decide, by decide⟩

end Dlep

namespace LinkConfig

open Dlep

/-! ## Overwriting a layer-2 value -/

/-- C33: `_set_l2value(data, v)` returns -1 exactly when `data` already has
a value whose origin is neither 0 nor `_l2_origin_current` nor
`_l2_origin_old`, and then `data` is unchanged; in every other case it
returns 0 and `data` holds the value `v` with the origin
`_l2_origin_current`. -/
theorem set_l2value_overwrites_own_values (origins : link_config_origins)
    (data : oonf_layer2_data) (v : Int) :
    ((_set_l2value origins data v).2 = -1 ↔
      (data._has_value = true ∧ data._origin ≠ 0 ∧
        data._origin ≠ origins._l2_origin_current ∧
        data._origin ≠ origins._l2_origin_old)) ∧
    ((data._has_value = true ∧ data._origin ≠ 0 ∧
        data._origin ≠ origins._l2_origin_current ∧
        data._origin ≠ origins._l2_origin_old) →
      _set_l2value origins data v = (data, -1)) ∧
    (¬ (data._has_value = true ∧ data._origin ≠ 0 ∧
        data._origin ≠ origins._l2_origin_current ∧
        data._origin ≠ origins._l2_origin_old) →
      _set_l2value origins data v = (⟨true, v, origins._l2_origin_current⟩, 0)) := by
  unfold _set_l2value oonf_layer2_has_value oonf_layer2_get_origin oonf_layer2_set_value
  by_cases hv : data._has_value = true
  · by_cases ho : data._origin ≠ 0 ∧ data._origin ≠ origins._l2_origin_current ∧
        data._origin ≠ origins._l2_origin_old
    · rw [if_pos hv, if_pos ho]
      exact ⟨⟨fun _ => ⟨hv, ho⟩, fun _ => rfl⟩, fun _ => rfl, fun h => absurd ⟨hv, ho⟩ h⟩
    · rw [if_pos hv, if_neg ho]
      refine ⟨⟨fun h => absurd (show (0 : Int) = -1 from h) (by decide), fun h => absurd h.2 ho⟩,
        fun h => absurd h.2 ho, fun _ => rfl⟩
  · rw [if_neg hv]
    refine ⟨⟨fun h => absurd (show (0 : Int) = -1 from h) (by decide), fun h => absurd h.1 hv⟩,
      fun h => absurd h.1 hv, fun _ => rfl⟩

/-- The three cases of `_set_l2value` on the origins 11 and 12: a value of
the foreign origin 5 stays, a value of the old origin 12 and a field without
value are overwritten. -/
theorem set_l2value_examples :
    _set_l2value origins_example ⟨true, 100, 5⟩ 42 = (⟨true, 100, 5⟩, -1) ∧
    _set_l2value origins_example ⟨true, 100, 12⟩ 42 = (⟨true, 42, 11⟩, 0) ∧
    _set_l2value origins_example ⟨false, 0, 5⟩ 42 = (⟨true, 42, 11⟩, 0) := by
  decide

end LinkConfig

namespace Dlep

/-! ## Acknowledgements for a destination the session does not hold -/

/-- Both acknowledgement handlers of the radio use the result of
`dlep_session_get_local_neighbor` as an entry: for an acknowledgement with
status OKAY whose MAC has no entry in the session, the lookup yields NULL
and neither handler has a result. -/
theorem radio_acks_use_lookup_result (env : dlep_env) (rx : dlep_signal_values)
    (session : dlep_session) (mac : netaddr) (hmac : rx.mac_tlv = some mac)
    (hstatus : rx.status = .DLEP_STATUS_OKAY)
    (hnone : dlep_session_get_local_neighbor session mac = none) :
    _radio_process_destination_up_ack env rx session = none ∧
    _radio_process_destination_down_ack rx session = none := by
  unfold _radio_process_destination_up_ack _radio_process_destination_down_ack
  simp only [hmac, hstatus, hnone, if_true]
  exact ⟨trivial, trivial⟩

/-- C34, failing input: a DESTINATION_UP_ACK and a DESTINATION_DOWN_ACK with
status OKAY for aa:bb:cc:dd:ee:ff on a session without local neighbors, and
for 02:00:00:00:00:01 on a session whose only local neighbor is
aa:bb:cc:dd:ee:ff. The lookup finds no entry and the handlers read
`local->state` through the NULL pointer: they return nothing, where an
acknowledgement with another status returns 0 and leaves the session as it
is. -/
theorem radio_ack_for_unknown_mac_reads_null :
    dlep_session_get_local_neighbor (session_fresh true false) mac_aabb = none ∧
    _radio_process_destination_up_ack env_ok (rx_ack_aabb .DLEP_STATUS_OKAY)
      (session_fresh true false) = none ∧
    _radio_process_destination_down_ack (rx_ack_aabb .DLEP_STATUS_OKAY)
      (session_fresh true false) = none ∧
    dlep_session_get_local_neighbor session_up_sent mac_0201 = none ∧
    _radio_process_destination_up_ack env_ok ⟨none, some mac_0201, .DLEP_STATUS_OKAY, none⟩
      session_up_sent = none ∧
    _radio_process_destination_down_ack ⟨none, some mac_0201, .DLEP_STATUS_OKAY, none⟩
      session_down_sent = none ∧
    _radio_process_destination_up_ack env_ok (rx_ack_aabb .DLEP_STATUS_REQUEST_DENIED)
      (session_fresh true false) = some (session_fresh true false, 0) ∧
    _radio_process_destination_down_ack (rx_ack_aabb .DLEP_STATUS_REQUEST_DENIED)
      (session_fresh true false) = some (session_fresh true false, 0) := by
  decide

/-! ## Errors of the peer initialisation -/

/-- The extension update of `_radio_process_peer_init` leaves
`next_restrict_signal` as it is. -/
theorem peer_init_extensions_next_restrict (env : dlep_env) (rx : dlep_signal_values)
    (session : dlep_session) :
    (_radio_peer_init_extensions env rx session).1.next_restrict_signal =
      session.next_restrict_signal := by
  unfold _radio_peer_init_extensions dlep_session_update_extensions
  split <;> split <;> rfl

/-- C35: whenever `_radio_process_peer_init` returns an error, the session
is in initialization mode, the return value is -1, the trace of the session
grew by nothing or by the one PEER_INITIALIZATION_ACK that could not be
written (so no DESTINATION_UP has been generated), the destination table is
the one before the call and `next_restrict_signal` is unchanged; and when
`restrict_signal` is not PEER_INITIALIZATION the handler returns 0 and the
session is the one before the call. -/
theorem radio_process_peer_init_error (env : dlep_env) (l2db : List oonf_layer2_net)
    (rx : dlep_signal_values) (session : dlep_session) :
    ((_radio_process_peer_init env l2db rx session).2 ≠ 0 →
      (_radio_process_peer_init env l2db rx session).2 = -1 ∧
      session.restrict_signal = .DLEP_PEER_INITIALIZATION ∧
      (∃ added : List dlep_generated,
        (_radio_process_peer_init env l2db rx session).1.generated =
          session.generated ++ added ∧
        (added = [] ∨ added = [⟨.DLEP_PEER_INITIALIZATION_ACK, none, false⟩]) ∧
        ∀ g ∈ added, g.signal ≠ .DLEP_DESTINATION_UP) ∧
      (_radio_process_peer_init env l2db rx session).1.local_neighbor_tree =
        session.local_neighbor_tree ∧
      (_radio_process_peer_init env l2db rx session).1.next_restrict_signal =
        session.next_restrict_signal) ∧
    (session.restrict_signal ≠ .DLEP_PEER_INITIALIZATION →
      _radio_process_peer_init env l2db rx session = (session, 0)) := by
  unfold _radio_process_peer_init
  by_cases hr : session.restrict_signal ≠ .DLEP_PEER_INITIALIZATION
  · rw [if_pos hr]
    exact ⟨fun h => absurd rfl h, fun _ => rfl⟩
  · rw [if_neg hr]
    refine ⟨?_, fun h => absurd h hr⟩
    have hrestrict : session.restrict_signal = .DLEP_PEER_INITIALIZATION :=
      Classical.not_not.mp hr
    cases hhb : rx.heartbeat_tlv with
    | none =>
      intro _
      exact ⟨rfl, hrestrict, ⟨[], (List.append_nil _).symm, Or.inl rfl,
        fun g hg => absurd hg (List.not_mem_nil g)⟩, rfl, rfl⟩
    | some interval =>
      simp only []
      generalize hmid : dlep_base_proto_start_remote_heartbeat
        (dlep_base_proto_start_local_heartbeat
          { session with remote_heartbeat_interval := interval }) = mid
      have hm1 : mid.generated = session.generated := by rw [← hmid]; rfl
      have hm2 : mid.local_neighbor_tree = session.local_neighbor_tree := by
        rw [← hmid]; rfl
      have hm3 : mid.next_restrict_signal = session.next_restrict_signal := by
        rw [← hmid]; rfl
      have hu1 := (peer_init_extensions_frame env rx mid mid).2.1
      have hu2 := peer_init_extensions_tree env rx mid
      have hu3 := peer_init_extensions_next_restrict env rx mid
      generalize _radio_peer_init_extensions env rx mid = upd at hu1 hu2 hu3 ⊢
      by_cases hupd : upd.2 ≠ 0
      · rw [if_pos hupd]
        intro _
        exact ⟨rfl, hrestrict, ⟨[], by rw [List.append_nil]; exact hu1.trans hm1,
          Or.inl rfl, fun g hg => absurd hg (List.not_mem_nil g)⟩, hu2.trans hm2,
          hu3.trans hm3⟩
      · rw [if_neg hupd]
        unfold dlep_session_generate_signal
        by_cases hok : env.write_ok upd.1.generated .DLEP_PEER_INITIALIZATION_ACK none = true
        · simp only [hok, if_true]
          rw [if_neg (by decide)]
          intro h
          exact absurd rfl h
        · have hfalse : env.write_ok upd.1.generated .DLEP_PEER_INITIALIZATION_ACK none =
              false := by
            cases hw : env.write_ok upd.1.generated .DLEP_PEER_INITIALIZATION_ACK none
            · rfl
            · exact absurd hw hok
          simp only [hfalse]
          rw [if_pos (by decide)]
          intro _
          refine ⟨rfl, hrestrict, ⟨[⟨.DLEP_PEER_INITIALIZATION_ACK, none, false⟩], ?_,
            Or.inr rfl, ?_⟩, hu2.trans hm2, hu3.trans hm3⟩
          · show upd.1.generated ++ _ = _
            rw [hu1, hm1]
          · intro g hg
            rw [List.mem_singleton] at hg
            rw [hg]
            decide

/-- C35, witness: a session on wlan0 waiting for the PEER_INITIALIZATION
whose acknowledgement cannot be written: the handler returns -1, the trace
holds the one abandoned PEER_INITIALIZATION_ACK, no local neighbor exists
and `next_restrict_signal` is as before, although the layer-2 database
holds a neighbor to announce. -/
theorem radio_process_peer_init_error_witness :
    (_radio_process_peer_init env_no_write l2db_wlan0 rx_peer_init
        (session_waiting true true)).2 = -1 ∧
    (session_waiting true true).restrict_signal = .DLEP_PEER_INITIALIZATION ∧
    (∃ added : List dlep_generated,
      (_radio_process_peer_init env_no_write l2db_wlan0 rx_peer_init
          (session_waiting true true)).1.generated =
        (session_waiting true true).generated ++ added ∧
      (added = [] ∨ added = [⟨.DLEP_PEER_INITIALIZATION_ACK, none, false⟩]) ∧
      ∀ g ∈ added, g.signal ≠ .DLEP_DESTINATION_UP) ∧
    (_radio_process_peer_init env_no_write l2db_wlan0 rx_peer_init
        (session_waiting true true)).1.local_neighbor_tree =
      (session_waiting true true).local_neighbor_tree ∧
    (_radio_process_peer_init env_no_write l2db_wlan0 rx_peer_init
        (session_waiting true true)).1.next_restrict_signal =
      (session_waiting true true).next_restrict_signal :=
  (radio_process_peer_init_error env_no_write l2db_wlan0 rx_peer_init
    (session_waiting true true)).1 (by decide)

/-- The three errors of `_radio_process_peer_init` on a session waiting for
the PEER_INITIALIZATION, and the signal ignored in steady state: no heartbeat
TLV, an extension update that fails, an acknowledgement that cannot be
written; the session in steady state is returned as it is with 0. -/
theorem radio_process_peer_init_error_cases :
    _radio_process_peer_init env_ok l2db_wlan0 ⟨none, none, .DLEP_STATUS_OKAY, none⟩
        (session_waiting true true) = (session_waiting true true, -1) ∧
    (_radio_process_peer_init env_no_extensions l2db_wlan0 rx_peer_init
        (session_waiting true true)).2 = -1 ∧
    (_radio_process_peer_init env_no_extensions l2db_wlan0 rx_peer_init
        (session_waiting true true)).1.generated = [] ∧
    (_radio_process_peer_init env_no_write l2db_wlan0 rx_peer_init
        (session_waiting true true)).2 = -1 ∧
    (_radio_process_peer_init env_no_write l2db_wlan0 rx_peer_init
        (session_waiting true true)).1.generated =
      [⟨.DLEP_PEER_INITIALIZATION_ACK, none, false⟩] ∧
    _radio_process_peer_init env_ok l2db_wlan0 rx_peer_init (session_fresh true true) =
      (session_fresh true true, 0) := by
  decide

/-! ## The port of the remote socket of a PEER_OFFER -/

/-- For a PEER_OFFER without connection point TLVs, whenever the handler
creates the TCP session, the remote socket holds the sender's address and
the value of a `port` that no statement has assigned. -/
theorem peer_offer_without_conpoints (renv : dlep_router_env) (session : dlep_session)
    (args : dlep_router_add_session_args)
    (h : (_router_process_peer_offer renv ⟨[], []⟩ session).1 = some args) :
    args.remote =
      some ⟨session.remote_socket.addr, none, session.l2_listener_index⟩ := by
  unfold _router_process_peer_offer at h
  by_cases hr : session.restrict_signal ≠ .DLEP_PEER_OFFER
  · rw [if_pos hr] at h
    exact absurd h (by simp)
  · rw [if_neg hr] at h
    simp only [_router_process_peer_offer_ipv6, _router_process_peer_offer_ipv4] at h
    cases hp : renv.os_interface_get_prefix_from_dst session.remote_socket.addr with
    | none =>
      rw [hp] at h
      exact absurd h (by simp)
    | some result =>
      rw [hp] at h
      simp only [netaddr_socket_init] at h
      cases hif : renv.dlep_router_get_by_layer2_if session.l2_listener_name with
      | none =>
        rw [hif] at h
        exact absurd h (by simp)
      | some same =>
        rw [hif] at h
        cases same with
        | false => exact absurd h (by simp)
        | true =>
          simp only [Option.some.injEq] at h
          rw [← h]

/-- C36, failing input: a router in discovery on wlan0 receives from
10.0.0.1 a PEER_OFFER without connection point TLV. The handler creates the
TCP session towards the sender's address, with the port taken from the
variable `port`, which no statement has assigned. With a PEER_OFFER whose
only connection point (fe80::1, port 9999) asks for TLS, the session is
created towards 10.0.0.1 with the port 9999 of the connection point that was
not selected. -/
theorem router_peer_offer_reads_unassigned_port :
    _router_process_peer_offer renv_wlan0 ⟨[], []⟩ session_discovery =
      (some ⟨⟨⟨.AF_INET, 0x0a000000, 24⟩, some 0, 3⟩, some ⟨addr_10_0_0_1, none, 3⟩⟩, 0) ∧
    _router_process_peer_offer renv_wlan0 ⟨[some ⟨addr_fe80_1, 9999, true⟩], []⟩
        session_discovery =
      (some ⟨⟨⟨.AF_INET, 0x0a000000, 24⟩, some 0, 3⟩, some ⟨addr_10_0_0_1, some 9999, 3⟩⟩,
        0) := by
  decide

end Dlep

namespace Remotecontrol

/-! ## The `config` command -/

/-- C32, failing input: the command `config revert` of the help text
("config revert": Revert to active configuration). `_cb_handle_config`
compares the parameter with `commit`, `rollback`, `format`, `get`, `load`,
`remove`, `save`, `schema` and `set`; `revert` is none of them, so the
handler calls nothing, `olsr_cfg_rollback` included, and returns
TELNET_RESULT_UNKNOWN_COMMAND, whatever the state of the configuration. The
word the handler knows is `rollback`. -/
theorem config_revert_is_unknown_command (validate : Int) (out : List String) :
    _cb_handle_config validate out (some "revert".toList) =
      ⟨out, [], .TELNET_RESULT_UNKNOWN_COMMAND⟩ ∧
    _cb_handle_config validate out (some "rollback".toList) =
      ⟨out, [.olsr_cfg_rollback], .TELNET_RESULT_ACTIVE⟩ := by
  have h1 : str_hasnextword "revert".toList "commit" = none := by decide
  have h2 : str_hasnextword "revert".toList "rollback" = none := by decide
  have h3 : str_hasnextword "revert".toList "format" = none := by decide
  have h4 : str_hasnextword "revert".toList "get" = none := by decide
  have h5 : str_hasnextword "revert".toList "load" = none := by decide
  have h6 : str_hasnextword "revert".toList "remove" = none := by decide
  have h7 : str_hasnextword "revert".toList "save" = none := by decide
  have h8 : str_hasnextword "revert".toList "schema" = none := by decide
  have h9 : str_hasnextword "revert".toList "set" = none := by decide
  have k1 : str_hasnextword "rollback".toList "commit" = none := by decide
  have k2 : str_hasnextword "rollback".toList "rollback" = some [] := by decide
  constructor
  · show _cb_handle_config validate out (some ('r' :: "evert".toList)) = _
    unfold _cb_handle_config
    have e : 'r' :: "evert".toList = "revert".toList := rfl
    simp only [e, h1, h2, h3, h4, h5, h6, h7, h8, h9, Option.isSome_none]
    rfl
  · show _cb_handle_config validate out (some ('r' :: "ollback".toList)) = _
    unfold _cb_handle_config
    have e : 'r' :: "ollback".toList = "rollback".toList := rfl
    simp only [e, k1, k2, Option.isSome_none, Option.isSome_some]
    rfl

/-! ## Words of a command -/

/-- The route command on whole commands: with `metric 7` the call of
`os_routing_set` gets the table 7 and the metric -1, for `route set` and for
`route remove`; a `table` option behind the `metric` option overwrites the
value as it overwrites the one of an earlier `table` option; without an
interface `os_routing_set` is not called. -/
theorem route_metric_commands :
    Option.map route_result.call
        (_cb_handle_route route_env_example []
          (some "set metric 7 gw 10.0.0.1 dst 10.0.0.0/24 interface eth0".toList)) =
      some (some ⟨none, ⟨.AF_INET, 8, 32⟩, ⟨.AF_INET, 11, 32⟩, 7, 2, -1, 4, true, true⟩) ∧
    Option.map route_result.call
        (_cb_handle_route route_env_example []
          (some "remove gw 10.0.0.1 dst 10.0.0.0/24 interface eth0 metric 7".toList)) =
      some (some ⟨none, ⟨.AF_INET, 8, 32⟩, ⟨.AF_INET, 11, 32⟩, 7, 2, -1, 4, false, true⟩) ∧
    Option.map route_result.call
        (_cb_handle_route route_env_example []
          (some "set metric 7 table 3 gw 10.0.0.1 dst 10.0.0.0/24 interface eth0".toList)) =
      some (some ⟨none, ⟨.AF_INET, 8, 32⟩, ⟨.AF_INET, 11, 32⟩, 3, 2, -1, 4, true, true⟩) ∧
    _cb_handle_route route_env_example []
        (some "set metric 7 gw 10.0.0.1 dst 10.0.0.0/24".toList) =
      some ⟨["Missing or unknown interface"], none, .TELNET_RESULT_ACTIVE⟩ := by
  decide

end Remotecontrol

namespace Nhdp

/-! ## Bits of the MPR TLV -/

theorem and_seven (x : Nat) : x &&& 7 = x % 8 :=
  Nat.and_pow_two_sub_one_eq_mod x 3

theorem shiftRight_three (x : Nat) : x >>> 3 = x / 8 :=
  Nat.shiftRight_eq_div_pow x 3

theorem and_bit_ne_zero (x b : Nat) : decide (x &&& 1 <<< b ≠ 0) = x.testBit b := by
  rw [Nat.one_shiftLeft, Nat.and_two_pow]
  have hpos : 0 < 2 ^ b := Nat.two_pow_pos b
  cases h : x.testBit b
  · simp
  · have : true.toNat * 2 ^ b ≠ 0 := by
      show 1 * 2 ^ b ≠ 0
      omega
    simp [this]

theorem testBit_or_bit (x a b : Nat) :
    (x ||| 1 <<< a).testBit b = (x.testBit b || decide (a = b)) := by
  rw [Nat.testBit_or, Nat.one_shiftLeft, Nat.testBit_two_pow]

/-- Two bit numbers with the same byte and the same bit in the byte are
equal. -/
theorem bit_position (p q : Nat) : (p >>> 3 = q >>> 3 ∧ p &&& 7 = q &&& 7) ↔ p = q := by
  rw [shiftRight_three, shiftRight_three, and_seven, and_seven]
  omega

theorem mpr_bit_set (value : List Nat) (byte v p : Nat) (h : byte < value.length) :
    mpr_bit (value.set byte v) p =
      if p >>> 3 = byte then v.testBit (p &&& 7) else mpr_bit value p := by
  unfold mpr_bit
  rw [List.getD_eq_getElem?_getD, List.getElem?_set]
  by_cases hb : byte = p >>> 3
  · rw [if_pos hb, if_pos h, if_pos hb.symm]
    rfl
  · rw [if_neg hb, if_neg (fun e => hb e.symm), List.getD_eq_getElem?_getD]

theorem mpr_bit_take (value : List Nat) (len p : Nat) (h : p >>> 3 < len) :
    mpr_bit (value.take len) p = mpr_bit value p := by
  unfold mpr_bit
  rw [List.getD_eq_getElem?_getD, List.getD_eq_getElem?_getD, List.getElem?_take_of_lt h]

theorem mpr_bit_zeroes (n p : Nat) : mpr_bit (List.replicate n 0) p = false := by
  unfold mpr_bit
  rw [List.getD_eq_getElem?_getD, List.getElem?_replicate]
  split
  · exact Nat.zero_testBit _
  · exact Nat.zero_testBit _

/-! ## The value of the MPR TLV -/

/-- The loop of the encoder over domains whose bytes lie inside the buffer:
the size of the buffer and the writes outside of it are as before, the
length covers the byte of every domain, and the bit with the number `p` is
set iff it was set before or `p` is `index + 1` for a domain in which the
neighbor is MPR. -/
theorem encode_mpr_loop_bits (neigh : nhdp_neighbor) (l : List nhdp_domain) :
    ∀ (buf : tlv_buffer) (len : Nat),
      (∀ d ∈ l, (d.index + 1) >>> 3 < buf.bytes.length) →
      (encode_mpr_loop neigh l buf len).1.bytes.length = buf.bytes.length ∧
      (encode_mpr_loop neigh l buf len).1.outside = buf.outside ∧
      len ≤ (encode_mpr_loop neigh l buf len).2 ∧
      (∀ d ∈ l, (d.index + 1) >>> 3 < (encode_mpr_loop neigh l buf len).2) ∧
      (len ≤ buf.bytes.length →
        (encode_mpr_loop neigh l buf len).2 ≤ buf.bytes.length) ∧
      ∀ p, mpr_bit (encode_mpr_loop neigh l buf len).1.bytes p =
        (mpr_bit buf.bytes p ||
          l.any (fun d => decide (d.index + 1 = p) &&
            (nhdp_domain_get_neighbordata d neigh).neigh_is_mpr)) := by
  induction l with
  | nil =>
    intro buf len _
    refine ⟨rfl, rfl, Nat.le_refl _, fun d hd => absurd hd (List.not_mem_nil d),
      fun h => h, fun p => ?_⟩
    simp [encode_mpr_loop]
  | cons d rest ih =>
    intro buf len h
    have hd : (d.index + 1) >>> 3 < buf.bytes.length := h d (List.mem_cons_self _ _)
    have hrest : ∀ e ∈ rest, (e.index + 1) >>> 3 < buf.bytes.length :=
      fun e he => h e (List.mem_cons_of_mem _ he)
    unfold encode_mpr_loop
    simp only []
    rw [if_neg (Nat.not_le.mpr hd)]
    generalize hlen2 :
      (if (d.index + 1) >>> 3 + 1 > len then (d.index + 1) >>> 3 + 1 else len) = len2
    have hl1 : len ≤ len2 := by
      rw [← hlen2]
      split <;> omega
    have hl2 : (d.index + 1) >>> 3 < len2 := by
      rw [← hlen2]
      split <;> omega
    have hl3 : len ≤ buf.bytes.length → len2 ≤ buf.bytes.length := by
      intro hle
      rw [← hlen2]
      split <;> omega
    by_cases hm : (nhdp_domain_get_neighbordata d neigh).neigh_is_mpr = true
    · rw [if_pos hm]
      have hw : buffer_write buf ((d.index + 1) >>> 3)
          (buf.bytes.getD ((d.index + 1) >>> 3) 0 ||| 1 <<< ((d.index + 1) &&& 7)) =
          ⟨buf.bytes.set ((d.index + 1) >>> 3)
            (buf.bytes.getD ((d.index + 1) >>> 3) 0 ||| 1 <<< ((d.index + 1) &&& 7)),
            buf.outside⟩ := by
        unfold buffer_write
        rw [if_pos hd]
      rw [hw]
      obtain ⟨i1, i2, i3, i4, i5, i6⟩ := ih
        ⟨buf.bytes.set ((d.index + 1) >>> 3)
          (buf.bytes.getD ((d.index + 1) >>> 3) 0 ||| 1 <<< ((d.index + 1) &&& 7)),
          buf.outside⟩ len2
        (fun e he => by
          show _ < (buf.bytes.set _ _).length
          rw [List.length_set]
          exact hrest e he)
      have hsize : (buf.bytes.set ((d.index + 1) >>> 3)
          (buf.bytes.getD ((d.index + 1) >>> 3) 0 ||| 1 <<< ((d.index + 1) &&& 7))).length =
          buf.bytes.length := List.length_set _ _ _
      refine ⟨i1.trans hsize, i2, Nat.le_trans hl1 i3, ?_, ?_, ?_⟩
      · intro e he
        rcases List.mem_cons.mp he with rfl | he
        · exact Nat.lt_of_lt_of_le hl2 i3
        · exact i4 e he
      · intro hle
        have := i5 (by
          show len2 ≤ (buf.bytes.set _ _).length
          rw [hsize]
          exact hl3 hle)
        exact Nat.le_trans this (Nat.le_of_eq hsize)
      · intro p
        rw [i6 p]
        show (mpr_bit (buf.bytes.set _ _) p || _) = _
        rw [mpr_bit_set _ _ _ _ hd, List.any_cons, hm, Bool.and_true]
        by_cases hp : d.index + 1 = p
        · have hbyte : p >>> 3 = (d.index + 1) >>> 3 := by rw [hp]
          rw [if_pos hbyte, testBit_or_bit, hp]
          simp
        · by_cases hbyte : p >>> 3 = (d.index + 1) >>> 3
          · have hbit : ¬ ((d.index + 1) &&& 7 = p &&& 7) := fun hb =>
              hp ((bit_position _ _).mp ⟨hbyte.symm, hb⟩)
            rw [if_pos hbyte, testBit_or_bit]
            simp only [hbit, hp, decide_False, Bool.or_false, Bool.false_or]
            unfold mpr_bit
            rw [hbyte]
          · rw [if_neg hbyte]
            simp only [hp, decide_False, Bool.false_or]
    · rw [if_neg hm]
      obtain ⟨i1, i2, i3, i4, i5, i6⟩ := ih buf len2 hrest
      refine ⟨i1, i2, Nat.le_trans hl1 i3, ?_, fun hle => i5 (hl3 hle), ?_⟩
      · intro e he
        rcases List.mem_cons.mp he with rfl | he
        · exact Nat.lt_of_lt_of_le hl2 i3
        · exact i4 e he
      · intro p
        rw [i6 p, List.any_cons]
        have hfalse : (nhdp_domain_get_neighbordata d neigh).neigh_is_mpr = false := by
          cases hv : (nhdp_domain_get_neighbordata d neigh).neigh_is_mpr
          · rfl
          · exact absurd hv hm
        rw [hfalse, Bool.and_false, Bool.false_or]

/-- The buffer of the encoder before the loop over the domains: only the
flooding flag, bit 0, is set, if the neighbor is flooding MPR. -/
theorem encode_mpr_flooding_bit (c : nhdp_constants) (tlvvalue : tlv_buffer)
    (neigh : nhdp_neighbor) (hflood : c.RFC7181_MPR_FLOODING = 1)
    (hsize : 0 < tlvvalue.bytes.length) :
    (if neigh.neigh_is_flooding_mpr then
        buffer_write (buffer_memset tlvvalue 0) 0
          (((buffer_memset tlvvalue 0).bytes.getD 0 0 ||| c.RFC7181_MPR_FLOODING) % 256)
      else buffer_memset tlvvalue 0).bytes.length = tlvvalue.bytes.length ∧
    (if neigh.neigh_is_flooding_mpr then
        buffer_write (buffer_memset tlvvalue 0) 0
          (((buffer_memset tlvvalue 0).bytes.getD 0 0 ||| c.RFC7181_MPR_FLOODING) % 256)
      else buffer_memset tlvvalue 0).outside = tlvvalue.outside ∧
    ∀ p, mpr_bit
        (if neigh.neigh_is_flooding_mpr then
          buffer_write (buffer_memset tlvvalue 0) 0
            (((buffer_memset tlvvalue 0).bytes.getD 0 0 ||| c.RFC7181_MPR_FLOODING) % 256)
        else buffer_memset tlvvalue 0).bytes p =
      (decide (p = 0) && neigh.neigh_is_flooding_mpr) := by
  have hmem : (buffer_memset tlvvalue 0).bytes = List.replicate tlvvalue.bytes.length 0 := rfl
  have hlen : (buffer_memset tlvvalue 0).bytes.length = tlvvalue.bytes.length := by
    rw [hmem, List.length_replicate]
  cases hf : neigh.neigh_is_flooding_mpr
  · simp only [Bool.false_eq_true, if_false, Bool.and_false]
    exact ⟨hlen, rfl, fun p => by rw [hmem]; exact mpr_bit_zeroes _ _⟩
  · simp only [if_true, Bool.and_true]
    have hzero : (buffer_memset tlvvalue 0).bytes.getD 0 0 = 0 := by
      rw [hmem, List.getD_eq_getElem?_getD, List.getElem?_replicate, if_pos hsize]
      rfl
    rw [hzero, hflood]
    have hw : buffer_write (buffer_memset tlvvalue 0) 0 ((0 ||| 1) % 256) =
        ⟨(buffer_memset tlvvalue 0).bytes.set 0 1, (buffer_memset tlvvalue 0).outside⟩ := by
      unfold buffer_write
      rw [if_pos (by rw [hlen]; exact hsize)]
      rfl
    rw [hw]
    refine ⟨by show (List.set _ _ _).length = _; rw [List.length_set, hlen], rfl, ?_⟩
    intro p
    show mpr_bit ((buffer_memset tlvvalue 0).bytes.set 0 1) p = _
    rw [mpr_bit_set _ _ _ _ (by rw [hlen]; exact hsize), hmem]
    by_cases hp : p = 0
    · rw [hp, if_pos (by decide)]
      decide
    · simp only [hp, decide_False]
      split
      · rename_i hbyte
        have h1 : (1 : Nat) = 2 ^ 0 := rfl
        rw [h1, Nat.testBit_two_pow]
        have : ¬ (0 = p &&& 7) := by
          intro hb
          apply hp
          exact ((bit_position p 0).mp ⟨hbyte, hb.symm⟩)
        simp [this]
      · exact mpr_bit_zeroes _ _

/-! ## The list of MPR types -/

/-- The loop that writes the MPR types, for a buffer with room for every
domain: the count grows by the number of domains, the entry of the k-th
domain is its `ext`, and nothing is written outside of the buffer. -/
theorem mprtypes_loop_types (l : List nhdp_domain) :
    ∀ (buf : tlv_buffer) (count : Nat), count + l.length ≤ buf.bytes.length →
      (mprtypes_loop l buf count).2 = count + l.length ∧
      (mprtypes_loop l buf count).1.bytes.length = buf.bytes.length ∧
      (mprtypes_loop l buf count).1.outside = buf.outside ∧
      (∀ (i : Nat) (d : nhdp_domain), l[i]? = some d →
        (mprtypes_loop l buf count).1.bytes.getD (count + i) 0 = d.ext) ∧
      ∀ j, j < count →
        (mprtypes_loop l buf count).1.bytes.getD j 0 = buf.bytes.getD j 0 := by
  induction l with
  | nil =>
    intro buf count _
    refine ⟨rfl, rfl, rfl, ?_, fun j _ => rfl⟩
    intro i d hd
    simp at hd
  | cons x rest ih =>
    intro buf count h
    have hlen : count + (rest.length + 1) ≤ buf.bytes.length := h
    have hcount : count < buf.bytes.length := by omega
    have hw : buffer_write buf count x.ext = ⟨buf.bytes.set count x.ext, buf.outside⟩ := by
      unfold buffer_write
      rw [if_pos hcount]
    have hsize : (buf.bytes.set count x.ext).length = buf.bytes.length :=
      List.length_set _ _ _
    have hself : (buf.bytes.set count x.ext).getD count 0 = x.ext := by
      rw [List.getD_eq_getElem?_getD, List.getElem?_set, if_pos rfl, if_pos hcount]
      rfl
    have hother : ∀ j, j ≠ count →
        (buf.bytes.set count x.ext).getD j 0 = buf.bytes.getD j 0 := by
      intro j hj
      rw [List.getD_eq_getElem?_getD, List.getElem?_set, if_neg (fun e => hj e.symm),
        List.getD_eq_getElem?_getD]
    unfold mprtypes_loop
    simp only []
    rw [hw]
    by_cases hbreak : count + 1 ≥ (buf.bytes.set count x.ext).length
    · rw [if_pos hbreak]
      have hrest : rest = [] := by
        cases rest with
        | nil => rfl
        | cons y ys =>
          rw [hsize] at hbreak
          simp only [List.length_cons] at hlen
          omega
      subst hrest
      refine ⟨rfl, hsize, rfl, ?_, fun j hj => hother j (Nat.ne_of_lt hj)⟩
      intro i d hd
      cases i with
      | zero =>
        simp only [List.getElem?_cons_zero, Option.some.injEq] at hd
        rw [← hd]
        exact hself
      | succ i => simp at hd
    · rw [if_neg hbreak]
      obtain ⟨i1, i2, i3, i4, i5⟩ := ih ⟨buf.bytes.set count x.ext, buf.outside⟩ (count + 1)
        (by
          show count + 1 + rest.length ≤ (buf.bytes.set count x.ext).length
          rw [hsize]
          omega)
      refine ⟨?_, i2.trans hsize, i3, ?_, ?_⟩
      · rw [i1]
        simp only [List.length_cons]
        omega
      · intro i d hd
        cases i with
        | zero =>
          simp only [List.getElem?_cons_zero, Option.some.injEq] at hd
          rw [← hd]
          exact (i5 count (Nat.lt_succ_self _)).trans hself
        | succ i =>
          simp only [List.getElem?_cons_succ] at hd
          have := i4 i d hd
          rw [show count + (i + 1) = count + 1 + i by omega]
          exact this
      · intro j hj
        exact (i5 j (Nat.lt_succ_of_lt hj)).trans (hother j (Nat.ne_of_lt hj))

/-! ## Domains by position -/

/-- In a list of domains whose indices count from 0, the k-th domain has
the index k. -/
theorem domain_index_of_position (l : List nhdp_domain)
    (hidx : l.map (fun d => d.index) = List.range l.length) (k : Nat) (d : nhdp_domain)
    (hd : l[k]? = some d) : d.index = k := by
  have hk : k < l.length := by
    rcases Nat.lt_or_ge k l.length with h | h
    · exact h
    · rw [List.getElem?_eq_none h] at hd
      cases hd
  have h1 : (l.map (fun d => d.index))[k]? = some d.index := by
    rw [List.getElem?_map, hd]
    rfl
  rw [hidx, List.getElem?_range hk] at h1
  exact (Option.some.inj h1).symm

/-- In a list of domains with pairwise different `ext`, the search for the
`ext` of a domain of the list finds that domain. -/
theorem domain_find_of_position (l : List nhdp_domain)
    (hnodup : (l.map (fun d => d.ext)).Nodup) :
    ∀ (k : Nat) (d : nhdp_domain), l[k]? = some d →
      l.find? (fun x => x.ext = d.ext) = some d := by
  induction l with
  | nil =>
    intro k d hd
    simp at hd
  | cons x rest ih =>
    intro k d hd
    rw [List.map_cons, List.nodup_cons] at hnodup
    cases k with
    | zero =>
      simp only [List.getElem?_cons_zero, Option.some.injEq] at hd
      rw [← hd]
      exact List.find?_cons_of_pos _ (by simp)
    | succ k =>
      simp only [List.getElem?_cons_succ] at hd
      have hmem : d ∈ rest := List.getElem?_mem hd
      have hne : x.ext ≠ d.ext := by
        intro he
        apply hnodup.1
        rw [he]
        exact List.mem_map.mpr ⟨d, hmem, rfl⟩
      rw [List.find?_cons_of_neg _ (by simpa using hne)]
      exact ih hnodup.2 k d hd

/-! ## Processing the MPR TLV -/

theorem process_mpr_reset_length (l : List nhdp_domain) :
    ∀ neigh : nhdp_neighbor,
      (l.foldl process_mpr_reset neigh)._domaindata.length = neigh._domaindata.length := by
  induction l with
  | nil =>
    intro neigh
    rfl
  | cons d rest ih =>
    intro neigh
    rw [List.foldl_cons, ih]
    show (neigh._domaindata.set _ _).length = _
    exact List.length_set _ _ _

/-- The loop "set routing MPR flags" over the first `m` MPR types, when the
MPR types are the `ext` of the domains in list order: the flag
`local_is_mpr` of the k-th entry of the neighbor is the bit `k + 1` of the
TLV value for `k < m` and as before for the others. -/
theorem process_mpr_steps (state : nhdp_domain_state) (mprtypes : List Nat)
    (tlv : rfc5444_reader_tlvblock_entry)
    (hidx : ∀ (k : Nat) (d : nhdp_domain), state._domain_list[k]? = some d → d.index = k)
    (hfind : ∀ (k : Nat) (d : nhdp_domain), state._domain_list[k]? = some d →
      nhdp_domain_get_by_ext state d.ext = some d)
    (htypes : ∀ (k : Nat) (d : nhdp_domain), state._domain_list[k]? = some d →
      mprtypes.getD k 0 = d.ext)
    (hbyte : ∀ k, k < state._domain_list.length → (k + 1) >>> 3 < tlv.length)
    (neigh : nhdp_neighbor) (hsize : state._domain_list.length ≤ neigh._domaindata.length) :
    ∀ m, m ≤ state._domain_list.length →
      ((List.range m).foldl (process_mpr_step state mprtypes tlv) neigh)._domaindata.length =
        neigh._domaindata.length ∧
      ((List.range m).foldl (process_mpr_step state mprtypes tlv)
          neigh).local_is_flooding_mpr = neigh.local_is_flooding_mpr ∧
      ∀ k, (((List.range m).foldl (process_mpr_step state mprtypes tlv)
            neigh)._domaindata.getD k ⟨0, 0, none, 0, 0, false, false⟩).local_is_mpr =
        if k < m then mpr_bit tlv.single_value (k + 1)
        else (neigh._domaindata.getD k ⟨0, 0, none, 0, 0, false, false⟩).local_is_mpr := by
  intro m
  induction m with
  | zero =>
    intro _
    refine ⟨rfl, rfl, fun k => ?_⟩
    rw [if_neg (Nat.not_lt_zero k)]
    rfl
  | succ m ih =>
    intro hm
    obtain ⟨i1, i2, i3⟩ := ih (Nat.le_of_succ_le hm)
    have hmlt : m < state._domain_list.length := hm
    rw [List.range_succ, List.foldl_append]
    generalize (List.range m).foldl (process_mpr_step state mprtypes tlv) neigh = mid
      at i1 i2 i3 ⊢
    have hget : state._domain_list[m]? = some (state._domain_list.get ⟨m, hmlt⟩) :=
      List.getElem?_eq_getElem hmlt
    generalize state._domain_list.get ⟨m, hmlt⟩ = d at hget
    have hdi : d.index = m := hidx m d hget
    have hstep : process_mpr_step state mprtypes tlv mid m =
        nhdp_domain_set_neighbordata d mid
          (neighbordata_set_local_is_mpr (nhdp_domain_get_neighbordata d mid)
            (mpr_bit tlv.single_value (m + 1))) := by
      unfold process_mpr_step
      rw [htypes m d hget, hfind m d hget]
      simp only []
      rw [if_neg (Nat.not_le.mpr (hbyte m hmlt)), and_bit_ne_zero]
      rfl
    show
      (List.foldl (process_mpr_step state mprtypes tlv) mid [m])._domaindata.length = _ ∧
      (List.foldl (process_mpr_step state mprtypes tlv) mid [m]).local_is_flooding_mpr = _ ∧
      _
    rw [List.foldl_cons, List.foldl_nil, hstep]
    have hmid : m < mid._domaindata.length := by
      rw [i1]
      omega
    refine ⟨?_, i2, ?_⟩
    · show (mid._domaindata.set _ _).length = _
      rw [List.length_set, i1]
    · intro k
      show ((mid._domaindata.set d.index _).getD k _).local_is_mpr = _
      rw [hdi, List.getD_eq_getElem?_getD, List.getElem?_set]
      by_cases hk : m = k
      · rw [if_pos hk, if_pos hmid, ← hk, if_pos (Nat.lt_succ_self m)]
        rfl
      · rw [if_neg hk, ← List.getD_eq_getElem?_getD, i3 k]
        by_cases hlt : k < m
        · rw [if_pos hlt, if_pos (Nat.lt_succ_of_lt hlt)]
        · rw [if_neg hlt, if_neg (by omega)]

/-! ## Round trip of the MPR TLV -/

/-- The neighbor data of a domain depends on the index of the domain
only. -/
theorem neighbordata_of_index (d e : nhdp_domain) (neigh : nhdp_neighbor)
    (h : d.index = e.index) :
    nhdp_domain_get_neighbordata d neigh = nhdp_domain_get_neighbordata e neigh := by
  unfold nhdp_domain_get_neighbordata
  rw [h]

/-- C37: for a state reached by registering domains, with at least one
domain, the flooding flag of the MPR TLV being bit 0, and buffers large
enough (one byte of TLV value for every eight bit numbers up to the number of
domains, one MPR type for every domain), let `v` with the length `len` be
what `nhdp_domain_encode_mpr_tlvvalue` produces for the neighbor `A` and `t`
with the count `count` what `nhdp_domain_encode_mprtypes_tlvvalue` produces.
Then `count` is the number of domains, `len` is positive and within the
buffer, neither encoder writes outside of its buffer, and
`nhdp_domain_process_mpr_tlv` with `t`, `count`, a neighbor `B` (whose array
has an entry for every domain index) and the TLV of the first `len` bytes of
`v` sets `local_is_flooding_mpr` of `B` to `neigh_is_flooding_mpr` of `A`
and, for every domain, `local_is_mpr` of `B` in that domain to
`neigh_is_mpr` of `A` in that domain. -/
theorem mpr_tlv_roundtrip (c : nhdp_constants) (state : nhdp_domain_state)
    (A B : nhdp_neighbor) (tlvvalue mprtypes v t : tlv_buffer) (len count : Nat)
    (hreach : nhdp_domain_reachable c state) (hn : state._domain_list ≠ [])
    (hflood : c.RFC7181_MPR_FLOODING = 1)
    (hvalue : state._domain_list.length / 8 < tlvvalue.bytes.length)
    (htypes : state._domain_list.length ≤ mprtypes.bytes.length)
    (hB : c.NHDP_MAXIMUM_DOMAINS ≤ B._domaindata.length)
    (hv : nhdp_domain_encode_mpr_tlvvalue c state tlvvalue A = (v, len))
    (ht : nhdp_domain_encode_mprtypes_tlvvalue state mprtypes = (t, count)) :
    count = state._domain_list.length ∧ 0 < len ∧ len ≤ tlvvalue.bytes.length ∧
    v.outside = tlvvalue.outside ∧ t.outside = mprtypes.outside ∧
    (nhdp_domain_process_mpr_tlv c state t.bytes count B
        (some ⟨v.bytes.take len, len⟩)).local_is_flooding_mpr = A.neigh_is_flooding_mpr ∧
    ∀ d ∈ state._domain_list,
      (nhdp_domain_get_neighbordata d
        (nhdp_domain_process_mpr_tlv c state t.bytes count B
          (some ⟨v.bytes.take len, len⟩))).local_is_mpr =
      (nhdp_domain_get_neighbordata d A).neigh_is_mpr := by
  obtain ⟨hcnt, hle, hidx, hnodup⟩ := domain_reachable_list_ok c state hreach
  have hnpos : 0 < state._domain_list.length := List.length_pos.mpr hn
  have hsize0 : 0 < tlvvalue.bytes.length := by omega
  -- positions and indices
  have hpos : ∀ d ∈ state._domain_list, ∃ k, state._domain_list[k]? = some d :=
    fun d hd => List.getElem?_of_mem hd
  have hindex : ∀ (k : Nat) (d : nhdp_domain), state._domain_list[k]? = some d →
      d.index = k := domain_index_of_position _ hidx
  have hklt : ∀ (k : Nat) (d : nhdp_domain), state._domain_list[k]? = some d →
      k < state._domain_list.length := by
    intro k d hd
    rcases Nat.lt_or_ge k state._domain_list.length with h | h
    · exact h
    · rw [List.getElem?_eq_none h] at hd
      cases hd
  -- the encoder of the value
  obtain ⟨f1, f2, f3⟩ := encode_mpr_flooding_bit c tlvvalue A hflood hsize0
  unfold nhdp_domain_encode_mpr_tlvvalue at hv
  simp only [] at hv
  generalize (if A.neigh_is_flooding_mpr = true then
      buffer_write (buffer_memset tlvvalue 0) 0
        (((buffer_memset tlvvalue 0).bytes.getD 0 0 ||| c.RFC7181_MPR_FLOODING) % 256)
    else buffer_memset tlvvalue 0) = buf0 at hv f1 f2 f3
  have hall : ∀ d ∈ state._domain_list, (d.index + 1) >>> 3 < buf0.bytes.length := by
    intro d hd
    obtain ⟨k, hk⟩ := hpos d hd
    have h1 := hindex k d hk
    have h2 := hklt k d hk
    rw [f1, shiftRight_three]
    omega
  obtain ⟨e1, e2, e3, e4, e5, e6⟩ :=
    encode_mpr_loop_bits A state._domain_list buf0 0 hall
  rw [hv] at e1 e2 e3 e4 e5 e6
  simp only [] at e1 e2 e3 e4 e5 e6
  have hlenpos : 0 < len := by
    cases hds : state._domain_list with
    | nil => exact absurd hds hn
    | cons d rest =>
      have := e4 d (by rw [hds]; exact List.mem_cons_self _ _)
      omega
  -- the encoder of the types
  unfold nhdp_domain_encode_mprtypes_tlvvalue at ht
  obtain ⟨m1, m2, m3, m4, _⟩ := mprtypes_loop_types state._domain_list mprtypes 0
    (by omega)
  rw [ht] at m1 m2 m3 m4
  simp only [] at m1 m2 m3 m4
  have hcount : count = state._domain_list.length := by omega
  -- the bits of the value
  have hbit : ∀ (k : Nat) (d : nhdp_domain), state._domain_list[k]? = some d →
      mpr_bit (v.bytes.take len) (k + 1) = (nhdp_domain_get_neighbordata d A).neigh_is_mpr := by
    intro k d hd
    have hdi := hindex k d hd
    have hdm : d ∈ state._domain_list := List.getElem?_mem hd
    have hb := e4 d hdm
    rw [hdi] at hb
    rw [mpr_bit_take _ _ _ hb, e6, f3]
    have hz : decide (k + 1 = 0) = false := by simp
    rw [hz, Bool.false_and, Bool.false_or]
    cases hm : (nhdp_domain_get_neighbordata d A).neigh_is_mpr
    · rw [List.any_eq_false]
      intro x hx
      by_cases hxi : x.index + 1 = k + 1
      · have : x.index = d.index := by omega
        rw [neighbordata_of_index x d A this, hm]
        simp
      · simp [hxi]
    · rw [List.any_eq_true]
      exact ⟨d, hdm, by rw [hm, hdi]; simp⟩
  have hfloodbit : mpr_bit (v.bytes.take len) 0 = A.neigh_is_flooding_mpr := by
    rw [mpr_bit_take _ _ _ (by exact hlenpos), e6, f3]
    have hany : state._domain_list.any (fun d => decide (d.index + 1 = 0) &&
        (nhdp_domain_get_neighbordata d A).neigh_is_mpr) = false := by
      rw [List.any_eq_false]
      intro x _
      simp
    rw [hany]
    simp
  -- the reader
  have hsizeB : state._domain_list.length ≤ B._domaindata.length := by omega
  have hsteps := process_mpr_steps state t.bytes ⟨v.bytes.take len, len⟩ hindex
    (fun k d hd => by
      unfold nhdp_domain_get_by_ext
      exact domain_find_of_position _ hnodup k d hd)
    (fun k d hd => by
      have := m4 k d hd
      rw [Nat.zero_add] at this
      exact this)
    (fun k hk => by
      have hget : state._domain_list[k]? = some (state._domain_list.get ⟨k, hk⟩) :=
        List.getElem?_eq_getElem hk
      have hdi := hindex k _ hget
      have := e4 _ (List.getElem?_mem hget)
      rw [hdi] at this
      exact this)
  refine ⟨hcount, hlenpos, ?_, e2.trans f2, m3, ?_, ?_⟩
  · have := e5 (Nat.zero_le _)
    rw [f1] at this
    exact this
  · unfold nhdp_domain_process_mpr_tlv
    simp only []
    generalize hB2 : List.foldl process_mpr_reset { B with local_is_flooding_mpr := false }
      state._domain_list = B2
    have hB2len : B2._domaindata.length = B._domaindata.length := by
      rw [← hB2, process_mpr_reset_length]
    obtain ⟨_, s2, _⟩ := hsteps
      { B2 with
        local_is_flooding_mpr :=
          decide ((v.bytes.take len).getD 0 0 &&& c.RFC7181_MPR_FLOODING ≠ 0) }
      (by
        show state._domain_list.length ≤ B2._domaindata.length
        omega)
      count (Nat.le_of_eq hcount)
    rw [s2]
    show decide ((v.bytes.take len).getD 0 0 &&& c.RFC7181_MPR_FLOODING ≠ 0) = _
    rw [hflood, ← hfloodbit]
    exact and_bit_ne_zero _ 0
  · intro d hd
    obtain ⟨k, hk⟩ := hpos d hd
    have hdi := hindex k d hk
    have hkn := hklt k d hk
    unfold nhdp_domain_process_mpr_tlv
    simp only []
    generalize hB2 : List.foldl process_mpr_reset { B with local_is_flooding_mpr := false }
      state._domain_list = B2
    have hB2len : B2._domaindata.length = B._domaindata.length := by
      rw [← hB2, process_mpr_reset_length]
    obtain ⟨_, _, s3⟩ := hsteps
      { B2 with
        local_is_flooding_mpr :=
          decide ((v.bytes.take len).getD 0 0 &&& c.RFC7181_MPR_FLOODING ≠ 0) }
      (by
        show state._domain_list.length ≤ B2._domaindata.length
        omega)
      count (Nat.le_of_eq hcount)
    have := s3 k
    rw [if_pos (by omega)] at this
    have hentry : ∀ n : nhdp_neighbor, nhdp_domain_get_neighbordata d n =
        n._domaindata.getD k ⟨0, 0, none, 0, 0, false, false⟩ := by
      intro n
      unfold nhdp_domain_get_neighbordata
      rw [hdi]
    conv_lhs => rw [hentry]
    rw [this]
    exact hbit k d hk

/-- C37, witness: the domains 0, 5 and 9, a neighbor that is flooding MPR
and MPR in the second and third domain, a buffer of two bytes for the value
and one of four bytes for the types. The value is the one byte 13 (bits 0, 2
and 3), the types are 0, 5, 9. -/
theorem mpr_tlv_roundtrip_witness :
    nhdp_domain_reachable constants_example state_registered ∧
    state_registered._domain_list ≠ [] ∧
    constants_example.RFC7181_MPR_FLOODING = 1 ∧
    state_registered._domain_list.length / 8 < (⟨[9, 9], []⟩ : tlv_buffer).bytes.length ∧
    state_registered._domain_list.length ≤
      (⟨[255, 255, 255, 255], []⟩ : tlv_buffer).bytes.length ∧
    constants_example.NHDP_MAXIMUM_DOMAINS ≤ (neighbor_example 0)._domaindata.length ∧
    nhdp_domain_encode_mpr_tlvvalue constants_example state_registered ⟨[9, 9], []⟩
      neighbor_selected = (⟨[13, 0], []⟩, 1) ∧
    nhdp_domain_encode_mprtypes_tlvvalue state_registered ⟨[255, 255, 255, 255], []⟩ =
      (⟨[0, 5, 9, 255], []⟩, 3) ∧
    (3 = state_registered._domain_list.length ∧ 0 < 1 ∧
      1 ≤ (⟨[9, 9], []⟩ : tlv_buffer).bytes.length ∧
      (⟨[13, 0], []⟩ : tlv_buffer).outside = (⟨[9, 9], []⟩ : tlv_buffer).outside ∧
      (⟨[0, 5, 9, 255], []⟩ : tlv_buffer).outside =
        (⟨[255, 255, 255, 255], []⟩ : tlv_buffer).outside ∧
      (nhdp_domain_process_mpr_tlv constants_example state_registered
          (⟨[0, 5, 9, 255], []⟩ : tlv_buffer).bytes 3 (neighbor_example 0)
          (some ⟨(⟨[13, 0], []⟩ : tlv_buffer).bytes.take 1, 1⟩)).local_is_flooding_mpr =
        neighbor_selected.neigh_is_flooding_mpr ∧
      ∀ d ∈ state_registered._domain_list,
        (nhdp_domain_get_neighbordata d
          (nhdp_domain_process_mpr_tlv constants_example state_registered
            (⟨[0, 5, 9, 255], []⟩ : tlv_buffer).bytes 3 (neighbor_example 0)
            (some ⟨(⟨[13, 0], []⟩ : tlv_buffer).bytes.take 1, 1⟩))).local_is_mpr =
        (nhdp_domain_get_neighbordata d neighbor_selected).neigh_is_mpr) :=
  have hreach : nhdp_domain_reachable constants_example state_registered :=
    nhdp_domain_reachable.add _ true 9
      (nhdp_domain_reachable.add _ true 5
        (nhdp_domain_reachable.add _ true 0 nhdp_domain_reachable.init))
  ⟨hreach, by decide, rfl, by decide, by decide, by decide, by decide, by decide,
    mpr_tlv_roundtrip constants_example state_registered neighbor_selected
      (neighbor_example 0) ⟨[9, 9], []⟩ ⟨[255, 255, 255, 255], []⟩ ⟨[13, 0], []⟩
      ⟨[0, 5, 9, 255], []⟩ 1 3 hreach (by decide) rfl (by decide) (by decide) (by decide)
      (by decide) (by decide)⟩

/-- The round trip on the example, evaluated: the neighbor after the reader
has the flags of the neighbor the TLV was written for, also where it had
other flags before (`local_is_mpr` in the first domain). Without a domain
the encoder returns the length 0, and the reader would read the first byte
of a TLV without bytes. -/
theorem mpr_tlv_roundtrip_example :
    (nhdp_domain_process_mpr_tlv constants_example state_registered [0, 5, 9, 255] 3
        (neighbor_example 0) (some ⟨[13], 1⟩)).local_is_flooding_mpr = true ∧
    (nhdp_domain_process_mpr_tlv constants_example state_registered [0, 5, 9, 255] 3
        (neighbor_example 0) (some ⟨[13], 1⟩))._domaindata.map
          (fun data => data.local_is_mpr) = [false, true, true, false] ∧
    nhdp_domain_encode_mpr_tlvvalue constants_example (nhdp_domain_init nhdp_domain_static)
      ⟨[9, 9], []⟩ neighbor_selected = (⟨[1, 0], []⟩, 0) := by
  decide

end Nhdp
